import Mathlib

/-!
# LTPNG: a shallow embedding of the PNG encoder and its verification

The encoder object of `LTPNG.h` becomes the record `LTPNG`; every member
function of `LTPNG.cpp` becomes a function on that record.  Machine integers
are natural numbers reduced modulo `2^32` (`unsigned int`) or `256`
(`unsigned char`) at the places where the source converts.  A C++ `throw`
becomes `Except.error`, carrying the message and the object as it is at the
moment of the throw (bytes already handed to the stream stay there).
-/

/-- Conversion of an integer to `unsigned int` (32 bits, wrap-around). -/
def u32 (x : Int) : Nat := (x % 4294967296).toNat

/-- Conversion of an integer to `unsigned char` (8 bits, wrap-around). -/
def u8 (x : Int) : Nat := (x % 256).toNat

/-- Conversion of an integer to `short` (16 bits, two's complement). -/
def s16 (x : Int) : Int := (x + 32768) % 65536 - 32768

/-- The encoder object: the data members of `class LTPNG`.  `image` is the
sequence of bytes handed so far to the output stream behind the `image`
pointer; the three data pointers and `crc_buf` are the contents of the blocks
they point to. -/
structure LTPNG where
  file_size : Nat
  max_val : Nat
  bit_depth : Nat
  colour_type : Nat
  filter_type : Nat
  width : Nat
  height : Nat
  image : List Nat
  uncompressed_data : List Nat
  filtered_data : List Nat
  compressed_data : List Nat
  crc_buf : List Nat
  crc_index : Nat
  crc_allocated : Nat
  crc_table : List Nat
  crc_table_exists : Nat
  deriving DecidableEq, Repr

/-- A thrown C++ exception: the string literal thrown and the encoder object at
the moment of the throw. -/
structure Thrown where
  what : String
  self : LTPNG
  deriving DecidableEq, Repr

/-- The zlib entry points used by `LTPNG::def`, with their return codes.
`deflate input avail_out` gives the return code of `deflate(&strm, Z_FINISH)`
and the bytes it produced (`strm.total_out` of them); zlib never stores more
than `avail_out` bytes. -/
structure ZLib where
  deflateInit : Int → Int
  deflate : List Nat → Nat → Int × List Nat
  deflateEnd : Int

def Z_OK : Int := 0
def Z_STREAM_END : Int := 1
def Z_STREAM_ERROR : Int := -2
def Z_DATA_ERROR : Int := -3
def Z_MEM_ERROR : Int := -4
def Z_BUF_ERROR : Int := -5
def Z_VERSION_ERROR : Int := -6
def Z_DEFAULT_COMPRESSION : Int := -1

namespace LTPNG

/-- The constructor `LTPNG::LTPNG(depth, type, filter)`.  Members the
constructor leaves unset (dimensions, pointers, the CRC table) start empty or
zero; the table has its declared 256 slots. -/
def new (depth type filter : Nat) : LTPNG :=
  { file_size := 0
    max_val := if depth = 16 then 65535 else 255
    bit_depth := depth
    colour_type := type
    filter_type := filter
    width := 0
    height := 0
    image := []
    uncompressed_data := []
    filtered_data := []
    compressed_data := []
    crc_buf := []
    crc_index := 0
    crc_allocated := 0
    crc_table := List.replicate 256 0
    crc_table_exists := 0 }

/-- One pass of the inner loop of `make_crc_table`. -/
def crc_bit_step (c : Nat) : Nat :=
  if c &&& 1 ≠ 0 then 0xEDB88320 ^^^ (c >>> 1) else c >>> 1

/-- `LTPNG::make_crc_table`: for `n` in `0..255`, eight passes of the inner
loop starting from `n`, stored in `crc_table[n]`. -/
def make_crc_table (self : LTPNG) : LTPNG :=
  { self with
    crc_table := (List.range 256).foldl
      (fun tbl n => tbl.set n ((List.range 8).foldl (fun c _ => crc_bit_step c) n))
      self.crc_table
    crc_table_exists := 1 }

/-- `LTPNG::crc_init`. -/
def crc_init (self : LTPNG) : LTPNG :=
  { self with crc_index := 0 }

/-- `LTPNG::allocate_crc_size`: a fresh block of `len` bytes (modelled
zero-filled) replaces `crc_buf`. -/
def allocate_crc_size (self : LTPNG) (bit_depth colour_type : Nat) : LTPNG :=
  let pixel_size : Nat := if colour_type = 2 then 3 else 4
  let len : Nat := u32 ((self.width : Int) * self.height * pixel_size * (3 - 16 / (bit_depth : Int))
    + self.height + 4 + 1)
  { self with crc_buf := List.replicate len 0, crc_allocated := len }

/-- `LTPNG::update_crc`: builds the table when it does not exist yet, then
folds the bytes `buf[0..len-1]` into the running value. -/
def update_crc (self : LTPNG) (crc : Nat) (buf : List Nat) (len : Nat) : Nat × LTPNG :=
  let self := if self.crc_table_exists = 0 then self.make_crc_table else self
  let c := (List.range len).foldl
    (fun c n => self.crc_table.getD ((c ^^^ buf.getD n 0) &&& 0xff) 0 ^^^ (c >>> 8)) crc
  (c, self)

/-- `LTPNG::get_crc`: the CRC of `crc_buf[0..crc_index-1]`. -/
def get_crc (self : LTPNG) : Nat × LTPNG :=
  let r := self.update_crc 0xffffffff self.crc_buf self.crc_index
  ((r.1 ^^^ 0xffffffff) % 4294967296, r.2)

/-- `LTPNG::fwrite_8`: the argument is converted to `unsigned char`. -/
def fwrite_8 (self : LTPNG) (val : Nat) : Except Thrown LTPNG :=
  if self.crc_index = self.crc_allocated then
    .error ⟨"LTPNG: CRC buffer out of room, was allocate_crc_size() called?", self⟩
  else
    .ok { self with
      image := self.image ++ [val % 256]
      crc_buf := self.crc_buf.set self.crc_index (val % 256)
      crc_index := (self.crc_index + 1) % 4294967296 }

/-- `LTPNG::get_byte_from_two_bytes`. -/
def get_byte_from_two_bytes (self : LTPNG) (val byte_num : Nat) : Except Thrown Nat :=
  if byte_num < 1 ∨ byte_num > 2 then
    .error ⟨"LTPNG: invalid byte_num passed to get_byte_from_two_bytes()", self⟩
  else
    let shift : Nat := u8 (8 - ((byte_num : Int) - 1) * 8)
    .ok ((val >>> shift) &&& 0xFF)

/-- `LTPNG::get_byte_from_four_bytes`. -/
def get_byte_from_four_bytes (self : LTPNG) (val byte_num : Nat) : Except Thrown Nat :=
  if byte_num < 1 ∨ byte_num > 4 then
    .error ⟨"LTPNG: invalid byte_num passed to get_byte_from_four_bytes()", self⟩
  else
    let shift : Nat := u8 (24 - ((byte_num : Int) - 1) * 8)
    .ok ((val >>> shift) &&& 0xFF)

/-- `LTPNG::fwrite_16`. -/
def fwrite_16 (self : LTPNG) (val : Nat) : Except Thrown LTPNG := do
  let b1 ← self.get_byte_from_two_bytes val 1
  let self ← self.fwrite_8 b1
  let b2 ← self.get_byte_from_two_bytes val 2
  self.fwrite_8 b2

/-- `LTPNG::fwrite_32`. -/
def fwrite_32 (self : LTPNG) (val : Nat) : Except Thrown LTPNG := do
  let b1 ← self.get_byte_from_four_bytes val 1
  let self ← self.fwrite_8 b1
  let b2 ← self.get_byte_from_four_bytes val 2
  let self ← self.fwrite_8 b2
  let b3 ← self.get_byte_from_four_bytes val 3
  let self ← self.fwrite_8 b3
  let b4 ← self.get_byte_from_four_bytes val 4
  self.fwrite_8 b4

/-- `LTPNG::write_png_signature`. -/
def write_png_signature (self : LTPNG) : Except Thrown LTPNG := do
  let self ← self.fwrite_8 137
  let self ← self.fwrite_8 80
  let self ← self.fwrite_8 78
  let self ← self.fwrite_8 71
  let self ← self.fwrite_8 13
  let self ← self.fwrite_8 10
  let self ← self.fwrite_8 26
  self.fwrite_8 10

/-- The statements of `write_header_chunk` that precede the evaluation of
`get_crc()` in its last line. -/
def write_header_chunk_body (self : LTPNG) (bit_depth colour_type interlace_method : Nat) :
    Except Thrown LTPNG := do
  let self ← self.fwrite_32 13
  let self := self.crc_init
  let self ← self.fwrite_8 73
  let self ← self.fwrite_8 72
  let self ← self.fwrite_8 68
  let self ← self.fwrite_8 82
  let self ← self.fwrite_32 self.width
  let self ← self.fwrite_32 self.height
  let self ← self.fwrite_8 bit_depth
  let self ← self.fwrite_8 colour_type
  let self ← self.fwrite_8 0
  let self ← self.fwrite_8 0
  self.fwrite_8 interlace_method

/-- `LTPNG::write_header_chunk`: the body above, then `fwrite_32(get_crc())`. -/
def write_header_chunk (self : LTPNG) (bit_depth colour_type interlace_method : Nat) :
    Except Thrown LTPNG := do
  let self ← self.write_header_chunk_body bit_depth colour_type interlace_method
  let r := self.get_crc
  r.2.fwrite_32 r.1

/-- The statements of `write_data_chunk` that precede the evaluation of
`get_crc()` in its last line; the `for` loop runs over `i = 0 .. len-1`. -/
def write_data_chunk_body (self : LTPNG) (compressed_data : List Nat) (len : Nat) :
    Except Thrown LTPNG := do
  let self ← self.fwrite_32 len
  let self := self.crc_init
  let self ← self.fwrite_8 73
  let self ← self.fwrite_8 68
  let self ← self.fwrite_8 65
  let self ← self.fwrite_8 84
  (List.range len).foldlM (fun (self : LTPNG) i => self.fwrite_8 (compressed_data.getD i 0)) self

/-- `LTPNG::write_data_chunk`: the body above, then `fwrite_32(get_crc())`. -/
def write_data_chunk (self : LTPNG) (compressed_data : List Nat) (len : Nat) :
    Except Thrown LTPNG := do
  let self ← self.write_data_chunk_body compressed_data len
  let r := self.get_crc
  r.2.fwrite_32 r.1

/-- The statements of `write_end_chunk` that precede the evaluation of
`get_crc()` in its last line. -/
def write_end_chunk_body (self : LTPNG) : Except Thrown LTPNG := do
  let self ← self.fwrite_32 0
  let self := self.crc_init
  let self ← self.fwrite_8 73
  let self ← self.fwrite_8 69
  let self ← self.fwrite_8 78
  self.fwrite_8 68

/-- `LTPNG::write_end_chunk`: the body above, then `fwrite_32(get_crc())`. -/
def write_end_chunk (self : LTPNG) : Except Thrown LTPNG := do
  let self ← self.write_end_chunk_body
  let r := self.get_crc
  r.2.fwrite_32 r.1

/-- `LTPNG::def`: one `deflateInit`, one `deflate(.., Z_FINISH)` over the whole
input with `avail_out = out_len`, one `deflateEnd`; every return code other
than the expected one is thrown.  The bytes zlib produced are stored in the
output block as `unsigned char`s, at most `out_len` of them.  The result is the
new content of the output block and the value stored in `written`
(`strm.total_out`). -/
def def_ (self : LTPNG) (z : ZLib) (inp : List Nat) (in_len : Nat) (out : List Nat)
    (out_len : Nat) (level : Int) : Except Thrown (List Nat × Nat) :=
  let ret := z.deflateInit level
  if ret ≠ Z_OK then
    if ret = Z_MEM_ERROR then
      .error ⟨"LTPNG::def(): not enough memory for deflateInit()", self⟩
    else if ret = Z_STREAM_ERROR then
      .error ⟨"LTPNG::def(): deflateInit() received invalid compression level", self⟩
    else if ret = Z_VERSION_ERROR then
      .error ⟨"LTPNG::def(): zlib library version is incompatible with the version of deflateInit() assumed", self⟩
    else
      .error ⟨"LTPNG::def(): unknown error on deflateInit()", self⟩
  else
    let r := z.deflate (inp.take in_len) out_len
    let ret := r.1
    let produced := (r.2.take out_len).map (· % 256)
    if ret ≠ Z_STREAM_END then
      if ret = Z_OK then
        .error ⟨"LTPNG::def(): deflate() output length insufficient to hold uncompressed data", self⟩
      else if ret = Z_STREAM_ERROR then
        .error ⟨"LTPNG::def(): deflate() parameters are invalid", self⟩
      else if ret = Z_BUF_ERROR then
        .error ⟨"LTPNG::def(): no progress possible, output length insufficient for deflate()", self⟩
      else
        .error ⟨"LTPNG::def(): unknown error on deflate()", self⟩
    else
      let written := produced.length
      let ret := z.deflateEnd
      if ret ≠ Z_OK then
        if ret = Z_DATA_ERROR then
          .error ⟨"LTPNG::def(): deflateEnd() called prematurely, some data lost", self⟩
        else if ret = Z_STREAM_ERROR then
          .error ⟨"LTPNG::def(): deflateEnd() stream state was inconsistent", self⟩
        else
          .error ⟨"LTPNG::def(): unknown error on deflateEnd()", self⟩
      else
        .ok (produced ++ out.drop produced.length, written)

/-- `LTPNG::paeth_predictor(short a, short b, short c)`; the result is
converted to `unsigned char`. -/
def paeth_predictor (a b c : Int) : Nat :=
  let p : Int := s16 (a + b - c)
  let pa : Int := s16 (Int.natAbs (p - a))
  let pb : Int := s16 (Int.natAbs (p - b))
  let pc : Int := s16 (Int.natAbs (p - c))
  if pa ≤ pb ∧ pa ≤ pc then u8 a
  else if pb ≤ pc then u8 b
  else u8 c

/-- `LTPNG::filter_byte`.  The four index expressions are evaluated in
`unsigned int`; the returned difference is converted to `unsigned char`.  A
read outside the block yields 0.  For filter type 3 the source goes through
`floor` on the integer quotient `(a + b)/2`, which leaves its value unchanged;
the difference `x - floor(..)` is then a `double`, and its conversion to
`unsigned char` is taken modulo 256 like the integer conversions of the other
branches (what the usual x86 compilers produce; for a negative difference the
language itself leaves this conversion open). -/
def filter_byte (self : LTPNG) (row col offset : Nat) : Except Thrown Nat :=
  let pixel_size : Nat := if self.colour_type = 2 then 3 else 4
  let pixel_size : Nat := if self.bit_depth = 16 then (pixel_size * 2) % 256 else pixel_size
  let base : Int := (row : Int) * ((self.width : Int) * pixel_size + 1) + (col : Int) * pixel_size
  let x : Nat := self.uncompressed_data.getD (u32 (base + offset)) 0
  let a : Nat := if col > 0 then
    self.uncompressed_data.getD (u32 (base - pixel_size + offset)) 0 else 0
  let b : Nat := if row > 0 then
    self.uncompressed_data.getD (u32 (base - (self.width : Int) * pixel_size + offset - 1)) 0 else 0
  let c : Nat := if col > 0 ∧ row > 0 then
    self.uncompressed_data.getD
      (u32 (base - pixel_size - (self.width : Int) * pixel_size + offset - 1)) 0 else 0
  if self.filter_type = 0 then .ok x
  else if self.filter_type = 1 then .ok (u8 ((x : Int) - a))
  else if self.filter_type = 2 then .ok (u8 ((x : Int) - b))
  else if self.filter_type = 3 then .ok (u8 ((x : Int) - ((a : Int) + b) / 2))
  else if self.filter_type = 4 then .ok (u8 ((x : Int) - paeth_predictor a b c))
  else .error ⟨"LTPNG::filter_byte(): Invalid filter type.", self⟩

/-- The local counters of `create_image` while it fills the two blocks. -/
structure Build where
  self : LTPNG
  uncompressed_len : Nat
  filtered_len : Nat
  deriving DecidableEq, Repr

/-- The statement `uncompressed_data[uncompressed_len++] = v`. -/
def Build.put_uncompressed (st : Build) (v : Nat) : Build :=
  { st with
    self := { st.self with
      uncompressed_data := st.self.uncompressed_data.set st.uncompressed_len (v % 256) }
    uncompressed_len := (st.uncompressed_len + 1) % 4294967296 }

/-- The statement `filtered_data[filtered_len++] = v`. -/
def Build.put_filtered (st : Build) (v : Nat) : Build :=
  { st with
    self := { st.self with
      filtered_data := st.self.filtered_data.set st.filtered_len (v % 256) }
    filtered_len := (st.filtered_len + 1) % 4294967296 }

/-- The statement `filtered_data[filtered_len++] = filter_byte(row, col, offset)`. -/
def Build.put_filter_byte (st : Build) (row col offset : Nat) : Except Thrown Build := do
  let v ← st.self.filter_byte row col offset
  pure (st.put_filtered v)

/-- The statement
`uncompressed_data[uncompressed_len++] = get_byte_from_two_bytes(v, byte_num)`. -/
def Build.put_two_bytes (st : Build) (v byte_num : Nat) : Except Thrown Build := do
  let b ← st.self.get_byte_from_two_bytes v byte_num
  pure (st.put_uncompressed b)

/-- The 8-bit branch of the column loop body, first block: the raw RGB(A)
bytes of the pixel are stored in `uncompressed_data`. -/
def create_image_store_8 (st : Build) (red green blue alpha : List Nat) (row col : Nat) :
    Build :=
  let i : Nat := (row * st.self.width + col) % 4294967296
  let st := st.put_uncompressed (red.getD i 0)
  let st := st.put_uncompressed (green.getD i 0)
  let st := st.put_uncompressed (blue.getD i 0)
  if st.self.colour_type = 6 then st.put_uncompressed (alpha.getD i 0) else st

/-- The 8-bit branch of the column loop body, second block: the bytes just
stored are filtered into `filtered_data`. -/
def create_image_filter_8 (st : Build) (row col : Nat) : Except Thrown Build := do
  let st ← st.put_filter_byte row col 1
  let st ← st.put_filter_byte row col 2
  let st ← st.put_filter_byte row col 3
  if st.self.colour_type = 6 then st.put_filter_byte row col 4 else pure st

/-- The 8-bit branch of the column loop body of `create_image`. -/
def create_image_pixel_8 (st : Build) (red green blue alpha : List Nat) (row col : Nat) :
    Except Thrown Build :=
  create_image_filter_8 (create_image_store_8 st red green blue alpha row col) row col

/-- The 16-bit branch of the column loop body, first block: the raw RGB(A)
bytes of the pixel are stored in `uncompressed_data`, high byte first. -/
def create_image_store_16 (st : Build) (red green blue alpha : List Nat) (row col : Nat) :
    Except Thrown Build := do
  let i : Nat := (row * st.self.width + col) % 4294967296
  let st ← st.put_two_bytes (red.getD i 0) 1
  let st ← st.put_two_bytes (red.getD i 0) 2
  let st ← st.put_two_bytes (green.getD i 0) 1
  let st ← st.put_two_bytes (green.getD i 0) 2
  let st ← st.put_two_bytes (blue.getD i 0) 1
  let st ← st.put_two_bytes (blue.getD i 0) 2
  if st.self.colour_type = 6 then (do
      let st ← st.put_two_bytes (alpha.getD i 0) 1
      st.put_two_bytes (alpha.getD i 0) 2)
    else pure st

/-- The 16-bit branch of the column loop body, second block: the bytes just
stored are filtered into `filtered_data`. -/
def create_image_filter_16 (st : Build) (row col : Nat) : Except Thrown Build := do
  let st ← st.put_filter_byte row col 1
  let st ← st.put_filter_byte row col 2
  let st ← st.put_filter_byte row col 3
  let st ← st.put_filter_byte row col 4
  let st ← st.put_filter_byte row col 5
  let st ← st.put_filter_byte row col 6
  if st.self.colour_type = 6 then (do
      let st ← st.put_filter_byte row col 7
      st.put_filter_byte row col 8)
    else pure st

/-- The 16-bit branch of the column loop body of `create_image`. -/
def create_image_pixel_16 (st : Build) (red green blue alpha : List Nat) (row col : Nat) :
    Except Thrown Build := do
  let st ← create_image_store_16 st red green blue alpha row col
  create_image_filter_16 st row col

/-- The body of the column loop of `create_image`: the two `if`s on the bit
depth, one after the other. -/
def create_image_pixel (st : Build) (red green blue alpha : List Nat) (row col : Nat) :
    Except Thrown Build := do
  let st ← if st.self.bit_depth = 8 then create_image_pixel_8 st red green blue alpha row col
    else pure st
  if st.self.bit_depth = 16 then create_image_pixel_16 st red green blue alpha row col
    else pure st

/-- The body of the row loop of `create_image`: the filter byte goes to both
blocks, then the column loop runs over `col = 0 .. width-1`. -/
def create_image_row (st : Build) (red green blue alpha : List Nat) (row : Nat) :
    Except Thrown Build := do
  let st := st.put_uncompressed st.self.filter_type
  let st := st.put_filtered (st.self.uncompressed_data.getD (u32 ((st.uncompressed_len : Int) - 1)) 0)
  (List.range st.self.width).foldlM
    (fun (st : Build) col => create_image_pixel st red green blue alpha row col) st

/-- The first part of `create_image`, up to the end of the row loop: the
dimensions are recorded, the three blocks of `data_size` bytes are obtained
(modelled zero-filled) and the row loop runs over `row = 0 .. height-1`. -/
def create_image_build (self : LTPNG) (file : List Nat) (pixel_width pixel_height : Nat)
    (red green blue alpha : List Nat) : Except Thrown Build :=
  let self := { self with image := file, width := pixel_width, height := pixel_height }
  let pixel_size : Nat := if self.colour_type = 2 then 3 else 4
  let pixel_size : Nat := if self.bit_depth = 16 then (pixel_size * 2) % 256 else pixel_size
  let data_size : Nat := (self.height * ((self.width * pixel_size + 1) % 4294967296)) % 4294967296
  let self := { self with
    uncompressed_data := List.replicate data_size 0
    filtered_data := List.replicate data_size 0
    compressed_data := List.replicate data_size 0 }
  (List.range self.height).foldlM
    (fun (st : Build) row => create_image_row st red green blue alpha row)
    { self := self, uncompressed_len := 0, filtered_len := 0 }

/-- The second part of `create_image`, from the call of `def` to the end: the
compression, the CRC block, the signature and the three chunks, the release of
the three blocks and the reset of the CRC members. -/
def create_image_write (st : Build) (z : ZLib) : Except Thrown LTPNG := do
  let self := st.self
  let pixel_size : Nat := if self.colour_type = 2 then 3 else 4
  let pixel_size : Nat := if self.bit_depth = 16 then (pixel_size * 2) % 256 else pixel_size
  let data_size : Nat := (self.height * ((self.width * pixel_size + 1) % 4294967296)) % 4294967296
  let r ← self.def_ z self.filtered_data st.filtered_len self.compressed_data data_size
    Z_DEFAULT_COMPRESSION
  let compressed_len := r.2
  let self := { self with compressed_data := r.1 }
  let self := self.allocate_crc_size self.bit_depth self.colour_type
  let self ← self.write_png_signature
  let self ← self.write_header_chunk self.bit_depth self.colour_type 0
  let self ← self.write_data_chunk self.compressed_data compressed_len
  let self ← self.write_end_chunk
  pure { self with
    uncompressed_data := []
    filtered_data := []
    compressed_data := []
    file_size := compressed_len
    crc_index := 0
    crc_allocated := 0
    crc_table_exists := 0 }

/-- `LTPNG::create_image`: `file` is the content of the output stream before
the call, `z` the zlib the program is linked with. -/
def create_image (self : LTPNG) (z : ZLib) (file : List Nat) (pixel_width pixel_height : Nat)
    (red green blue alpha : List Nat) : Except Thrown LTPNG := do
  let st ← self.create_image_build file pixel_width pixel_height red green blue alpha
  create_image_write st z

end LTPNG

/-! ## Reference definitions and proof vocabulary -/

/-- The bitwise step of the reflected CRC-32 in the words of the specification:
`c odd ? 0xEDB88320 XOR (c >> 1) : c >> 1`. -/
def crc_spec_step (c : Nat) : Nat :=
  if c % 2 = 1 then 0xEDB88320 ^^^ (c >>> 1) else c >>> 1

/-- The reflected CRC-32 of a byte sequence in the words of the specification:
start from `0xFFFFFFFF`, XOR each byte into the accumulator and apply the
bitwise step eight times, then complement. -/
def crc_spec (B : List Nat) : Nat :=
  (B.foldl (fun c b => crc_spec_step^[8] (c ^^^ b)) 0xFFFFFFFF) ^^^ 0xFFFFFFFF

/-- The table `make_crc_table` computes, in closed form. -/
def crc_table_closed : List Nat := (List.range 256).map (fun n => LTPNG.crc_bit_step^[8] n)

/-- The CRC table of the object is usable: it has its 256 slots and, when it is
flagged as existing, it holds the values `make_crc_table` stores. -/
def TableOK (s : LTPNG) : Prop :=
  s.crc_table.length = 256 ∧ (s.crc_table_exists ≠ 0 → s.crc_table = crc_table_closed)

/-- The running CRC over a byte list, one table-free step per byte. -/
def crc_run (c : Nat) (B : List Nat) : Nat :=
  B.foldl (fun c b => LTPNG.crc_bit_step^[8] (c ^^^ b)) c

/-- The accumulator content `crc_buf[0 .. crc_index)`. -/
def acc (s : LTPNG) : List Nat := s.crc_buf.take s.crc_index

/-- The effect of one successful `fwrite_8`. -/
def push (s : LTPNG) (v : Nat) : LTPNG :=
  { s with
    image := s.image ++ [v % 256]
    crc_buf := s.crc_buf.set s.crc_index (v % 256)
    crc_index := (s.crc_index + 1) % 4294967296 }

/-- The effect of successful `fwrite_8` calls on a list of values, in order. -/
def emit (s : LTPNG) (l : List Nat) : LTPNG := l.foldl push s

/-- Consecutive `fwrite_8` calls on a list of values, in order. -/
def fwrite_list (s : LTPNG) (l : List Nat) : Except Thrown LTPNG := l.foldlM LTPNG.fwrite_8 s

/-- The four bytes of a 32-bit value, most significant first. -/
def be32 (v : Nat) : List Nat :=
  [(v >>> 24) &&& 0xFF, (v >>> 16) &&& 0xFF, (v >>> 8) &&& 0xFF, v &&& 0xFF]

/-- The invariant of the accumulator between two writes: the index is within
the allocation, the allocation is the size of the block and fits an
`unsigned int`, and the CRC table is usable. -/
def AccOK (s : LTPNG) : Prop :=
  s.crc_index ≤ s.crc_allocated ∧ s.crc_allocated < 4294967296 ∧
    s.crc_buf.length = s.crc_allocated ∧ TableOK s

/-- The 8-byte PNG signature. -/
def png_signature : List Nat := [137, 80, 78, 71, 13, 10, 26, 10]

/-- A chunk as a byte sequence: big-endian length of the data, type tag, data,
big-endian CRC-32 of type tag followed by data. -/
def chunk (tag data : List Nat) : List Nat :=
  be32 data.length ++ tag ++ data ++ be32 (crc_spec (tag ++ data))

/-- The 13 data bytes of the header chunk. -/
def ihdr_data (width height depth colour : Nat) : List Nat :=
  be32 width ++ be32 height ++ [depth, colour, 0, 0, 0]

/-- The state in which a chunk writer leaves the object when no write fails:
length bytes, `crc_init`, tag and data bytes, `get_crc`, CRC bytes. -/
def after_chunk (s : LTPNG) (len : Nat) (bytes : List Nat) : LTPNG :=
  let m := emit (LTPNG.crc_init (emit s (be32 len))) bytes
  emit m.get_crc.2 (be32 m.get_crc.1)

/-- The four writing steps of `create_image` in a row: signature, header chunk,
data chunk over the first `n` bytes of `compressed_data`, end chunk. -/
def write_file (s : LTPNG) (n : Nat) : Except Thrown LTPNG := do
  let self ← s.write_png_signature
  let self ← self.write_header_chunk self.bit_depth self.colour_type 0
  let self ← self.write_data_chunk self.compressed_data n
  self.write_end_chunk

/-- The tag and data bytes the header chunk writer passes to `fwrite_8`. -/
def header_bytes (s : LTPNG) : List Nat :=
  [73, 72, 68, 82] ++ be32 s.width ++ be32 s.height ++ [s.bit_depth, s.colour_type, 0, 0, 0]

/-- The tag and data bytes the data chunk writer passes to `fwrite_8`. -/
def data_bytes (s : LTPNG) (n : Nat) : List Nat :=
  [73, 68, 65, 84] ++ (List.range n).map (fun i => s.compressed_data.getD i 0)

/-- The state in which the four writing steps leave the object when no write
fails. -/
def after_file (s : LTPNG) (n : Nat) : LTPNG :=
  after_chunk (after_chunk (after_chunk (emit s png_signature) 13 (header_bytes s)) n
    (data_bytes s n)) 0 [73, 69, 78, 68]

/-- The value of the local `data_size` of `create_image`. -/
def data_size_of (s : LTPNG) : Nat :=
  let pixel_size : Nat := if s.colour_type = 2 then 3 else 4
  let pixel_size : Nat := if s.bit_depth = 16 then (pixel_size * 2) % 256 else pixel_size
  (s.height * ((s.width * pixel_size + 1) % 4294967296)) % 4294967296

/-- The bytes the compressor leaves in the output block for the filtered
stream of a finished build. -/
def compressed_of (st : LTPNG.Build) (z : ZLib) : List Nat :=
  ((z.deflate (st.self.filtered_data.take st.filtered_len) (data_size_of st.self)).2.take
    (data_size_of st.self)).map (· % 256)

/-- The object after a successful `def` and `allocate_crc_size` in
`create_image`. -/
def allocated_of (st : LTPNG.Build) (z : ZLib) : LTPNG :=
  LTPNG.allocate_crc_size
    { st.self with compressed_data := compressed_of st z ++
        st.self.compressed_data.drop (compressed_of st z).length }
    st.self.bit_depth st.self.colour_type

/-- The three zlib calls of `def` all report success on the filtered stream of
a finished build. -/
def ZSuccess (st : LTPNG.Build) (z : ZLib) : Prop :=
  z.deflateInit Z_DEFAULT_COMPRESSION = Z_OK ∧
  (z.deflate (st.self.filtered_data.take st.filtered_len) (data_size_of st.self)).1 = Z_STREAM_END ∧
  z.deflateEnd = Z_OK

/-- The last statements of `create_image`: the three blocks are released,
`file_size` is set and the CRC members are reset. -/
def finish (f : LTPNG) (n : Nat) : LTPNG :=
  { f with
    uncompressed_data := []
    filtered_data := []
    compressed_data := []
    file_size := n
    crc_index := 0
    crc_allocated := 0
    crc_table_exists := 0 }

/-- The object `create_image` returns after a finished build when the
compressor succeeds and no write fails. -/
def finished_of (st : LTPNG.Build) (z : ZLib) : LTPNG :=
  finish (after_file (allocated_of st z) (compressed_of st z).length) (compressed_of st z).length

/-- The output file of a successful encode, as the specification lays it out:
signature, header chunk, one data chunk, end chunk. -/
def png_file (width height depth colour : Nat) (D : List Nat) : List Nat :=
  png_signature ++ chunk [73, 72, 68, 82] (ihdr_data width height depth colour) ++
    chunk [73, 68, 65, 84] D ++ chunk [73, 69, 78, 68] []

/-- The object with its two scanline blocks blanked: what the build loop of
`create_image` leaves untouched. -/
def frame (s : LTPNG) : LTPNG :=
  { s with uncompressed_data := [], filtered_data := [] }

/-- Consecutive stores `uncompressed_data[uncompressed_len++] = v` for a list of
values. -/
def put_raw_list (st : LTPNG.Build) (l : List Nat) : LTPNG.Build :=
  l.foldl LTPNG.Build.put_uncompressed st

/-- Consecutive stores `filtered_data[filtered_len++] = filter_byte(row, col, o)`
for a list of offsets. -/
def put_filter_list (st : LTPNG.Build) (row col : Nat) (offs : List Nat) :
    Except Thrown LTPNG.Build :=
  offs.foldlM (fun (st : LTPNG.Build) o => st.put_filter_byte row col o) st

/-- The value of the local `pixel_size` of `filter_byte` and `create_image`. -/
def pixel_size_of (s : LTPNG) : Nat :=
  let pixel_size : Nat := if s.colour_type = 2 then 3 else 4
  if s.bit_depth = 16 then (pixel_size * 2) % 256 else pixel_size

/-- The integer `row*(width*pixel_size + 1) + col*pixel_size` the four index
expressions of `filter_byte` start from. -/
def index_base (s : LTPNG) (row col : Nat) : Int :=
  (row : Int) * ((s.width : Int) * pixel_size_of s + 1) + (col : Int) * pixel_size_of s

/-- The local `x` of `filter_byte`. -/
def raw_x (s : LTPNG) (row col offset : Nat) : Nat :=
  s.uncompressed_data.getD (u32 (index_base s row col + offset)) 0

/-- The local `a` of `filter_byte`. -/
def raw_a (s : LTPNG) (row col offset : Nat) : Nat :=
  if col > 0 then
    s.uncompressed_data.getD (u32 (index_base s row col - pixel_size_of s + offset)) 0 else 0

/-- The local `b` of `filter_byte`. -/
def raw_b (s : LTPNG) (row col offset : Nat) : Nat :=
  if row > 0 then
    s.uncompressed_data.getD
      (u32 (index_base s row col - (s.width : Int) * pixel_size_of s + offset - 1)) 0 else 0

/-- The local `c` of `filter_byte`. -/
def raw_c (s : LTPNG) (row col offset : Nat) : Nat :=
  if col > 0 ∧ row > 0 then
    s.uncompressed_data.getD
      (u32 (index_base s row col - pixel_size_of s - (s.width : Int) * pixel_size_of s
        + offset - 1)) 0 else 0

/-- The byte `filter_byte` returns for a supported filter type, from the four
locals. -/
def filter_out (filter_type x a b c : Nat) : Nat :=
  if filter_type = 0 then x
  else if filter_type = 1 then u8 ((x : Int) - a)
  else if filter_type = 2 then u8 ((x : Int) - b)
  else if filter_type = 3 then u8 ((x : Int) - ((a : Int) + b) / 2)
  else u8 ((x : Int) - LTPNG.paeth_predictor a b c)

/-- The final `if` cascade of `filter_byte`, on the four locals. -/
def filter_sel (s : LTPNG) (x a b c : Nat) : Except Thrown Nat :=
  if s.filter_type = 0 then .ok x
  else if s.filter_type = 1 then .ok (u8 ((x : Int) - a))
  else if s.filter_type = 2 then .ok (u8 ((x : Int) - b))
  else if s.filter_type = 3 then .ok (u8 ((x : Int) - ((a : Int) + b) / 2))
  else if s.filter_type = 4 then .ok (u8 ((x : Int) - LTPNG.paeth_predictor a b c))
  else .error ⟨"LTPNG::filter_byte(): Invalid filter type.", s⟩

/-- The value `filter_byte` returns for a supported filter type. -/
def fval (s : LTPNG) (row col offset : Nat) : Nat :=
  filter_out s.filter_type (raw_x s row col offset) (raw_a s row col offset)
    (raw_b s row col offset) (raw_c s row col offset)

/-- The values the column loop body stores in `uncompressed_data` for one
pixel, before their conversion to `unsigned char`. -/
def pixel_vals (s : LTPNG) (red green blue alpha : List Nat) (row col : Nat) : List Nat :=
  let i : Nat := (row * s.width + col) % 4294967296
  if s.bit_depth = 8 then
    [red.getD i 0, green.getD i 0, blue.getD i 0] ++
      (if s.colour_type = 6 then [alpha.getD i 0] else [])
  else
    [(red.getD i 0 >>> 8) &&& 0xFF, (red.getD i 0 >>> 0) &&& 0xFF,
     (green.getD i 0 >>> 8) &&& 0xFF, (green.getD i 0 >>> 0) &&& 0xFF,
     (blue.getD i 0 >>> 8) &&& 0xFF, (blue.getD i 0 >>> 0) &&& 0xFF] ++
      (if s.colour_type = 6 then
        [(alpha.getD i 0 >>> 8) &&& 0xFF, (alpha.getD i 0 >>> 0) &&& 0xFF] else [])

/-- The offsets the column loop body passes to `filter_byte` for one pixel. -/
def pixel_offsets (s : LTPNG) : List Nat :=
  if s.bit_depth = 8 then
    [1, 2, 3] ++ (if s.colour_type = 6 then [4] else [])
  else
    [1, 2, 3, 4, 5, 6] ++ (if s.colour_type = 6 then [7, 8] else [])

/-- The part of the raw scanline block written so far:
`uncompressed_data[0 .. uncompressed_len)`. -/
def rawp (st : LTPNG.Build) : List Nat := st.self.uncompressed_data.take st.uncompressed_len

/-- The part of the filtered block written so far:
`filtered_data[0 .. filtered_len)`. -/
def filp (st : LTPNG.Build) : List Nat := st.self.filtered_data.take st.filtered_len

/-- Consecutive stores `filtered_data[filtered_len++] = v` for a list of
values. -/
def put_filt_list (st : LTPNG.Build) (l : List Nat) : LTPNG.Build :=
  l.foldl LTPNG.Build.put_filtered st

/-- The state after the column loop body when `filter_byte` does not throw:
the raw bytes of the pixel are stored, then their filtered values. -/
def pixel_done (st : LTPNG.Build) (red green blue alpha : List Nat) (row col : Nat) :
    LTPNG.Build :=
  put_filt_list (put_raw_list st (pixel_vals st.self red green blue alpha row col))
    ((pixel_offsets st.self).map
      (fval (put_raw_list st (pixel_vals st.self red green blue alpha row col)).self row col))

/-- The state after the two stores that open a row: the filter type in the raw
block and its copy in the filtered block. -/
def row_start (st : LTPNG.Build) : LTPNG.Build :=
  (st.put_uncompressed st.self.filter_type).put_filtered
    ((st.put_uncompressed st.self.filter_type).self.uncompressed_data.getD
      (u32 (((st.put_uncompressed st.self.filter_type).uncompressed_len : Int) - 1)) 0)

/-- The state after the row loop body when `filter_byte` does not throw. -/
def row_done (st : LTPNG.Build) (red green blue alpha : List Nat) (row : Nat) : LTPNG.Build :=
  (List.range st.self.width).foldl
    (fun st col => pixel_done st red green blue alpha row col) (row_start st)

/-- The state `create_image` enters its row loop with: dimensions recorded,
the three blocks obtained, both counters zero. -/
def build_start (self : LTPNG) (file : List Nat) (pixel_width pixel_height : Nat) : LTPNG.Build :=
  { self := { self with
      image := file
      width := pixel_width
      height := pixel_height
      uncompressed_data := List.replicate
        (data_size_of { self with width := pixel_width, height := pixel_height }) 0
      filtered_data := List.replicate
        (data_size_of { self with width := pixel_width, height := pixel_height }) 0
      compressed_data := List.replicate
        (data_size_of { self with width := pixel_width, height := pixel_height }) 0 }
    uncompressed_len := 0
    filtered_len := 0 }

/-- The state after the row loop of `create_image` when `filter_byte` does not
throw. -/
def build_done (self : LTPNG) (file : List Nat) (pixel_width pixel_height : Nat)
    (red green blue alpha : List Nat) : LTPNG.Build :=
  (List.range pixel_height).foldl
    (fun st row => row_done st red green blue alpha row)
    (build_start self file pixel_width pixel_height)

/-- The descriptor of `s0` is supported and the build state still carries it. -/
def Supported (s0 : LTPNG) (st : LTPNG.Build) : Prop :=
  frame st.self = frame s0 ∧ (s0.bit_depth = 8 ∨ s0.bit_depth = 16) ∧ s0.filter_type ≤ 4

/-- A constructed 8-bit RGB encoder whose accumulator block is `buf`, with
`i` bytes accumulated. -/
def ready_with (buf : List Nat) (i : Nat) : LTPNG :=
  { LTPNG.new 8 2 0 with crc_buf := buf, crc_index := i, crc_allocated := buf.length }

/-- A zlib that answers every call with success and the same three bytes. -/
def zlib_const : ZLib :=
  { deflateInit := fun _ => 0
    deflate := fun _ _ => (1, [120, 156, 1])
    deflateEnd := 0 }

/-- The build state `st` continues the descriptor of `s0`, both counters are at
`n` and both blocks have `N` bytes. -/
def Built (s0 : LTPNG) (N : Nat) (st : LTPNG.Build) (n : Nat) : Prop :=
  frame st.self = frame s0 ∧ st.uncompressed_len = n ∧ st.filtered_len = n ∧
  st.self.uncompressed_data.length = N ∧ st.self.filtered_data.length = N

/-- The raw bytes of one pixel as `create_image` stores them. -/
def raw_pixel (s : LTPNG) (red green blue alpha : List Nat) (row col : Nat) : List Nat :=
  (pixel_vals s red green blue alpha row col).map (· % 256)

/-- The raw bytes of one scanline: the filter type, then the pixels. -/
def raw_row (s : LTPNG) (red green blue alpha : List Nat) (row : Nat) : List Nat :=
  (s.filter_type % 256) ::
    (List.range s.width).flatMap (fun col => raw_pixel s red green blue alpha row col)

/-- The raw scanline buffer of the first `n` rows. -/
def raw_rows (s : LTPNG) (red green blue alpha : List Nat) (n : Nat) : List Nat :=
  (List.range n).flatMap (fun row => raw_row s red green blue alpha row)

/-- The raw byte `j` of pixel `(row, col)`: the `x` of the filter formulas. -/
def nb_x (s : LTPNG) (red green blue alpha : List Nat) (row col j : Nat) : Nat :=
  (raw_pixel s red green blue alpha row col).getD j 0

/-- The raw byte `j` of the pixel to the left, 0 in the first column: the `a`
of the filter formulas. -/
def nb_a (s : LTPNG) (red green blue alpha : List Nat) (row col j : Nat) : Nat :=
  if col > 0 then (raw_pixel s red green blue alpha row (col - 1)).getD j 0 else 0

/-- The raw byte `j` of the pixel above, 0 in the first row: the `b` of the
filter formulas. -/
def nb_b (s : LTPNG) (red green blue alpha : List Nat) (row col j : Nat) : Nat :=
  if row > 0 then (raw_pixel s red green blue alpha (row - 1) col).getD j 0 else 0

/-- The raw byte `j` of the pixel above and to the left, 0 in the first row
and in the first column: the `c` of the filter formulas. -/
def nb_c (s : LTPNG) (red green blue alpha : List Nat) (row col j : Nat) : Nat :=
  if col > 0 ∧ row > 0 then (raw_pixel s red green blue alpha (row - 1) (col - 1)).getD j 0 else 0

/-- The filtered bytes of one pixel as the column loop stores them, from the
raw bytes of the pixel and of its three neighbours. -/
def fil_pixel (s : LTPNG) (red green blue alpha : List Nat) (row col : Nat) : List Nat :=
  (List.range (pixel_size_of s)).map (fun j =>
    filter_out s.filter_type (nb_x s red green blue alpha row col j)
      (nb_a s red green blue alpha row col j) (nb_b s red green blue alpha row col j)
      (nb_c s red green blue alpha row col j) % 256)

/-- The filtered bytes of one scanline: the filter type, then the pixels. -/
def fil_row (s : LTPNG) (red green blue alpha : List Nat) (row : Nat) : List Nat :=
  (s.filter_type % 256) ::
    (List.range s.width).flatMap (fun col => fil_pixel s red green blue alpha row col)

/-- The filtered stream of the first `n` rows. -/
def fil_rows (s : LTPNG) (red green blue alpha : List Nat) (n : Nat) : List Nat :=
  (List.range n).flatMap (fun row => fil_row s red green blue alpha row)

/-- The index in a scanline buffer of byte `j` of pixel `(r, c)`, for rows of
`w` pixels of `ps` bytes behind one tag byte. -/
def byte_pos (w ps r c j : Nat) : Nat := r * (w * ps + 1) + 1 + c * ps + j

/-- The left neighbour in the raw buffer `R`: the same byte of the previous
pixel of the row, 0 in the first column. -/
def left_of (R : List Nat) (w ps r c j : Nat) : Nat :=
  if c = 0 then 0 else R.getD (byte_pos w ps r (c - 1) j) 0

/-- The upper neighbour in the raw buffer `R`: the same byte of the same pixel
of the previous row, 0 in the first row. -/
def up_of (R : List Nat) (w ps r c j : Nat) : Nat :=
  if r = 0 then 0 else R.getD (byte_pos w ps (r - 1) c j) 0

/-- The upper-left neighbour in the raw buffer `R`: the same byte of the
previous pixel of the previous row, 0 in the first row and in the first
column. -/
def upleft_of (R : List Nat) (w ps r c j : Nat) : Nat :=
  if r = 0 ∨ c = 0 then 0 else R.getD (byte_pos w ps (r - 1) (c - 1) j) 0

/-- The object together with the stream it writes to. -/
structure OnStream (σ : Type) where
  self : LTPNG
  stream : σ

/-- How a call on an explicit stream ends abnormally: with a `throw` of the
class (`ltpng`, with its message), or with the exception of the stream, which
no function of the class catches (`stream`). -/
inductive Raised (σ : Type) where
  | ltpng (what : String) (st : OnStream σ)
  | stream (st : OnStream σ)

/-- A call of a function that does not write: its `throw` leaves the caller
with the stream as it is. -/
def lift_thrown {σ α : Type} (s : σ) : Except Thrown α → Except (Raised σ) α
  | .ok a => .ok a
  | .error t => .error (.ltpng t.what ⟨t.self, s⟩)

/-- `LTPNG::fwrite_8` on an explicit stream: the result of `image->write` is
not looked at; an exception of the stream leaves the function before the byte
is stored in `crc_buf`. -/
def fwrite_8_on {σ : Type} (write : σ → Nat → Except σ σ) (st : OnStream σ) (val : Nat) :
    Except (Raised σ) (OnStream σ) :=
  if st.self.crc_index = st.self.crc_allocated then
    .error (.ltpng "LTPNG: CRC buffer out of room, was allocate_crc_size() called?" st)
  else
    match write st.stream (val % 256) with
    | .error s1 => .error (.stream ⟨st.self, s1⟩)
    | .ok s1 =>
      .ok ⟨{ st.self with
        crc_buf := st.self.crc_buf.set st.self.crc_index (val % 256)
        crc_index := (st.self.crc_index + 1) % 4294967296 }, s1⟩

/-- `LTPNG::fwrite_32` on an explicit stream. -/
def fwrite_32_on {σ : Type} (write : σ → Nat → Except σ σ) (st : OnStream σ) (val : Nat) :
    Except (Raised σ) (OnStream σ) := do
  let b1 ← lift_thrown st.stream (st.self.get_byte_from_four_bytes val 1)
  let st ← fwrite_8_on write st b1
  let b2 ← lift_thrown st.stream (st.self.get_byte_from_four_bytes val 2)
  let st ← fwrite_8_on write st b2
  let b3 ← lift_thrown st.stream (st.self.get_byte_from_four_bytes val 3)
  let st ← fwrite_8_on write st b3
  let b4 ← lift_thrown st.stream (st.self.get_byte_from_four_bytes val 4)
  fwrite_8_on write st b4

/-- `LTPNG::write_png_signature` on an explicit stream. -/
def write_png_signature_on {σ : Type} (write : σ → Nat → Except σ σ) (st : OnStream σ) :
    Except (Raised σ) (OnStream σ) := do
  let st ← fwrite_8_on write st 137
  let st ← fwrite_8_on write st 80
  let st ← fwrite_8_on write st 78
  let st ← fwrite_8_on write st 71
  let st ← fwrite_8_on write st 13
  let st ← fwrite_8_on write st 10
  let st ← fwrite_8_on write st 26
  fwrite_8_on write st 10

/-- The last statement of the three chunk writers, `fwrite_32(get_crc())`, on
an explicit stream. -/
def fwrite_crc_on {σ : Type} (write : σ → Nat → Except σ σ) (st : OnStream σ) :
    Except (Raised σ) (OnStream σ) :=
  fwrite_32_on write ⟨st.self.get_crc.2, st.stream⟩ st.self.get_crc.1

/-- `LTPNG::write_header_chunk` on an explicit stream. -/
def write_header_chunk_on {σ : Type} (write : σ → Nat → Except σ σ) (st : OnStream σ)
    (bit_depth colour_type interlace_method : Nat) : Except (Raised σ) (OnStream σ) := do
  let st ← fwrite_32_on write st 13
  let st : OnStream σ := ⟨st.self.crc_init, st.stream⟩
  let st ← fwrite_8_on write st 73
  let st ← fwrite_8_on write st 72
  let st ← fwrite_8_on write st 68
  let st ← fwrite_8_on write st 82
  let st ← fwrite_32_on write st st.self.width
  let st ← fwrite_32_on write st st.self.height
  let st ← fwrite_8_on write st bit_depth
  let st ← fwrite_8_on write st colour_type
  let st ← fwrite_8_on write st 0
  let st ← fwrite_8_on write st 0
  let st ← fwrite_8_on write st interlace_method
  fwrite_crc_on write st

/-- `LTPNG::write_data_chunk` on an explicit stream. -/
def write_data_chunk_on {σ : Type} (write : σ → Nat → Except σ σ) (st : OnStream σ)
    (compressed_data : List Nat) (len : Nat) : Except (Raised σ) (OnStream σ) := do
  let st ← fwrite_32_on write st len
  let st : OnStream σ := ⟨st.self.crc_init, st.stream⟩
  let st ← fwrite_8_on write st 73
  let st ← fwrite_8_on write st 68
  let st ← fwrite_8_on write st 65
  let st ← fwrite_8_on write st 84
  let st ← (List.range len).foldlM
    (fun (st : OnStream σ) i => fwrite_8_on write st (compressed_data.getD i 0)) st
  fwrite_crc_on write st

/-- `LTPNG::write_end_chunk` on an explicit stream. -/
def write_end_chunk_on {σ : Type} (write : σ → Nat → Except σ σ) (st : OnStream σ) :
    Except (Raised σ) (OnStream σ) := do
  let st ← fwrite_32_on write st 0
  let st : OnStream σ := ⟨st.self.crc_init, st.stream⟩
  let st ← fwrite_8_on write st 73
  let st ← fwrite_8_on write st 69
  let st ← fwrite_8_on write st 78
  let st ← fwrite_8_on write st 68
  fwrite_crc_on write st

/-- The second part of `create_image` on an explicit stream. -/
def create_image_write_on {σ : Type} (write : σ → Nat → Except σ σ) (b : LTPNG.Build) (z : ZLib)
    (stream : σ) : Except (Raised σ) (OnStream σ) := do
  let self := b.self
  let pixel_size : Nat := if self.colour_type = 2 then 3 else 4
  let pixel_size : Nat := if self.bit_depth = 16 then (pixel_size * 2) % 256 else pixel_size
  let data_size : Nat := (self.height * ((self.width * pixel_size + 1) % 4294967296)) % 4294967296
  let r ← lift_thrown stream (self.def_ z self.filtered_data b.filtered_len self.compressed_data
    data_size Z_DEFAULT_COMPRESSION)
  let compressed_len := r.2
  let self := { self with compressed_data := r.1 }
  let self := self.allocate_crc_size self.bit_depth self.colour_type
  let st ← write_png_signature_on write ⟨self, stream⟩
  let st ← write_header_chunk_on write st st.self.bit_depth st.self.colour_type 0
  let st ← write_data_chunk_on write st st.self.compressed_data compressed_len
  let st ← write_end_chunk_on write st
  pure ⟨{ st.self with
    uncompressed_data := []
    filtered_data := []
    compressed_data := []
    file_size := compressed_len
    crc_index := 0
    crc_allocated := 0
    crc_table_exists := 0 }, st.stream⟩

/-- `LTPNG::create_image` on an explicit stream in state `stream`. -/
def create_image_on {σ : Type} (write : σ → Nat → Except σ σ) (self : LTPNG) (z : ZLib)
    (stream : σ) (pixel_width pixel_height : Nat) (red green blue alpha : List Nat) :
    Except (Raised σ) (OnStream σ) := do
  let b ← lift_thrown stream
    (self.create_image_build [] pixel_width pixel_height red green blue alpha)
  create_image_write_on write b z stream

/-- The state of a `std::ostream` as far as `write` reads and changes it: the
bytes its device has taken, the state bits `badbit` and `failbit`, and whether
the exception mask (`exceptions()`) holds each of them.  `eofbit` is left out:
output never sets it. -/
structure OStream where
  content : List Nat
  badbit : Bool
  failbit : Bool
  mask_bad : Bool
  mask_fail : Bool
  deriving DecidableEq, Repr

/-- `basic_ios::setstate`, that is `clear(rdstate() | bits)`: the bits are
added to the state, and `ios_base::failure` is thrown when a bit of the new
state is in the exception mask. -/
def OStream.setstate (o : OStream) (bad fail : Bool) : Except OStream OStream :=
  if ((o.badbit || bad) && o.mask_bad) || ((o.failbit || fail) && o.mask_fail) then
    .error { o with badbit := o.badbit || bad, failbit := o.failbit || fail }
  else
    .ok { o with badbit := o.badbit || bad, failbit := o.failbit || fail }

/-- `std::ostream::write` of one byte `b`, on a device that takes `b` after the
bytes `content` exactly when `device content b`.  On a stream that is not good
the sentry fails, which sets `failbit`, and nothing is written; otherwise the
byte goes to the device, and `badbit` is set when the device does not take
it. -/
def OStream.write (device : List Nat → Nat → Bool) (o : OStream) (b : Nat) :
    Except OStream OStream :=
  if o.badbit || o.failbit then o.setstate false true
  else if device o.content b then .ok { o with content := o.content ++ [b] }
  else o.setstate true false

/-- The device took every byte of `c`, one after the other, starting from the
content `c0`. -/
def accepted (device : List Nat → Nat → Bool) (c0 : List Nat) : List Nat → Bool
  | [] => true
  | b :: c => device c0 b && accepted device (c0 ++ [b]) c

/-- The object without the member `image`. -/
def unsink (s : LTPNG) : LTPNG := { s with image := [] }

/-- The run `y` of a call on an explicit stream ends like the run `x` of the
same call in the definitions above.  Both return, in objects that differ at
most in the member `image`, and `P` holds of the bytes `x` handed to its
stream and the state of the stream of `y`; or both end with a `throw` of the
class, with the same message; or `y` ends with the exception of the stream,
which is only possible when `M` holds. -/
def SameRun {σ : Type} (P : List Nat → σ → Prop) (M : Prop) (x : Except Thrown LTPNG)
    (y : Except (Raised σ) (OnStream σ)) : Prop :=
  match y with
  | .ok st => ∃ a, x = .ok a ∧ unsink a = unsink st.self ∧ P a.image st.stream
  | .error (.ltpng what _) => ∃ t, x = .error t ∧ t.what = what
  | .error (.stream _) => M

/-! ### The two-stage pipeline -/

/-- The filter applied to the bytes of one pixel of a complete raw buffer. -/
def filter_pixel_two_stage (s : LTPNG) (row col : Nat) : Except Thrown (List Nat) :=
  (pixel_offsets s).mapM (fun o => s.filter_byte row col o)

/-- The filter applied to one scanline of a complete raw buffer: the tag byte
is copied, every other byte is filtered. -/
def filter_row_two_stage (s : LTPNG) (row : Nat) : Except Thrown (List Nat) := do
  let px ← (List.range s.width).mapM (fun col => filter_pixel_two_stage s row col)
  pure (s.uncompressed_data.getD (row * (s.width * pixel_size_of s + 1)) 0 :: px.flatMap id)

/-- The second stage of the two-stage pipeline: the filter applied to every
non-tag byte of the complete raw buffer of `s`, row by row. -/
def two_stage_filter (s : LTPNG) : Except Thrown (List Nat) := do
  let rows ← (List.range s.height).mapM (fun row => filter_row_two_stage s row)
  pure (rows.flatMap id)

/-- The state of the build loop of `create_image` when it reaches pixel
`(row, col)`, when `filter_byte` does not throw. -/
def state_at (self : LTPNG) (file : List Nat) (pixel_width pixel_height : Nat)
    (red green blue alpha : List Nat) (row col : Nat) : LTPNG.Build :=
  (List.range col).foldl (fun st c => pixel_done st red green blue alpha row c)
    (row_start ((List.range row).foldl (fun st r => row_done st red green blue alpha r)
      (build_start self file pixel_width pixel_height)))

/-- The state in which the loop calls `filter_byte(row, col, ..)`: the raw
bytes of the pixel have just been stored. -/
def call_state (self : LTPNG) (file : List Nat) (pixel_width pixel_height : Nat)
    (red green blue alpha : List Nat) (row col : Nat) : LTPNG.Build :=
  put_raw_list (state_at self file pixel_width pixel_height red green blue alpha row col)
    (pixel_vals (state_at self file pixel_width pixel_height red green blue alpha row col).self
      red green blue alpha row col)

/-- The line of the example driver `create_gradient` that reports `file_size`
(without the line ends). -/
def driver_report (s : LTPNG) : String :=
  " Total compressed image data size: " ++ toString s.file_size


open LTPNG

/-! ## Theorems -/

theorem crc_bit_step_eq_spec (c : Nat) : crc_bit_step c = crc_spec_step c := by
  unfold crc_bit_step crc_spec_step
  rw [Nat.and_one_is_mod]
  rcases Nat.mod_two_eq_zero_or_one c with h | h <;> simp [h]

theorem nat_shiftRight_xor (x y k : Nat) : (x ^^^ y) >>> k = (x >>> k) ^^^ (y >>> k) := by
  apply Nat.eq_of_testBit_eq
  intro i
  simp

theorem nat_xor_cancel_left (p a b : Nat) : (p ^^^ a) ^^^ (p ^^^ b) = a ^^^ b := by
  apply Nat.eq_of_testBit_eq
  intro i
  simp only [Nat.testBit_xor]
  cases p.testBit i <;> cases a.testBit i <;> cases b.testBit i <;> rfl

theorem nat_xor_left_comm' (p a b : Nat) : (p ^^^ a) ^^^ b = p ^^^ (a ^^^ b) := Nat.xor_assoc _ _ _

theorem crc_bit_step_xor (x y : Nat) :
    crc_bit_step (x ^^^ y) = crc_bit_step x ^^^ crc_bit_step y := by
  unfold crc_bit_step
  simp only [Nat.and_one_is_mod, nat_shiftRight_xor]
  have hx := Nat.mod_two_eq_zero_or_one x
  have hy := Nat.mod_two_eq_zero_or_one y
  have hxy : (x ^^^ y) % 2 = (x % 2 + y % 2) % 2 := by
    have := @Nat.xor_mod_two_eq_one x y
    rcases Nat.mod_two_eq_zero_or_one (x ^^^ y) with h | h <;> rcases hx with hx | hx <;>
      rcases hy with hy | hy <;> simp_all
  rw [hxy]
  rcases hx with hx | hx <;> rcases hy with hy | hy <;> simp [hx, hy]
  · ac_rfl
  · ac_rfl
  · rw [nat_xor_cancel_left]

theorem crc_bit_step_iter_xor (k x y : Nat) :
    crc_bit_step^[k] (x ^^^ y) = crc_bit_step^[k] x ^^^ crc_bit_step^[k] y := by
  induction k generalizing x y with
  | zero => rfl
  | succ k ih => simp only [Function.iterate_succ, Function.comp_apply, crc_bit_step_xor, ih]

theorem crc_bit_step_iter_high (k x : Nat) (h : x % 2 ^ k = 0) :
    crc_bit_step^[k] x = x >>> k := by
  induction k generalizing x with
  | zero => simp
  | succ k ih =>
    have h2 : x % 2 = 0 := by
      have : x % 2 ^ (k + 1) % 2 = x % 2 := Nat.mod_mod_of_dvd x (Dvd.intro_left (2 ^ k) rfl)
      omega
    have hs : crc_bit_step x = x >>> 1 := by
      unfold crc_bit_step
      simp [Nat.and_one_is_mod, h2]
    have h3 : (x >>> 1) % 2 ^ k = 0 := by
      rw [Nat.shiftRight_eq_div_pow, pow_one]
      rw [pow_succ] at h
      have hd : 2 ^ k * 2 ∣ x := Nat.dvd_of_mod_eq_zero h
      obtain ⟨m, hm⟩ := hd
      subst hm
      have : 2 ^ k * 2 * m / 2 = 2 ^ k * m := by
        rw [Nat.mul_right_comm]; simp
      rw [this]; simp
    rw [Function.iterate_succ, Function.comp_apply, hs, ih _ h3, ← Nat.shiftRight_add, Nat.add_comm]

theorem nat_split_low_high (v : Nat) : v = (v &&& 0xff) ^^^ ((v >>> 8) <<< 8) := by
  apply Nat.eq_of_testBit_eq
  intro i
  have h255 : (0xff : Nat) = 2 ^ 8 - 1 := by norm_num
  rw [h255]
  simp only [Nat.testBit_xor, Nat.testBit_and, Nat.testBit_two_pow_sub_one, Nat.testBit_shiftLeft,
    Nat.testBit_shiftRight]
  by_cases hi : i < 8
  · have h8 : ¬ 8 ≤ i := by omega
    simp [hi, h8]
  · have : 8 + (i - 8) = i := by omega
    have h8 : 8 ≤ i := by omega
    simp [hi, this, h8]

theorem crc_bit_step_iter8_split (v : Nat) :
    crc_bit_step^[8] v = crc_bit_step^[8] (v &&& 0xff) ^^^ (v >>> 8) := by
  conv_lhs => rw [nat_split_low_high v]
  rw [crc_bit_step_iter_xor, crc_bit_step_iter_high 8 ((v >>> 8) <<< 8)]
  · congr 1
    simp [Nat.shiftLeft_eq, Nat.shiftRight_eq_div_pow]
  · simp [Nat.shiftLeft_eq]

theorem foldl_set_range {α : Type} (f : Nat → α) (n : Nat) (tbl : List α) (h : n ≤ tbl.length) :
    (List.range n).foldl (fun t i => t.set i (f i)) tbl = (List.range n).map f ++ tbl.drop n := by
  induction n with
  | zero => simp
  | succ n ih =>
    have hn : n < tbl.length := by omega
    rw [List.range_succ, List.foldl_append, ih (by omega)]
    simp only [List.foldl_cons, List.foldl_nil, List.map_append, List.map_cons, List.map_nil]
    have hl : ((List.range n).map f).length = n := by simp
    rw [List.set_append_right _ _ (by omega), hl, Nat.sub_self]
    rw [List.drop_eq_getElem_cons hn]
    simp only [List.set_cons_zero, List.append_assoc, List.singleton_append]

theorem make_crc_table_table (s : LTPNG) (h : s.crc_table.length = 256) :
    s.make_crc_table.crc_table = crc_table_closed := by
  have h8 : ∀ n : Nat, (List.range 8).foldl (fun c _ => crc_bit_step c) n = crc_bit_step^[8] n := by
    intro n; rfl
  unfold make_crc_table crc_table_closed
  simp only [h8]
  rw [foldl_set_range _ _ _ (by omega)]
  rw [List.drop_of_length_le (by omega)]
  simp

theorem crc_table_closed_getD (i : Nat) (h : i < 256) :
    crc_table_closed.getD i 0 = crc_bit_step^[8] i := by
  unfold crc_table_closed
  rw [List.getD_eq_getElem _ _ (by simpa using h)]
  simp

theorem table_lookup_step (c b : Nat) (hb : b < 256) :
    crc_table_closed.getD ((c ^^^ b) &&& 0xff) 0 ^^^ (c >>> 8) = crc_bit_step^[8] (c ^^^ b) := by
  have hlt : (c ^^^ b) &&& 0xff < 256 := Nat.and_lt_two_pow _ (by norm_num : (0xff : Nat) < 2 ^ 8)
  rw [crc_table_closed_getD _ hlt, crc_bit_step_iter8_split (c ^^^ b), nat_shiftRight_xor]
  have : b >>> 8 = 0 := by
    rw [Nat.shiftRight_eq_div_pow]; exact Nat.div_eq_of_lt (by simpa using hb)
  rw [this, Nat.xor_zero]

theorem foldl_range_getD {β : Type} (g : β → Nat → β) (buf : List Nat) (len : Nat) (c : β)
    (h : len ≤ buf.length) :
    (List.range len).foldl (fun c n => g c (buf.getD n 0)) c = (buf.take len).foldl g c := by
  induction len generalizing c with
  | zero => simp
  | succ n ih =>
    have hn : n < buf.length := by omega
    rw [List.range_succ, List.foldl_append, ih _ (by omega), List.take_succ]
    simp only [List.foldl_append, List.foldl_cons, List.foldl_nil, List.getElem?_eq_getElem hn,
      Option.toList, List.getD_eq_getElem _ _ hn]

theorem update_crc_snd (s : LTPNG) (c : Nat) (buf : List Nat) (len : Nat) :
    (s.update_crc c buf len).2 = if s.crc_table_exists = 0 then s.make_crc_table else s := rfl

theorem update_crc_table (s : LTPNG) (c : Nat) (buf : List Nat) (len : Nat) (ht : TableOK s) :
    (s.update_crc c buf len).2.crc_table = crc_table_closed := by
  rw [update_crc_snd]
  split
  · exact make_crc_table_table s ht.1
  · exact ht.2 (by assumption)

theorem update_crc_fst (s : LTPNG) (c : Nat) (buf : List Nat) (len : Nat) (ht : TableOK s)
    (hlen : len ≤ buf.length) (hb : ∀ b ∈ buf.take len, b < 256) :
    (s.update_crc c buf len).1 = crc_run c (buf.take len) := by
  have htab := update_crc_table s c buf len ht
  rw [update_crc_snd] at htab
  show (List.range len).foldl (fun c n => (if s.crc_table_exists = 0 then s.make_crc_table
    else s).crc_table.getD ((c ^^^ buf.getD n 0) &&& 0xff) 0 ^^^ (c >>> 8)) c = _
  rw [htab]
  rw [foldl_range_getD (fun c b => crc_table_closed.getD ((c ^^^ b) &&& 0xff) 0 ^^^ (c >>> 8)) buf len c hlen]
  unfold crc_run
  generalize buf.take len = B at hb
  induction B generalizing c with
  | nil => rfl
  | cons b B ih =>
    simp only [List.foldl_cons]
    rw [table_lookup_step c b (hb b (by simp))]
    exact ih _ (fun x hx => hb x (by simp [hx]))

theorem crc_bit_step_lt (c : Nat) (h : c < 2 ^ 32) : crc_bit_step c < 2 ^ 32 := by
  unfold crc_bit_step
  have h1 : c >>> 1 < 2 ^ 32 := by
    rw [Nat.shiftRight_eq_div_pow]; exact lt_of_le_of_lt (Nat.div_le_self _ _) h
  split
  · exact Nat.xor_lt_two_pow (by norm_num) h1
  · exact h1

theorem crc_bit_step_iter_lt (k c : Nat) (h : c < 2 ^ 32) : crc_bit_step^[k] c < 2 ^ 32 := by
  induction k generalizing c with
  | zero => simpa using h
  | succ k ih =>
    rw [Function.iterate_succ, Function.comp_apply]
    exact ih _ (crc_bit_step_lt c h)

theorem crc_run_lt (c : Nat) (B : List Nat) (h : c < 2 ^ 32) (hb : ∀ b ∈ B, b < 256) :
    crc_run c B < 2 ^ 32 := by
  unfold crc_run
  induction B generalizing c with
  | nil => simpa using h
  | cons b B ih =>
    simp only [List.foldl_cons]
    apply ih
    · apply crc_bit_step_iter_lt
      exact Nat.xor_lt_two_pow h (lt_trans (hb b (by simp)) (by norm_num))
    · exact fun x hx => hb x (by simp [hx])

theorem crc_run_eq_spec (B : List Nat) : crc_run 0xFFFFFFFF B ^^^ 0xFFFFFFFF = crc_spec B := by
  have : crc_bit_step = crc_spec_step := funext crc_bit_step_eq_spec
  unfold crc_run crc_spec
  rw [this]

theorem get_crc_fst (s : LTPNG) (ht : TableOK s) (hlen : s.crc_index ≤ s.crc_buf.length)
    (hb : ∀ b ∈ acc s, b < 256) : s.get_crc.1 = crc_spec (acc s) := by
  unfold get_crc
  simp only
  rw [update_crc_fst s _ _ _ ht hlen hb]
  have hlt := crc_run_lt 0xffffffff (s.crc_buf.take s.crc_index) (by norm_num) hb
  have hx : crc_run 0xffffffff (s.crc_buf.take s.crc_index) ^^^ 0xffffffff < 2 ^ 32 :=
    Nat.xor_lt_two_pow hlt (by norm_num)
  rw [Nat.mod_eq_of_lt (by simpa using hx)]
  exact crc_run_eq_spec _

theorem get_crc_snd (s : LTPNG) :
    s.get_crc.2 = if s.crc_table_exists = 0 then s.make_crc_table else s := rfl

@[simp] theorem except_ok_bind {ε α β : Type} (a : α) (f : α → Except ε β) :
    (Except.ok a >>= f) = f a := rfl

@[simp] theorem except_error_bind {ε α β : Type} (e : ε) (f : α → Except ε β) :
    ((Except.error e : Except ε α) >>= f) = Except.error e := rfl

theorem except_bind_congr {ε α β : Type} (x : Except ε α) (f g : α → Except ε β)
    (h : ∀ a, x = .ok a → f a = g a) : (x >>= f) = (x >>= g) := by
  cases x with
  | error e => rfl
  | ok a => exact h a rfl

theorem except_bind_ok_inv {ε α β : Type} (x : Except ε α) (f : α → Except ε β) (b : β)
    (h : (x >>= f) = .ok b) : ∃ a, x = .ok a ∧ f a = .ok b := by
  cases x with
  | error e => cases h
  | ok a => exact ⟨a, rfl, h⟩

theorem take_set_succ (l : List Nat) (i v : Nat) (h : i < l.length) :
    (l.set i v).take (i + 1) = l.take i ++ [v] := by
  induction l generalizing i with
  | nil => simp at h
  | cons a l ih =>
    cases i with
    | zero => simp
    | succ i => simp [ih i (by simpa using h)]

@[simp] theorem emit_nil (s : LTPNG) : emit s [] = s := rfl

@[simp] theorem emit_cons (s : LTPNG) (v : Nat) (l : List Nat) :
    emit s (v :: l) = emit (push s v) l := rfl

theorem emit_append (s : LTPNG) (l1 l2 : List Nat) :
    emit s (l1 ++ l2) = emit (emit s l1) l2 := by
  unfold emit; exact List.foldl_append _ _ _ _

theorem emit_frame (s : LTPNG) (l : List Nat) (i b : List Nat) (k : Nat) :
    { emit s l with image := i, crc_buf := b, crc_index := k } =
    { s with image := i, crc_buf := b, crc_index := k } := by
  induction l generalizing s with
  | nil => rfl
  | cons v l ih => rw [emit_cons, ih]; rfl

@[simp] theorem emit_file_size (s : LTPNG) (l : List Nat) : (emit s l).file_size = s.file_size := by
  have h := congrArg LTPNG.file_size (emit_frame s l [] [] 0); exact h
@[simp] theorem emit_max_val (s : LTPNG) (l : List Nat) : (emit s l).max_val = s.max_val := by
  have h := congrArg LTPNG.max_val (emit_frame s l [] [] 0); exact h
@[simp] theorem emit_bit_depth (s : LTPNG) (l : List Nat) : (emit s l).bit_depth = s.bit_depth := by
  have h := congrArg LTPNG.bit_depth (emit_frame s l [] [] 0); exact h
@[simp] theorem emit_colour_type (s : LTPNG) (l : List Nat) :
    (emit s l).colour_type = s.colour_type := by
  have h := congrArg LTPNG.colour_type (emit_frame s l [] [] 0); exact h
@[simp] theorem emit_filter_type (s : LTPNG) (l : List Nat) :
    (emit s l).filter_type = s.filter_type := by
  have h := congrArg LTPNG.filter_type (emit_frame s l [] [] 0); exact h
@[simp] theorem emit_width (s : LTPNG) (l : List Nat) : (emit s l).width = s.width := by
  have h := congrArg LTPNG.width (emit_frame s l [] [] 0); exact h
@[simp] theorem emit_height (s : LTPNG) (l : List Nat) : (emit s l).height = s.height := by
  have h := congrArg LTPNG.height (emit_frame s l [] [] 0); exact h
@[simp] theorem emit_uncompressed_data (s : LTPNG) (l : List Nat) :
    (emit s l).uncompressed_data = s.uncompressed_data := by
  have h := congrArg LTPNG.uncompressed_data (emit_frame s l [] [] 0); exact h
@[simp] theorem emit_filtered_data (s : LTPNG) (l : List Nat) :
    (emit s l).filtered_data = s.filtered_data := by
  have h := congrArg LTPNG.filtered_data (emit_frame s l [] [] 0); exact h
@[simp] theorem emit_compressed_data (s : LTPNG) (l : List Nat) :
    (emit s l).compressed_data = s.compressed_data := by
  have h := congrArg LTPNG.compressed_data (emit_frame s l [] [] 0); exact h
@[simp] theorem emit_crc_allocated (s : LTPNG) (l : List Nat) :
    (emit s l).crc_allocated = s.crc_allocated := by
  have h := congrArg LTPNG.crc_allocated (emit_frame s l [] [] 0); exact h
@[simp] theorem emit_crc_table (s : LTPNG) (l : List Nat) : (emit s l).crc_table = s.crc_table := by
  have h := congrArg LTPNG.crc_table (emit_frame s l [] [] 0); exact h
@[simp] theorem emit_crc_table_exists (s : LTPNG) (l : List Nat) :
    (emit s l).crc_table_exists = s.crc_table_exists := by
  have h := congrArg LTPNG.crc_table_exists (emit_frame s l [] [] 0); exact h

@[simp] theorem emit_image (s : LTPNG) (l : List Nat) :
    (emit s l).image = s.image ++ l.map (· % 256) := by
  induction l generalizing s with
  | nil => simp
  | cons v l ih => rw [emit_cons, ih]; simp [push]

@[simp] theorem emit_buf_length (s : LTPNG) (l : List Nat) :
    (emit s l).crc_buf.length = s.crc_buf.length := by
  induction l generalizing s with
  | nil => simp
  | cons v l ih => rw [emit_cons, ih]; simp [push]

theorem emit_index (s : LTPNG) (l : List Nat) (h : s.crc_index + l.length < 4294967296) :
    (emit s l).crc_index = s.crc_index + l.length := by
  induction l generalizing s with
  | nil => simp
  | cons v l ih =>
    simp only [List.length_cons] at h
    have hp : (push s v).crc_index = s.crc_index + 1 := by
      show (s.crc_index + 1) % 4294967296 = _
      omega
    rw [emit_cons, ih _ (by rw [hp]; omega), hp, List.length_cons]
    omega

theorem emit_acc (s : LTPNG) (l : List Nat) (h : s.crc_index + l.length ≤ s.crc_buf.length)
    (h2 : s.crc_index + l.length < 4294967296) :
    acc (emit s l) = acc s ++ l.map (· % 256) := by
  induction l generalizing s with
  | nil => simp
  | cons v l ih =>
    simp only [List.length_cons] at h h2
    have hp : (push s v).crc_index = s.crc_index + 1 := by
      show (s.crc_index + 1) % 4294967296 = _
      omega
    have hl : (push s v).crc_buf.length = s.crc_buf.length := by simp [push]
    have ha : acc (push s v) = acc s ++ [v % 256] := by
      unfold acc
      rw [hp]
      exact take_set_succ _ _ _ (by omega)
    rw [emit_cons, ih _ (by rw [hp, hl]; omega) (by rw [hp]; omega), ha]
    simp

theorem emit_tableOK (s : LTPNG) (l : List Nat) (h : TableOK s) : TableOK (emit s l) := by
  unfold TableOK at *
  simpa using h

theorem fwrite_8_eq (s : LTPNG) (v : Nat) :
    s.fwrite_8 v = if s.crc_index = s.crc_allocated then
      .error ⟨"LTPNG: CRC buffer out of room, was allocate_crc_size() called?", s⟩
    else .ok (push s v) := rfl

@[simp] theorem fwrite_list_nil (s : LTPNG) : fwrite_list s [] = .ok s := rfl

theorem fwrite_list_cons (s : LTPNG) (v : Nat) (l : List Nat) :
    fwrite_list s (v :: l) = (s.fwrite_8 v >>= fun s1 => fwrite_list s1 l) := by
  unfold fwrite_list; simp [List.foldlM_cons]

theorem fwrite_list_append (s : LTPNG) (l1 l2 : List Nat) :
    fwrite_list s (l1 ++ l2) = (fwrite_list s l1 >>= fun s1 => fwrite_list s1 l2) := by
  unfold fwrite_list; simp [List.foldlM_append]

theorem fwrite_list_ok_inv (l : List Nat) (s s1 : LTPNG) (h : fwrite_list s l = .ok s1) :
    s1 = emit s l := by
  induction l generalizing s with
  | nil => simp at h; simp [h]
  | cons v l ih =>
    rw [fwrite_list_cons, fwrite_8_eq] at h
    split at h
    · cases h
    · exact ih _ h

theorem fwrite_list_ok (s : LTPNG) (l : List Nat)
    (h1 : s.crc_index + l.length ≤ s.crc_allocated) (h2 : s.crc_allocated < 4294967296) :
    fwrite_list s l = .ok (emit s l) := by
  induction l generalizing s with
  | nil => rfl
  | cons v l ih =>
    simp only [List.length_cons] at h1
    have hp : (push s v).crc_index = s.crc_index + 1 := by
      show (s.crc_index + 1) % 4294967296 = _
      omega
    rw [fwrite_list_cons, fwrite_8_eq, if_neg (by omega), except_ok_bind, emit_cons]
    exact ih _ (by rw [hp]; show _ ≤ s.crc_allocated; omega) h2

theorem fwrite_list_err (s : LTPNG) (l : List Nat)
    (h0 : s.crc_index ≤ s.crc_allocated) (h2 : s.crc_allocated < 4294967296)
    (h : s.crc_allocated < s.crc_index + l.length) :
    fwrite_list s l = .error ⟨"LTPNG: CRC buffer out of room, was allocate_crc_size() called?",
      emit s (l.take (s.crc_allocated - s.crc_index))⟩ := by
  induction l generalizing s with
  | nil => simp at h; omega
  | cons v l ih =>
    simp only [List.length_cons] at h
    rw [fwrite_list_cons, fwrite_8_eq]
    by_cases hi : s.crc_index = s.crc_allocated
    · rw [if_pos hi, hi]; simp
    · have hp : (push s v).crc_index = s.crc_index + 1 := by
        show (s.crc_index + 1) % 4294967296 = _
        omega
      have hA : (push s v).crc_allocated = s.crc_allocated := rfl
      rw [if_neg hi, except_ok_bind, ih (push s v) (by rw [hp, hA]; omega) (by rw [hA]; exact h2)
        (by rw [hp, hA]; omega), hp, hA]
      have : s.crc_allocated - s.crc_index = (s.crc_allocated - (s.crc_index + 1)) + 1 := by omega
      rw [this, List.take_succ_cons, emit_cons]

theorem fwrite_list_bind (s : LTPNG) (l1 : List Nat) (g : LTPNG → List Nat) :
    (fwrite_list s l1 >>= fun s1 => fwrite_list s1 (g s1)) =
      fwrite_list s (l1 ++ g (emit s l1)) := by
  rw [fwrite_list_append]
  apply except_bind_congr
  intro a ha
  rw [fwrite_list_ok_inv _ _ _ ha]

theorem fwrite_8_eq_list (s : LTPNG) (v : Nat) : s.fwrite_8 v = fwrite_list s [v] := by
  rw [fwrite_list_cons]
  cases s.fwrite_8 v <;> rfl

theorem fwrite_32_eq_list (s : LTPNG) (v : Nat) : s.fwrite_32 v = fwrite_list s (be32 v) := by
  have hb : ∀ (t : LTPNG) (k : Nat), 1 ≤ k → k ≤ 4 →
      t.get_byte_from_four_bytes v k = .ok ((v >>> (32 - 8 * k)) &&& 0xFF) := by
    intro t k h1 h4
    unfold get_byte_from_four_bytes
    rw [if_neg (by omega)]
    have : u8 (24 - ((k : Int) - 1) * 8) = 32 - 8 * k := by unfold u8; omega
    simp only [this]
  unfold fwrite_32
  simp only [hb _ 1 (by omega) (by omega), hb _ 2 (by omega) (by omega),
    hb _ 3 (by omega) (by omega), hb _ 4 (by omega) (by omega), except_ok_bind]
  simp only [fwrite_8_eq_list, fwrite_list_bind]
  simp [be32]

theorem be32_length (v : Nat) : (be32 v).length = 4 := rfl

theorem be32_map_mod (v : Nat) : (be32 v).map (· % 256) = be32 v := by
  have h : ∀ x : Nat, (x &&& 0xFF) % 256 = x &&& 0xFF := fun x =>
    Nat.mod_eq_of_lt (Nat.and_lt_two_pow _ (by norm_num : (0xFF : Nat) < 2 ^ 8))
  simp [be32, h]

@[simp] theorem crc_init_crc_index (s : LTPNG) : s.crc_init.crc_index = 0 := rfl
@[simp] theorem crc_init_crc_allocated (s : LTPNG) : s.crc_init.crc_allocated = s.crc_allocated := rfl
@[simp] theorem crc_init_crc_buf (s : LTPNG) : s.crc_init.crc_buf = s.crc_buf := rfl
@[simp] theorem crc_init_image (s : LTPNG) : s.crc_init.image = s.image := rfl
@[simp] theorem crc_init_crc_table (s : LTPNG) : s.crc_init.crc_table = s.crc_table := rfl
@[simp] theorem crc_init_crc_table_exists (s : LTPNG) :
    s.crc_init.crc_table_exists = s.crc_table_exists := rfl
@[simp] theorem crc_init_width (s : LTPNG) : s.crc_init.width = s.width := rfl
@[simp] theorem crc_init_height (s : LTPNG) : s.crc_init.height = s.height := rfl
@[simp] theorem crc_init_bit_depth (s : LTPNG) : s.crc_init.bit_depth = s.bit_depth := rfl
@[simp] theorem crc_init_colour_type (s : LTPNG) : s.crc_init.colour_type = s.colour_type := rfl
@[simp] theorem crc_init_filter_type (s : LTPNG) : s.crc_init.filter_type = s.filter_type := rfl
@[simp] theorem crc_init_compressed_data (s : LTPNG) :
    s.crc_init.compressed_data = s.compressed_data := rfl
@[simp] theorem crc_init_file_size (s : LTPNG) : s.crc_init.file_size = s.file_size := rfl
@[simp] theorem crc_init_max_val (s : LTPNG) : s.crc_init.max_val = s.max_val := rfl

@[simp] theorem get_crc_image (m : LTPNG) : m.get_crc.2.image = m.image := by
  rw [get_crc_snd]; split
  · unfold make_crc_table; rfl
  · rfl
@[simp] theorem get_crc_crc_buf (m : LTPNG) : m.get_crc.2.crc_buf = m.crc_buf := by
  rw [get_crc_snd]; split
  · unfold make_crc_table; rfl
  · rfl
@[simp] theorem get_crc_crc_index (m : LTPNG) : m.get_crc.2.crc_index = m.crc_index := by
  rw [get_crc_snd]; split
  · unfold make_crc_table; rfl
  · rfl
@[simp] theorem get_crc_crc_allocated (m : LTPNG) :
    m.get_crc.2.crc_allocated = m.crc_allocated := by
  rw [get_crc_snd]; split
  · unfold make_crc_table; rfl
  · rfl
@[simp] theorem get_crc_width (m : LTPNG) : m.get_crc.2.width = m.width := by
  rw [get_crc_snd]; split
  · unfold make_crc_table; rfl
  · rfl
@[simp] theorem get_crc_height (m : LTPNG) : m.get_crc.2.height = m.height := by
  rw [get_crc_snd]; split
  · unfold make_crc_table; rfl
  · rfl
@[simp] theorem get_crc_bit_depth (m : LTPNG) : m.get_crc.2.bit_depth = m.bit_depth := by
  rw [get_crc_snd]; split
  · unfold make_crc_table; rfl
  · rfl
@[simp] theorem get_crc_colour_type (m : LTPNG) : m.get_crc.2.colour_type = m.colour_type := by
  rw [get_crc_snd]; split
  · unfold make_crc_table; rfl
  · rfl
@[simp] theorem get_crc_filter_type (m : LTPNG) : m.get_crc.2.filter_type = m.filter_type := by
  rw [get_crc_snd]; split
  · unfold make_crc_table; rfl
  · rfl
@[simp] theorem get_crc_compressed_data (m : LTPNG) :
    m.get_crc.2.compressed_data = m.compressed_data := by
  rw [get_crc_snd]; split
  · unfold make_crc_table; rfl
  · rfl
@[simp] theorem get_crc_file_size (m : LTPNG) : m.get_crc.2.file_size = m.file_size := by
  rw [get_crc_snd]; split
  · unfold make_crc_table; rfl
  · rfl
@[simp] theorem get_crc_max_val (m : LTPNG) : m.get_crc.2.max_val = m.max_val := by
  rw [get_crc_snd]; split
  · unfold make_crc_table; rfl
  · rfl

theorem crc_table_closed_length : crc_table_closed.length = 256 := by
  unfold crc_table_closed
  rw [List.length_map, List.length_range]

theorem get_crc_tableOK (m : LTPNG) (h : TableOK m) : TableOK m.get_crc.2 := by
  rw [get_crc_snd]
  split
  · refine ⟨?_, fun _ => make_crc_table_table m h.1⟩
    rw [make_crc_table_table m h.1]; exact crc_table_closed_length
  · exact h

theorem accOK_emit (s : LTPNG) (l : List Nat) (h : AccOK s)
    (hr : s.crc_index + l.length ≤ s.crc_allocated) : AccOK (emit s l) := by
  obtain ⟨h1, h2, h3, h4⟩ := h
  refine ⟨?_, ?_, ?_, emit_tableOK s l h4⟩
  · rw [emit_index s l (by omega), emit_crc_allocated]; exact hr
  · rw [emit_crc_allocated]; exact h2
  · rw [emit_buf_length, emit_crc_allocated]; exact h3

theorem accOK_crc_init (s : LTPNG) (h : AccOK s) : AccOK s.crc_init := by
  obtain ⟨_, h2, h3, h4⟩ := h
  unfold AccOK TableOK at *
  simp only [crc_init_crc_index, crc_init_crc_allocated, crc_init_crc_buf, crc_init_crc_table,
    crc_init_crc_table_exists]
  exact ⟨Nat.zero_le _, h2, h3, h4⟩

theorem accOK_get_crc (s : LTPNG) (h : AccOK s) : AccOK s.get_crc.2 := by
  obtain ⟨h1, h2, h3, h4⟩ := h
  refine ⟨?_, ?_, ?_, get_crc_tableOK s h4⟩
  · rw [get_crc_crc_index, get_crc_crc_allocated]; exact h1
  · rw [get_crc_crc_allocated]; exact h2
  · rw [get_crc_crc_buf, get_crc_crc_allocated]; exact h3

theorem acc_mem_lt (s : LTPNG) (l : List Nat) (h : acc s = l.map (· % 256)) :
    ∀ b ∈ acc s, b < 256 := by
  intro b hb
  rw [h] at hb
  obtain ⟨x, _, rfl⟩ := List.mem_map.1 hb
  exact Nat.mod_lt _ (by norm_num)

theorem acc_crc_init (s : LTPNG) : acc s.crc_init = [] := by
  unfold acc
  rw [crc_init_crc_index, List.take_zero]

theorem body_allocated (s : LTPNG) (len : Nat) (bytes : List Nat) :
    (emit (emit s (be32 len)).crc_init bytes).crc_allocated = s.crc_allocated := by
  rw [emit_crc_allocated, crc_init_crc_allocated, emit_crc_allocated]

theorem body_index (s : LTPNG) (len : Nat) (bytes : List Nat) (hs : AccOK s)
    (h2 : bytes.length ≤ s.crc_allocated) :
    (emit (emit s (be32 len)).crc_init bytes).crc_index = bytes.length := by
  have := hs.2.1
  rw [emit_index _ _ (by rw [crc_init_crc_index]; omega), crc_init_crc_index]
  omega

theorem body_accOK (s : LTPNG) (len : Nat) (bytes : List Nat) (hs : AccOK s)
    (h1 : s.crc_index + 4 ≤ s.crc_allocated) (h2 : bytes.length ≤ s.crc_allocated) :
    AccOK (emit (emit s (be32 len)).crc_init bytes) := by
  have hs1 := accOK_crc_init _ (accOK_emit s (be32 len) hs (by rw [be32_length]; exact h1))
  apply accOK_emit _ _ hs1
  rw [crc_init_crc_index, crc_init_crc_allocated, emit_crc_allocated]
  omega

/-- The accumulator when `get_crc` is evaluated in a chunk writer. -/
theorem acc_chunk_body (s : LTPNG) (len : Nat) (bytes : List Nat) (hs : AccOK s)
    (h1 : s.crc_index + 4 ≤ s.crc_allocated) (h2 : bytes.length ≤ s.crc_allocated) :
    acc (emit (emit s (be32 len)).crc_init bytes) = bytes.map (· % 256) := by
  have hs1 := accOK_crc_init _ (accOK_emit s (be32 len) hs (by rw [be32_length]; exact h1))
  obtain ⟨_, hb, hc, _⟩ := hs1
  have := hs.2.1
  rw [emit_acc _ _ (by rw [hc, crc_init_crc_index, crc_init_crc_allocated, emit_crc_allocated]; omega)
    (by rw [crc_init_crc_index]; omega), acc_crc_init, List.nil_append]

theorem get_crc_chunk_body (s : LTPNG) (len : Nat) (bytes : List Nat) (hs : AccOK s)
    (h1 : s.crc_index + 4 ≤ s.crc_allocated) (h2 : bytes.length ≤ s.crc_allocated) :
    (emit (emit s (be32 len)).crc_init bytes).get_crc.1 = crc_spec (bytes.map (· % 256)) := by
  have hm := body_accOK s len bytes hs h1 h2
  have hacc := acc_chunk_body s len bytes hs h1 h2
  rw [get_crc_fst _ hm.2.2.2 (by rw [hm.2.2.1]; exact hm.1) (acc_mem_lt _ _ hacc), hacc]

/-- Two-stage shape of a chunk body, success case. -/
theorem chunk_body_ok (s : LTPNG) (len : Nat) (g : LTPNG → List Nat) (hs : AccOK s)
    (h1 : s.crc_index + 4 ≤ s.crc_allocated)
    (h2 : (g (emit s (be32 len))).length ≤ s.crc_allocated) :
    (fwrite_list s (be32 len) >>= fun s1 => fwrite_list s1.crc_init (g s1)) =
      .ok (emit (emit s (be32 len)).crc_init (g (emit s (be32 len)))) := by
  rw [fwrite_list_ok s _ (by rw [be32_length]; exact h1) hs.2.1, except_ok_bind]
  apply fwrite_list_ok
  · rw [crc_init_crc_index, crc_init_crc_allocated, emit_crc_allocated]; omega
  · rw [crc_init_crc_allocated, emit_crc_allocated]; exact hs.2.1

/-- Two-stage shape of a chunk body, failure case. -/
theorem chunk_body_err (s : LTPNG) (len : Nat) (g : LTPNG → List Nat) (hs : AccOK s)
    (h : s.crc_allocated < s.crc_index + 4 ∨
      s.crc_allocated < (g (emit s (be32 len))).length) :
    ∃ t, (fwrite_list s (be32 len) >>= fun s1 => fwrite_list s1.crc_init (g s1)) = .error t := by
  by_cases h1 : s.crc_allocated < s.crc_index + 4
  · rw [fwrite_list_err s _ hs.1 hs.2.1 (by rw [be32_length]; exact h1)]
    exact ⟨_, rfl⟩
  · have h2 : s.crc_allocated < (g (emit s (be32 len))).length := by omega
    rw [fwrite_list_ok s _ (by rw [be32_length]; omega) hs.2.1, except_ok_bind]
    rw [fwrite_list_err _ _ (by rw [crc_init_crc_index]; exact Nat.zero_le _)
      (by rw [crc_init_crc_allocated, emit_crc_allocated]; exact hs.2.1)
      (by rw [crc_init_crc_index, crc_init_crc_allocated, emit_crc_allocated]; omega)]
    exact ⟨_, rfl⟩

theorem after_chunk_eq (s : LTPNG) (len : Nat) (bytes : List Nat) :
    after_chunk s len bytes = emit (emit (emit s (be32 len)).crc_init bytes).get_crc.2
      (be32 (emit (emit s (be32 len)).crc_init bytes).get_crc.1) := rfl

/-- The CRC stage of a chunk writer, success case. -/
theorem chunk_crc_ok (s : LTPNG) (len : Nat) (bytes : List Nat) (hs : AccOK s)
    (h2 : bytes.length + 4 ≤ s.crc_allocated) :
    (emit (emit s (be32 len)).crc_init bytes).get_crc.2.fwrite_32
      (emit (emit s (be32 len)).crc_init bytes).get_crc.1 = .ok (after_chunk s len bytes) := by
  rw [fwrite_32_eq_list, after_chunk_eq]
  apply fwrite_list_ok
  · rw [get_crc_crc_index, get_crc_crc_allocated, body_index s len bytes hs (by omega),
      body_allocated, be32_length]
    exact h2
  · rw [get_crc_crc_allocated, body_allocated]; exact hs.2.1

/-- The CRC stage of a chunk writer, failure case. -/
theorem chunk_crc_err (s : LTPNG) (len : Nat) (bytes : List Nat) (hs : AccOK s)
    (h2 : bytes.length ≤ s.crc_allocated) (h3 : s.crc_allocated < bytes.length + 4) :
    ∃ t, (emit (emit s (be32 len)).crc_init bytes).get_crc.2.fwrite_32
      (emit (emit s (be32 len)).crc_init bytes).get_crc.1 = .error t := by
  rw [fwrite_32_eq_list, fwrite_list_err]
  · exact ⟨_, rfl⟩
  · rw [get_crc_crc_index, get_crc_crc_allocated, body_index s len bytes hs h2, body_allocated]
    exact h2
  · rw [get_crc_crc_allocated, body_allocated]; exact hs.2.1
  · rw [get_crc_crc_index, get_crc_crc_allocated, body_index s len bytes hs h2, body_allocated,
      be32_length]
    exact h3

theorem after_chunk_image (s : LTPNG) (len : Nat) (bytes : List Nat) (hs : AccOK s)
    (h1 : s.crc_index + 4 ≤ s.crc_allocated) (h2 : bytes.length ≤ s.crc_allocated) :
    (after_chunk s len bytes).image =
      s.image ++ (be32 len ++ bytes.map (· % 256) ++ be32 (crc_spec (bytes.map (· % 256)))) := by
  rw [after_chunk_eq, emit_image, get_crc_image, emit_image, crc_init_image, emit_image,
    get_crc_chunk_body s len bytes hs h1 h2, be32_map_mod, be32_map_mod]
  simp only [List.append_assoc]

theorem after_chunk_index (s : LTPNG) (len : Nat) (bytes : List Nat) (hs : AccOK s)
    (h2 : bytes.length + 4 ≤ s.crc_allocated) :
    (after_chunk s len bytes).crc_index = bytes.length + 4 := by
  have h3 := hs.2.1
  have hb := body_index s len bytes hs (by omega)
  rw [after_chunk_eq, emit_index _ _ (by rw [get_crc_crc_index, hb, be32_length]; omega),
    get_crc_crc_index, hb, be32_length]

theorem after_chunk_allocated (s : LTPNG) (len : Nat) (bytes : List Nat) :
    (after_chunk s len bytes).crc_allocated = s.crc_allocated := by
  rw [after_chunk_eq, emit_crc_allocated, get_crc_crc_allocated, emit_crc_allocated, crc_init_crc_allocated, emit_crc_allocated]

theorem after_chunk_width (s : LTPNG) (len : Nat) (bytes : List Nat) :
    (after_chunk s len bytes).width = s.width := by
  rw [after_chunk_eq, emit_width, get_crc_width, emit_width, crc_init_width, emit_width]

theorem after_chunk_height (s : LTPNG) (len : Nat) (bytes : List Nat) :
    (after_chunk s len bytes).height = s.height := by
  rw [after_chunk_eq, emit_height, get_crc_height, emit_height, crc_init_height, emit_height]

theorem after_chunk_bit_depth (s : LTPNG) (len : Nat) (bytes : List Nat) :
    (after_chunk s len bytes).bit_depth = s.bit_depth := by
  rw [after_chunk_eq, emit_bit_depth, get_crc_bit_depth, emit_bit_depth, crc_init_bit_depth, emit_bit_depth]

theorem after_chunk_colour_type (s : LTPNG) (len : Nat) (bytes : List Nat) :
    (after_chunk s len bytes).colour_type = s.colour_type := by
  rw [after_chunk_eq, emit_colour_type, get_crc_colour_type, emit_colour_type, crc_init_colour_type, emit_colour_type]

theorem after_chunk_filter_type (s : LTPNG) (len : Nat) (bytes : List Nat) :
    (after_chunk s len bytes).filter_type = s.filter_type := by
  rw [after_chunk_eq, emit_filter_type, get_crc_filter_type, emit_filter_type, crc_init_filter_type, emit_filter_type]

theorem after_chunk_compressed_data (s : LTPNG) (len : Nat) (bytes : List Nat) :
    (after_chunk s len bytes).compressed_data = s.compressed_data := by
  rw [after_chunk_eq, emit_compressed_data, get_crc_compressed_data, emit_compressed_data, crc_init_compressed_data, emit_compressed_data]

theorem after_chunk_file_size (s : LTPNG) (len : Nat) (bytes : List Nat) :
    (after_chunk s len bytes).file_size = s.file_size := by
  rw [after_chunk_eq, emit_file_size, get_crc_file_size, emit_file_size, crc_init_file_size, emit_file_size]

theorem after_chunk_max_val (s : LTPNG) (len : Nat) (bytes : List Nat) :
    (after_chunk s len bytes).max_val = s.max_val := by
  rw [after_chunk_eq, emit_max_val, get_crc_max_val, emit_max_val, crc_init_max_val, emit_max_val]

theorem after_chunk_accOK (s : LTPNG) (len : Nat) (bytes : List Nat) (hs : AccOK s)
    (h1 : s.crc_index + 4 ≤ s.crc_allocated) (h2 : bytes.length + 4 ≤ s.crc_allocated) :
    AccOK (after_chunk s len bytes) := by
  have hg := accOK_get_crc _ (body_accOK s len bytes hs h1 (by omega))
  rw [after_chunk_eq]
  apply accOK_emit _ _ hg
  rw [get_crc_crc_index, get_crc_crc_allocated, body_index s len bytes hs (by omega),
    body_allocated, be32_length]
  exact h2

theorem write_png_signature_eq (s : LTPNG) :
    s.write_png_signature = fwrite_list s png_signature := by
  unfold write_png_signature png_signature
  simp only [fwrite_8_eq_list, fwrite_list_bind, List.cons_append, List.nil_append]

theorem write_header_chunk_body_eq (s : LTPNG) (bd ct il : Nat) :
    s.write_header_chunk_body bd ct il =
      (fwrite_list s (be32 13) >>= fun s1 => fwrite_list s1.crc_init
        ([73, 72, 68, 82] ++ be32 s1.width ++ be32 s1.height ++ [bd, ct, 0, 0, il])) := by
  unfold write_header_chunk_body
  simp only [fwrite_32_eq_list, fwrite_8_eq_list, fwrite_list_bind, emit_width, emit_height,
    crc_init_width, crc_init_height, List.cons_append, List.nil_append, List.append_assoc]

theorem range_map_getD (cd : List Nat) (len : Nat) (h : len ≤ cd.length) :
    (List.range len).map (fun i => cd.getD i 0) = cd.take len := by
  induction len with
  | zero => simp
  | succ n ih =>
    have hn : n < cd.length := by omega
    rw [List.range_succ, List.map_append, ih (by omega), List.take_succ]
    simp only [List.map_cons, List.map_nil, List.getElem?_eq_getElem hn, Option.toList,
      List.getD_eq_getElem _ _ hn]

theorem write_data_chunk_body_eq (s : LTPNG) (cd : List Nat) (len : Nat) :
    s.write_data_chunk_body cd len =
      (fwrite_list s (be32 len) >>= fun s1 => fwrite_list s1.crc_init
        ([73, 68, 65, 84] ++ (List.range len).map (fun i => cd.getD i 0))) := by
  have hloop : ∀ t : LTPNG,
      (List.range len).foldlM (fun (self : LTPNG) i => self.fwrite_8 (cd.getD i 0)) t =
        fwrite_list t ((List.range len).map (fun i => cd.getD i 0)) := by
    intro t
    unfold fwrite_list
    rw [List.foldlM_map]
  unfold write_data_chunk_body
  simp only [hloop]
  simp only [fwrite_32_eq_list, fwrite_8_eq_list, fwrite_list_bind,
    List.cons_append, List.nil_append, List.append_assoc]

theorem write_end_chunk_body_eq (s : LTPNG) :
    s.write_end_chunk_body =
      (fwrite_list s (be32 0) >>= fun s1 => fwrite_list s1.crc_init [73, 69, 78, 68]) := by
  unfold write_end_chunk_body
  simp only [fwrite_32_eq_list, fwrite_8_eq_list, fwrite_list_bind,
    List.cons_append, List.nil_append, List.append_assoc]

/-- The tag and data bytes the header chunk writer sends through `fwrite_8`. -/
theorem header_bytes_length (w h bd ct il : Nat) :
    ([73, 72, 68, 82] ++ be32 w ++ be32 h ++ [bd, ct, 0, 0, il]).length = 17 := rfl

/-- A chunk writer of the common shape succeeds when there is room. -/
theorem chunk_writer_ok (s : LTPNG) (len : Nat) (g : LTPNG → List Nat) (hs : AccOK s)
    (h1 : s.crc_index + 4 ≤ s.crc_allocated)
    (h2 : (g (emit s (be32 len))).length + 4 ≤ s.crc_allocated) :
    ((fwrite_list s (be32 len) >>= fun s1 => fwrite_list s1.crc_init (g s1)) >>=
        fun m => m.get_crc.2.fwrite_32 m.get_crc.1) =
      .ok (after_chunk s len (g (emit s (be32 len)))) := by
  rw [chunk_body_ok s len g hs h1 (by omega), except_ok_bind]
  exact chunk_crc_ok s len _ hs h2

/-- A chunk writer of the common shape throws when there is no room. -/
theorem chunk_writer_err (s : LTPNG) (len : Nat) (g : LTPNG → List Nat) (hs : AccOK s)
    (h : s.crc_allocated < s.crc_index + 4 ∨
      s.crc_allocated < (g (emit s (be32 len))).length + 4) :
    ∃ t, ((fwrite_list s (be32 len) >>= fun s1 => fwrite_list s1.crc_init (g s1)) >>=
        fun m => m.get_crc.2.fwrite_32 m.get_crc.1) = .error t := by
  by_cases hb : s.crc_allocated < s.crc_index + 4 ∨
      s.crc_allocated < (g (emit s (be32 len))).length
  · obtain ⟨t, ht⟩ := chunk_body_err s len g hs hb
    rw [ht]; exact ⟨t, rfl⟩
  · rw [chunk_body_ok s len g hs (by omega) (by omega), except_ok_bind]
    exact chunk_crc_err s len _ hs (by omega) (by omega)

theorem write_header_chunk_ok (s : LTPNG) (bd ct il : Nat) (hs : AccOK s)
    (h1 : s.crc_index + 4 ≤ s.crc_allocated) (h2 : 21 ≤ s.crc_allocated) :
    s.write_header_chunk bd ct il = .ok (after_chunk s 13
      ([73, 72, 68, 82] ++ be32 s.width ++ be32 s.height ++ [bd, ct, 0, 0, il])) := by
  unfold write_header_chunk
  rw [write_header_chunk_body_eq]
  have h := chunk_writer_ok s 13 (fun s1 => [73, 72, 68, 82] ++ be32 s1.width ++ be32 s1.height ++
    [bd, ct, 0, 0, il]) hs h1 (by rw [header_bytes_length]; exact h2)
  simp only [emit_width, emit_height] at h
  exact h

theorem write_header_chunk_err (s : LTPNG) (bd ct il : Nat) (hs : AccOK s)
    (h : s.crc_allocated < s.crc_index + 4 ∨ s.crc_allocated < 21) :
    ∃ t, s.write_header_chunk bd ct il = .error t := by
  unfold write_header_chunk
  rw [write_header_chunk_body_eq]
  exact chunk_writer_err s 13 (fun s1 => [73, 72, 68, 82] ++ be32 s1.width ++ be32 s1.height ++
    [bd, ct, 0, 0, il]) hs (by rw [header_bytes_length]; exact h)

theorem write_data_chunk_ok (s : LTPNG) (cd : List Nat) (len : Nat) (hs : AccOK s)
    (h1 : s.crc_index + 4 ≤ s.crc_allocated) (h2 : len + 8 ≤ s.crc_allocated) :
    s.write_data_chunk cd len = .ok (after_chunk s len
      ([73, 68, 65, 84] ++ (List.range len).map (fun i => cd.getD i 0))) := by
  unfold write_data_chunk
  rw [write_data_chunk_body_eq]
  exact chunk_writer_ok s len (fun _ => [73, 68, 65, 84] ++
    (List.range len).map (fun i => cd.getD i 0)) hs h1
    (by simp only [List.length_append, List.length_map, List.length_range, List.length_cons,
      List.length_nil]; omega)

theorem write_data_chunk_err (s : LTPNG) (cd : List Nat) (len : Nat) (hs : AccOK s)
    (h : s.crc_allocated < s.crc_index + 4 ∨ s.crc_allocated < len + 8) :
    ∃ t, s.write_data_chunk cd len = .error t := by
  unfold write_data_chunk
  rw [write_data_chunk_body_eq]
  exact chunk_writer_err s len (fun _ => [73, 68, 65, 84] ++
    (List.range len).map (fun i => cd.getD i 0)) hs
    (by simp only [List.length_append, List.length_map, List.length_range, List.length_cons,
      List.length_nil]; omega)

theorem write_end_chunk_ok (s : LTPNG) (hs : AccOK s)
    (h1 : s.crc_index + 4 ≤ s.crc_allocated) (h2 : 8 ≤ s.crc_allocated) :
    s.write_end_chunk = .ok (after_chunk s 0 [73, 69, 78, 68]) := by
  unfold write_end_chunk
  rw [write_end_chunk_body_eq]
  exact chunk_writer_ok s 0 (fun _ => [73, 69, 78, 68]) hs h1 h2

theorem write_end_chunk_err (s : LTPNG) (hs : AccOK s)
    (h : s.crc_allocated < s.crc_index + 4 ∨ s.crc_allocated < 8) :
    ∃ t, s.write_end_chunk = .error t := by
  unfold write_end_chunk
  rw [write_end_chunk_body_eq]
  exact chunk_writer_err s 0 (fun _ => [73, 69, 78, 68]) hs h

theorem png_signature_length : png_signature.length = 8 := rfl

theorem header_bytes_len (s : LTPNG) : (header_bytes s).length = 17 := rfl

theorem data_bytes_len (s : LTPNG) (n : Nat) : (data_bytes s n).length = n + 4 := by
  unfold data_bytes
  simp only [List.length_append, List.length_map, List.length_range, List.length_cons,
    List.length_nil]
  omega

theorem write_file_eq (s : LTPNG) (n : Nat) :
    write_file s n = (s.write_png_signature >>= fun a =>
      a.write_header_chunk a.bit_depth a.colour_type 0 >>= fun b =>
      b.write_data_chunk b.compressed_data n >>= fun c => c.write_end_chunk) := rfl

/-- Facts about the object after the signature. -/
theorem sig_state (s : LTPNG) (hs : AccOK s) (h0 : s.crc_index = 0)
    (h8 : 8 ≤ s.crc_allocated) :
    AccOK (emit s png_signature) ∧ (emit s png_signature).crc_index = 8 ∧
      (emit s png_signature).crc_allocated = s.crc_allocated := by
  have h2 := hs.2.1
  refine ⟨accOK_emit s _ hs (by rw [h0, png_signature_length]; omega), ?_, emit_crc_allocated _ _⟩
  rw [emit_index s _ (by rw [h0, png_signature_length]; omega), h0, png_signature_length]

/-- Facts about the object after the header chunk. -/
theorem hdr_state (s : LTPNG) (hs : AccOK s) (h0 : s.crc_index = 0)
    (h21 : 21 ≤ s.crc_allocated) :
    AccOK (after_chunk (emit s png_signature) 13 (header_bytes s)) ∧
      (after_chunk (emit s png_signature) 13 (header_bytes s)).crc_index = 21 ∧
      (after_chunk (emit s png_signature) 13 (header_bytes s)).crc_allocated =
        s.crc_allocated := by
  obtain ⟨ha, hi, hA⟩ := sig_state s hs h0 (by omega)
  refine ⟨after_chunk_accOK _ _ _ ha (by rw [hi, hA]; omega)
    (by rw [header_bytes_len, hA]; omega), ?_, ?_⟩
  · rw [after_chunk_index _ _ _ ha (by rw [header_bytes_len, hA]; omega), header_bytes_len]
  · rw [after_chunk_allocated, hA]

/-- Facts about the object after the data chunk. -/
theorem dat_state (s : LTPNG) (n : Nat) (hs : AccOK s) (h0 : s.crc_index = 0)
    (h25 : 25 ≤ s.crc_allocated) (hn : n + 8 ≤ s.crc_allocated) :
    AccOK (after_chunk (after_chunk (emit s png_signature) 13 (header_bytes s)) n
        (data_bytes s n)) ∧
      (after_chunk (after_chunk (emit s png_signature) 13 (header_bytes s)) n
        (data_bytes s n)).crc_index = n + 8 ∧
      (after_chunk (after_chunk (emit s png_signature) 13 (header_bytes s)) n
        (data_bytes s n)).crc_allocated = s.crc_allocated := by
  obtain ⟨hb, hi, hA⟩ := hdr_state s hs h0 (by omega)
  refine ⟨after_chunk_accOK _ _ _ hb (by rw [hi, hA]; omega)
    (by rw [data_bytes_len, hA]; omega), ?_, ?_⟩
  · rw [after_chunk_index _ _ _ hb (by rw [data_bytes_len, hA]; omega), data_bytes_len]
  · rw [after_chunk_allocated, hA]

theorem hdr_call_eq (s : LTPNG) :
    ([73, 72, 68, 82] ++ be32 (emit s png_signature).width ++ be32 (emit s png_signature).height ++
      [(emit s png_signature).bit_depth, (emit s png_signature).colour_type, 0, 0, 0]) =
      header_bytes s := by
  rw [emit_width, emit_height, emit_bit_depth, emit_colour_type]
  rfl

theorem dat_call_eq (s : LTPNG) (n : Nat) :
    ([73, 68, 65, 84] ++ (List.range n).map (fun i =>
      (after_chunk (emit s png_signature) 13 (header_bytes s)).compressed_data.getD i 0)) =
      data_bytes s n := by
  rw [after_chunk_compressed_data, emit_compressed_data]
  rfl

theorem write_file_ok (s : LTPNG) (n : Nat) (hs : AccOK s) (h0 : s.crc_index = 0)
    (h25 : 25 ≤ s.crc_allocated) (hn : n + 12 ≤ s.crc_allocated) :
    write_file s n = .ok (after_file s n) := by
  obtain ⟨ha, hia, hAa⟩ := sig_state s hs h0 (by omega)
  obtain ⟨hb, hib, hAb⟩ := hdr_state s hs h0 (by omega)
  obtain ⟨hc, hic, hAc⟩ := dat_state s n hs h0 h25 (by omega)
  rw [write_file_eq, write_png_signature_eq,
    fwrite_list_ok s _ (by rw [h0, png_signature_length]; omega) hs.2.1, except_ok_bind,
    write_header_chunk_ok _ _ _ _ ha (by rw [hia, hAa]; omega) (by rw [hAa]; omega),
    hdr_call_eq, except_ok_bind,
    write_data_chunk_ok _ _ _ hb (by rw [hib, hAb]; omega) (by rw [hAb]; omega),
    dat_call_eq, except_ok_bind,
    write_end_chunk_ok _ hc (by rw [hic, hAc]; omega) (by rw [hAc]; omega)]
  rfl

theorem write_file_err (s : LTPNG) (n : Nat) (hs : AccOK s) (h0 : s.crc_index = 0)
    (h : s.crc_allocated < 25 ∨ s.crc_allocated < n + 12) :
    ∃ t, write_file s n = .error t := by
  rw [write_file_eq, write_png_signature_eq]
  by_cases h8 : s.crc_allocated < 8
  · rw [fwrite_list_err s _ hs.1 hs.2.1 (by rw [h0, png_signature_length]; omega)]
    exact ⟨_, rfl⟩
  obtain ⟨ha, hia, hAa⟩ := sig_state s hs h0 (by omega)
  rw [fwrite_list_ok s _ (by rw [h0, png_signature_length]; omega) hs.2.1, except_ok_bind]
  by_cases h21 : s.crc_allocated < 21
  · obtain ⟨t, ht⟩ := write_header_chunk_err (emit s png_signature)
      (emit s png_signature).bit_depth (emit s png_signature).colour_type 0 ha
      (by rw [hia, hAa]; omega)
    rw [ht]; exact ⟨t, rfl⟩
  obtain ⟨hb, hib, hAb⟩ := hdr_state s hs h0 (by omega)
  rw [write_header_chunk_ok _ _ _ _ ha (by rw [hia, hAa]; omega) (by rw [hAa]; omega),
    hdr_call_eq, except_ok_bind]
  by_cases hd : s.crc_allocated < 25 ∨ s.crc_allocated < n + 8
  · obtain ⟨t, ht⟩ := write_data_chunk_err (after_chunk (emit s png_signature) 13 (header_bytes s))
      (after_chunk (emit s png_signature) 13 (header_bytes s)).compressed_data n hb
      (by rw [hib, hAb]; omega)
    rw [ht]; exact ⟨t, rfl⟩
  obtain ⟨hc, hic, hAc⟩ := dat_state s n hs h0 (by omega) (by omega)
  rw [write_data_chunk_ok _ _ _ hb (by rw [hib, hAb]; omega) (by rw [hAb]; omega),
    dat_call_eq, except_ok_bind]
  exact write_end_chunk_err _ hc (by rw [hic, hAc]; omega)

theorem after_file_image (s : LTPNG) (n : Nat) (hs : AccOK s) (h0 : s.crc_index = 0)
    (h25 : 25 ≤ s.crc_allocated) (hn : n + 12 ≤ s.crc_allocated) :
    (after_file s n).image = s.image ++ (png_signature ++
      (be32 13 ++ (header_bytes s).map (· % 256) ++
        be32 (crc_spec ((header_bytes s).map (· % 256)))) ++
      (be32 n ++ (data_bytes s n).map (· % 256) ++
        be32 (crc_spec ((data_bytes s n).map (· % 256)))) ++
      (be32 0 ++ [73, 69, 78, 68] ++ be32 (crc_spec [73, 69, 78, 68]))) := by
  obtain ⟨ha, hia, hAa⟩ := sig_state s hs h0 (by omega)
  obtain ⟨hb, hib, hAb⟩ := hdr_state s hs h0 (by omega)
  obtain ⟨hc, hic, hAc⟩ := dat_state s n hs h0 h25 (by omega)
  unfold after_file
  rw [after_chunk_image _ _ _ hc (by rw [hic, hAc]; omega) (by rw [hAc]; show 4 ≤ _; omega),
    after_chunk_image _ _ _ hb (by rw [hib, hAb]; omega) (by rw [data_bytes_len, hAb]; omega),
    after_chunk_image _ _ _ ha (by rw [hia, hAa]; omega) (by rw [header_bytes_len, hAa]; omega),
    emit_image]
  have hsig : png_signature.map (· % 256) = png_signature := rfl
  have hend : ([73, 69, 78, 68] : List Nat).map (· % 256) = [73, 69, 78, 68] := rfl
  rw [hsig, hend]
  simp only [List.append_assoc]

theorem after_file_file_size (s : LTPNG) (n : Nat) : (after_file s n).file_size = s.file_size := by
  unfold after_file
  rw [after_chunk_file_size, after_chunk_file_size, after_chunk_file_size, emit_file_size]
theorem after_file_max_val (s : LTPNG) (n : Nat) : (after_file s n).max_val = s.max_val := by
  unfold after_file
  rw [after_chunk_max_val, after_chunk_max_val, after_chunk_max_val, emit_max_val]
theorem after_file_bit_depth (s : LTPNG) (n : Nat) : (after_file s n).bit_depth = s.bit_depth := by
  unfold after_file
  rw [after_chunk_bit_depth, after_chunk_bit_depth, after_chunk_bit_depth, emit_bit_depth]
theorem after_file_colour_type (s : LTPNG) (n : Nat) :
    (after_file s n).colour_type = s.colour_type := by
  unfold after_file
  rw [after_chunk_colour_type, after_chunk_colour_type, after_chunk_colour_type, emit_colour_type]
theorem after_file_filter_type (s : LTPNG) (n : Nat) :
    (after_file s n).filter_type = s.filter_type := by
  unfold after_file
  rw [after_chunk_filter_type, after_chunk_filter_type, after_chunk_filter_type, emit_filter_type]
theorem after_file_width (s : LTPNG) (n : Nat) : (after_file s n).width = s.width := by
  unfold after_file
  rw [after_chunk_width, after_chunk_width, after_chunk_width, emit_width]
theorem after_file_height (s : LTPNG) (n : Nat) : (after_file s n).height = s.height := by
  unfold after_file
  rw [after_chunk_height, after_chunk_height, after_chunk_height, emit_height]

theorem u32_lt (x : Int) : u32 x < 4294967296 := by
  unfold u32; omega

theorem def_eq_ok_iff (self : LTPNG) (z : ZLib) (inp : List Nat) (in_len : Nat) (out : List Nat)
    (out_len : Nat) (level : Int) (r : List Nat × Nat) :
    self.def_ z inp in_len out out_len level = .ok r ↔
      (z.deflateInit level = Z_OK ∧ (z.deflate (inp.take in_len) out_len).1 = Z_STREAM_END ∧
        z.deflateEnd = Z_OK) ∧
      r = (((z.deflate (inp.take in_len) out_len).2.take out_len).map (· % 256) ++
            out.drop (((z.deflate (inp.take in_len) out_len).2.take out_len).map (· % 256)).length,
          (((z.deflate (inp.take in_len) out_len).2.take out_len).map (· % 256)).length) := by
  unfold def_
  by_cases h1 : z.deflateInit level = Z_OK
  · by_cases h2 : (z.deflate (inp.take in_len) out_len).1 = Z_STREAM_END
    · by_cases h3 : z.deflateEnd = Z_OK
      · simp only [h1, h2, h3, ne_eq, not_true_eq_false, if_false, and_self, true_and]
        constructor
        · intro h; cases h; rfl
        · intro h; rw [h]
      · simp only [h1, h2, h3, ne_eq, not_true_eq_false, not_false_eq_true, if_false, if_true,
          and_false, false_and, iff_false]
        split <;> [skip; split] <;> simp
    · simp only [h1, h2, ne_eq, not_true_eq_false, not_false_eq_true, if_false, if_true,
        false_and, and_false, iff_false]
      split <;> [skip; split <;> [skip; split]] <;> simp
  · simp only [h1, ne_eq, not_false_eq_true, if_true, false_and, iff_false]
    split <;> [skip; split <;> [skip; split]] <;> simp

theorem create_image_write_eq (st : Build) (z : ZLib) :
    create_image_write st z =
      (st.self.def_ z st.self.filtered_data st.filtered_len st.self.compressed_data
          (data_size_of st.self) Z_DEFAULT_COMPRESSION >>= fun r =>
        write_file (allocate_crc_size { st.self with compressed_data := r.1 }
          st.self.bit_depth st.self.colour_type) r.2 >>= fun f => pure (finish f r.2)) := by
  unfold create_image_write write_file
  simp only [bind_assoc]
  rfl

theorem allocated_crc_index (st : Build) (z : ZLib) :
    (allocated_of st z).crc_index = st.self.crc_index := by
  unfold allocated_of allocate_crc_size; rfl
theorem allocated_image (st : Build) (z : ZLib) :
    (allocated_of st z).image = st.self.image := by
  unfold allocated_of allocate_crc_size; rfl
theorem allocated_buf_length (st : Build) (z : ZLib) :
    (allocated_of st z).crc_buf.length = (allocated_of st z).crc_allocated := by
  unfold allocated_of allocate_crc_size
  simp only [List.length_replicate]
theorem allocated_width (st : Build) (z : ZLib) :
    (allocated_of st z).width = st.self.width := by
  unfold allocated_of allocate_crc_size; rfl
theorem allocated_height (st : Build) (z : ZLib) :
    (allocated_of st z).height = st.self.height := by
  unfold allocated_of allocate_crc_size; rfl
theorem allocated_bit_depth (st : Build) (z : ZLib) :
    (allocated_of st z).bit_depth = st.self.bit_depth := by
  unfold allocated_of allocate_crc_size; rfl
theorem allocated_colour_type (st : Build) (z : ZLib) :
    (allocated_of st z).colour_type = st.self.colour_type := by
  unfold allocated_of allocate_crc_size; rfl
theorem allocated_filter_type (st : Build) (z : ZLib) :
    (allocated_of st z).filter_type = st.self.filter_type := by
  unfold allocated_of allocate_crc_size; rfl
theorem allocated_crc_table (st : Build) (z : ZLib) :
    (allocated_of st z).crc_table = st.self.crc_table := by
  unfold allocated_of allocate_crc_size; rfl
theorem allocated_crc_table_exists (st : Build) (z : ZLib) :
    (allocated_of st z).crc_table_exists = st.self.crc_table_exists := by
  unfold allocated_of allocate_crc_size; rfl
theorem allocated_max_val (st : Build) (z : ZLib) :
    (allocated_of st z).max_val = st.self.max_val := by
  unfold allocated_of allocate_crc_size; rfl
theorem allocated_compressed_data (st : Build) (z : ZLib) :
    (allocated_of st z).compressed_data = compressed_of st z ++
        st.self.compressed_data.drop (compressed_of st z).length := by
  unfold allocated_of allocate_crc_size; rfl
theorem allocated_crc_allocated (st : Build) (z : ZLib) :
    (allocated_of st z).crc_allocated =
      u32 ((st.self.width : Int) * st.self.height *
        ((if st.self.colour_type = 2 then 3 else 4 : Nat) : Int) *
        (3 - 16 / (st.self.bit_depth : Int)) + st.self.height + 4 + 1) := by
  unfold allocated_of allocate_crc_size; rfl

theorem allocated_accOK (st : Build) (z : ZLib) (h0 : st.self.crc_index = 0)
    (ht : TableOK st.self) : AccOK (allocated_of st z) := by
  refine ⟨?_, ?_, allocated_buf_length st z, ?_⟩
  · rw [allocated_crc_index, h0]; exact Nat.zero_le _
  · rw [allocated_crc_allocated]; exact u32_lt _
  · unfold TableOK at *
    rw [allocated_crc_table, allocated_crc_table_exists]; exact ht

/-- `create_image_write` completes exactly when the compressor succeeds and
the accumulator has room for the header chunk plus the next length field and
for the data chunk plus the next length field. -/
theorem create_image_write_ok_iff (st : Build) (z : ZLib) (h0 : st.self.crc_index = 0)
    (ht : TableOK st.self) (s1 : LTPNG) :
    create_image_write st z = .ok s1 ↔
      (ZSuccess st z ∧ 25 ≤ (allocated_of st z).crc_allocated ∧
        (compressed_of st z).length + 12 ≤ (allocated_of st z).crc_allocated) ∧
      s1 = finished_of st z := by
  have hacc := allocated_accOK st z h0 ht
  have hi : (allocated_of st z).crc_index = 0 := by rw [allocated_crc_index, h0]
  rw [create_image_write_eq]
  constructor
  · intro h
    obtain ⟨r, hr, h⟩ := except_bind_ok_inv _ _ _ h
    obtain ⟨hz, hr⟩ := (def_eq_ok_iff _ _ _ _ _ _ _ _).1 hr
    subst hr
    obtain ⟨f, hf, h⟩ := except_bind_ok_inv _ _ _ h
    have hf2 : write_file (allocated_of st z) (compressed_of st z).length = .ok f := hf
    by_cases hroom : 25 ≤ (allocated_of st z).crc_allocated ∧
        (compressed_of st z).length + 12 ≤ (allocated_of st z).crc_allocated
    · rw [write_file_ok _ _ hacc hi hroom.1 hroom.2] at hf2
      have hf3 := Except.ok.inj hf2
      rw [← hf3] at h
      exact ⟨⟨hz, hroom⟩, (Except.ok.inj h).symm⟩
    · obtain ⟨t, ht⟩ := write_file_err _ (compressed_of st z).length hacc hi (by omega)
      rw [ht] at hf2
      exact Except.noConfusion hf2
  · rintro ⟨⟨hz, h25, hn⟩, rfl⟩
    have hd : st.self.def_ z st.self.filtered_data st.filtered_len st.self.compressed_data
        (data_size_of st.self) Z_DEFAULT_COMPRESSION =
        .ok (compressed_of st z ++ st.self.compressed_data.drop (compressed_of st z).length,
          (compressed_of st z).length) :=
      (def_eq_ok_iff st.self z st.self.filtered_data st.filtered_len
        st.self.compressed_data (data_size_of st.self) Z_DEFAULT_COMPRESSION _).2 ⟨hz, rfl⟩
    rw [hd, except_ok_bind]
    have hw := write_file_ok _ _ hacc hi h25 hn
    have hw2 : write_file (allocate_crc_size { st.self with compressed_data :=
        (compressed_of st z ++ st.self.compressed_data.drop (compressed_of st z).length,
          (compressed_of st z).length).1 } st.self.bit_depth st.self.colour_type)
        (compressed_of st z ++ st.self.compressed_data.drop (compressed_of st z).length,
          (compressed_of st z).length).2 = .ok (after_file (allocated_of st z)
            (compressed_of st z).length) := hw
    rw [hw2, except_ok_bind]
    rfl

theorem finish_image (f : LTPNG) (n : Nat) : (finish f n).image = f.image := rfl
theorem finish_file_size (f : LTPNG) (n : Nat) : (finish f n).file_size = n := rfl
theorem finish_width (f : LTPNG) (n : Nat) : (finish f n).width = f.width := rfl
theorem finish_height (f : LTPNG) (n : Nat) : (finish f n).height = f.height := rfl
theorem finish_crc_index (f : LTPNG) (n : Nat) : (finish f n).crc_index = 0 := rfl
theorem finish_crc_allocated (f : LTPNG) (n : Nat) : (finish f n).crc_allocated = 0 := rfl
theorem finish_crc_table_exists (f : LTPNG) (n : Nat) : (finish f n).crc_table_exists = 0 := rfl

theorem ihdr_data_length (w h d c : Nat) : (ihdr_data w h d c).length = 13 := rfl

theorem compressed_of_map_mod (st : Build) (z : ZLib) :
    (compressed_of st z).map (· % 256) = compressed_of st z := by
  unfold compressed_of
  rw [List.map_map]
  apply List.map_congr_left
  intro a _
  simp only [Function.comp_apply, Nat.mod_mod]

theorem header_bytes_allocated (st : Build) (z : ZLib) :
    (header_bytes (allocated_of st z)).map (· % 256) =
      [73, 72, 68, 82] ++ ihdr_data st.self.width st.self.height (st.self.bit_depth % 256)
        (st.self.colour_type % 256) := by
  unfold header_bytes ihdr_data
  rw [allocated_width, allocated_height, allocated_bit_depth, allocated_colour_type]
  simp only [List.map_append, be32_map_mod, List.map_cons, List.map_nil, List.append_assoc]

theorem data_bytes_allocated (st : Build) (z : ZLib) :
    (data_bytes (allocated_of st z) (compressed_of st z).length).map (· % 256) =
      [73, 68, 65, 84] ++ compressed_of st z := by
  unfold data_bytes
  rw [allocated_compressed_data, range_map_getD _ _ (by rw [List.length_append]; omega),
    List.take_left', List.map_append, compressed_of_map_mod]
  · rfl
  · rfl

theorem finished_image (st : Build) (z : ZLib) (h0 : st.self.crc_index = 0)
    (ht : TableOK st.self) (h25 : 25 ≤ (allocated_of st z).crc_allocated)
    (hn : (compressed_of st z).length + 12 ≤ (allocated_of st z).crc_allocated) :
    (finished_of st z).image = st.self.image ++
      png_file st.self.width st.self.height (st.self.bit_depth % 256)
        (st.self.colour_type % 256) (compressed_of st z) := by
  have hacc := allocated_accOK st z h0 ht
  have hi : (allocated_of st z).crc_index = 0 := by rw [allocated_crc_index, h0]
  unfold finished_of
  rw [finish_image, after_file_image _ _ hacc hi h25 hn, allocated_image,
    header_bytes_allocated, data_bytes_allocated]
  unfold png_file chunk
  rw [ihdr_data_length]
  simp only [List.append_assoc, List.length_nil, List.append_nil, List.nil_append]

theorem chunk_length (tag data : List Nat) (h : tag.length = 4) :
    (chunk tag data).length = 12 + data.length := by
  unfold chunk
  simp only [List.length_append, be32_length, h]
  omega

theorem png_file_length (w h d c : Nat) (D : List Nat) :
    (png_file w h d c D).length = 57 + D.length := by
  unfold png_file
  simp only [List.length_append, chunk_length _ _ (rfl : ([73, 72, 68, 82] : List Nat).length = 4),
    chunk_length _ _ (rfl : ([73, 68, 65, 84] : List Nat).length = 4),
    chunk_length _ _ (rfl : ([73, 69, 78, 68] : List Nat).length = 4), ihdr_data_length,
    png_signature_length, List.length_nil]
  omega

/-! ### `filter_byte` -/

theorem filter_byte_eq (s : LTPNG) (row col o : Nat) :
    s.filter_byte row col o = filter_sel s (raw_x s row col o) (raw_a s row col o)
      (raw_b s row col o) (raw_c s row col o) := rfl

theorem filter_sel_ok (s : LTPNG) (x a b c : Nat) (h : s.filter_type ≤ 4) :
    filter_sel s x a b c = .ok (filter_out s.filter_type x a b c) := by
  unfold filter_sel filter_out
  by_cases h0 : s.filter_type = 0
  · rw [if_pos h0, if_pos h0]
  rw [if_neg h0, if_neg h0]
  by_cases h1 : s.filter_type = 1
  · rw [if_pos h1, if_pos h1]
  rw [if_neg h1, if_neg h1]
  by_cases h2 : s.filter_type = 2
  · rw [if_pos h2, if_pos h2]
  rw [if_neg h2, if_neg h2]
  by_cases h3 : s.filter_type = 3
  · rw [if_pos h3, if_pos h3]
  rw [if_neg h3, if_neg h3, if_pos (by omega)]

theorem filter_sel_err (s : LTPNG) (x a b c : Nat) (h : 4 < s.filter_type) :
    filter_sel s x a b c = .error ⟨"LTPNG::filter_byte(): Invalid filter type.", s⟩ := by
  unfold filter_sel
  rw [if_neg (by omega), if_neg (by omega), if_neg (by omega), if_neg (by omega),
    if_neg (by omega)]

theorem filter_byte_ok (s : LTPNG) (row col o : Nat) (h : s.filter_type ≤ 4) :
    s.filter_byte row col o = .ok (fval s row col o) := by
  rw [filter_byte_eq, filter_sel_ok _ _ _ _ _ h]
  rfl

theorem filter_byte_err (s : LTPNG) (row col o : Nat) (h : 4 < s.filter_type) :
    s.filter_byte row col o = .error ⟨"LTPNG::filter_byte(): Invalid filter type.", s⟩ := by
  rw [filter_byte_eq, filter_sel_err _ _ _ _ _ h]

theorem fval_congr (s t : LTPNG) (row col o : Nat) (h1 : t.colour_type = s.colour_type)
    (h2 : t.bit_depth = s.bit_depth) (h3 : t.width = s.width)
    (h4 : t.uncompressed_data = s.uncompressed_data) (h5 : t.filter_type = s.filter_type) :
    fval t row col o = fval s row col o := by
  unfold fval raw_x raw_a raw_b raw_c index_base pixel_size_of
  rw [h1, h2, h3, h4, h5]

/-! ### What the build loop leaves untouched -/

theorem put_uncompressed_frame (st : Build) (v : Nat) :
    frame (st.put_uncompressed v).self = frame st.self := rfl

theorem put_filtered_frame (st : Build) (v : Nat) :
    frame (st.put_filtered v).self = frame st.self := rfl

theorem put_filter_byte_ok (st : Build) (row col o : Nat) (h : st.self.filter_type ≤ 4) :
    st.put_filter_byte row col o = .ok (st.put_filtered (fval st.self row col o)) := by
  unfold Build.put_filter_byte
  rw [filter_byte_ok _ _ _ _ h]
  rfl

theorem put_filter_byte_err (st : Build) (row col o : Nat) (h : 4 < st.self.filter_type) :
    st.put_filter_byte row col o =
      .error ⟨"LTPNG::filter_byte(): Invalid filter type.", st.self⟩ := by
  unfold Build.put_filter_byte
  rw [filter_byte_err _ _ _ _ h]
  rfl

theorem put_filter_byte_inv (st b : Build) (row col o : Nat)
    (h : st.put_filter_byte row col o = .ok b) :
    st.self.filter_type ≤ 4 ∧ b = st.put_filtered (fval st.self row col o) := by
  by_cases hf : st.self.filter_type ≤ 4
  · rw [put_filter_byte_ok _ _ _ _ hf] at h
    exact ⟨hf, (Except.ok.inj h).symm⟩
  · rw [put_filter_byte_err _ _ _ _ (by omega)] at h
    exact Except.noConfusion h

theorem put_filter_byte_frame (st b : Build) (row col o : Nat)
    (h : st.put_filter_byte row col o = .ok b) : frame b.self = frame st.self := by
  rw [(put_filter_byte_inv st b row col o h).2]
  exact put_filtered_frame _ _

theorem put_raw_list_frame (st : Build) (l : List Nat) :
    frame (put_raw_list st l).self = frame st.self := by
  induction l generalizing st with
  | nil => rfl
  | cons v l ih =>
    have : put_raw_list st (v :: l) = put_raw_list (st.put_uncompressed v) l := rfl
    rw [this, ih, put_uncompressed_frame]

theorem put_filter_list_frame (st b : Build) (row col : Nat) (offs : List Nat)
    (h : put_filter_list st row col offs = .ok b) : frame b.self = frame st.self := by
  induction offs generalizing st with
  | nil =>
    have : put_filter_list st row col [] = .ok st := rfl
    rw [this] at h
    rw [← Except.ok.inj h]
  | cons o offs ih =>
    have e : put_filter_list st row col (o :: offs) =
        (st.put_filter_byte row col o >>= fun s1 => put_filter_list s1 row col offs) := by
      unfold put_filter_list; rw [List.foldlM_cons]
    rw [e] at h
    obtain ⟨m, hm, h2⟩ := except_bind_ok_inv _ _ _ h
    rw [ih m h2, put_filter_byte_frame st m row col o hm]

theorem frame_bit_depth (a b : LTPNG) (h : frame b = frame a) : b.bit_depth = a.bit_depth := by
  have e := congrArg LTPNG.bit_depth h; exact e
theorem frame_colour_type (a b : LTPNG) (h : frame b = frame a) :
    b.colour_type = a.colour_type := by
  have e := congrArg LTPNG.colour_type h; exact e
theorem frame_filter_type (a b : LTPNG) (h : frame b = frame a) :
    b.filter_type = a.filter_type := by
  have e := congrArg LTPNG.filter_type h; exact e
theorem frame_width (a b : LTPNG) (h : frame b = frame a) : b.width = a.width := by
  have e := congrArg LTPNG.width h; exact e
theorem frame_height (a b : LTPNG) (h : frame b = frame a) : b.height = a.height := by
  have e := congrArg LTPNG.height h; exact e
theorem frame_image (a b : LTPNG) (h : frame b = frame a) : b.image = a.image := by
  have e := congrArg LTPNG.image h; exact e
theorem frame_crc_index (a b : LTPNG) (h : frame b = frame a) : b.crc_index = a.crc_index := by
  have e := congrArg LTPNG.crc_index h; exact e
theorem frame_crc_table (a b : LTPNG) (h : frame b = frame a) : b.crc_table = a.crc_table := by
  have e := congrArg LTPNG.crc_table h; exact e
theorem frame_crc_table_exists (a b : LTPNG) (h : frame b = frame a) :
    b.crc_table_exists = a.crc_table_exists := by
  have e := congrArg LTPNG.crc_table_exists h; exact e
theorem frame_compressed_data (a b : LTPNG) (h : frame b = frame a) :
    b.compressed_data = a.compressed_data := by
  have e := congrArg LTPNG.compressed_data h; exact e
theorem frame_max_val (a b : LTPNG) (h : frame b = frame a) : b.max_val = a.max_val := by
  have e := congrArg LTPNG.max_val h; exact e

/-! ### The column loop body as a list of stores -/

theorem put_raw_list_cons (st : Build) (v : Nat) (l : List Nat) :
    put_raw_list st (v :: l) = put_raw_list (st.put_uncompressed v) l := rfl

theorem put_raw_list_nil (st : Build) : put_raw_list st [] = st := rfl

theorem put_filter_list_cons (st : Build) (row col o : Nat) (offs : List Nat) :
    put_filter_list st row col (o :: offs) =
      (st.put_filter_byte row col o >>= fun s1 => put_filter_list s1 row col offs) := by
  unfold put_filter_list; rw [List.foldlM_cons]

theorem put_filter_list_nil (st : Build) (row col : Nat) :
    put_filter_list st row col [] = .ok st := rfl

theorem put_filter_list_one (st : Build) (row col o : Nat) :
    put_filter_list st row col [o] = st.put_filter_byte row col o := by
  rw [put_filter_list_cons]
  cases st.put_filter_byte row col o <;> rfl

theorem put_two_bytes_eq (st : Build) (v k : Nat) (h1 : 1 ≤ k) (h2 : k ≤ 2) :
    st.put_two_bytes v k = .ok (st.put_uncompressed ((v >>> (16 - 8 * k)) &&& 0xFF)) := by
  unfold Build.put_two_bytes get_byte_from_two_bytes
  rw [if_neg (by omega)]
  have : u8 (8 - ((k : Int) - 1) * 8) = 16 - 8 * k := by unfold u8; omega
  simp only [this]
  rfl

theorem put_raw_list_append (st : Build) (l1 l2 : List Nat) :
    put_raw_list st (l1 ++ l2) = put_raw_list (put_raw_list st l1) l2 := by
  unfold put_raw_list; exact List.foldl_append _ _ _ _

theorem put_two_bytes_1 (st : Build) (v : Nat) :
    st.put_two_bytes v 1 = .ok (st.put_uncompressed ((v >>> 8) &&& 0xFF)) :=
  put_two_bytes_eq st v 1 (by omega) (by omega)

theorem put_two_bytes_2 (st : Build) (v : Nat) :
    st.put_two_bytes v 2 = .ok (st.put_uncompressed ((v >>> 0) &&& 0xFF)) :=
  put_two_bytes_eq st v 2 (by omega) (by omega)

theorem filter_8_eq (y : Build) (row col : Nat) (c : Prop) [Decidable c]
    (hy : y.self.colour_type = 6 ↔ c) :
    create_image_filter_8 y row col =
      put_filter_list y row col ([1, 2, 3] ++ (if c then [4] else [])) := by
  unfold create_image_filter_8
  by_cases hc : c
  · rw [if_pos hc]
    simp only [List.cons_append, List.nil_append, put_filter_list_cons]
    apply except_bind_congr; intro a ha
    apply except_bind_congr; intro b hb
    apply except_bind_congr; intro c1 hc1
    have hc6 : c1.self.colour_type = 6 := by
      rw [frame_colour_type _ _ (put_filter_byte_frame _ _ _ _ _ hc1),
        frame_colour_type _ _ (put_filter_byte_frame _ _ _ _ _ hb),
        frame_colour_type _ _ (put_filter_byte_frame _ _ _ _ _ ha)]
      exact hy.2 hc
    rw [if_pos hc6]
    cases c1.put_filter_byte row col 4 <;> rfl
  · rw [if_neg hc]
    simp only [List.cons_append, List.nil_append, List.append_nil, put_filter_list_cons]
    apply except_bind_congr; intro a ha
    apply except_bind_congr; intro b hb
    apply except_bind_congr; intro c1 hc1
    have hc6 : ¬ c1.self.colour_type = 6 := by
      rw [frame_colour_type _ _ (put_filter_byte_frame _ _ _ _ _ hc1),
        frame_colour_type _ _ (put_filter_byte_frame _ _ _ _ _ hb),
        frame_colour_type _ _ (put_filter_byte_frame _ _ _ _ _ ha)]
      exact fun h => hc (hy.1 h)
    rw [if_neg hc6, put_filter_list_nil]
    rfl

theorem filter_16_eq (y : Build) (row col : Nat) (c : Prop) [Decidable c]
    (hy : y.self.colour_type = 6 ↔ c) :
    create_image_filter_16 y row col =
      put_filter_list y row col ([1, 2, 3, 4, 5, 6] ++ (if c then [7, 8] else [])) := by
  unfold create_image_filter_16
  by_cases hc : c
  · rw [if_pos hc]
    simp only [List.cons_append, List.nil_append, put_filter_list_cons]
    apply except_bind_congr; intro a ha
    apply except_bind_congr; intro b hb
    apply except_bind_congr; intro c1 hc1
    apply except_bind_congr; intro d hd
    apply except_bind_congr; intro e he
    apply except_bind_congr; intro f hf
    have hc6 : f.self.colour_type = 6 := by
      rw [frame_colour_type _ _ (put_filter_byte_frame _ _ _ _ _ hf),
        frame_colour_type _ _ (put_filter_byte_frame _ _ _ _ _ he),
        frame_colour_type _ _ (put_filter_byte_frame _ _ _ _ _ hd),
        frame_colour_type _ _ (put_filter_byte_frame _ _ _ _ _ hc1),
        frame_colour_type _ _ (put_filter_byte_frame _ _ _ _ _ hb),
        frame_colour_type _ _ (put_filter_byte_frame _ _ _ _ _ ha)]
      exact hy.2 hc
    rw [if_pos hc6]
    apply except_bind_congr; intro g _
    cases g.put_filter_byte row col 8 <;> rfl
  · rw [if_neg hc]
    simp only [List.cons_append, List.nil_append, List.append_nil, put_filter_list_cons]
    apply except_bind_congr; intro a ha
    apply except_bind_congr; intro b hb
    apply except_bind_congr; intro c1 hc1
    apply except_bind_congr; intro d hd
    apply except_bind_congr; intro e he
    apply except_bind_congr; intro f hf
    have hc6 : ¬ f.self.colour_type = 6 := by
      rw [frame_colour_type _ _ (put_filter_byte_frame _ _ _ _ _ hf),
        frame_colour_type _ _ (put_filter_byte_frame _ _ _ _ _ he),
        frame_colour_type _ _ (put_filter_byte_frame _ _ _ _ _ hd),
        frame_colour_type _ _ (put_filter_byte_frame _ _ _ _ _ hc1),
        frame_colour_type _ _ (put_filter_byte_frame _ _ _ _ _ hb),
        frame_colour_type _ _ (put_filter_byte_frame _ _ _ _ _ ha)]
      exact fun h => hc (hy.1 h)
    rw [if_neg hc6, put_filter_list_nil]
    rfl
theorem put_uncompressed_colour_type (st : Build) (v : Nat) :
    (st.put_uncompressed v).self.colour_type = st.self.colour_type := rfl

theorem store_8_eq (st : Build) (red green blue alpha : List Nat) (row col : Nat)
    (h8 : st.self.bit_depth = 8) :
    create_image_store_8 st red green blue alpha row col =
      put_raw_list st (pixel_vals st.self red green blue alpha row col) := by
  unfold create_image_store_8 pixel_vals
  have hct : ∀ v1 v2 v3 : Nat, (((st.put_uncompressed v1).put_uncompressed v2).put_uncompressed
      v3).self.colour_type = st.self.colour_type := fun _ _ _ => rfl
  simp only [h8, if_true, hct]
  by_cases h6 : st.self.colour_type = 6
  · simp only [h6, if_true, List.cons_append, List.nil_append, put_raw_list_cons,
      put_raw_list_nil]
  · simp only [h6, if_false, List.cons_append, List.nil_append, List.append_nil,
      put_raw_list_cons, put_raw_list_nil]

theorem store_16_eq (st : Build) (red green blue alpha : List Nat) (row col : Nat)
    (h8 : ¬ st.self.bit_depth = 8) :
    create_image_store_16 st red green blue alpha row col =
      .ok (put_raw_list st (pixel_vals st.self red green blue alpha row col)) := by
  unfold create_image_store_16 pixel_vals
  rw [if_neg h8]
  simp only [put_two_bytes_1, put_two_bytes_2]
  simp only [except_ok_bind]
  have hct : ∀ v1 v2 v3 v4 v5 v6 : Nat, ((((((st.put_uncompressed v1).put_uncompressed
      v2).put_uncompressed v3).put_uncompressed v4).put_uncompressed v5).put_uncompressed
      v6).self.colour_type = st.self.colour_type := by
    intro v1 v2 v3 v4 v5 v6
    rw [put_uncompressed_colour_type, put_uncompressed_colour_type, put_uncompressed_colour_type,
      put_uncompressed_colour_type, put_uncompressed_colour_type, put_uncompressed_colour_type]
  rw [hct]
  by_cases h6 : st.self.colour_type = 6
  · rw [if_pos h6, if_pos h6]
    simp only [except_ok_bind, put_two_bytes_1, put_two_bytes_2, List.cons_append,
      List.nil_append, put_raw_list_cons, put_raw_list_nil]
  · rw [if_neg h6, if_neg h6]
    simp only [List.cons_append, List.nil_append, List.append_nil,
      put_raw_list_cons, put_raw_list_nil]
    rfl

theorem pixel_8_eq (st : Build) (red green blue alpha : List Nat) (row col : Nat)
    (h8 : st.self.bit_depth = 8) :
    create_image_pixel_8 st red green blue alpha row col =
      put_filter_list (put_raw_list st (pixel_vals st.self red green blue alpha row col))
        row col (pixel_offsets st.self) := by
  unfold create_image_pixel_8
  rw [store_8_eq st _ _ _ _ _ _ h8]
  have ho : pixel_offsets st.self = [1, 2, 3] ++ (if st.self.colour_type = 6 then [4] else []) := by
    unfold pixel_offsets; rw [if_pos h8]
  rw [ho]
  exact filter_8_eq _ row col (st.self.colour_type = 6)
    (by rw [frame_colour_type _ _ (put_raw_list_frame st _)])

theorem pixel_16_eq (st : Build) (red green blue alpha : List Nat) (row col : Nat)
    (h8 : ¬ st.self.bit_depth = 8) :
    create_image_pixel_16 st red green blue alpha row col =
      put_filter_list (put_raw_list st (pixel_vals st.self red green blue alpha row col))
        row col (pixel_offsets st.self) := by
  unfold create_image_pixel_16
  rw [store_16_eq st _ _ _ _ _ _ h8, except_ok_bind]
  have ho : pixel_offsets st.self =
      [1, 2, 3, 4, 5, 6] ++ (if st.self.colour_type = 6 then [7, 8] else []) := by
    unfold pixel_offsets; rw [if_neg h8]
  rw [ho]
  exact filter_16_eq _ row col (st.self.colour_type = 6)
    (by rw [frame_colour_type _ _ (put_raw_list_frame st _)])

/-- The column loop body for a supported bit depth: the raw bytes of the pixel
are stored, then one filtered byte per offset. -/
theorem create_image_pixel_eq (st : Build) (red green blue alpha : List Nat) (row col : Nat)
    (hd : st.self.bit_depth = 8 ∨ st.self.bit_depth = 16) :
    create_image_pixel st red green blue alpha row col =
      put_filter_list (put_raw_list st (pixel_vals st.self red green blue alpha row col))
        row col (pixel_offsets st.self) := by
  unfold create_image_pixel
  rcases hd with h8 | h16
  · rw [if_pos h8, pixel_8_eq st _ _ _ _ _ _ h8]
    have e : ∀ x : Except Thrown Build, x = (x >>= fun a => pure a) := by
      intro x; cases x <;> rfl
    conv_rhs => rw [e (put_filter_list _ _ _ _)]
    apply except_bind_congr
    intro a ha
    have hb : a.self.bit_depth = 8 := by
      rw [frame_bit_depth _ _ (put_filter_list_frame _ _ _ _ _ ha),
        frame_bit_depth _ _ (put_raw_list_frame _ _)]
      exact h8
    have hb16 : ¬ a.self.bit_depth = 16 := by omega
    simp only [hb16, if_false]
  · have h8 : ¬ st.self.bit_depth = 8 := by omega
    rw [if_neg h8]
    have e : ∀ (f : Build → Except Thrown Build), ((pure st : Except Thrown Build) >>= f) = f st :=
      fun _ => rfl
    rw [e]
    simp only [h16, if_true]
    exact pixel_16_eq st _ _ _ _ _ _ h8

/-! ### Effect of the stores on the two blocks -/

theorem put_uncompressed_len (st : Build) (v : Nat) :
    (st.put_uncompressed v).uncompressed_len = (st.uncompressed_len + 1) % 4294967296 := rfl
theorem put_uncompressed_data (st : Build) (v : Nat) :
    (st.put_uncompressed v).self.uncompressed_data =
      st.self.uncompressed_data.set st.uncompressed_len (v % 256) := rfl
theorem put_uncompressed_filtered_len (st : Build) (v : Nat) :
    (st.put_uncompressed v).filtered_len = st.filtered_len := rfl
theorem put_uncompressed_filtered_data (st : Build) (v : Nat) :
    (st.put_uncompressed v).self.filtered_data = st.self.filtered_data := rfl

theorem put_filtered_len (st : Build) (v : Nat) :
    (st.put_filtered v).filtered_len = (st.filtered_len + 1) % 4294967296 := rfl
theorem put_filtered_data (st : Build) (v : Nat) :
    (st.put_filtered v).self.filtered_data =
      st.self.filtered_data.set st.filtered_len (v % 256) := rfl
theorem put_filtered_uncompressed_len (st : Build) (v : Nat) :
    (st.put_filtered v).uncompressed_len = st.uncompressed_len := rfl
theorem put_filtered_uncompressed_data (st : Build) (v : Nat) :
    (st.put_filtered v).self.uncompressed_data = st.self.uncompressed_data := rfl

theorem put_raw_list_filtered_len (st : Build) (l : List Nat) :
    (put_raw_list st l).filtered_len = st.filtered_len := by
  induction l generalizing st with
  | nil => rfl
  | cons v l ih => rw [put_raw_list_cons, ih, put_uncompressed_filtered_len]

theorem put_raw_list_filtered_data (st : Build) (l : List Nat) :
    (put_raw_list st l).self.filtered_data = st.self.filtered_data := by
  induction l generalizing st with
  | nil => rfl
  | cons v l ih => rw [put_raw_list_cons, ih, put_uncompressed_filtered_data]

theorem put_raw_list_length (st : Build) (l : List Nat) :
    (put_raw_list st l).self.uncompressed_data.length = st.self.uncompressed_data.length := by
  induction l generalizing st with
  | nil => rfl
  | cons v l ih => rw [put_raw_list_cons, ih, put_uncompressed_data, List.length_set]

theorem put_raw_list_len (st : Build) (l : List Nat)
    (h : st.uncompressed_len + l.length < 4294967296) :
    (put_raw_list st l).uncompressed_len = st.uncompressed_len + l.length := by
  induction l generalizing st with
  | nil => rfl
  | cons v l ih =>
    simp only [List.length_cons] at h
    have hp : (st.put_uncompressed v).uncompressed_len = st.uncompressed_len + 1 := by
      rw [put_uncompressed_len]; omega
    rw [put_raw_list_cons, ih _ (by rw [hp]; omega), hp, List.length_cons]
    omega

theorem put_raw_list_rawp (st : Build) (l : List Nat)
    (h : st.uncompressed_len + l.length ≤ st.self.uncompressed_data.length)
    (h2 : st.uncompressed_len + l.length < 4294967296) :
    rawp (put_raw_list st l) = rawp st ++ l.map (· % 256) := by
  induction l generalizing st with
  | nil => simp [put_raw_list_nil]
  | cons v l ih =>
    simp only [List.length_cons] at h h2
    have hp : (st.put_uncompressed v).uncompressed_len = st.uncompressed_len + 1 := by
      rw [put_uncompressed_len]; omega
    have hl : (st.put_uncompressed v).self.uncompressed_data.length =
        st.self.uncompressed_data.length := by
      rw [put_uncompressed_data, List.length_set]
    have ha : rawp (st.put_uncompressed v) = rawp st ++ [v % 256] := by
      unfold rawp
      rw [hp, put_uncompressed_data]
      exact take_set_succ _ _ _ (by omega)
    rw [put_raw_list_cons, ih _ (by rw [hp, hl]; omega) (by rw [hp]; omega), ha]
    simp

/-! ### The build loop in closed form -/

theorem put_filtered_filter_type (st : Build) (v : Nat) :
    (st.put_filtered v).self.filter_type = st.self.filter_type := rfl
theorem put_filtered_colour_type (st : Build) (v : Nat) :
    (st.put_filtered v).self.colour_type = st.self.colour_type := rfl
theorem put_filtered_bit_depth (st : Build) (v : Nat) :
    (st.put_filtered v).self.bit_depth = st.self.bit_depth := rfl
theorem put_filtered_width (st : Build) (v : Nat) :
    (st.put_filtered v).self.width = st.self.width := rfl

theorem put_filt_list_cons (st : Build) (v : Nat) (l : List Nat) :
    put_filt_list st (v :: l) = put_filt_list (st.put_filtered v) l := rfl

theorem put_filt_list_nil (st : Build) : put_filt_list st [] = st := rfl

theorem put_filt_list_frame (st : Build) (l : List Nat) :
    frame (put_filt_list st l).self = frame st.self := by
  induction l generalizing st with
  | nil => rfl
  | cons v l ih => rw [put_filt_list_cons, ih, put_filtered_frame]

theorem put_filter_list_ok (st : Build) (row col : Nat) (offs : List Nat)
    (hf : st.self.filter_type ≤ 4) :
    put_filter_list st row col offs =
      .ok (put_filt_list st (offs.map (fval st.self row col))) := by
  induction offs generalizing st with
  | nil => rfl
  | cons o offs ih =>
    rw [put_filter_list_cons, put_filter_byte_ok _ _ _ _ hf, except_ok_bind,
      ih _ (by rw [put_filtered_filter_type]; exact hf), List.map_cons, put_filt_list_cons]
    have hv : ∀ o', fval (st.put_filtered (fval st.self row col o)).self row col o' =
        fval st.self row col o' := fun o' =>
      fval_congr _ _ _ _ _ (put_filtered_colour_type _ _) (put_filtered_bit_depth _ _)
        (put_filtered_width _ _) (put_filtered_uncompressed_data _ _)
        (put_filtered_filter_type _ _)
    rw [List.map_congr_left (fun o' _ => hv o')]

theorem pixel_done_frame (st : Build) (red green blue alpha : List Nat) (row col : Nat) :
    frame (pixel_done st red green blue alpha row col).self = frame st.self := by
  unfold pixel_done
  rw [put_filt_list_frame, put_raw_list_frame]

theorem create_image_pixel_ok (st : Build) (red green blue alpha : List Nat) (row col : Nat)
    (hd : st.self.bit_depth = 8 ∨ st.self.bit_depth = 16) (hf : st.self.filter_type ≤ 4) :
    create_image_pixel st red green blue alpha row col =
      .ok (pixel_done st red green blue alpha row col) := by
  rw [create_image_pixel_eq st _ _ _ _ _ _ hd, put_filter_list_ok]
  · rfl
  · rw [frame_filter_type _ _ (put_raw_list_frame st _)]; exact hf

/-- A loop whose body succeeds on every state satisfying an invariant the body
preserves succeeds as a whole, with the fold of the bodies' results. -/
theorem foldlM_ok_of_inv {σ α : Type} (P : σ → Prop) (f : σ → α → Except Thrown σ)
    (g : σ → α → σ) (hstep : ∀ s x, P s → f s x = .ok (g s x) ∧ P (g s x))
    (l : List α) (s : σ) (hs : P s) :
    l.foldlM f s = .ok (l.foldl g s) ∧ P (l.foldl g s) := by
  induction l generalizing s with
  | nil => exact ⟨rfl, hs⟩
  | cons x l ih =>
    obtain ⟨h1, h2⟩ := hstep s x hs
    rw [List.foldlM_cons, h1, except_ok_bind, List.foldl_cons]
    exact ih _ h2

theorem row_start_frame (st : Build) : frame (row_start st).self = frame st.self := by
  unfold row_start
  rw [put_filtered_frame, put_uncompressed_frame]

theorem create_image_row_ok (s0 : LTPNG) (st : Build) (red green blue alpha : List Nat)
    (row : Nat) (hs : Supported s0 st) :
    create_image_row st red green blue alpha row = .ok (row_done st red green blue alpha row) ∧
      Supported s0 (row_done st red green blue alpha row) := by
  obtain ⟨hfr, hd, hf⟩ := hs
  have h0 : Supported s0 (row_start st) := ⟨by rw [row_start_frame]; exact hfr, hd, hf⟩
  have hw : (row_start st).self.width = st.self.width :=
    frame_width _ _ (row_start_frame st)
  have key := foldlM_ok_of_inv (Supported s0)
    (fun (st : Build) col => create_image_pixel st red green blue alpha row col)
    (fun st col => pixel_done st red green blue alpha row col)
    (by
      intro s x hsx
      obtain ⟨h1, h2, h3⟩ := hsx
      refine ⟨create_image_pixel_ok s _ _ _ _ _ _ ?_ ?_, ?_, h2, h3⟩
      · rw [frame_bit_depth _ _ h1]; exact h2
      · rw [frame_filter_type _ _ h1]; exact h3
      · rw [pixel_done_frame]; exact h1)
    (List.range st.self.width) (row_start st) h0
  have e : create_image_row st red green blue alpha row =
      (List.range (row_start st).self.width).foldlM
        (fun (st : Build) col => create_image_pixel st red green blue alpha row col)
        (row_start st) := rfl
  rw [e, hw]
  exact key

theorem build_start_bit_depth (self : LTPNG) (file : List Nat) (w h : Nat) :
    (build_start self file w h).self.bit_depth = self.bit_depth := rfl
theorem build_start_colour_type (self : LTPNG) (file : List Nat) (w h : Nat) :
    (build_start self file w h).self.colour_type = self.colour_type := rfl
theorem build_start_filter_type (self : LTPNG) (file : List Nat) (w h : Nat) :
    (build_start self file w h).self.filter_type = self.filter_type := rfl
theorem build_start_width (self : LTPNG) (file : List Nat) (w h : Nat) :
    (build_start self file w h).self.width = w := rfl
theorem build_start_height (self : LTPNG) (file : List Nat) (w h : Nat) :
    (build_start self file w h).self.height = h := rfl
theorem build_start_image (self : LTPNG) (file : List Nat) (w h : Nat) :
    (build_start self file w h).self.image = file := rfl
theorem build_start_crc_index (self : LTPNG) (file : List Nat) (w h : Nat) :
    (build_start self file w h).self.crc_index = self.crc_index := rfl
theorem build_start_crc_table (self : LTPNG) (file : List Nat) (w h : Nat) :
    (build_start self file w h).self.crc_table = self.crc_table := rfl
theorem build_start_crc_table_exists (self : LTPNG) (file : List Nat) (w h : Nat) :
    (build_start self file w h).self.crc_table_exists = self.crc_table_exists := rfl
theorem build_start_uncompressed_len (self : LTPNG) (file : List Nat) (w h : Nat) :
    (build_start self file w h).uncompressed_len = 0 := rfl
theorem build_start_filtered_len (self : LTPNG) (file : List Nat) (w h : Nat) :
    (build_start self file w h).filtered_len = 0 := rfl

theorem create_image_build_eq (self : LTPNG) (file : List Nat) (w h : Nat)
    (red green blue alpha : List Nat) :
    self.create_image_build file w h red green blue alpha =
      (List.range h).foldlM (fun (st : Build) row => create_image_row st red green blue alpha row)
        (build_start self file w h) := rfl

/-- For a supported descriptor the build loop of `create_image` completes, in
the state `build_done`. -/
theorem create_image_build_ok (self : LTPNG) (file : List Nat) (w h : Nat)
    (red green blue alpha : List Nat) (hd : self.bit_depth = 8 ∨ self.bit_depth = 16)
    (hf : self.filter_type ≤ 4) :
    self.create_image_build file w h red green blue alpha =
      .ok (build_done self file w h red green blue alpha) ∧
    frame (build_done self file w h red green blue alpha).self =
      frame (build_start self file w h).self := by
  have h0 : Supported (build_start self file w h).self (build_start self file w h) :=
    ⟨rfl, hd, hf⟩
  have key := foldlM_ok_of_inv (Supported (build_start self file w h).self)
    (fun (st : Build) row => create_image_row st red green blue alpha row)
    (fun st row => row_done st red green blue alpha row)
    (fun s x hsx => create_image_row_ok _ s red green blue alpha x hsx)
    (List.range h) (build_start self file w h) h0
  rw [create_image_build_eq]
  exact ⟨key.1, key.2.1⟩

theorem crc_iend : crc_spec [73, 69, 78, 68] = 0xAE426082 := by decide

theorem be32_iend : be32 0xAE426082 = [0xAE, 0x42, 0x60, 0x82] := by decide

theorem new_crc_table (d c f : Nat) : (LTPNG.new d c f).crc_table = List.replicate 256 0 := rfl
theorem new_crc_table_exists (d c f : Nat) : (LTPNG.new d c f).crc_table_exists = 0 := rfl
theorem new_crc_index (d c f : Nat) : (LTPNG.new d c f).crc_index = 0 := rfl
theorem new_bit_depth (d c f : Nat) : (LTPNG.new d c f).bit_depth = d := rfl
theorem new_colour_type (d c f : Nat) : (LTPNG.new d c f).colour_type = c := rfl
theorem new_filter_type (d c f : Nat) : (LTPNG.new d c f).filter_type = f := rfl

theorem new_tableOK (d c f : Nat) : TableOK (LTPNG.new d c f) := by
  unfold TableOK
  rw [new_crc_table, new_crc_table_exists, List.length_replicate]
  exact ⟨rfl, fun h => absurd rfl h⟩

/-- Facts about the state the build loop ends in, for a freshly constructed
encoder with a supported descriptor. -/
theorem build_done_facts (d c f w h : Nat) (file red green blue alpha : List Nat)
    (hd : d = 8 ∨ d = 16) (hf : f ≤ 4) :
    (LTPNG.new d c f).create_image_build file w h red green blue alpha =
        .ok (build_done (LTPNG.new d c f) file w h red green blue alpha) ∧
      (build_done (LTPNG.new d c f) file w h red green blue alpha).self.crc_index = 0 ∧
      TableOK (build_done (LTPNG.new d c f) file w h red green blue alpha).self ∧
      (build_done (LTPNG.new d c f) file w h red green blue alpha).self.image = file ∧
      (build_done (LTPNG.new d c f) file w h red green blue alpha).self.width = w ∧
      (build_done (LTPNG.new d c f) file w h red green blue alpha).self.height = h ∧
      (build_done (LTPNG.new d c f) file w h red green blue alpha).self.bit_depth = d ∧
      (build_done (LTPNG.new d c f) file w h red green blue alpha).self.colour_type = c ∧
      (build_done (LTPNG.new d c f) file w h red green blue alpha).self.filter_type = f := by
  obtain ⟨hb, hfr⟩ := create_image_build_ok (LTPNG.new d c f) file w h red green blue alpha
    (by rw [new_bit_depth]; exact hd) (by rw [new_filter_type]; exact hf)
  refine ⟨hb, ?_, ?_, ?_, ?_, ?_, ?_, ?_, ?_⟩
  · rw [frame_crc_index _ _ hfr, build_start_crc_index, new_crc_index]
  · unfold TableOK
    rw [frame_crc_table _ _ hfr, frame_crc_table_exists _ _ hfr, build_start_crc_table,
      build_start_crc_table_exists]
    exact new_tableOK d c f
  · rw [frame_image _ _ hfr, build_start_image]
  · rw [frame_width _ _ hfr, build_start_width]
  · rw [frame_height _ _ hfr, build_start_height]
  · rw [frame_bit_depth _ _ hfr, build_start_bit_depth, new_bit_depth]
  · rw [frame_colour_type _ _ hfr, build_start_colour_type, new_colour_type]
  · rw [frame_filter_type _ _ hfr, build_start_filter_type, new_filter_type]

theorem create_image_eq (self : LTPNG) (z : ZLib) (file : List Nat) (w h : Nat)
    (red green blue alpha : List Nat) :
    self.create_image z file w h red green blue alpha =
      (self.create_image_build file w h red green blue alpha >>= fun st =>
        create_image_write st z) := rfl

/-- For a supported descriptor, `create_image` on a fresh encoder completes
exactly when the compressor succeeds and the accumulator has the room the
writers need; the object returned is then `finished_of`. -/
theorem create_image_ok_iff (d c f w h : Nat) (z : ZLib) (file red green blue alpha : List Nat)
    (hd : d = 8 ∨ d = 16) (hf : f ≤ 4) (s1 : LTPNG) :
    (LTPNG.new d c f).create_image z file w h red green blue alpha = .ok s1 ↔
      (ZSuccess (build_done (LTPNG.new d c f) file w h red green blue alpha) z ∧
        25 ≤ (allocated_of (build_done (LTPNG.new d c f) file w h red green blue alpha)
          z).crc_allocated ∧
        (compressed_of (build_done (LTPNG.new d c f) file w h red green blue alpha) z).length + 12
          ≤ (allocated_of (build_done (LTPNG.new d c f) file w h red green blue alpha)
            z).crc_allocated) ∧
      s1 = finished_of (build_done (LTPNG.new d c f) file w h red green blue alpha) z := by
  obtain ⟨hb, hi, ht, _⟩ := build_done_facts d c f w h file red green blue alpha hd hf
  rw [create_image_eq, hb, except_ok_bind]
  exact create_image_write_ok_iff _ z hi ht s1

theorem mod_256_of_depth (d : Nat) (hd : d = 8 ∨ d = 16) : d % 256 = d := by omega
theorem mod_256_of_colour (c : Nat) (hc : c = 2 ∨ c = 6) : c % 256 = c := by omega

/-- The bytes in the stream after a completed `create_image`. -/
theorem create_image_image (d c f w h : Nat) (z : ZLib) (file red green blue alpha : List Nat)
    (hd : d = 8 ∨ d = 16) (hc : c = 2 ∨ c = 6) (hf : f ≤ 4) (s1 : LTPNG)
    (hdone : (LTPNG.new d c f).create_image z file w h red green blue alpha = .ok s1) :
    s1.image = file ++ png_file w h d c
      (compressed_of (build_done (LTPNG.new d c f) file w h red green blue alpha) z) := by
  obtain ⟨_, hi, ht, him, hw, hh, hbd, hct, _⟩ :=
    build_done_facts d c f w h file red green blue alpha hd hf
  obtain ⟨⟨_, h25, hn⟩, hs1⟩ :=
    (create_image_ok_iff d c f w h z file red green blue alpha hd hf s1).1 hdone
  rw [hs1, finished_image _ z hi ht h25 hn, him, hw, hh, hbd, hct, mod_256_of_depth d hd,
    mod_256_of_colour c hc]

theorem ready_with_accOK (buf : List Nat) (i : Nat) (h1 : i ≤ buf.length)
    (h2 : buf.length < 4294967296) : AccOK (ready_with buf i) :=
  ⟨h1, h2, rfl, new_tableOK 8 2 0⟩

theorem map_mod_of_bytes (D : List Nat) (h : ∀ b ∈ D, b < 256) : D.map (· % 256) = D := by
  induction D with
  | nil => rfl
  | cons a D ih =>
    rw [List.map_cons, ih (fun b hb => h b (List.mem_cons_of_mem _ hb)),
      Nat.mod_eq_of_lt (h a (List.mem_cons_self _ _))]

theorem allocated_value (d c f w h : Nat) (z : ZLib) (file red green blue alpha : List Nat)
    (hd : d = 8 ∨ d = 16) (hf : f ≤ 4) :
    (allocated_of (build_done (LTPNG.new d c f) file w h red green blue alpha) z).crc_allocated =
      u32 ((w : Int) * h * ((if c = 2 then 3 else 4 : Nat) : Int) * (3 - 16 / (d : Int))
        + h + 4 + 1) := by
  obtain ⟨_, _, _, _, hw, hh, hbd, hct, _⟩ :=
    build_done_facts d c f w h file red green blue alpha hd hf
  rw [allocated_crc_allocated, hw, hh, hbd, hct]

theorem compressed_of_length_le (st : Build) (z : ZLib) :
    (compressed_of st z).length ≤
      (z.deflate (st.self.filtered_data.take st.filtered_len) (data_size_of st.self)).2.length := by
  unfold compressed_of
  rw [List.length_map, List.length_take]
  exact Nat.min_le_right _ _

theorem create_image_file_size (d c f w h : Nat) (z : ZLib)
    (file red green blue alpha : List Nat) (hd : d = 8 ∨ d = 16) (hf : f ≤ 4) (s1 : LTPNG)
    (hdone : (LTPNG.new d c f).create_image z file w h red green blue alpha = .ok s1) :
    s1.file_size =
      (compressed_of (build_done (LTPNG.new d c f) file w h red green blue alpha) z).length := by
  rw [((create_image_ok_iff d c f w h z file red green blue alpha hd hf s1).1 hdone).2]
  unfold finished_of
  rw [finish_file_size]

/-- C1: for a valid descriptor, when `create_image` completes (which
includes the compressor succeeding with `n` bytes, stored in `file_size`), the
bytes appended to the stream are the 8 signature bytes, the 25-byte header
chunk, one data chunk of `12 + n` bytes and the 12-byte trailer chunk, in this
order and nothing else; `57 + n` bytes in all. -/
theorem create_image_stream_layout (d c f w h : Nat) (z : ZLib)
    (file red green blue alpha : List Nat)
    (hd : d = 8 ∨ d = 16) (hc : c = 2 ∨ c = 6) (hf : f ≤ 4) (_hw : 1 ≤ w) (_hh : 1 ≤ h)
    (s1 : LTPNG)
    (hdone : (LTPNG.new d c f).create_image z file w h red green blue alpha = .ok s1) :
    s1.image = file ++ (png_signature ++ chunk [73, 72, 68, 82] (ihdr_data w h d c) ++
        chunk [73, 68, 65, 84]
          (compressed_of (build_done (LTPNG.new d c f) file w h red green blue alpha) z) ++
        chunk [73, 69, 78, 68] []) ∧
      png_signature = [137, 80, 78, 71, 13, 10, 26, 10] ∧
      (chunk [73, 72, 68, 82] (ihdr_data w h d c)).length = 25 ∧
      s1.file_size =
        (compressed_of (build_done (LTPNG.new d c f) file w h red green blue alpha) z).length ∧
      (chunk [73, 68, 65, 84]
        (compressed_of (build_done (LTPNG.new d c f) file w h red green blue alpha) z)).length =
        12 + s1.file_size ∧
      (chunk [73, 69, 78, 68] []).length = 12 ∧
      s1.image.length = file.length + (57 + s1.file_size) := by
  have himg := create_image_image d c f w h z file red green blue alpha hd hc hf s1 hdone
  have hfs := create_image_file_size d c f w h z file red green blue alpha hd hf s1 hdone
  refine ⟨himg, rfl, ?_, hfs, ?_, ?_, ?_⟩
  · rw [chunk_length [73, 72, 68, 82] _ rfl, ihdr_data_length]
  · rw [chunk_length [73, 68, 65, 84] _ rfl, hfs]
  · rw [chunk_length [73, 69, 78, 68] _ rfl]; rfl
  · rw [himg, List.length_append, png_file_length, hfs]
theorem zlib_const_success (st : Build) : ZSuccess st zlib_const := ⟨rfl, rfl, rfl⟩

theorem zlib_const_length (st : Build) : (compressed_of st zlib_const).length ≤ 3 :=
  compressed_of_length_le st zlib_const

/-- On a 3x2, 8-bit RGB image with a three-byte compressor output `create_image`
completes. -/
theorem create_image_3x2_completes (file red green blue alpha : List Nat) (f : Nat) (hf : f ≤ 4) :
    (LTPNG.new 8 2 f).create_image zlib_const file 3 2 red green blue alpha =
      .ok (finished_of (build_done (LTPNG.new 8 2 f) file 3 2 red green blue alpha) zlib_const) := by
  have hA := allocated_value 8 2 f 3 2 zlib_const file red green blue alpha (Or.inl rfl) hf
  have hA25 : u32 (((3 : Nat) : Int) * (2 : Nat) * ((if (2 : Nat) = 2 then 3 else 4 : Nat) : Int) *
      (3 - 16 / ((8 : Nat) : Int)) + (2 : Nat) + 4 + 1) = 25 := by decide
  rw [hA25] at hA
  have hl := zlib_const_length (build_done (LTPNG.new 8 2 f) file 3 2 red green blue alpha)
  exact (create_image_ok_iff 8 2 f 3 2 zlib_const file red green blue alpha (Or.inl rfl) hf _).2
    ⟨⟨zlib_const_success _, by rw [hA], by rw [hA]; omega⟩, rfl⟩

theorem create_image_stream_layout_witness :
    (finished_of (build_done (LTPNG.new 8 2 0) [] 3 2 [10, 20, 30, 40, 50, 60]
        [11, 21, 31, 41, 51, 61] [12, 22, 32, 42, 52, 62] []) zlib_const).image.length =
      ([] : List Nat).length + (57 + (finished_of (build_done (LTPNG.new 8 2 0) [] 3 2
        [10, 20, 30, 40, 50, 60] [11, 21, 31, 41, 51, 61] [12, 22, 32, 42, 52, 62] [])
        zlib_const).file_size) :=
  (create_image_stream_layout 8 2 0 3 2 zlib_const [] [10, 20, 30, 40, 50, 60]
    [11, 21, 31, 41, 51, 61] [12, 22, 32, 42, 52, 62] [] (Or.inl rfl) (Or.inl rfl) (by decide)
    (by decide) (by decide) _
    (create_image_3x2_completes [] _ _ _ [] 0 (by decide))).2.2.2.2.2.2

theorem data_bytes_take (D : List Nat) :
    [73, 68, 65, 84] ++ (List.range D.length).map (fun i => D.getD i 0) = [73, 68, 65, 84] ++ D := by
  rw [range_map_getD D D.length (Nat.le_refl _), List.take_length]

/-- C3: with enough accumulator room, `write_data_chunk` on a byte sequence `D`
of length `n` appends the 4 big-endian bytes of `n`, the tag `IDAT`, the bytes
of `D` unchanged and the 4 big-endian bytes of the CRC-32 of tag and data; and
a completed `create_image` holds exactly one such chunk, over the whole
compressor output, between the header chunk and the trailer chunk. -/
theorem write_data_chunk_single (s : LTPNG) (D : List Nat) (hs : AccOK s)
    (hD : ∀ b ∈ D, b < 256) (h1 : s.crc_index + 4 ≤ s.crc_allocated)
    (h2 : D.length + 8 ≤ s.crc_allocated)
    (d c f w h : Nat) (z : ZLib) (file red green blue alpha : List Nat)
    (hd : d = 8 ∨ d = 16) (hc : c = 2 ∨ c = 6) (hf : f ≤ 4) (s1 : LTPNG)
    (hdone : (LTPNG.new d c f).create_image z file w h red green blue alpha = .ok s1) :
    (∃ s2, s.write_data_chunk D D.length = .ok s2 ∧
      s2.image = s.image ++ (be32 D.length ++ [73, 68, 65, 84] ++ D ++
        be32 (crc_spec ([73, 68, 65, 84] ++ D)))) ∧
    s1.image = file ++ png_signature ++ chunk [73, 72, 68, 82] (ihdr_data w h d c) ++
      (be32 s1.file_size ++ [73, 68, 65, 84] ++
        compressed_of (build_done (LTPNG.new d c f) file w h red green blue alpha) z ++
        be32 (crc_spec ([73, 68, 65, 84] ++
          compressed_of (build_done (LTPNG.new d c f) file w h red green blue alpha) z))) ++
      chunk [73, 69, 78, 68] [] := by
  constructor
  · refine ⟨_, write_data_chunk_ok s D D.length hs h1 h2, ?_⟩
    rw [after_chunk_image s _ _ hs h1
      (by simp only [List.length_append, List.length_map, List.length_range, List.length_cons,
        List.length_nil]; omega), data_bytes_take D, List.map_append, map_mod_of_bytes D hD]
    have e : ([73, 68, 65, 84] : List Nat).map (· % 256) = [73, 68, 65, 84] := rfl
    rw [e]
    simp only [List.append_assoc]
  · rw [create_image_image d c f w h z file red green blue alpha hd hc hf s1 hdone,
      create_image_file_size d c f w h z file red green blue alpha hd hf s1 hdone]
    unfold png_file
    rw [show chunk [73, 68, 65, 84]
        (compressed_of (build_done (LTPNG.new d c f) file w h red green blue alpha) z) =
      be32 (compressed_of (build_done (LTPNG.new d c f) file w h red green blue alpha) z).length ++
        [73, 68, 65, 84] ++
        compressed_of (build_done (LTPNG.new d c f) file w h red green blue alpha) z ++
        be32 (crc_spec ([73, 68, 65, 84] ++
          compressed_of (build_done (LTPNG.new d c f) file w h red green blue alpha) z)) from rfl]
    simp only [List.append_assoc]

theorem write_data_chunk_single_witness :
    ∃ s2, (ready_with (List.replicate 30 0) 0).write_data_chunk [120, 156, 1]
        ([120, 156, 1] : List Nat).length = .ok s2 ∧
      s2.image = (ready_with (List.replicate 30 0) 0).image ++
        (be32 ([120, 156, 1] : List Nat).length ++ [73, 68, 65, 84] ++ [120, 156, 1] ++
          be32 (crc_spec ([73, 68, 65, 84] ++ [120, 156, 1]))) :=
  (write_data_chunk_single (ready_with (List.replicate 30 0) 0) [120, 156, 1]
    (ready_with_accOK _ 0 (by decide) (by decide)) (by decide) (by decide) (by decide)
    8 2 0 3 2 zlib_const [] [10, 20, 30, 40, 50, 60] [11, 21, 31, 41, 51, 61]
    [12, 22, 32, 42, 52, 62] [] (Or.inl rfl) (Or.inl rfl) (by decide) _
    (create_image_3x2_completes [] _ _ _ [] 0 (by decide))).1

theorem be32_zero : be32 0 = [0, 0, 0, 0] := by decide

/-- C4: `get_crc` over the accumulator content 73,69,78,68 is `0xAE426082`, and
`write_end_chunk` (with room for its 12 bytes) appends exactly
00 00 00 00 49 45 4E 44 AE 42 60 82. -/
theorem write_end_chunk_bytes (s t : LTPNG) (hs : AccOK s) (ha : acc s = [73, 69, 78, 68])
    (ht : AccOK t) (h1 : t.crc_index + 4 ≤ t.crc_allocated) (h2 : 8 ≤ t.crc_allocated) :
    s.get_crc.1 = 0xAE426082 ∧
    ∃ t1, t.write_end_chunk = .ok t1 ∧
      t1.image = t.image ++ [0x00, 0x00, 0x00, 0x00, 0x49, 0x45, 0x4E, 0x44, 0xAE, 0x42, 0x60, 0x82] := by
  constructor
  · rw [get_crc_fst s hs.2.2.2 (by rw [hs.2.2.1]; exact hs.1) (by rw [ha]; decide), ha]
    exact crc_iend
  · refine ⟨_, write_end_chunk_ok t ht h1 h2, ?_⟩
    rw [after_chunk_image t _ _ ht h1 (by show 4 ≤ _; omega)]
    have e : ([73, 69, 78, 68] : List Nat).map (· % 256) = [73, 69, 78, 68] := rfl
    rw [e, crc_iend, be32_iend, be32_zero]
    rfl

theorem write_end_chunk_bytes_witness :
    (ready_with [73, 69, 78, 68, 0, 0, 0, 0] 4).get_crc.1 = 0xAE426082 ∧
    ∃ t1, (ready_with (List.replicate 12 0) 8).write_end_chunk = .ok t1 ∧
      t1.image = (ready_with (List.replicate 12 0) 8).image ++
        [0x00, 0x00, 0x00, 0x00, 0x49, 0x45, 0x4E, 0x44, 0xAE, 0x42, 0x60, 0x82] :=
  write_end_chunk_bytes (ready_with [73, 69, 78, 68, 0, 0, 0, 0] 4)
    (ready_with (List.replicate 12 0) 8)
    (ready_with_accOK _ 4 (by decide) (by decide)) (by decide)
    (ready_with_accOK _ 8 (by decide) (by decide)) (by decide) (by decide)

/-- C5: the table-driven checksum of `get_crc` over an accumulator holding the
bytes `B` is the bitwise reflected CRC-32 of `B` (polynomial `0xEDB88320`,
start `0xFFFFFFFF`, final complement); byte by byte, one lookup in the table
built by `make_crc_table` XOR `c >> 8` is eight bitwise steps on `c XOR b`. -/
theorem crc_table_refines_bitwise (s : LTPNG) (B : List Nat) (hs : AccOK s) (hB : acc s = B)
    (hbytes : ∀ b ∈ B, b < 256) (t : LTPNG) (ht : t.crc_table.length = 256) (c b : Nat)
    (hb : b < 256) :
    s.get_crc.1 = crc_spec B ∧
    (s.update_crc 0xFFFFFFFF s.crc_buf s.crc_index).1 ^^^ 0xFFFFFFFF = crc_spec B ∧
    t.make_crc_table.crc_table.getD ((c ^^^ b) &&& 0xFF) 0 ^^^ (c >>> 8) =
      crc_spec_step^[8] (c ^^^ b) := by
  have hlen : s.crc_index ≤ s.crc_buf.length := by rw [hs.2.2.1]; exact hs.1
  have hb2 : ∀ x ∈ s.crc_buf.take s.crc_index, x < 256 := by
    intro x hx
    exact hbytes x (by rw [← hB]; exact hx)
  refine ⟨?_, ?_, ?_⟩
  · rw [get_crc_fst s hs.2.2.2 hlen (by rw [hB]; exact hbytes), hB]
  · rw [update_crc_fst s _ _ _ hs.2.2.2 hlen hb2, crc_run_eq_spec]
    rw [← hB]; rfl
  · rw [make_crc_table_table t ht, table_lookup_step c b hb]
    have : crc_bit_step = crc_spec_step := funext crc_bit_step_eq_spec
    rw [this]

theorem crc_table_refines_bitwise_witness :
    (ready_with [73, 69, 78, 68, 0, 0, 0, 0] 4).get_crc.1 = crc_spec [73, 69, 78, 68] ∧
    ((ready_with [73, 69, 78, 68, 0, 0, 0, 0] 4).update_crc 0xFFFFFFFF
      (ready_with [73, 69, 78, 68, 0, 0, 0, 0] 4).crc_buf
      (ready_with [73, 69, 78, 68, 0, 0, 0, 0] 4).crc_index).1 ^^^ 0xFFFFFFFF =
      crc_spec [73, 69, 78, 68] ∧
    (LTPNG.new 8 2 0).make_crc_table.crc_table.getD ((0xFFFFFFFF ^^^ 73) &&& 0xFF) 0 ^^^
      (0xFFFFFFFF >>> 8) = crc_spec_step^[8] (0xFFFFFFFF ^^^ 73) :=
  crc_table_refines_bitwise (ready_with [73, 69, 78, 68, 0, 0, 0, 0] 4) [73, 69, 78, 68]
    (ready_with_accOK _ 4 (by decide) (by decide)) (by decide) (by decide)
    (LTPNG.new 8 2 0) (new_tableOK 8 2 0).1 0xFFFFFFFF 73 (by decide)

theorem header_acc_bytes (w h bd ct il : Nat) :
    ([73, 72, 68, 82] ++ be32 w ++ be32 h ++ [bd, ct, 0, 0, il]).map (· % 256) =
      [73, 72, 68, 82] ++ be32 w ++ be32 h ++ [bd % 256, ct % 256, 0, 0, il % 256] := by
  simp only [List.map_append, be32_map_mod, List.map_cons, List.map_nil]

/-- C6: in each of the three chunk writers, when `get_crc` is evaluated the
accumulator `crc_buf[0 .. crc_index)` holds exactly the chunk's 4 type-tag bytes
followed by its data bytes, whatever the accumulator held before the call: the
length bytes and everything written earlier are not part of it. -/
theorem chunk_crc_covers_tag_and_data (s : LTPNG) (bd ct il : Nat) (cd : List Nat) (n : Nat)
    (hs : AccOK s) (h1 : s.crc_index + 4 ≤ s.crc_allocated) (h17 : 17 ≤ s.crc_allocated)
    (hn : n ≤ cd.length) (hroom : n + 4 ≤ s.crc_allocated) :
    (∃ m, s.write_header_chunk_body bd ct il = .ok m ∧
      s.write_header_chunk bd ct il = m.get_crc.2.fwrite_32 m.get_crc.1 ∧
      acc m = [73, 72, 68, 82] ++ be32 s.width ++ be32 s.height ++
        [bd % 256, ct % 256, 0, 0, il % 256]) ∧
    (∃ m, s.write_data_chunk_body cd n = .ok m ∧
      s.write_data_chunk cd n = m.get_crc.2.fwrite_32 m.get_crc.1 ∧
      acc m = [73, 68, 65, 84] ++ (cd.take n).map (· % 256)) ∧
    (∃ m, s.write_end_chunk_body = .ok m ∧
      s.write_end_chunk = m.get_crc.2.fwrite_32 m.get_crc.1 ∧
      acc m = [73, 69, 78, 68]) := by
  refine ⟨?_, ?_, ?_⟩
  · have hb : s.write_header_chunk_body bd ct il = .ok (emit (emit s (be32 13)).crc_init
        ([73, 72, 68, 82] ++ be32 s.width ++ be32 s.height ++ [bd, ct, 0, 0, il])) := by
      rw [write_header_chunk_body_eq]
      have h := chunk_body_ok s 13 (fun s1 => [73, 72, 68, 82] ++ be32 s1.width ++
        be32 s1.height ++ [bd, ct, 0, 0, il]) hs h1 (by rw [header_bytes_length]; exact h17)
      simp only [emit_width, emit_height] at h
      exact h
    refine ⟨_, hb, ?_, ?_⟩
    · unfold write_header_chunk
      rw [hb, except_ok_bind]
    · rw [acc_chunk_body s 13 _ hs h1 (by rw [header_bytes_length]; exact h17),
        header_acc_bytes]
  · have hlen : ([73, 68, 65, 84] ++ (List.range n).map (fun i => cd.getD i 0)).length = n + 4 := by
      simp only [List.length_append, List.length_map, List.length_range, List.length_cons,
        List.length_nil]
      omega
    have hb : s.write_data_chunk_body cd n = .ok (emit (emit s (be32 n)).crc_init
        ([73, 68, 65, 84] ++ (List.range n).map (fun i => cd.getD i 0))) := by
      rw [write_data_chunk_body_eq]
      exact chunk_body_ok s n (fun _ => [73, 68, 65, 84] ++
        (List.range n).map (fun i => cd.getD i 0)) hs h1 (by rw [hlen]; exact hroom)
    refine ⟨_, hb, ?_, ?_⟩
    · unfold write_data_chunk
      rw [hb, except_ok_bind]
    · rw [acc_chunk_body s n _ hs h1 (by rw [hlen]; exact hroom), range_map_getD cd n hn,
        List.map_append]
      rfl
  · have hb : s.write_end_chunk_body = .ok (emit (emit s (be32 0)).crc_init [73, 69, 78, 68]) := by
      rw [write_end_chunk_body_eq]
      exact chunk_body_ok s 0 (fun _ => [73, 69, 78, 68]) hs h1 (by show 4 ≤ _; omega)
    refine ⟨_, hb, ?_, ?_⟩
    · unfold write_end_chunk
      rw [hb, except_ok_bind]
    · rw [acc_chunk_body s 0 _ hs h1 (by show 4 ≤ _; omega)]
      rfl

theorem chunk_crc_covers_tag_and_data_witness :
    ∃ m, (ready_with [137, 80, 78, 71, 13, 10, 26, 10, 9, 9, 9, 9, 9, 9, 9, 9, 9, 9, 9, 9] 8
        ).write_end_chunk_body = .ok m ∧
      (ready_with [137, 80, 78, 71, 13, 10, 26, 10, 9, 9, 9, 9, 9, 9, 9, 9, 9, 9, 9, 9] 8
        ).write_end_chunk = m.get_crc.2.fwrite_32 m.get_crc.1 ∧
      acc m = [73, 69, 78, 68] :=
  (chunk_crc_covers_tag_and_data
    (ready_with [137, 80, 78, 71, 13, 10, 26, 10, 9, 9, 9, 9, 9, 9, 9, 9, 9, 9, 9, 9] 8)
    8 2 0 [120, 156, 1] 3 (ready_with_accOK _ 8 (by decide) (by decide)) (by decide) (by decide)
    (by decide) (by decide)).2.2

/-- With room for the tag and data of the header chunk but not for its CRC,
`write_header_chunk` throws while writing the CRC bytes. -/
theorem write_header_chunk_crc_overflow (s : LTPNG) (bd ct il : Nat) (hs : AccOK s)
    (h1 : s.crc_index + 4 ≤ s.crc_allocated) (h17 : 17 ≤ s.crc_allocated)
    (h21 : s.crc_allocated < 21) :
    ∃ t, s.write_header_chunk bd ct il = .error t ∧
      t.what = "LTPNG: CRC buffer out of room, was allocate_crc_size() called?" ∧
      t.self.image = s.image ++ (be32 13 ++
        ([73, 72, 68, 82] ++ be32 s.width ++ be32 s.height ++ [bd % 256, ct % 256, 0, 0, il % 256]) ++
        (be32 (crc_spec ([73, 72, 68, 82] ++ be32 s.width ++ be32 s.height ++
          [bd % 256, ct % 256, 0, 0, il % 256]))).take (s.crc_allocated - 17)) := by
  have hlen : ([73, 72, 68, 82] ++ be32 s.width ++ be32 s.height ++ [bd, ct, 0, 0, il]).length = 17 :=
    rfl
  have hb : s.write_header_chunk_body bd ct il = .ok (emit (emit s (be32 13)).crc_init
      ([73, 72, 68, 82] ++ be32 s.width ++ be32 s.height ++ [bd, ct, 0, 0, il])) := by
    rw [write_header_chunk_body_eq]
    have h := chunk_body_ok s 13 (fun s1 => [73, 72, 68, 82] ++ be32 s1.width ++
      be32 s1.height ++ [bd, ct, 0, 0, il]) hs h1 (by rw [header_bytes_length]; exact h17)
    simp only [emit_width, emit_height] at h
    exact h
  have hi := body_index s 13 _ hs (by rw [hlen]; exact h17)
  have hA := body_allocated s 13
    ([73, 72, 68, 82] ++ be32 s.width ++ be32 s.height ++ [bd, ct, 0, 0, il])
  have hcrc := get_crc_chunk_body s 13 _ hs h1 (by rw [hlen]; exact h17)
  rw [header_acc_bytes] at hcrc
  have he := fwrite_list_err
    (emit (emit s (be32 13)).crc_init
      ([73, 72, 68, 82] ++ be32 s.width ++ be32 s.height ++ [bd, ct, 0, 0, il])).get_crc.2
    (be32 (emit (emit s (be32 13)).crc_init
      ([73, 72, 68, 82] ++ be32 s.width ++ be32 s.height ++ [bd, ct, 0, 0, il])).get_crc.1)
    (by rw [get_crc_crc_index, get_crc_crc_allocated, hi, hA, hlen]; exact h17)
    (by rw [get_crc_crc_allocated, hA]; exact hs.2.1)
    (by rw [get_crc_crc_index, get_crc_crc_allocated, hi, hA, hlen, be32_length]; exact h21)
  unfold write_header_chunk
  rw [hb, except_ok_bind, fwrite_32_eq_list]
  refine ⟨_, he, rfl, ?_⟩
  show (emit _ _).image = _
  rw [emit_image, get_crc_image, emit_image, crc_init_image, emit_image, be32_map_mod,
    header_acc_bytes, get_crc_crc_allocated, get_crc_crc_index, hi, hA, hlen, hcrc,
    List.map_take, be32_map_mod]
  simp only [List.append_assoc]

/-- When the accumulator allocated by `allocate_crc_size` has between 17 and 20
bytes, `create_image` throws in the middle of the header chunk's CRC: the
stream ends after the signature, the length, the tag, the 13 data bytes and the
first `crc_allocated - 17` CRC bytes. -/
theorem create_image_header_truncated (d c f w h : Nat) (z : ZLib)
    (file red green blue alpha : List Nat) (hd : d = 8 ∨ d = 16) (hc : c = 2 ∨ c = 6)
    (hf : f ≤ 4)
    (hz : ZSuccess (build_done (LTPNG.new d c f) file w h red green blue alpha) z)
    (h17 : 17 ≤ (allocated_of (build_done (LTPNG.new d c f) file w h red green blue alpha)
      z).crc_allocated)
    (h21 : (allocated_of (build_done (LTPNG.new d c f) file w h red green blue alpha)
      z).crc_allocated < 21) :
    ∃ t, (LTPNG.new d c f).create_image z file w h red green blue alpha = .error t ∧
      t.what = "LTPNG: CRC buffer out of room, was allocate_crc_size() called?" ∧
      t.self.image = file ++ (png_signature ++ (be32 13 ++
        ([73, 72, 68, 82] ++ ihdr_data w h d c) ++
        (be32 (crc_spec ([73, 72, 68, 82] ++ ihdr_data w h d c))).take
          ((allocated_of (build_done (LTPNG.new d c f) file w h red green blue alpha)
            z).crc_allocated - 17))) := by
  obtain ⟨hb, hi, ht, him, hw, hh, hbd, hct, _⟩ :=
    build_done_facts d c f w h file red green blue alpha hd hf
  have hacc := allocated_accOK _ z hi ht
  have hi2 : (allocated_of (build_done (LTPNG.new d c f) file w h red green blue alpha)
      z).crc_index = 0 := by rw [allocated_crc_index, hi]
  obtain ⟨ha, hia, hAa⟩ := sig_state _ hacc hi2 (by omega)
  obtain ⟨t, ht1, ht2, ht3⟩ := write_header_chunk_crc_overflow
    (emit (allocated_of (build_done (LTPNG.new d c f) file w h red green blue alpha) z)
      png_signature)
    (emit (allocated_of (build_done (LTPNG.new d c f) file w h red green blue alpha) z)
      png_signature).bit_depth
    (emit (allocated_of (build_done (LTPNG.new d c f) file w h red green blue alpha) z)
      png_signature).colour_type 0 ha (by rw [hia, hAa]; omega) (by rw [hAa]; exact h17)
    (by rw [hAa]; exact h21)
  have hdef : (build_done (LTPNG.new d c f) file w h red green blue alpha).self.def_ z
      (build_done (LTPNG.new d c f) file w h red green blue alpha).self.filtered_data
      (build_done (LTPNG.new d c f) file w h red green blue alpha).filtered_len
      (build_done (LTPNG.new d c f) file w h red green blue alpha).self.compressed_data
      (data_size_of (build_done (LTPNG.new d c f) file w h red green blue alpha).self)
      Z_DEFAULT_COMPRESSION =
      .ok (compressed_of (build_done (LTPNG.new d c f) file w h red green blue alpha) z ++
        (build_done (LTPNG.new d c f) file w h red green blue alpha).self.compressed_data.drop
          (compressed_of (build_done (LTPNG.new d c f) file w h red green blue alpha) z).length,
        (compressed_of (build_done (LTPNG.new d c f) file w h red green blue alpha) z).length) :=
    (def_eq_ok_iff _ z _ _ _ _ Z_DEFAULT_COMPRESSION _).2 ⟨hz, rfl⟩
  have hwf : write_file (allocated_of (build_done (LTPNG.new d c f) file w h red green blue alpha)
      z) (compressed_of (build_done (LTPNG.new d c f) file w h red green blue alpha) z).length =
      .error t := by
    rw [write_file_eq, write_png_signature_eq,
      fwrite_list_ok _ _ (by rw [hi2, png_signature_length]; omega) hacc.2.1, except_ok_bind, ht1]
    rfl
  refine ⟨t, ?_, ht2, ?_⟩
  · rw [create_image_eq, hb, except_ok_bind, create_image_write_eq, hdef, except_ok_bind]
    have hwf2 : write_file (allocate_crc_size
        { (build_done (LTPNG.new d c f) file w h red green blue alpha).self with
          compressed_data :=
            (compressed_of (build_done (LTPNG.new d c f) file w h red green blue alpha) z ++
              (build_done (LTPNG.new d c f) file w h red green blue alpha).self.compressed_data.drop
                (compressed_of (build_done (LTPNG.new d c f) file w h red green blue alpha)
                  z).length,
            (compressed_of (build_done (LTPNG.new d c f) file w h red green blue alpha)
              z).length).1 }
        (build_done (LTPNG.new d c f) file w h red green blue alpha).self.bit_depth
        (build_done (LTPNG.new d c f) file w h red green blue alpha).self.colour_type)
        (compressed_of (build_done (LTPNG.new d c f) file w h red green blue alpha) z ++
          (build_done (LTPNG.new d c f) file w h red green blue alpha).self.compressed_data.drop
            (compressed_of (build_done (LTPNG.new d c f) file w h red green blue alpha) z).length,
          (compressed_of (build_done (LTPNG.new d c f) file w h red green blue alpha)
            z).length).2 = .error t := hwf
    rw [hwf2]
    rfl
  · rw [ht3, emit_image, emit_width, emit_height, emit_bit_depth, emit_colour_type,
      emit_crc_allocated, allocated_image, allocated_width, allocated_height,
      allocated_bit_depth, allocated_colour_type, him, hw, hh, hbd, hct,
      mod_256_of_depth d hd, mod_256_of_colour c hc]
    have hsig : png_signature.map (· % 256) = png_signature := rfl
    rw [hsig]
    unfold ihdr_data
    simp only [List.append_assoc, Nat.zero_mod]

set_option maxRecDepth 100000 in
theorem header_2x2_bytes :
    ([] : List Nat) ++ (png_signature ++ (be32 13 ++
        ([73, 72, 68, 82] ++ ihdr_data 2 2 8 2) ++
        (be32 (crc_spec ([73, 72, 68, 82] ++ ihdr_data 2 2 8 2))).take (19 - 17))) =
      [137, 80, 78, 71, 13, 10, 26, 10, 0, 0, 0, 13, 73, 72, 68, 82, 0, 0, 0, 2, 0, 0, 0, 2,
        8, 2, 0, 0, 0, 253, 212] := by decide

/-- C2 at the image the claim names (2x2, 8-bit, RGB, filter None, any samples,
a compressor that succeeds): `create_image` throws "CRC buffer out of room"
after 31 bytes; the stream holds the signature, the length field, the tag, the
13 data bytes and only the first two of the four CRC bytes of the header
chunk. -/
theorem create_image_2x2_header_incomplete (red green blue alpha : List Nat) :
    ∃ t, (LTPNG.new 8 2 0).create_image zlib_const [] 2 2 red green blue alpha = .error t ∧
      t.what = "LTPNG: CRC buffer out of room, was allocate_crc_size() called?" ∧
      t.self.image = [137, 80, 78, 71, 13, 10, 26, 10, 0, 0, 0, 13, 73, 72, 68, 82,
        0, 0, 0, 2, 0, 0, 0, 2, 8, 2, 0, 0, 0, 253, 212] ∧
      t.self.image.length = 31 := by
  have hA := allocated_value 8 2 0 2 2 zlib_const [] red green blue alpha (Or.inl rfl)
    (by decide)
  have hA19 : u32 (((2 : Nat) : Int) * (2 : Nat) * ((if (2 : Nat) = 2 then 3 else 4 : Nat) : Int) *
      (3 - 16 / ((8 : Nat) : Int)) + (2 : Nat) + 4 + 1) = 19 := by decide
  rw [hA19] at hA
  obtain ⟨t, h1, h2, h3⟩ := create_image_header_truncated 8 2 0 2 2 zlib_const [] red green blue
    alpha (Or.inl rfl) (Or.inl rfl) (by decide) (zlib_const_success _) (by rw [hA]; decide)
    (by rw [hA]; decide)
  rw [hA, header_2x2_bytes] at h3
  exact ⟨t, h1, h2, h3, by rw [h3]; rfl⟩

/-! ### The filtered stores and the bytes of one pixel -/

theorem put_filt_list_uncompressed_len (st : Build) (l : List Nat) :
    (put_filt_list st l).uncompressed_len = st.uncompressed_len := by
  induction l generalizing st with
  | nil => rfl
  | cons v l ih => rw [put_filt_list_cons, ih, put_filtered_uncompressed_len]

theorem put_filt_list_uncompressed_data (st : Build) (l : List Nat) :
    (put_filt_list st l).self.uncompressed_data = st.self.uncompressed_data := by
  induction l generalizing st with
  | nil => rfl
  | cons v l ih => rw [put_filt_list_cons, ih, put_filtered_uncompressed_data]

theorem put_filt_list_length (st : Build) (l : List Nat) :
    (put_filt_list st l).self.filtered_data.length = st.self.filtered_data.length := by
  induction l generalizing st with
  | nil => rfl
  | cons v l ih => rw [put_filt_list_cons, ih, put_filtered_data, List.length_set]

theorem put_filt_list_len (st : Build) (l : List Nat)
    (h : st.filtered_len + l.length < 4294967296) :
    (put_filt_list st l).filtered_len = st.filtered_len + l.length := by
  induction l generalizing st with
  | nil => rfl
  | cons v l ih =>
    simp only [List.length_cons] at h
    have hp : (st.put_filtered v).filtered_len = st.filtered_len + 1 := by
      rw [put_filtered_len]; omega
    rw [put_filt_list_cons, ih _ (by rw [hp]; omega), hp, List.length_cons]
    omega

theorem put_filt_list_filp (st : Build) (l : List Nat)
    (h : st.filtered_len + l.length ≤ st.self.filtered_data.length)
    (h2 : st.filtered_len + l.length < 4294967296) :
    filp (put_filt_list st l) = filp st ++ l.map (· % 256) := by
  induction l generalizing st with
  | nil => simp [put_filt_list_nil]
  | cons v l ih =>
    simp only [List.length_cons] at h h2
    have hp : (st.put_filtered v).filtered_len = st.filtered_len + 1 := by
      rw [put_filtered_len]; omega
    have hl : (st.put_filtered v).self.filtered_data.length = st.self.filtered_data.length := by
      rw [put_filtered_data, List.length_set]
    have ha : filp (st.put_filtered v) = filp st ++ [v % 256] := by
      unfold filp
      rw [hp, put_filtered_data]
      exact take_set_succ _ _ _ (by omega)
    rw [put_filt_list_cons, ih _ (by rw [hp, hl]; omega) (by rw [hp]; omega), ha]
    simp

theorem put_raw_list_filp (st : Build) (l : List Nat) : filp (put_raw_list st l) = filp st := by
  unfold filp
  rw [put_raw_list_filtered_data, put_raw_list_filtered_len]

theorem put_filt_list_rawp (st : Build) (l : List Nat) : rawp (put_filt_list st l) = rawp st := by
  unfold rawp
  rw [put_filt_list_uncompressed_data, put_filt_list_uncompressed_len]

theorem pixel_size_cases (s : LTPNG) (hd : s.bit_depth = 8 ∨ s.bit_depth = 16)
    (hc : s.colour_type = 2 ∨ s.colour_type = 6) :
    pixel_size_of s = (if s.colour_type = 2 then 3 else 4) * (if s.bit_depth = 8 then 1 else 2) := by
  unfold pixel_size_of
  rcases hd with h | h <;> rcases hc with h' | h' <;> simp [h, h']

theorem pixel_vals_length (s : LTPNG) (red green blue alpha : List Nat) (row col : Nat)
    (hd : s.bit_depth = 8 ∨ s.bit_depth = 16) (hc : s.colour_type = 2 ∨ s.colour_type = 6) :
    (pixel_vals s red green blue alpha row col).length = pixel_size_of s := by
  unfold pixel_vals pixel_size_of
  rcases hd with h | h <;> rcases hc with h' | h' <;> simp [h, h']

theorem pixel_offsets_length (s : LTPNG)
    (hd : s.bit_depth = 8 ∨ s.bit_depth = 16) (hc : s.colour_type = 2 ∨ s.colour_type = 6) :
    (pixel_offsets s).length = pixel_size_of s := by
  unfold pixel_offsets pixel_size_of
  rcases hd with h | h <;> rcases hc with h' | h' <;> simp [h, h']

theorem pixel_vals_congr (s t : LTPNG) (red green blue alpha : List Nat) (row col : Nat)
    (h : frame t = frame s) :
    pixel_vals t red green blue alpha row col = pixel_vals s red green blue alpha row col := by
  unfold pixel_vals
  rw [frame_width _ _ h, frame_bit_depth _ _ h, frame_colour_type _ _ h]

theorem pixel_offsets_congr (s t : LTPNG) (h : frame t = frame s) :
    pixel_offsets t = pixel_offsets s := by
  unfold pixel_offsets
  rw [frame_bit_depth _ _ h, frame_colour_type _ _ h]

theorem pixel_size_congr (s t : LTPNG) (h : frame t = frame s) :
    pixel_size_of t = pixel_size_of s := by
  unfold pixel_size_of
  rw [frame_bit_depth _ _ h, frame_colour_type _ _ h]

/-! ### One pixel of the build loop -/

theorem built_rawp_length (s0 : LTPNG) (N : Nat) (st : Build) (n : Nat)
    (hB : Built s0 N st n) (hn : n ≤ N) : (rawp st).length = n := by
  obtain ⟨_, hu, _, hlu, _⟩ := hB
  unfold rawp
  rw [List.length_take, hu, hlu]
  omega

theorem built_filp_length (s0 : LTPNG) (N : Nat) (st : Build) (n : Nat)
    (hB : Built s0 N st n) (hn : n ≤ N) : (filp st).length = n := by
  obtain ⟨_, _, hfl, _, hlf⟩ := hB
  unfold filp
  rw [List.length_take, hfl, hlf]
  omega

theorem pixel_done_built (s0 : LTPNG) (N : Nat) (st : Build) (n : Nat)
    (red green blue alpha : List Nat) (row col : Nat) (hB : Built s0 N st n)
    (hd : s0.bit_depth = 8 ∨ s0.bit_depth = 16) (hc : s0.colour_type = 2 ∨ s0.colour_type = 6)
    (hn : n + pixel_size_of s0 ≤ N) (hN : N < 4294967296) :
    Built s0 N (pixel_done st red green blue alpha row col) (n + pixel_size_of s0) ∧
    rawp (pixel_done st red green blue alpha row col) =
      rawp st ++ raw_pixel s0 red green blue alpha row col ∧
    filp (pixel_done st red green blue alpha row col) =
      filp st ++ ((pixel_offsets s0).map
        (fval (put_raw_list st (pixel_vals s0 red green blue alpha row col)).self row col)).map
        (· % 256) := by
  obtain ⟨hf, hu, hfl, hlu, hlf⟩ := hB
  have hpv := pixel_vals_congr s0 st.self red green blue alpha row col hf
  have hpo := pixel_offsets_congr s0 st.self hf
  have hlen := pixel_vals_length s0 red green blue alpha row col hd hc
  have holen := pixel_offsets_length s0 hd hc
  unfold pixel_done
  rw [hpv, hpo]
  refine ⟨⟨?_, ?_, ?_, ?_, ?_⟩, ?_, ?_⟩
  · rw [put_filt_list_frame, put_raw_list_frame]; exact hf
  · rw [put_filt_list_uncompressed_len, put_raw_list_len _ _ (by rw [hu, hlen]; omega), hu, hlen]
  · rw [put_filt_list_len _ _ (by
      rw [put_raw_list_filtered_len, hfl, List.length_map, holen]; omega),
      put_raw_list_filtered_len, hfl, List.length_map, holen]
  · rw [put_filt_list_uncompressed_data, put_raw_list_length]; exact hlu
  · rw [put_filt_list_length, put_raw_list_filtered_data]; exact hlf
  · rw [put_filt_list_rawp, put_raw_list_rawp _ _ (by rw [hu, hlen, hlu]; omega)
      (by rw [hu, hlen]; omega)]
    rfl
  · rw [put_filt_list_filp _ _ (by
      rw [put_raw_list_filtered_len, put_raw_list_filtered_data, hfl, List.length_map, holen, hlf]
      omega) (by rw [put_raw_list_filtered_len, hfl, List.length_map, holen]; omega),
      put_raw_list_filp]

theorem row_start_built (s0 : LTPNG) (N : Nat) (st : Build) (n : Nat) (hB : Built s0 N st n)
    (hn : n + 1 ≤ N) (hN : N < 4294967296) :
    Built s0 N (row_start st) (n + 1) ∧
    rawp (row_start st) = rawp st ++ [s0.filter_type % 256] ∧
    filp (row_start st) = filp st ++ [s0.filter_type % 256] := by
  obtain ⟨hf, hu, hfl, hlu, hlf⟩ := hB
  have hft := frame_filter_type s0 st.self hf
  have h1 : (st.put_uncompressed st.self.filter_type).uncompressed_len = n + 1 := by
    rw [put_uncompressed_len, hu]; omega
  have h2 : (st.put_uncompressed st.self.filter_type).self.uncompressed_data.getD
      (u32 (((st.put_uncompressed st.self.filter_type).uncompressed_len : Int) - 1)) 0 =
      s0.filter_type % 256 := by
    have hi : u32 (((n + 1 : Nat) : Int) - 1) = n := by unfold u32; omega
    rw [h1, hi, put_uncompressed_data, hu, hft]
    have hlt : n < (st.self.uncompressed_data.set n (s0.filter_type % 256)).length := by
      rw [List.length_set, hlu]; omega
    rw [List.getD_eq_getElem _ _ hlt, List.getElem_set_self]
  unfold row_start
  rw [h2]
  refine ⟨⟨?_, ?_, ?_, ?_, ?_⟩, ?_, ?_⟩
  · rw [put_filtered_frame, put_uncompressed_frame]; exact hf
  · rw [put_filtered_uncompressed_len, h1]
  · rw [put_filtered_len, put_uncompressed_filtered_len, hfl]; omega
  · rw [put_filtered_uncompressed_data, put_uncompressed_data, List.length_set]; exact hlu
  · rw [put_filtered_data, List.length_set, put_uncompressed_filtered_data]; exact hlf
  · unfold rawp
    rw [put_filtered_uncompressed_data, put_filtered_uncompressed_len, h1, put_uncompressed_data,
      hu, hft]
    exact take_set_succ _ _ _ (by omega)
  · unfold filp
    rw [put_filtered_len, put_filtered_data, put_uncompressed_filtered_len,
      put_uncompressed_filtered_data, hfl, Nat.mod_eq_of_lt (by omega : n + 1 < 4294967296),
      Nat.mod_mod]
    exact take_set_succ _ _ _ (by omega)

/-! ### The column loop and the row loop in closed form -/

theorem cols_built (s0 : LTPNG) (N : Nat) (red green blue alpha : List Nat) (row : Nat)
    (hd : s0.bit_depth = 8 ∨ s0.bit_depth = 16) (hc : s0.colour_type = 2 ∨ s0.colour_type = 6)
    (hN : N < 4294967296) (st1 : Build) (n1 : Nat) (hB : Built s0 N st1 n1) (k : Nat)
    (hk : n1 + k * pixel_size_of s0 ≤ N) :
    Built s0 N ((List.range k).foldl
        (fun st col => pixel_done st red green blue alpha row col) st1)
      (n1 + k * pixel_size_of s0) ∧
    rawp ((List.range k).foldl (fun st col => pixel_done st red green blue alpha row col) st1) =
      rawp st1 ++ (List.range k).flatMap (fun col => raw_pixel s0 red green blue alpha row col) ∧
    ∃ X, filp ((List.range k).foldl
        (fun st col => pixel_done st red green blue alpha row col) st1) = filp st1 ++ X ∧
      X.length = k * pixel_size_of s0 := by
  induction k with
  | zero =>
    refine ⟨?_, ?_, [], ?_, ?_⟩
    · simpa using hB
    · simp
    · simp
    · simp
  | succ k ih =>
    have hs : (k + 1) * pixel_size_of s0 = k * pixel_size_of s0 + pixel_size_of s0 :=
      Nat.succ_mul _ _
    obtain ⟨hBk, hrk, X, hfk, hXk⟩ := ih (by omega)
    obtain ⟨hB1, hr1, hf1⟩ := pixel_done_built s0 N _ _ red green blue alpha row k hBk hd hc
      (by omega) hN
    obtain ⟨Y, hfY, hY⟩ : ∃ Y, filp (pixel_done ((List.range k).foldl
        (fun st col => pixel_done st red green blue alpha row col) st1)
          red green blue alpha row k) = filp ((List.range k).foldl
        (fun st col => pixel_done st red green blue alpha row col) st1) ++ Y ∧
        Y.length = pixel_size_of s0 :=
      ⟨_, hf1, by rw [List.length_map, List.length_map, pixel_offsets_length s0 hd hc]⟩
    rw [List.range_succ, List.foldl_append, List.foldl_cons, List.foldl_nil]
    refine ⟨?_, ?_, X ++ Y, ?_, ?_⟩
    · rw [hs, ← Nat.add_assoc]; exact hB1
    · rw [hr1, hrk, List.flatMap_append, List.flatMap_singleton, List.append_assoc]
    · rw [hfY, hfk, List.append_assoc]
    · rw [List.length_append, hXk, hY, hs]

theorem row_done_built (s0 : LTPNG) (N : Nat) (red green blue alpha : List Nat) (row : Nat)
    (hd : s0.bit_depth = 8 ∨ s0.bit_depth = 16) (hc : s0.colour_type = 2 ∨ s0.colour_type = 6)
    (hN : N < 4294967296) (st : Build) (n : Nat) (hB : Built s0 N st n)
    (hn : n + (s0.width * pixel_size_of s0 + 1) ≤ N) :
    Built s0 N (row_done st red green blue alpha row) (n + (s0.width * pixel_size_of s0 + 1)) ∧
    rawp (row_done st red green blue alpha row) =
      rawp st ++ raw_row s0 red green blue alpha row ∧
    ∃ X, filp (row_done st red green blue alpha row) =
        filp st ++ (s0.filter_type % 256) :: X ∧
      X.length = s0.width * pixel_size_of s0 := by
  obtain ⟨hB1, hr1, hf1⟩ := row_start_built s0 N st n hB (by omega) hN
  obtain ⟨hB2, hr2, X, hf2, hX⟩ := cols_built s0 N red green blue alpha row hd hc hN _ _ hB1
    s0.width (by omega)
  unfold row_done
  rw [frame_width s0 st.self hB.1]
  refine ⟨?_, ?_, X, ?_, hX⟩
  · rw [← Nat.add_assoc, Nat.add_right_comm]; exact hB2
  · rw [hr2, hr1, List.append_assoc]; rfl
  · rw [hf2, hf1, List.append_assoc]; rfl

/-! ### Filter type 0 stores the raw bytes again -/

theorem pixel_offsets_range (s : LTPNG) (hd : s.bit_depth = 8 ∨ s.bit_depth = 16)
    (hc : s.colour_type = 2 ∨ s.colour_type = 6) :
    pixel_offsets s = (List.range (pixel_size_of s)).map (· + 1) := by
  unfold pixel_offsets pixel_size_of
  rcases hd with h | h <;> rcases hc with h' | h' <;> simp [h, h'] <;> rfl

theorem index_base_congr (s t : LTPNG) (row col : Nat) (h : frame t = frame s) :
    index_base t row col = index_base s row col := by
  unfold index_base
  rw [frame_width _ _ h, pixel_size_congr _ _ h]

theorem index_base_offset (s : LTPNG) (row col o : Nat)
    (hlt : row * (s.width * pixel_size_of s + 1) + col * pixel_size_of s + o < 4294967296) :
    u32 (index_base s row col + o) =
      row * (s.width * pixel_size_of s + 1) + col * pixel_size_of s + o := by
  have h : index_base s row col + (o : Int) =
      ((row * (s.width * pixel_size_of s + 1) + col * pixel_size_of s + o : Nat) : Int) := by
    unfold index_base; push_cast; ring
  rw [h]
  unfold u32
  omega

theorem fval_none (s : LTPNG) (row col o : Nat) (h0 : s.filter_type = 0) :
    fval s row col o = raw_x s row col o := by
  unfold fval filter_out
  rw [h0, if_pos rfl]

theorem getD_take_of_lt (l : List Nat) (k i : Nat) (h : i < k) :
    (l.take k).getD i 0 = l.getD i 0 := by
  rw [List.getD_eq_getElem?_getD, List.getD_eq_getElem?_getD, List.getElem?_take_of_lt h]

theorem raw_pixel_length (s : LTPNG) (red green blue alpha : List Nat) (row col : Nat)
    (hd : s.bit_depth = 8 ∨ s.bit_depth = 16) (hc : s.colour_type = 2 ∨ s.colour_type = 6) :
    (raw_pixel s red green blue alpha row col).length = pixel_size_of s := by
  unfold raw_pixel
  rw [List.length_map, pixel_vals_length s red green blue alpha row col hd hc]

theorem raw_pixel_map_mod (s : LTPNG) (red green blue alpha : List Nat) (row col : Nat) :
    (raw_pixel s red green blue alpha row col).map (· % 256) =
      raw_pixel s red green blue alpha row col := by
  unfold raw_pixel
  rw [List.map_map]
  apply List.map_congr_left
  intro a _
  simp

theorem pixel_done_none (s0 : LTPNG) (N : Nat) (st : Build) (n : Nat)
    (red green blue alpha : List Nat) (row col : Nat) (hB : Built s0 N st n)
    (hd : s0.bit_depth = 8 ∨ s0.bit_depth = 16) (hc : s0.colour_type = 2 ∨ s0.colour_type = 6)
    (hn : n + pixel_size_of s0 ≤ N) (hN : N < 4294967296) (h0 : s0.filter_type = 0)
    (hi : n = row * (s0.width * pixel_size_of s0 + 1) + 1 + col * pixel_size_of s0) :
    filp (pixel_done st red green blue alpha row col) =
      filp st ++ raw_pixel s0 red green blue alpha row col := by
  obtain ⟨_, _, hf1⟩ := pixel_done_built s0 N st n red green blue alpha row col hB hd hc hn hN
  obtain ⟨hf, hu, hfl, hlu, hlf⟩ := hB
  have hlen := pixel_vals_length s0 red green blue alpha row col hd hc
  have hfr : frame (put_raw_list st (pixel_vals s0 red green blue alpha row col)).self =
      frame s0 := by rw [put_raw_list_frame]; exact hf
  have hraw : rawp (put_raw_list st (pixel_vals s0 red green blue alpha row col)) =
      rawp st ++ raw_pixel s0 red green blue alpha row col :=
    put_raw_list_rawp _ _ (by rw [hu, hlen, hlu]; omega) (by rw [hu, hlen]; omega)
  have hrl : (rawp st).length = n := by
    unfold rawp; rw [List.length_take, hu, hlu]; omega
  have hul : (put_raw_list st (pixel_vals s0 red green blue alpha row col)).uncompressed_len =
      n + pixel_size_of s0 := by
    rw [put_raw_list_len _ _ (by rw [hu, hlen]; omega), hu, hlen]
  have hval : ∀ j, j < pixel_size_of s0 →
      fval (put_raw_list st (pixel_vals s0 red green blue alpha row col)).self row col (j + 1) =
        (raw_pixel s0 red green blue alpha row col).getD j 0 := by
    intro j hj
    rw [fval_none _ _ _ _ (by rw [frame_filter_type _ _ hfr]; exact h0)]
    unfold raw_x
    rw [index_base_congr _ _ _ _ hfr]
    have hidx : u32 (index_base s0 row col + ((j + 1 : Nat) : Int)) = n + j := by
      rw [index_base_offset _ _ _ _ (by omega)]; omega
    rw [hidx, ← getD_take_of_lt _ (n + pixel_size_of s0) (n + j) (by omega)]
    have hr := hraw
    unfold rawp at hr
    rw [hul] at hr
    rw [hr, List.getD_append_right _ _ _ _ (by rw [← hrl]; unfold rawp; omega)]
    have e : n + j - (List.take st.uncompressed_len st.self.uncompressed_data).length = j := by
      have := hrl; unfold rawp at this; omega
    rw [e]
  have hmap : (pixel_offsets s0).map
      (fval (put_raw_list st (pixel_vals s0 red green blue alpha row col)).self row col) =
      raw_pixel s0 red green blue alpha row col := by
    rw [pixel_offsets_range s0 hd hc, List.map_map]
    have hc2 : (List.range (pixel_size_of s0)).map
        (fval (put_raw_list st (pixel_vals s0 red green blue alpha row col)).self row col ∘
          (· + 1)) =
        (List.range (pixel_size_of s0)).map
          (fun j => (raw_pixel s0 red green blue alpha row col).getD j 0) := by
      apply List.map_congr_left
      intro j hj
      exact hval j (List.mem_range.mp hj)
    rw [hc2, range_map_getD _ _ (by rw [raw_pixel_length s0 _ _ _ _ _ _ hd hc]),
      ← raw_pixel_length s0 red green blue alpha row col hd hc, List.take_length]
  rw [hf1, hmap, raw_pixel_map_mod]

theorem cols_none (s0 : LTPNG) (N : Nat) (red green blue alpha : List Nat) (row : Nat)
    (hd : s0.bit_depth = 8 ∨ s0.bit_depth = 16) (hc : s0.colour_type = 2 ∨ s0.colour_type = 6)
    (hN : N < 4294967296) (h0 : s0.filter_type = 0) (st1 : Build) (n1 : Nat)
    (hB : Built s0 N st1 n1) (hi : n1 = row * (s0.width * pixel_size_of s0 + 1) + 1) (k : Nat)
    (hk : n1 + k * pixel_size_of s0 ≤ N) :
    filp ((List.range k).foldl (fun st col => pixel_done st red green blue alpha row col) st1) =
      filp st1 ++ (List.range k).flatMap (fun col => raw_pixel s0 red green blue alpha row col) := by
  induction k with
  | zero => simp
  | succ k ih =>
    have hs : (k + 1) * pixel_size_of s0 = k * pixel_size_of s0 + pixel_size_of s0 :=
      Nat.succ_mul _ _
    obtain ⟨hBk, _, _⟩ := cols_built s0 N red green blue alpha row hd hc hN st1 n1 hB k (by omega)
    have h1 := pixel_done_none s0 N _ _ red green blue alpha row k hBk hd hc (by omega) hN h0
      (by rw [hi])
    rw [List.range_succ, List.foldl_append, List.foldl_cons, List.foldl_nil, h1, ih (by omega),
      List.flatMap_append, List.flatMap_singleton, List.append_assoc]

theorem row_done_none (s0 : LTPNG) (N : Nat) (red green blue alpha : List Nat) (row : Nat)
    (hd : s0.bit_depth = 8 ∨ s0.bit_depth = 16) (hc : s0.colour_type = 2 ∨ s0.colour_type = 6)
    (hN : N < 4294967296) (h0 : s0.filter_type = 0) (st : Build) (n : Nat) (hB : Built s0 N st n)
    (hi : n = row * (s0.width * pixel_size_of s0 + 1))
    (hn : n + (s0.width * pixel_size_of s0 + 1) ≤ N) :
    filp (row_done st red green blue alpha row) =
      filp st ++ raw_row s0 red green blue alpha row := by
  obtain ⟨hB1, _, hf1⟩ := row_start_built s0 N st n hB (by omega) hN
  have h2 := cols_none s0 N red green blue alpha row hd hc hN h0 _ _ hB1 (by rw [hi]) s0.width
    (by omega)
  unfold row_done
  rw [frame_width s0 st.self hB.1, h2, hf1, List.append_assoc]
  rfl

/-! ### The whole build loop -/

theorem raw_row_length (s : LTPNG) (red green blue alpha : List Nat) (row : Nat)
    (hd : s.bit_depth = 8 ∨ s.bit_depth = 16) (hc : s.colour_type = 2 ∨ s.colour_type = 6) :
    (raw_row s red green blue alpha row).length = s.width * pixel_size_of s + 1 := by
  unfold raw_row
  rw [List.length_cons, List.length_flatMap]
  have : List.map (List.length ∘ fun col => raw_pixel s red green blue alpha row col)
      (List.range s.width) = List.replicate s.width (pixel_size_of s) := by
    rw [List.eq_replicate_iff]
    refine ⟨by simp, ?_⟩
    intro b hb
    rw [List.mem_map] at hb
    obtain ⟨a, _, ha⟩ := hb
    rw [← ha]
    exact raw_pixel_length s red green blue alpha row a hd hc
  rw [this, List.sum_replicate]
  rfl

theorem rows_built (s0 : LTPNG) (N : Nat) (red green blue alpha : List Nat)
    (hd : s0.bit_depth = 8 ∨ s0.bit_depth = 16) (hc : s0.colour_type = 2 ∨ s0.colour_type = 6)
    (hN : N < 4294967296) (st0 : Build) (hB : Built s0 N st0 0) (k : Nat)
    (hk : k * (s0.width * pixel_size_of s0 + 1) ≤ N) :
    Built s0 N ((List.range k).foldl (fun st row => row_done st red green blue alpha row) st0)
      (k * (s0.width * pixel_size_of s0 + 1)) ∧
    rawp ((List.range k).foldl (fun st row => row_done st red green blue alpha row) st0) =
      raw_rows s0 red green blue alpha k ∧
    (∀ r, r < k →
      (filp ((List.range k).foldl (fun st row => row_done st red green blue alpha row) st0)).getD
        (r * (s0.width * pixel_size_of s0 + 1)) 0 = s0.filter_type % 256) ∧
    (s0.filter_type = 0 →
      filp ((List.range k).foldl (fun st row => row_done st red green blue alpha row) st0) =
        raw_rows s0 red green blue alpha k) := by
  induction k with
  | zero =>
    obtain ⟨_, hu, hfl, _, _⟩ := hB
    refine ⟨?_, ?_, ?_, ?_⟩
    · simpa using ⟨‹_›, hu, hfl, ‹_›, ‹_›⟩
    · simp [rawp, raw_rows, hu]
    · intro r hr; omega
    · intro _; simp [filp, raw_rows, hfl]
  | succ k ih =>
    have hs : (k + 1) * (s0.width * pixel_size_of s0 + 1) =
        k * (s0.width * pixel_size_of s0 + 1) + (s0.width * pixel_size_of s0 + 1) :=
      Nat.succ_mul _ _
    obtain ⟨hBk, hrk, htk, hnk⟩ := ih (by omega)
    obtain ⟨hB1, hr1, X, hf1, hX⟩ := row_done_built s0 N red green blue alpha k hd hc hN _ _ hBk
      (by omega)
    have hfl := built_filp_length s0 N _ _ hBk (by omega)
    rw [List.range_succ, List.foldl_append, List.foldl_cons, List.foldl_nil]
    refine ⟨?_, ?_, ?_, ?_⟩
    · rw [hs]; exact hB1
    · rw [hr1, hrk]
      unfold raw_rows
      rw [List.range_succ, List.flatMap_append, List.flatMap_singleton]
    · intro r hr
      rw [hf1]
      rcases Nat.lt_succ_iff_lt_or_eq.mp hr with h | h
      · have hlt : r * (s0.width * pixel_size_of s0 + 1) <
            k * (s0.width * pixel_size_of s0 + 1) :=
          Nat.mul_lt_mul_of_pos_right h (by omega)
        rw [List.getD_append _ _ _ _ (by rw [hfl]; exact hlt)]
        exact htk r h
      · rw [h, List.getD_append_right _ _ _ _ (by rw [hfl]), hfl, Nat.sub_self]
        rfl
    · intro h0
      rw [row_done_none s0 N red green blue alpha k hd hc hN h0 _ _ hBk rfl (by omega), hnk h0]
      unfold raw_rows
      rw [List.range_succ, List.flatMap_append, List.flatMap_singleton]

/-! ### Indexing the raw scanline buffer -/

theorem flatMap_block_length (f : Nat → List Nat) (m n : Nat)
    (hf : ∀ i, i < n → (f i).length = m) : ((List.range n).flatMap f).length = n * m := by
  induction n with
  | zero => simp
  | succ n ih =>
    rw [List.range_succ, List.flatMap_append, List.flatMap_singleton, List.length_append,
      ih (fun i hi => hf i (by omega)), hf n (by omega), Nat.succ_mul]

theorem flatMap_block_getD (f : Nat → List Nat) (m n : Nat)
    (hf : ∀ i, i < n → (f i).length = m) (r j : Nat) (hr : r < n) (hj : j < m) :
    ((List.range n).flatMap f).getD (r * m + j) 0 = (f r).getD j 0 := by
  induction n with
  | zero => omega
  | succ n ih =>
    have hl := flatMap_block_length f m n (fun i hi => hf i (by omega))
    rw [List.range_succ, List.flatMap_append, List.flatMap_singleton]
    rcases Nat.lt_succ_iff_lt_or_eq.mp hr with h | h
    · have hlt : r * m + m ≤ n * m := by
        have := Nat.mul_le_mul_right m (Nat.succ_le_of_lt h)
        rw [Nat.succ_mul] at this
        exact this
      rw [List.getD_append _ _ _ _ (by rw [hl]; omega)]
      exact ih (fun i hi => hf i (by omega)) h
    · rw [h, List.getD_append_right _ _ _ _ (by rw [hl]; omega), hl, Nat.add_sub_cancel_left]

theorem raw_rows_length (s : LTPNG) (red green blue alpha : List Nat) (n : Nat)
    (hd : s.bit_depth = 8 ∨ s.bit_depth = 16) (hc : s.colour_type = 2 ∨ s.colour_type = 6) :
    (raw_rows s red green blue alpha n).length = n * (s.width * pixel_size_of s + 1) :=
  flatMap_block_length _ _ _ (fun i _ => raw_row_length s red green blue alpha i hd hc)

theorem raw_rows_tag (s : LTPNG) (red green blue alpha : List Nat) (n r : Nat)
    (hd : s.bit_depth = 8 ∨ s.bit_depth = 16) (hc : s.colour_type = 2 ∨ s.colour_type = 6)
    (hr : r < n) :
    (raw_rows s red green blue alpha n).getD (r * (s.width * pixel_size_of s + 1)) 0 =
      s.filter_type % 256 := by
  have h := flatMap_block_getD (fun row => raw_row s red green blue alpha row)
    (s.width * pixel_size_of s + 1) n (fun i _ => raw_row_length s red green blue alpha i hd hc)
    r 0 hr (by omega)
  rw [Nat.add_zero] at h
  unfold raw_rows
  rw [h]
  rfl

theorem raw_rows_at (s : LTPNG) (red green blue alpha : List Nat) (n r c k : Nat)
    (hd : s.bit_depth = 8 ∨ s.bit_depth = 16) (hc : s.colour_type = 2 ∨ s.colour_type = 6)
    (hr : r < n) (hcol : c < s.width) (hk : k < pixel_size_of s) :
    (raw_rows s red green blue alpha n).getD
        (r * (s.width * pixel_size_of s + 1) + 1 + c * pixel_size_of s + k) 0 =
      (raw_pixel s red green blue alpha r c).getD k 0 := by
  have hcp : c * pixel_size_of s + pixel_size_of s ≤ s.width * pixel_size_of s := by
    have := Nat.mul_le_mul_right (pixel_size_of s) (Nat.succ_le_of_lt hcol)
    rw [Nat.succ_mul] at this
    exact this
  have h := flatMap_block_getD (fun row => raw_row s red green blue alpha row)
    (s.width * pixel_size_of s + 1) n (fun i _ => raw_row_length s red green blue alpha i hd hc)
    r (1 + (c * pixel_size_of s + k)) hr (by omega)
  have e : r * (s.width * pixel_size_of s + 1) + 1 + c * pixel_size_of s + k =
      r * (s.width * pixel_size_of s + 1) + (1 + (c * pixel_size_of s + k)) := by omega
  unfold raw_rows
  rw [e, h]
  unfold raw_row
  rw [Nat.add_comm 1, List.getD_cons_succ]
  exact flatMap_block_getD (fun col => raw_pixel s red green blue alpha r col) (pixel_size_of s)
    s.width (fun i _ => raw_pixel_length s red green blue alpha r i hd hc) c k hcol hk

theorem sample_index (w h r c m : Nat) (hr : r < h) (hc : c < w)
    (hfit : h * (w * m + 1) < 4294967296) (hm : 1 ≤ m) :
    (r * w + c) % 4294967296 = r * w + c := by
  apply Nat.mod_eq_of_lt
  have h1 : r * w + w ≤ h * w := by
    have := Nat.mul_le_mul_right w (Nat.succ_le_of_lt hr)
    rw [Nat.succ_mul] at this
    exact this
  have h2 : h * w ≤ h * (w * m + 1) :=
    Nat.mul_le_mul_left h (Nat.le_trans (Nat.le_mul_of_pos_right w hm) (Nat.le_succ _))
  omega

theorem raw_pixel_8 (s : LTPNG) (red green blue alpha : List Nat) (row col k : Nat)
    (h8 : s.bit_depth = 8) (hc : s.colour_type = 2 ∨ s.colour_type = 6)
    (hk : k < (if s.colour_type = 2 then 3 else 4)) :
    (raw_pixel s red green blue alpha row col).getD k 0 =
      (([red, green, blue, alpha].getD k []).getD ((row * s.width + col) % 4294967296) 0) % 256 := by
  unfold raw_pixel pixel_vals
  rcases hc with h | h
  · have hk3 : k < 3 := by simpa [h] using hk
    simp only [h8, h, if_true]
    interval_cases k <;> simp
  · have hk4 : k < 4 := by simpa [h] using hk
    simp only [h8, h, if_true]
    interval_cases k <;> simp

theorem raw_pixel_16 (s : LTPNG) (red green blue alpha : List Nat) (row col k : Nat)
    (h16 : s.bit_depth = 16) (hc : s.colour_type = 2 ∨ s.colour_type = 6)
    (hk : k < (if s.colour_type = 2 then 3 else 4)) :
    (raw_pixel s red green blue alpha row col).getD (2 * k) 0 =
      ((([red, green, blue, alpha].getD k []).getD ((row * s.width + col) % 4294967296) 0 >>> 8)
        &&& 0xFF) % 256 ∧
    (raw_pixel s red green blue alpha row col).getD (2 * k + 1) 0 =
      ((([red, green, blue, alpha].getD k []).getD ((row * s.width + col) % 4294967296) 0 >>> 0)
        &&& 0xFF) % 256 := by
  unfold raw_pixel pixel_vals
  rcases hc with h | h
  · have hk3 : k < 3 := by simpa [h] using hk
    simp only [h16, h, if_true]
    interval_cases k <;> simp
  · have hk4 : k < 4 := by simpa [h] using hk
    simp only [h16, h, if_true]
    interval_cases k <;> simp

theorem two_bytes_of_short (s : Nat) (hs : s < 65536) :
    ((s >>> 8) &&& 0xFF) % 256 = s >>> 8 ∧ ((s >>> 0) &&& 0xFF) % 256 = s &&& 0xFF ∧
      256 * (s >>> 8) + (s &&& 0xFF) = s := by
  have e1 : ∀ x : Nat, x &&& 0xFF = x % 256 := fun x => Nat.and_pow_two_sub_one_eq_mod x 8
  have e2 : s >>> 8 = s / 256 := Nat.shiftRight_eq_div_pow s 8
  rw [e1, e1, e1, e2, Nat.shiftRight_zero]
  omega

/-! ### The buffers after the build loop -/

theorem pixel_size_build_start (self : LTPNG) (file : List Nat) (w h : Nat) :
    pixel_size_of (build_start self file w h).self = pixel_size_of self := rfl

theorem data_size_build_start (self : LTPNG) (w h : Nat) :
    data_size_of { self with width := w, height := h } =
      (h * ((w * pixel_size_of self + 1) % 4294967296)) % 4294967296 := rfl

theorem build_start_uncompressed_data (self : LTPNG) (file : List Nat) (w h : Nat) :
    (build_start self file w h).self.uncompressed_data =
      List.replicate (data_size_of { self with width := w, height := h }) 0 := rfl

theorem build_start_filtered_data (self : LTPNG) (file : List Nat) (w h : Nat) :
    (build_start self file w h).self.filtered_data =
      List.replicate (data_size_of { self with width := w, height := h }) 0 := rfl

theorem data_size_fit (self : LTPNG) (w h : Nat)
    (hfit : h * (w * pixel_size_of self + 1) < 4294967296) :
    data_size_of { self with width := w, height := h } = h * (w * pixel_size_of self + 1) := by
  rw [data_size_build_start]
  rcases Nat.eq_zero_or_pos h with h0 | hpos
  · rw [h0]; simp
  · have hle : w * pixel_size_of self + 1 ≤ h * (w * pixel_size_of self + 1) :=
      Nat.le_mul_of_pos_left _ hpos
    rw [Nat.mod_eq_of_lt (by omega : w * pixel_size_of self + 1 < 4294967296),
      Nat.mod_eq_of_lt hfit]

theorem build_start_built (self : LTPNG) (file : List Nat) (w h : Nat)
    (hfit : h * (w * pixel_size_of self + 1) < 4294967296) :
    Built (build_start self file w h).self (h * (w * pixel_size_of self + 1))
      (build_start self file w h) 0 := by
  refine ⟨rfl, rfl, rfl, ?_, ?_⟩
  · rw [build_start_uncompressed_data, List.length_replicate, data_size_fit self w h hfit]
  · rw [build_start_filtered_data, List.length_replicate, data_size_fit self w h hfit]

theorem build_done_built (self : LTPNG) (file : List Nat) (w h : Nat)
    (red green blue alpha : List Nat)
    (hd : self.bit_depth = 8 ∨ self.bit_depth = 16)
    (hc : self.colour_type = 2 ∨ self.colour_type = 6)
    (hfit : h * (w * pixel_size_of self + 1) < 4294967296) :
    (build_done self file w h red green blue alpha).uncompressed_len =
      h * (w * pixel_size_of self + 1) ∧
    (build_done self file w h red green blue alpha).filtered_len =
      h * (w * pixel_size_of self + 1) ∧
    (build_done self file w h red green blue alpha).self.filtered_data.length =
      h * (w * pixel_size_of self + 1) ∧
    (build_done self file w h red green blue alpha).self.uncompressed_data =
      raw_rows (build_start self file w h).self red green blue alpha h ∧
    (∀ r, r < h → (filp (build_done self file w h red green blue alpha)).getD
      (r * (w * pixel_size_of self + 1)) 0 = self.filter_type % 256) ∧
    (self.filter_type = 0 → filp (build_done self file w h red green blue alpha) =
      raw_rows (build_start self file w h).self red green blue alpha h) := by
  have hB0 := build_start_built self file w h hfit
  obtain ⟨hB, hr, ht, hn⟩ := rows_built (build_start self file w h).self
    (h * (w * pixel_size_of self + 1)) red green blue alpha hd hc hfit _ hB0 h
    (by rw [build_start_width, pixel_size_build_start])
  rw [build_start_width, pixel_size_build_start] at hB ht
  rw [build_start_filter_type] at ht hn
  obtain ⟨_, hu, hfl, hlu, hlf⟩ := hB
  refine ⟨hu, hfl, hlf, ?_, ht, hn⟩
  unfold rawp at hr
  rw [hu, List.take_of_length_le (by rw [hlu])] at hr
  exact hr

theorem pixel_size_8 (s : LTPNG) (h8 : s.bit_depth = 8) :
    pixel_size_of s = if s.colour_type = 2 then 3 else 4 := by
  unfold pixel_size_of
  simp [h8]

theorem pixel_size_16 (s : LTPNG) (h16 : s.bit_depth = 16)
    (hc : s.colour_type = 2 ∨ s.colour_type = 6) :
    pixel_size_of s = 2 * (if s.colour_type = 2 then 3 else 4) := by
  unfold pixel_size_of
  rcases hc with h | h <;> simp [h16, h]

theorem filter_type_byte (f : Nat) (hf : f ≤ 4) : f % 256 = f := by omega

theorem getD_lt_of_all (l : List Nat) (i : Nat) (h : ∀ x ∈ l, x < 65536) :
    l.getD i 0 < 65536 := by
  rcases Nat.lt_or_ge i l.length with hi | hi
  · rw [List.getD_eq_getElem _ _ hi]
    exact h _ (List.getElem_mem hi)
  · rw [List.getD_eq_default _ _ hi]
    omega

theorem channel_getD_lt (red green blue alpha : List Nat) (k i : Nat)
    (hs : ∀ l ∈ [red, green, blue, alpha], ∀ x ∈ l, x < 65536) :
    ([red, green, blue, alpha].getD k []).getD i 0 < 65536 := by
  apply getD_lt_of_all
  rcases Nat.lt_or_ge k 4 with hk | hk
  · have hm : [red, green, blue, alpha].getD k [] ∈ [red, green, blue, alpha] := by
      rw [List.getD_eq_getElem _ _ (by simpa using hk)]
      exact List.getElem_mem _
    exact hs _ hm
  · rw [List.getD_eq_default _ _ (by simpa using hk)]
    intro x hx
    simp at hx

/-- C7: for bit depth 8 and colour type 2 (`ch = 3`) or 6 (`ch = 4`), on an
image whose buffer size `height*(width*ch + 1)` fits `unsigned int`, the row
loop of `create_image` completes and leaves in `uncompressed_data`, for every
row `r < height`, the filter type at `r*(width*ch + 1)` and, for every column
`c < width` and channel `k < ch` (red, green, blue, alpha), the sample
`channel_k[r*width + c]` reduced modulo 256 at
`r*(width*ch + 1) + 1 + c*ch + k`. -/
theorem raw_buffer_8bit (self : LTPNG) (file : List Nat) (w h : Nat)
    (red green blue alpha : List Nat) (h8 : self.bit_depth = 8)
    (hc : self.colour_type = 2 ∨ self.colour_type = 6) (hf : self.filter_type ≤ 4)
    (hfit : h * (w * (if self.colour_type = 2 then 3 else 4) + 1) < 4294967296) :
    ∃ st, self.create_image_build file w h red green blue alpha = .ok st ∧
      ∀ r, r < h →
        st.self.uncompressed_data.getD
          (r * (w * (if self.colour_type = 2 then 3 else 4) + 1)) 0 = self.filter_type ∧
        ∀ c k, c < w → k < (if self.colour_type = 2 then 3 else 4) →
          st.self.uncompressed_data.getD
            (r * (w * (if self.colour_type = 2 then 3 else 4) + 1) + 1 +
              c * (if self.colour_type = 2 then 3 else 4) + k) 0 =
            (([red, green, blue, alpha].getD k []).getD (r * w + c) 0) % 256 := by
  have hps := pixel_size_8 self h8
  have hd : self.bit_depth = 8 ∨ self.bit_depth = 16 := Or.inl h8
  have hch : 1 ≤ (if self.colour_type = 2 then 3 else 4 : Nat) := by split <;> omega
  rw [← hps] at hfit hch ⊢
  obtain ⟨hok, _⟩ := create_image_build_ok self file w h red green blue alpha hd hf
  obtain ⟨_, _, _, hraw, _, _⟩ := build_done_built self file w h red green blue alpha hd hc hfit
  refine ⟨_, hok, ?_⟩
  intro r hr
  rw [hraw]
  constructor
  · have ht := raw_rows_tag (build_start self file w h).self red green blue alpha h r hd hc hr
    rw [build_start_width, pixel_size_build_start, build_start_filter_type,
      filter_type_byte _ hf] at ht
    exact ht
  · intro c k hcw hk
    have ha := raw_rows_at (build_start self file w h).self red green blue alpha h r c k hd hc hr
      hcw hk
    have hp := raw_pixel_8 (build_start self file w h).self red green blue alpha r c k h8 hc
      (by rw [build_start_colour_type, ← hps]; exact hk)
    rw [build_start_width, pixel_size_build_start] at ha
    rw [build_start_width, sample_index w h r c _ hr hcw hfit hch] at hp
    rw [ha, hp]

theorem raw_buffer_8bit_witness :
    ∃ st, (LTPNG.new 8 2 0).create_image_build [] 2 2 [300, 2, 3, 4] [5, 6, 7, 8] [9, 10, 11, 12] []
        = .ok st ∧
      st.self.uncompressed_data.getD 0 0 = 0 ∧ st.self.uncompressed_data.getD 1 0 = 44 ∧
      st.self.uncompressed_data.getD 13 0 = 12 := by
  obtain ⟨st, hok, h⟩ := raw_buffer_8bit (LTPNG.new 8 2 0) [] 2 2 [300, 2, 3, 4] [5, 6, 7, 8]
    [9, 10, 11, 12] [] rfl (Or.inl rfl) (by decide) (by decide)
  refine ⟨st, hok, ?_, ?_, ?_⟩
  · simpa using (h 0 (by decide)).1
  · simpa using (h 0 (by decide)).2 0 0 (by decide) (by decide)
  · simpa using (h 1 (by decide)).2 1 2 (by decide) (by decide)

/-- C8: for bit depth 16 and colour type 2 (`ch = 3`) or 6 (`ch = 4`), with
samples that are `unsigned short` values and a buffer size
`height*(width*2*ch + 1)` that fits `unsigned int`, the row loop of
`create_image` completes and `uncompressed_data` holds each sample
`s = channel_k[r*width + c]` as two bytes, high byte first:
`s >> 8` at `r*(width*2*ch + 1) + 1 + c*2*ch + 2k`, `s & 0xFF` right after it,
and `256*hi + lo = s`. -/
theorem raw_buffer_16bit (self : LTPNG) (file : List Nat) (w h : Nat)
    (red green blue alpha : List Nat) (h16 : self.bit_depth = 16)
    (hc : self.colour_type = 2 ∨ self.colour_type = 6) (hf : self.filter_type ≤ 4)
    (hs : ∀ l ∈ [red, green, blue, alpha], ∀ x ∈ l, x < 65536)
    (hfit : h * (w * (2 * (if self.colour_type = 2 then 3 else 4)) + 1) < 4294967296) :
    ∃ st, self.create_image_build file w h red green blue alpha = .ok st ∧
      ∀ r c k, r < h → c < w → k < (if self.colour_type = 2 then 3 else 4) →
        st.self.uncompressed_data.getD
          (r * (w * (2 * (if self.colour_type = 2 then 3 else 4)) + 1) + 1 +
            c * (2 * (if self.colour_type = 2 then 3 else 4)) + 2 * k) 0 =
          ([red, green, blue, alpha].getD k []).getD (r * w + c) 0 >>> 8 ∧
        st.self.uncompressed_data.getD
          (r * (w * (2 * (if self.colour_type = 2 then 3 else 4)) + 1) + 1 +
            c * (2 * (if self.colour_type = 2 then 3 else 4)) + (2 * k + 1)) 0 =
          ([red, green, blue, alpha].getD k []).getD (r * w + c) 0 &&& 0xFF ∧
        256 * (([red, green, blue, alpha].getD k []).getD (r * w + c) 0 >>> 8) +
          (([red, green, blue, alpha].getD k []).getD (r * w + c) 0 &&& 0xFF) =
          ([red, green, blue, alpha].getD k []).getD (r * w + c) 0 := by
  have hps := pixel_size_16 self h16 hc
  have hd : self.bit_depth = 8 ∨ self.bit_depth = 16 := Or.inr h16
  have hch : 1 ≤ 2 * (if self.colour_type = 2 then 3 else 4 : Nat) := by split <;> omega
  rw [← hps] at hfit hch ⊢
  obtain ⟨hok, _⟩ := create_image_build_ok self file w h red green blue alpha hd hf
  obtain ⟨_, _, _, hraw, _, _⟩ := build_done_built self file w h red green blue alpha hd hc hfit
  refine ⟨_, hok, ?_⟩
  intro r c k hr hcw hk
  rw [hraw]
  have hk2 : 2 * k + 1 < pixel_size_of self := by rw [hps]; omega
  have ha0 := raw_rows_at (build_start self file w h).self red green blue alpha h r c (2 * k)
    hd hc hr hcw (by rw [pixel_size_build_start]; omega)
  have ha1 := raw_rows_at (build_start self file w h).self red green blue alpha h r c (2 * k + 1)
    hd hc hr hcw (by rw [pixel_size_build_start]; exact hk2)
  obtain ⟨hp0, hp1⟩ := raw_pixel_16 (build_start self file w h).self red green blue alpha r c k
    h16 hc (by rw [build_start_colour_type]; exact hk)
  rw [build_start_width, pixel_size_build_start] at ha0 ha1
  rw [build_start_width, sample_index w h r c _ hr hcw hfit hch] at hp0 hp1
  obtain ⟨e1, e2, e3⟩ := two_bytes_of_short _ (channel_getD_lt red green blue alpha k (r * w + c) hs)
  rw [ha0, ha1, hp0, hp1, e1, e2]
  exact ⟨rfl, rfl, e3⟩

theorem raw_buffer_16bit_witness :
    ∃ st, (LTPNG.new 16 6 0).create_image_build [] 2 1 [4660, 2] [3, 4] [5, 6] [65535, 258]
        = .ok st ∧
      st.self.uncompressed_data.getD 1 0 = 18 ∧ st.self.uncompressed_data.getD 2 0 = 52 ∧
      st.self.uncompressed_data.getD 15 0 = 1 ∧ st.self.uncompressed_data.getD 16 0 = 2 := by
  obtain ⟨st, hok, h⟩ := raw_buffer_16bit (LTPNG.new 16 6 0) [] 2 1 [4660, 2] [3, 4] [5, 6]
    [65535, 258] rfl (Or.inr rfl) (by decide) (by decide) (by decide)
  refine ⟨st, hok, ?_, ?_, ?_, ?_⟩
  · simpa using (h 0 0 0 (by decide) (by decide) (by decide)).1
  · simpa using (h 0 0 0 (by decide) (by decide) (by decide)).2.1
  · simpa using (h 0 1 3 (by decide) (by decide) (by decide)).1
  · simpa using (h 0 1 3 (by decide) (by decide) (by decide)).2.1

/-- C9: for a valid descriptor (depth 8 or 16, colour type 2 or 6, filter type
0..4) and a buffer size that fits `unsigned int`, the row loop of
`create_image` completes with `uncompressed_len = filtered_len =
height*scanline_stride`, `scanline_stride = width*pixel_stride + 1`; the raw
buffer and the filtered stream both have that many bytes, and in both the byte
at `r*scanline_stride` is the filter type, for every row `r < height`. -/
theorem build_buffers_shape (self : LTPNG) (file : List Nat) (w h : Nat)
    (red green blue alpha : List Nat)
    (hd : self.bit_depth = 8 ∨ self.bit_depth = 16)
    (hc : self.colour_type = 2 ∨ self.colour_type = 6) (hf : self.filter_type ≤ 4)
    (hfit : h * (w * ((if self.colour_type = 2 then 3 else 4) *
      (if self.bit_depth = 8 then 1 else 2)) + 1) < 4294967296) :
    ∃ st, self.create_image_build file w h red green blue alpha = .ok st ∧
      st.uncompressed_len = h * (w * ((if self.colour_type = 2 then 3 else 4) *
        (if self.bit_depth = 8 then 1 else 2)) + 1) ∧
      st.filtered_len = st.uncompressed_len ∧
      st.self.uncompressed_data.length = st.uncompressed_len ∧
      (st.self.filtered_data.take st.filtered_len).length = st.uncompressed_len ∧
      ∀ r, r < h →
        st.self.uncompressed_data.getD (r * (w * ((if self.colour_type = 2 then 3 else 4) *
          (if self.bit_depth = 8 then 1 else 2)) + 1)) 0 = self.filter_type ∧
        (st.self.filtered_data.take st.filtered_len).getD
          (r * (w * ((if self.colour_type = 2 then 3 else 4) *
            (if self.bit_depth = 8 then 1 else 2)) + 1)) 0 = self.filter_type := by
  rw [← pixel_size_cases self hd hc] at hfit ⊢
  obtain ⟨hok, _⟩ := create_image_build_ok self file w h red green blue alpha hd hf
  obtain ⟨hu, hfl, hlf, hraw, ht, _⟩ :=
    build_done_built self file w h red green blue alpha hd hc hfit
  have hrl := raw_rows_length (build_start self file w h).self red green blue alpha h hd hc
  rw [build_start_width, pixel_size_build_start] at hrl
  refine ⟨_, hok, hu, by rw [hfl, hu], by rw [hraw, hrl, hu], ?_, ?_⟩
  · rw [List.length_take, hfl, hlf, hu, Nat.min_self]
  · intro r hr
    constructor
    · have h1 := raw_rows_tag (build_start self file w h).self red green blue alpha h r hd hc hr
      rw [build_start_width, pixel_size_build_start, build_start_filter_type,
        filter_type_byte _ hf] at h1
      rw [hraw]
      exact h1
    · have h2 := ht r hr
      unfold filp at h2
      rw [filter_type_byte _ hf] at h2
      exact h2

theorem build_buffers_shape_witness :
    ∃ st, (LTPNG.new 16 2 3).create_image_build [] 2 2 [1, 2, 3, 4] [5, 6, 7, 8] [9, 10, 11, 12] []
        = .ok st ∧
      st.uncompressed_len = 26 ∧ st.filtered_len = st.uncompressed_len ∧
      st.self.uncompressed_data.getD 13 0 = 3 ∧
      (st.self.filtered_data.take st.filtered_len).getD 13 0 = 3 := by
  obtain ⟨st, hok, hu, hfl, _, _, h⟩ := build_buffers_shape (LTPNG.new 16 2 3) [] 2 2 [1, 2, 3, 4]
    [5, 6, 7, 8] [9, 10, 11, 12] [] (Or.inr rfl) (Or.inl rfl) (by decide) (by decide)
  refine ⟨st, hok, ?_, hfl, ?_, ?_⟩
  · simpa using hu
  · simpa using (h 1 (by decide)).1
  · simpa using (h 1 (by decide)).2

/-- C10: with filter type 0, `filter_byte` returns the raw byte `x` at every
position, and for a valid image whose buffer size fits `unsigned int` the row
loop of `create_image` completes with the filtered stream
`filtered_data[0 .. filtered_len)`, the block handed to the compressor, equal
byte for byte to the raw buffer `uncompressed_data`: `height` rows of
`width*pixel_stride + 1` bytes, each row the tag byte 0 followed by the
unmodified channel bytes. -/
theorem filter_none_identity (self : LTPNG) (file : List Nat) (w h : Nat)
    (red green blue alpha : List Nat)
    (hd : self.bit_depth = 8 ∨ self.bit_depth = 16)
    (hc : self.colour_type = 2 ∨ self.colour_type = 6) (h0 : self.filter_type = 0)
    (hfit : h * (w * ((if self.colour_type = 2 then 3 else 4) *
      (if self.bit_depth = 8 then 1 else 2)) + 1) < 4294967296) :
    (∀ row col offset, self.filter_byte row col offset = .ok (raw_x self row col offset)) ∧
    ∃ st, self.create_image_build file w h red green blue alpha = .ok st ∧
      st.self.filtered_data.take st.filtered_len = st.self.uncompressed_data ∧
      st.self.uncompressed_data = raw_rows st.self red green blue alpha h ∧
      st.self.filter_type = 0 ∧
      st.filtered_len = h * (w * ((if self.colour_type = 2 then 3 else 4) *
        (if self.bit_depth = 8 then 1 else 2)) + 1) := by
  rw [← pixel_size_cases self hd hc] at hfit ⊢
  have hf : self.filter_type ≤ 4 := by omega
  obtain ⟨hok, hfr⟩ := create_image_build_ok self file w h red green blue alpha hd hf
  obtain ⟨_, hfl, _, hraw, _, hn⟩ :=
    build_done_built self file w h red green blue alpha hd hc hfit
  refine ⟨?_, _, hok, ?_, ?_, ?_, hfl⟩
  · intro row col offset
    rw [filter_byte_ok self row col offset hf, fval_none self row col offset h0]
  · have h1 := hn h0
    unfold filp at h1
    rw [h1, hraw]
  · rw [hraw]
    unfold raw_rows raw_row raw_pixel pixel_vals
    rw [frame_filter_type _ _ hfr, frame_width _ _ hfr, frame_bit_depth _ _ hfr,
      frame_colour_type _ _ hfr]
  · rw [frame_filter_type _ _ hfr, build_start_filter_type, h0]

set_option maxRecDepth 100000 in
theorem raw_rows_2x2 (s : LTPNG) (hw : s.width = 2) (h8 : s.bit_depth = 8)
    (hc : s.colour_type = 2) (h0 : s.filter_type = 0) :
    raw_rows s [1, 2, 3, 4] [5, 6, 7, 8] [9, 10, 11, 12] [] 2 =
      [0, 1, 5, 9, 2, 6, 10, 0, 3, 7, 11, 4, 8, 12] := by
  unfold raw_rows raw_row raw_pixel pixel_vals
  rw [hw, h8, hc, h0]
  decide

theorem filter_none_identity_witness :
    ∃ st, (LTPNG.new 8 2 0).create_image_build [] 2 2 [1, 2, 3, 4] [5, 6, 7, 8] [9, 10, 11, 12] []
        = .ok st ∧
      st.self.filtered_data.take st.filtered_len = st.self.uncompressed_data ∧
      st.self.filtered_data.take st.filtered_len =
        [0, 1, 5, 9, 2, 6, 10] ++ [0, 3, 7, 11, 4, 8, 12] ∧
      st.filtered_len = 2 * 7 := by
  obtain ⟨_, st, hok, he, hr, h0, hl⟩ := filter_none_identity (LTPNG.new 8 2 0) [] 2 2
    [1, 2, 3, 4] [5, 6, 7, 8] [9, 10, 11, 12] [] (Or.inl rfl) (Or.inl rfl) rfl (by decide)
  have hfr := (create_image_build_ok (LTPNG.new 8 2 0) [] 2 2 [1, 2, 3, 4] [5, 6, 7, 8]
    [9, 10, 11, 12] [] (Or.inl rfl) (by decide)).2
  have hst := Except.ok.inj (hok.symm.trans (create_image_build_ok (LTPNG.new 8 2 0) [] 2 2
    [1, 2, 3, 4] [5, 6, 7, 8] [9, 10, 11, 12] [] (Or.inl rfl) (by decide)).1)
  refine ⟨st, hok, he, ?_, ?_⟩
  · rw [he, hr]
    apply raw_rows_2x2
    · rw [hst, frame_width _ _ hfr]; rfl
    · rw [hst, frame_bit_depth _ _ hfr]; rfl
    · rw [hst, frame_colour_type _ _ hfr]; rfl
    · exact h0
  · simpa using hl

/-! ### The neighbours `filter_byte` reads -/

theorem u32_cast (n : Nat) (h : n < 4294967296) : u32 (n : Int) = n := by
  unfold u32; omega

theorem index_left (s : LTPNG) (row c j : Nat) :
    index_base s row (c + 1) - (pixel_size_of s : Int) + ((j + 1 : Nat) : Int) =
      ((row * (s.width * pixel_size_of s + 1) + 1 + c * pixel_size_of s + j : Nat) : Int) := by
  unfold index_base; push_cast; ring

theorem index_up (s : LTPNG) (r col j : Nat) :
    index_base s (r + 1) col - (s.width : Int) * (pixel_size_of s : Int) + ((j + 1 : Nat) : Int) - 1 =
      ((r * (s.width * pixel_size_of s + 1) + 1 + col * pixel_size_of s + j : Nat) : Int) := by
  unfold index_base; push_cast; ring

theorem index_upleft (s : LTPNG) (r c j : Nat) :
    index_base s (r + 1) (c + 1) - (pixel_size_of s : Int) -
        (s.width : Int) * (pixel_size_of s : Int) + ((j + 1 : Nat) : Int) - 1 =
      ((r * (s.width * pixel_size_of s + 1) + 1 + c * pixel_size_of s + j : Nat) : Int) := by
  unfold index_base; push_cast; ring

theorem index_here (s : LTPNG) (row col j : Nat) :
    index_base s row col + ((j + 1 : Nat) : Int) =
      ((row * (s.width * pixel_size_of s + 1) + 1 + col * pixel_size_of s + j : Nat) : Int) := by
  unfold index_base; push_cast; ring

theorem col_block_le (w ps c : Nat) (h : c < w) : c * ps + ps ≤ w * ps := by
  have := Nat.mul_le_mul_right ps (Nat.succ_le_of_lt h)
  rw [Nat.succ_mul] at this
  exact this

theorem raw_prefix_prev (s : LTPNG) (red green blue alpha : List Nat) (row r c j : Nat)
    (T : List Nat) (hd : s.bit_depth = 8 ∨ s.bit_depth = 16)
    (hc : s.colour_type = 2 ∨ s.colour_type = 6)
    (hr : r < row) (hcol : c < s.width) (hj : j < pixel_size_of s) :
    (raw_rows s red green blue alpha row ++ T).getD
        (r * (s.width * pixel_size_of s + 1) + 1 + c * pixel_size_of s + j) 0 =
      (raw_pixel s red green blue alpha r c).getD j 0 := by
  have hcp := col_block_le s.width (pixel_size_of s) c hcol
  have hrow : r * (s.width * pixel_size_of s + 1) + (s.width * pixel_size_of s + 1) ≤
      row * (s.width * pixel_size_of s + 1) := by
    have := Nat.mul_le_mul_right (s.width * pixel_size_of s + 1) (Nat.succ_le_of_lt hr)
    rw [Nat.succ_mul] at this
    exact this
  rw [List.getD_append _ _ _ _ (by rw [raw_rows_length s _ _ _ _ _ hd hc]; omega)]
  exact raw_rows_at s red green blue alpha row r c j hd hc hr hcol hj

theorem raw_prefix_cur (s : LTPNG) (red green blue alpha : List Nat) (row k c j : Nat)
    (hd : s.bit_depth = 8 ∨ s.bit_depth = 16) (hc : s.colour_type = 2 ∨ s.colour_type = 6)
    (hck : c < k) (hj : j < pixel_size_of s) :
    (raw_rows s red green blue alpha row ++ (s.filter_type % 256) ::
        (List.range k).flatMap (fun col => raw_pixel s red green blue alpha row col)).getD
        (row * (s.width * pixel_size_of s + 1) + 1 + c * pixel_size_of s + j) 0 =
      (raw_pixel s red green blue alpha row c).getD j 0 := by
  have hl := raw_rows_length s red green blue alpha row hd hc
  rw [List.getD_append_right _ _ _ _ (by rw [hl]; omega), hl]
  have e : row * (s.width * pixel_size_of s + 1) + 1 + c * pixel_size_of s + j -
      row * (s.width * pixel_size_of s + 1) = (c * pixel_size_of s + j) + 1 := by omega
  rw [e, List.getD_cons_succ]
  exact flatMap_block_getD (fun col => raw_pixel s red green blue alpha row col) (pixel_size_of s)
    k (fun i _ => raw_pixel_length s red green blue alpha row i hd hc) c j hck hj

/-! ### One pixel of the filtered stream in closed form -/

theorem pixel_done_fil (s0 : LTPNG) (N : Nat) (st : Build) (n : Nat)
    (red green blue alpha : List Nat) (row col : Nat) (hB : Built s0 N st n)
    (hd : s0.bit_depth = 8 ∨ s0.bit_depth = 16) (hc : s0.colour_type = 2 ∨ s0.colour_type = 6)
    (hn : n + pixel_size_of s0 ≤ N) (hN : N < 4294967296) (hcol : col < s0.width)
    (hi : n = row * (s0.width * pixel_size_of s0 + 1) + 1 + col * pixel_size_of s0)
    (hraw : rawp st = raw_rows s0 red green blue alpha row ++ (s0.filter_type % 256) ::
      (List.range col).flatMap (fun c => raw_pixel s0 red green blue alpha row c)) :
    filp (pixel_done st red green blue alpha row col) =
      filp st ++ fil_pixel s0 red green blue alpha row col := by
  obtain ⟨_, _, hf1⟩ := pixel_done_built s0 N st n red green blue alpha row col hB hd hc hn hN
  obtain ⟨hf, hu, hfl, hlu, hlf⟩ := hB
  have hlen := pixel_vals_length s0 red green blue alpha row col hd hc
  have hfr : frame (put_raw_list st (pixel_vals s0 red green blue alpha row col)).self =
      frame s0 := by rw [put_raw_list_frame]; exact hf
  have hrawR : rawp (put_raw_list st (pixel_vals s0 red green blue alpha row col)) =
      rawp st ++ raw_pixel s0 red green blue alpha row col :=
    put_raw_list_rawp _ _ (by rw [hu, hlen, hlu]; omega) (by rw [hu, hlen]; omega)
  have hul : (put_raw_list st (pixel_vals s0 red green blue alpha row col)).uncompressed_len =
      n + pixel_size_of s0 := by
    rw [put_raw_list_len _ _ (by rw [hu, hlen]; omega), hu, hlen]
  have hP : rawp (put_raw_list st (pixel_vals s0 red green blue alpha row col)) =
      raw_rows s0 red green blue alpha row ++ (s0.filter_type % 256) ::
        (List.range (col + 1)).flatMap (fun c => raw_pixel s0 red green blue alpha row c) := by
    rw [hrawR, hraw, List.range_succ, List.flatMap_append, List.flatMap_singleton,
      List.append_assoc, List.cons_append]
  have hD : ∀ i, i < n + pixel_size_of s0 →
      (put_raw_list st (pixel_vals s0 red green blue alpha row col)).self.uncompressed_data.getD
        i 0 = (raw_rows s0 red green blue alpha row ++ (s0.filter_type % 256) ::
        (List.range (col + 1)).flatMap
          (fun c => raw_pixel s0 red green blue alpha row c)).getD i 0 := by
    intro i hi2
    rw [← hP]
    unfold rawp
    rw [hul, getD_take_of_lt _ _ _ hi2]
  have hcp := col_block_le s0.width (pixel_size_of s0) col hcol
  have hval : ∀ j, j < pixel_size_of s0 →
      fval (put_raw_list st (pixel_vals s0 red green blue alpha row col)).self row col (j + 1)
        % 256 =
      filter_out s0.filter_type (nb_x s0 red green blue alpha row col j)
        (nb_a s0 red green blue alpha row col j) (nb_b s0 red green blue alpha row col j)
        (nb_c s0 red green blue alpha row col j) % 256 := by
    intro j hj
    have hx : raw_x (put_raw_list st (pixel_vals s0 red green blue alpha row col)).self row col
        (j + 1) = nb_x s0 red green blue alpha row col j := by
      unfold raw_x nb_x
      rw [index_base_congr _ _ _ _ hfr, index_here, u32_cast _ (by omega), hD _ (by omega),
        raw_prefix_cur s0 red green blue alpha row (col + 1) col j hd hc (by omega) hj]
    have ha : raw_a (put_raw_list st (pixel_vals s0 red green blue alpha row col)).self row col
        (j + 1) = nb_a s0 red green blue alpha row col j := by
      unfold raw_a nb_a
      rcases Nat.eq_zero_or_pos col with h0 | hpos
      · rw [if_neg (by omega), if_neg (by omega)]
      · obtain ⟨c, hc1⟩ : ∃ c, col = c + 1 := ⟨col - 1, by omega⟩
        have hs : (c + 1) * pixel_size_of s0 = c * pixel_size_of s0 + pixel_size_of s0 :=
          Nat.succ_mul _ _
        rw [if_pos hpos, if_pos hpos, index_base_congr _ _ _ _ hfr, pixel_size_congr _ _ hfr]
        subst hc1
        rw [index_left, u32_cast _ (by omega), hD _ (by omega), Nat.add_sub_cancel,
          raw_prefix_cur s0 red green blue alpha row (c + 1 + 1) c j hd hc (by omega) hj]
    have hb : raw_b (put_raw_list st (pixel_vals s0 red green blue alpha row col)).self row col
        (j + 1) = nb_b s0 red green blue alpha row col j := by
      unfold raw_b nb_b
      rcases Nat.eq_zero_or_pos row with h0 | hpos
      · rw [if_neg (by omega), if_neg (by omega)]
      · obtain ⟨r, hr1⟩ : ∃ r, row = r + 1 := ⟨row - 1, by omega⟩
        have hs : (r + 1) * (s0.width * pixel_size_of s0 + 1) =
            r * (s0.width * pixel_size_of s0 + 1) + (s0.width * pixel_size_of s0 + 1) :=
          Nat.succ_mul _ _
        rw [if_pos hpos, if_pos hpos, index_base_congr _ _ _ _ hfr, pixel_size_congr _ _ hfr,
          frame_width _ _ hfr]
        subst hr1
        rw [index_up, u32_cast _ (by omega), hD _ (by omega), Nat.add_sub_cancel,
          raw_prefix_prev s0 red green blue alpha (r + 1) r col j _ hd hc (by omega) hcol hj]
    have hcc : raw_c (put_raw_list st (pixel_vals s0 red green blue alpha row col)).self row col
        (j + 1) = nb_c s0 red green blue alpha row col j := by
      unfold raw_c nb_c
      by_cases hpos : col > 0 ∧ row > 0
      · obtain ⟨c, hc1⟩ : ∃ c, col = c + 1 := ⟨col - 1, by omega⟩
        obtain ⟨r, hr1⟩ : ∃ r, row = r + 1 := ⟨row - 1, by omega⟩
        have hs : (r + 1) * (s0.width * pixel_size_of s0 + 1) =
            r * (s0.width * pixel_size_of s0 + 1) + (s0.width * pixel_size_of s0 + 1) :=
          Nat.succ_mul _ _
        have hs2 : (c + 1) * pixel_size_of s0 = c * pixel_size_of s0 + pixel_size_of s0 :=
          Nat.succ_mul _ _
        rw [if_pos hpos, if_pos hpos, index_base_congr _ _ _ _ hfr, pixel_size_congr _ _ hfr,
          frame_width _ _ hfr]
        subst hc1
        subst hr1
        rw [index_upleft, u32_cast _ (by omega), hD _ (by omega), Nat.add_sub_cancel,
          Nat.add_sub_cancel,
          raw_prefix_prev s0 red green blue alpha (r + 1) r c j _ hd hc (by omega) (by omega) hj]
      · rw [if_neg hpos, if_neg hpos]
    unfold fval
    rw [frame_filter_type _ _ hfr, hx, ha, hb, hcc]
  have hmap : ((pixel_offsets s0).map
      (fval (put_raw_list st (pixel_vals s0 red green blue alpha row col)).self row col)).map
        (· % 256) = fil_pixel s0 red green blue alpha row col := by
    rw [pixel_offsets_range s0 hd hc, List.map_map, List.map_map]
    unfold fil_pixel
    apply List.map_congr_left
    intro j hj
    exact hval j (List.mem_range.mp hj)
  rw [hf1, hmap]

/-! ### The filtered stream in closed form -/

theorem cols_fil (s0 : LTPNG) (N : Nat) (red green blue alpha : List Nat) (row : Nat)
    (hd : s0.bit_depth = 8 ∨ s0.bit_depth = 16) (hc : s0.colour_type = 2 ∨ s0.colour_type = 6)
    (hN : N < 4294967296) (st1 : Build) (n1 : Nat) (hB : Built s0 N st1 n1)
    (hi : n1 = row * (s0.width * pixel_size_of s0 + 1) + 1)
    (hraw : rawp st1 = raw_rows s0 red green blue alpha row ++ [s0.filter_type % 256])
    (k : Nat) (hkw : k ≤ s0.width) (hk : n1 + k * pixel_size_of s0 ≤ N) :
    filp ((List.range k).foldl (fun st col => pixel_done st red green blue alpha row col) st1) =
      filp st1 ++ (List.range k).flatMap (fun col => fil_pixel s0 red green blue alpha row col) := by
  induction k with
  | zero => simp
  | succ k ih =>
    have hs : (k + 1) * pixel_size_of s0 = k * pixel_size_of s0 + pixel_size_of s0 :=
      Nat.succ_mul _ _
    obtain ⟨hBk, hrk, _⟩ := cols_built s0 N red green blue alpha row hd hc hN st1 n1 hB k
      (by omega)
    have h1 := pixel_done_fil s0 N _ _ red green blue alpha row k hBk hd hc (by omega) hN
      (by omega) (by rw [hi]) (by rw [hrk, hraw, List.append_assoc, List.singleton_append])
    rw [List.range_succ, List.foldl_append, List.foldl_cons, List.foldl_nil, h1,
      ih (by omega) (by omega), List.flatMap_append, List.flatMap_singleton, List.append_assoc]

theorem row_done_fil (s0 : LTPNG) (N : Nat) (red green blue alpha : List Nat) (row : Nat)
    (hd : s0.bit_depth = 8 ∨ s0.bit_depth = 16) (hc : s0.colour_type = 2 ∨ s0.colour_type = 6)
    (hN : N < 4294967296) (st : Build) (n : Nat) (hB : Built s0 N st n)
    (hi : n = row * (s0.width * pixel_size_of s0 + 1))
    (hraw : rawp st = raw_rows s0 red green blue alpha row)
    (hn : n + (s0.width * pixel_size_of s0 + 1) ≤ N) :
    filp (row_done st red green blue alpha row) =
      filp st ++ fil_row s0 red green blue alpha row := by
  obtain ⟨hB1, hr1, hf1⟩ := row_start_built s0 N st n hB (by omega) hN
  have h2 := cols_fil s0 N red green blue alpha row hd hc hN _ _ hB1 (by rw [hi])
    (by rw [hr1, hraw]) s0.width (Nat.le_refl _) (by omega)
  unfold row_done
  rw [frame_width s0 st.self hB.1, h2, hf1, List.append_assoc]
  rfl

theorem rows_fil (s0 : LTPNG) (N : Nat) (red green blue alpha : List Nat)
    (hd : s0.bit_depth = 8 ∨ s0.bit_depth = 16) (hc : s0.colour_type = 2 ∨ s0.colour_type = 6)
    (hN : N < 4294967296) (st0 : Build) (hB : Built s0 N st0 0) (k : Nat)
    (hk : k * (s0.width * pixel_size_of s0 + 1) ≤ N) :
    filp ((List.range k).foldl (fun st row => row_done st red green blue alpha row) st0) =
      fil_rows s0 red green blue alpha k := by
  induction k with
  | zero =>
    obtain ⟨_, _, hfl, _, _⟩ := hB
    simp [filp, fil_rows, hfl]
  | succ k ih =>
    have hs : (k + 1) * (s0.width * pixel_size_of s0 + 1) =
        k * (s0.width * pixel_size_of s0 + 1) + (s0.width * pixel_size_of s0 + 1) :=
      Nat.succ_mul _ _
    obtain ⟨hBk, hrk, _, _⟩ := rows_built s0 N red green blue alpha hd hc hN st0 hB k (by omega)
    rw [List.range_succ, List.foldl_append, List.foldl_cons, List.foldl_nil,
      row_done_fil s0 N red green blue alpha k hd hc hN _ _ hBk rfl hrk (by omega),
      ih (by omega)]
    unfold fil_rows
    rw [List.range_succ, List.flatMap_append, List.flatMap_singleton]

theorem build_done_fil (self : LTPNG) (file : List Nat) (w h : Nat)
    (red green blue alpha : List Nat)
    (hd : self.bit_depth = 8 ∨ self.bit_depth = 16)
    (hc : self.colour_type = 2 ∨ self.colour_type = 6)
    (hfit : h * (w * pixel_size_of self + 1) < 4294967296) :
    filp (build_done self file w h red green blue alpha) =
      fil_rows (build_start self file w h).self red green blue alpha h :=
  rows_fil (build_start self file w h).self (h * (w * pixel_size_of self + 1)) red green blue
    alpha hd hc hfit _ (build_start_built self file w h hfit) h
    (by rw [build_start_width, pixel_size_build_start])

theorem fil_pixel_length (s : LTPNG) (red green blue alpha : List Nat) (row col : Nat) :
    (fil_pixel s red green blue alpha row col).length = pixel_size_of s := by
  unfold fil_pixel
  rw [List.length_map, List.length_range]

theorem fil_pixel_getD (s : LTPNG) (red green blue alpha : List Nat) (row col j : Nat)
    (hj : j < pixel_size_of s) :
    (fil_pixel s red green blue alpha row col).getD j 0 =
      filter_out s.filter_type (nb_x s red green blue alpha row col j)
        (nb_a s red green blue alpha row col j) (nb_b s red green blue alpha row col j)
        (nb_c s red green blue alpha row col j) % 256 := by
  unfold fil_pixel
  rw [List.getD_eq_getElem _ _ (by rw [List.length_map, List.length_range]; exact hj),
    List.getElem_map, List.getElem_range]

theorem fil_row_length (s : LTPNG) (red green blue alpha : List Nat) (row : Nat) :
    (fil_row s red green blue alpha row).length = s.width * pixel_size_of s + 1 := by
  unfold fil_row
  rw [List.length_cons, flatMap_block_length _ (pixel_size_of s) s.width
    (fun i _ => fil_pixel_length s red green blue alpha row i)]

theorem fil_rows_length (s : LTPNG) (red green blue alpha : List Nat) (n : Nat) :
    (fil_rows s red green blue alpha n).length = n * (s.width * pixel_size_of s + 1) :=
  flatMap_block_length _ _ _ (fun i _ => fil_row_length s red green blue alpha i)

theorem fil_rows_at (s : LTPNG) (red green blue alpha : List Nat) (n r c j : Nat)
    (hr : r < n) (hcol : c < s.width) (hj : j < pixel_size_of s) :
    (fil_rows s red green blue alpha n).getD
        (r * (s.width * pixel_size_of s + 1) + 1 + c * pixel_size_of s + j) 0 =
      (fil_pixel s red green blue alpha r c).getD j 0 := by
  have hcp := col_block_le s.width (pixel_size_of s) c hcol
  have h := flatMap_block_getD (fun row => fil_row s red green blue alpha row)
    (s.width * pixel_size_of s + 1) n (fun i _ => fil_row_length s red green blue alpha i)
    r (1 + (c * pixel_size_of s + j)) hr (by omega)
  have e : r * (s.width * pixel_size_of s + 1) + 1 + c * pixel_size_of s + j =
      r * (s.width * pixel_size_of s + 1) + (1 + (c * pixel_size_of s + j)) := by omega
  unfold fil_rows
  rw [e, h]
  unfold fil_row
  rw [Nat.add_comm 1, List.getD_cons_succ]
  exact flatMap_block_getD (fun col => fil_pixel s red green blue alpha r col) (pixel_size_of s)
    s.width (fun i _ => fil_pixel_length s red green blue alpha r i) c j hcol hj

/-! ### The filtered stream against the raw buffer, position by position -/

theorem raw_rows_pos (s : LTPNG) (red green blue alpha : List Nat) (n r c j : Nat)
    (hd : s.bit_depth = 8 ∨ s.bit_depth = 16) (hc : s.colour_type = 2 ∨ s.colour_type = 6)
    (hr : r < n) (hcol : c < s.width) (hj : j < pixel_size_of s) :
    (raw_rows s red green blue alpha n).getD (byte_pos s.width (pixel_size_of s) r c j) 0 =
      (raw_pixel s red green blue alpha r c).getD j 0 :=
  raw_rows_at s red green blue alpha n r c j hd hc hr hcol hj

theorem nb_x_pos (s : LTPNG) (red green blue alpha : List Nat) (n r c j : Nat)
    (hd : s.bit_depth = 8 ∨ s.bit_depth = 16) (hc : s.colour_type = 2 ∨ s.colour_type = 6)
    (hr : r < n) (hcol : c < s.width) (hj : j < pixel_size_of s) :
    nb_x s red green blue alpha r c j =
      (raw_rows s red green blue alpha n).getD (byte_pos s.width (pixel_size_of s) r c j) 0 := by
  rw [raw_rows_pos s red green blue alpha n r c j hd hc hr hcol hj]
  rfl

theorem nb_a_pos (s : LTPNG) (red green blue alpha : List Nat) (n r c j : Nat)
    (hd : s.bit_depth = 8 ∨ s.bit_depth = 16) (hc : s.colour_type = 2 ∨ s.colour_type = 6)
    (hr : r < n) (hcol : c < s.width) (hj : j < pixel_size_of s) :
    nb_a s red green blue alpha r c j =
      left_of (raw_rows s red green blue alpha n) s.width (pixel_size_of s) r c j := by
  unfold nb_a left_of
  rcases Nat.eq_zero_or_pos c with h0 | hpos
  · rw [if_neg (by omega), if_pos h0]
  · rw [if_pos hpos, if_neg (by omega),
      raw_rows_pos s red green blue alpha n r (c - 1) j hd hc hr (by omega) hj]

theorem nb_b_pos (s : LTPNG) (red green blue alpha : List Nat) (n r c j : Nat)
    (hd : s.bit_depth = 8 ∨ s.bit_depth = 16) (hc : s.colour_type = 2 ∨ s.colour_type = 6)
    (hr : r < n) (hcol : c < s.width) (hj : j < pixel_size_of s) :
    nb_b s red green blue alpha r c j =
      up_of (raw_rows s red green blue alpha n) s.width (pixel_size_of s) r c j := by
  unfold nb_b up_of
  rcases Nat.eq_zero_or_pos r with h0 | hpos
  · rw [if_neg (by omega), if_pos h0]
  · rw [if_pos hpos, if_neg (by omega),
      raw_rows_pos s red green blue alpha n (r - 1) c j hd hc (by omega) hcol hj]

theorem nb_c_pos (s : LTPNG) (red green blue alpha : List Nat) (n r c j : Nat)
    (hd : s.bit_depth = 8 ∨ s.bit_depth = 16) (hc : s.colour_type = 2 ∨ s.colour_type = 6)
    (hr : r < n) (hcol : c < s.width) (hj : j < pixel_size_of s) :
    nb_c s red green blue alpha r c j =
      upleft_of (raw_rows s red green blue alpha n) s.width (pixel_size_of s) r c j := by
  unfold nb_c upleft_of
  by_cases hpos : c > 0 ∧ r > 0
  · rw [if_pos hpos, if_neg (by omega),
      raw_rows_pos s red green blue alpha n (r - 1) (c - 1) j hd hc (by omega) (by omega) hj]
  · rw [if_neg hpos, if_pos (by omega)]

/-- After the row loop, the filtered byte at every pixel position is the
filter formula applied to the raw byte at that position and its neighbours in
the final raw buffer. -/
theorem build_filtered_at (self : LTPNG) (file : List Nat) (w h : Nat)
    (red green blue alpha : List Nat)
    (hd : self.bit_depth = 8 ∨ self.bit_depth = 16)
    (hc : self.colour_type = 2 ∨ self.colour_type = 6)
    (hfit : h * (w * pixel_size_of self + 1) < 4294967296)
    (r c j : Nat) (hr : r < h) (hcw : c < w) (hj : j < pixel_size_of self) :
    ((build_done self file w h red green blue alpha).self.filtered_data.take
        (build_done self file w h red green blue alpha).filtered_len).getD
        (byte_pos w (pixel_size_of self) r c j) 0 =
      filter_out self.filter_type
        ((build_done self file w h red green blue alpha).self.uncompressed_data.getD
          (byte_pos w (pixel_size_of self) r c j) 0)
        (left_of (build_done self file w h red green blue alpha).self.uncompressed_data
          w (pixel_size_of self) r c j)
        (up_of (build_done self file w h red green blue alpha).self.uncompressed_data
          w (pixel_size_of self) r c j)
        (upleft_of (build_done self file w h red green blue alpha).self.uncompressed_data
          w (pixel_size_of self) r c j) % 256 := by
  obtain ⟨_, _, _, hraw, _, _⟩ := build_done_built self file w h red green blue alpha hd hc hfit
  have hfil := build_done_fil self file w h red green blue alpha hd hc hfit
  unfold filp at hfil
  have hx := nb_x_pos (build_start self file w h).self red green blue alpha h r c j hd hc hr hcw
    hj
  have ha := nb_a_pos (build_start self file w h).self red green blue alpha h r c j hd hc hr hcw
    hj
  have hb := nb_b_pos (build_start self file w h).self red green blue alpha h r c j hd hc hr hcw
    hj
  have hcc := nb_c_pos (build_start self file w h).self red green blue alpha h r c j hd hc hr hcw
    hj
  have hat := fil_rows_at (build_start self file w h).self red green blue alpha h r c j hr hcw hj
  have hg := fil_pixel_getD (build_start self file w h).self red green blue alpha r c j hj
  rw [build_start_width, pixel_size_build_start] at hx ha hb hcc hat
  rw [build_start_filter_type, hx, ha, hb, hcc] at hg
  rw [hfil, hraw]
  unfold byte_pos
  rw [hat, hg]
  rfl

/-! ### The four predictive filters -/

theorem u8_mod_cast (v : Int) : ((u8 v % 256 : Nat) : Int) = v % 256 := by
  unfold u8; omega

theorem filter_out_1 (x a b c : Nat) : filter_out 1 x a b c = u8 ((x : Int) - a) := by
  unfold filter_out
  rw [if_neg (by decide), if_pos rfl]
theorem filter_out_2 (x a b c : Nat) : filter_out 2 x a b c = u8 ((x : Int) - b) := by
  unfold filter_out
  rw [if_neg (by decide), if_neg (by decide), if_pos rfl]
theorem filter_out_4 (x a b c : Nat) :
    filter_out 4 x a b c = u8 ((x : Int) - LTPNG.paeth_predictor a b c) := by
  unfold filter_out
  rw [if_neg (by decide), if_neg (by decide), if_neg (by decide), if_neg (by decide)]

theorem raw_a_first_col (s : LTPNG) (row offset : Nat) : raw_a s row 0 offset = 0 := rfl
theorem raw_b_first_row (s : LTPNG) (col offset : Nat) : raw_b s 0 col offset = 0 := rfl
theorem raw_c_first_row (s : LTPNG) (col offset : Nat) : raw_c s 0 col offset = 0 := by
  unfold raw_c
  rw [if_neg (by omega)]
theorem raw_c_first_col (s : LTPNG) (row offset : Nat) : raw_c s row 0 offset = 0 := by
  unfold raw_c
  rw [if_neg (by omega)]

theorem byte_pos_left (w ps r c j : Nat) (hc : 0 < c) :
    byte_pos w ps r (c - 1) j = byte_pos w ps r c j - ps := by
  unfold byte_pos
  have h2 : (c - 1) * ps + ps = c * ps := by
    have := Nat.succ_mul (c - 1) ps
    rw [Nat.succ_eq_add_one, Nat.sub_add_cancel hc] at this
    exact this.symm
  omega

theorem byte_pos_up (w ps r c j : Nat) (hr : 0 < r) :
    byte_pos w ps (r - 1) c j = byte_pos w ps r c j - (w * ps + 1) := by
  unfold byte_pos
  have h2 : (r - 1) * (w * ps + 1) + (w * ps + 1) = r * (w * ps + 1) := by
    have := Nat.succ_mul (r - 1) (w * ps + 1)
    rw [Nat.succ_eq_add_one, Nat.sub_add_cancel hr] at this
    exact this.symm
  omega

theorem byte_pos_upleft (w ps r c j : Nat) (hr : 0 < r) (hc : 0 < c) :
    byte_pos w ps (r - 1) (c - 1) j = byte_pos w ps r c j - (w * ps + 1) - ps := by
  rw [byte_pos_left w ps (r - 1) c j hc, byte_pos_up w ps r c j hr]

theorem left_of_eq (R : List Nat) (w ps r c j : Nat) :
    left_of R w ps r c j = if c = 0 then 0 else R.getD (byte_pos w ps r c j - ps) 0 := by
  unfold left_of
  rcases Nat.eq_zero_or_pos c with h0 | hpos
  · rw [if_pos h0, if_pos h0]
  · rw [if_neg (by omega), if_neg (by omega), byte_pos_left w ps r c j hpos]

theorem up_of_eq (R : List Nat) (w ps r c j : Nat) :
    up_of R w ps r c j = if r = 0 then 0 else R.getD (byte_pos w ps r c j - (w * ps + 1)) 0 := by
  unfold up_of
  rcases Nat.eq_zero_or_pos r with h0 | hpos
  · rw [if_pos h0, if_pos h0]
  · rw [if_neg (by omega), if_neg (by omega), byte_pos_up w ps r c j hpos]

theorem upleft_of_eq (R : List Nat) (w ps r c j : Nat) :
    upleft_of R w ps r c j =
      if r = 0 ∨ c = 0 then 0 else R.getD (byte_pos w ps r c j - (w * ps + 1) - ps) 0 := by
  unfold upleft_of
  by_cases h0 : r = 0 ∨ c = 0
  · rw [if_pos h0, if_pos h0]
  · rw [if_neg h0, if_neg h0, byte_pos_upleft w ps r c j (by omega) (by omega)]

theorem build_ok_eq (self : LTPNG) (file : List Nat) (w h : Nat)
    (red green blue alpha : List Nat) (hd : self.bit_depth = 8 ∨ self.bit_depth = 16)
    (hf : self.filter_type ≤ 4) (st : Build)
    (hok : self.create_image_build file w h red green blue alpha = .ok st) :
    st = build_done self file w h red green blue alpha :=
  Except.ok.inj (hok.symm.trans
    (create_image_build_ok self file w h red green blue alpha hd hf).1)

/-- C11: with filter type 1 (Sub), `filter_byte` returns `(x - a) mod 256`
with `a = 0` in the first column, and after the row loop of `create_image`
(valid depth and colour type, buffer size within `unsigned int`) the filtered
byte of every row `r`, column `c` and byte `j` of the pixel is
`(x - a) mod 256`, `x` the raw byte at that position and `a` the raw byte
`pixel_stride` bytes earlier in the same row, or 0 when `c = 0`. -/
theorem filter_sub (self : LTPNG) (file : List Nat) (w h : Nat)
    (red green blue alpha : List Nat)
    (hd : self.bit_depth = 8 ∨ self.bit_depth = 16)
    (hc : self.colour_type = 2 ∨ self.colour_type = 6) (h1 : self.filter_type = 1)
    (hfit : h * (w * pixel_size_of self + 1) < 4294967296) :
    (∀ row col offset, self.filter_byte row col offset =
      .ok (u8 ((raw_x self row col offset : Int) - raw_a self row col offset))) ∧
    (∀ row offset, raw_a self row 0 offset = 0) ∧
    ∃ st, self.create_image_build file w h red green blue alpha = .ok st ∧
      ∀ r c j, r < h → c < w → j < pixel_size_of self →
        (((st.self.filtered_data.take st.filtered_len).getD
            (byte_pos w (pixel_size_of self) r c j) 0 : Nat) : Int) =
          ((st.self.uncompressed_data.getD (byte_pos w (pixel_size_of self) r c j) 0 : Nat) -
            (left_of st.self.uncompressed_data w (pixel_size_of self) r c j : Nat) : Int) % 256 ∧
        left_of st.self.uncompressed_data w (pixel_size_of self) r c j =
          (if c = 0 then 0 else st.self.uncompressed_data.getD
            (byte_pos w (pixel_size_of self) r c j - pixel_size_of self) 0) := by
  have hf : self.filter_type ≤ 4 := by omega
  obtain ⟨hok, _⟩ := create_image_build_ok self file w h red green blue alpha hd hf
  refine ⟨?_, fun row offset => raw_a_first_col self row offset, _, hok, ?_⟩
  · intro row col offset
    rw [filter_byte_ok self row col offset hf]
    unfold fval
    rw [h1, filter_out_1]
  · intro r c j hr hcw hj
    refine ⟨?_, left_of_eq _ _ _ _ _ _⟩
    rw [build_filtered_at self file w h red green blue alpha hd hc hfit r c j hr hcw hj, h1,
      filter_out_1, u8_mod_cast]

set_option maxRecDepth 100000 in
theorem build_sub_2x1 :
    (build_done (LTPNG.new 8 2 1) [] 2 1 [10, 5] [20, 30] [0, 255] []).self.filtered_data.take
      (build_done (LTPNG.new 8 2 1) [] 2 1 [10, 5] [20, 30] [0, 255] []).filtered_len =
      [1, 10, 20, 0, 251, 10, 255] := by decide

theorem filter_sub_witness :
    ∃ st, (LTPNG.new 8 2 1).create_image_build [] 2 1 [10, 5] [20, 30] [0, 255] [] = .ok st ∧
      (((st.self.filtered_data.take st.filtered_len).getD 4 0 : Nat) : Int) =
        ((st.self.uncompressed_data.getD 4 0 : Nat) - (st.self.uncompressed_data.getD 1 0 : Nat)
          : Int) % 256 ∧
      st.self.filtered_data.take st.filtered_len = [1, 10, 20, 0, 251, 10, 255] := by
  obtain ⟨_, _, st, hok, h⟩ := filter_sub (LTPNG.new 8 2 1) [] 2 1 [10, 5] [20, 30] [0, 255] []
    (Or.inl rfl) (Or.inl rfl) rfl (by decide)
  refine ⟨st, hok, ?_, ?_⟩
  · have h1 := (h 0 1 0 (by decide) (by decide) (by decide)).1
    rw [(h 0 1 0 (by decide) (by decide) (by decide)).2] at h1
    exact h1
  · rw [build_ok_eq _ _ _ _ _ _ _ _ (Or.inl rfl) (by decide) st hok]
    exact build_sub_2x1

/-- C12: with filter type 2 (Up), `filter_byte` returns `(x - b) mod 256` with
`b = 0` in the first row; for `row > 0` its index expression
`row*stride + col*ps - width*ps + offset - 1` is the position of the same byte
of the same pixel one scanline up, strictly inside that scanline and never on
its tag byte; and after the row loop of `create_image` (valid depth and colour
type, buffer size within `unsigned int`) the filtered byte at every position is
`(x - b) mod 256`, `b` the raw byte one scanline earlier, or 0 when `r = 0`. -/
theorem filter_up (self : LTPNG) (file : List Nat) (w h : Nat)
    (red green blue alpha : List Nat)
    (hd : self.bit_depth = 8 ∨ self.bit_depth = 16)
    (hc : self.colour_type = 2 ∨ self.colour_type = 6) (h2 : self.filter_type = 2)
    (hfit : h * (w * pixel_size_of self + 1) < 4294967296) :
    (∀ row col offset, self.filter_byte row col offset =
      .ok (u8 ((raw_x self row col offset : Int) - raw_b self row col offset))) ∧
    (∀ col offset, raw_b self 0 col offset = 0) ∧
    ∃ st, self.create_image_build file w h red green blue alpha = .ok st ∧
      ∀ r c j, r < h → c < w → j < pixel_size_of self →
        (((st.self.filtered_data.take st.filtered_len).getD
            (byte_pos w (pixel_size_of self) r c j) 0 : Nat) : Int) =
          ((st.self.uncompressed_data.getD (byte_pos w (pixel_size_of self) r c j) 0 : Nat) -
            (up_of st.self.uncompressed_data w (pixel_size_of self) r c j : Nat) : Int) % 256 ∧
        up_of st.self.uncompressed_data w (pixel_size_of self) r c j =
          (if r = 0 then 0 else st.self.uncompressed_data.getD
            (byte_pos w (pixel_size_of self) r c j - (w * pixel_size_of self + 1)) 0) ∧
        (0 < r →
          u32 (index_base st.self r c - (st.self.width : Int) * (pixel_size_of st.self : Int) +
              ((j + 1 : Nat) : Int) - 1) = byte_pos w (pixel_size_of self) (r - 1) c j ∧
          (r - 1) * (w * pixel_size_of self + 1) < byte_pos w (pixel_size_of self) (r - 1) c j ∧
          byte_pos w (pixel_size_of self) (r - 1) c j < r * (w * pixel_size_of self + 1)) := by
  have hf : self.filter_type ≤ 4 := by omega
  obtain ⟨hok, hfr⟩ := create_image_build_ok self file w h red green blue alpha hd hf
  refine ⟨?_, fun col offset => raw_b_first_row self col offset, _, hok, ?_⟩
  · intro row col offset
    rw [filter_byte_ok self row col offset hf]
    unfold fval
    rw [h2, filter_out_2]
  · intro r c j hr hcw hj
    refine ⟨?_, up_of_eq _ _ _ _ _ _, ?_⟩
    · rw [build_filtered_at self file w h red green blue alpha hd hc hfit r c j hr hcw hj, h2,
        filter_out_2, u8_mod_cast]
    · intro hpos
      obtain ⟨r1, hr1⟩ : ∃ r1, r = r1 + 1 := ⟨r - 1, by omega⟩
      subst hr1
      have hcp := col_block_le w (pixel_size_of self) c hcw
      have hs : (r1 + 1) * (w * pixel_size_of self + 1) =
          r1 * (w * pixel_size_of self + 1) + (w * pixel_size_of self + 1) := Nat.succ_mul _ _
      have hle : (r1 + 1) * (w * pixel_size_of self + 1) ≤ h * (w * pixel_size_of self + 1) :=
        Nat.mul_le_mul_right _ (by omega)
      rw [frame_width _ _ hfr, pixel_size_congr _ _ hfr, index_base_congr _ _ _ _ hfr,
        index_up, build_start_width, pixel_size_build_start, Nat.add_sub_cancel]
      unfold byte_pos
      rw [u32_cast _ (by omega)]
      omega

set_option maxRecDepth 100000 in
theorem build_up_1x2 :
    (build_done (LTPNG.new 8 2 2) [] 1 2 [10, 5] [20, 30] [0, 255] []).self.filtered_data.take
      (build_done (LTPNG.new 8 2 2) [] 1 2 [10, 5] [20, 30] [0, 255] []).filtered_len =
      [2, 10, 20, 0, 2, 251, 10, 255] := by decide

theorem filter_up_witness :
    ∃ st, (LTPNG.new 8 2 2).create_image_build [] 1 2 [10, 5] [20, 30] [0, 255] [] = .ok st ∧
      (((st.self.filtered_data.take st.filtered_len).getD 5 0 : Nat) : Int) =
        ((st.self.uncompressed_data.getD 5 0 : Nat) - (st.self.uncompressed_data.getD 1 0 : Nat)
          : Int) % 256 ∧
      st.self.filtered_data.take st.filtered_len = [2, 10, 20, 0, 2, 251, 10, 255] := by
  obtain ⟨_, _, st, hok, h⟩ := filter_up (LTPNG.new 8 2 2) [] 1 2 [10, 5] [20, 30] [0, 255] []
    (Or.inl rfl) (Or.inl rfl) rfl (by decide)
  refine ⟨st, hok, ?_, ?_⟩
  · have h1 := (h 1 0 0 (by decide) (by decide) (by decide)).1
    rw [(h 1 0 0 (by decide) (by decide) (by decide)).2.1] at h1
    exact h1
  · rw [build_ok_eq _ _ _ _ _ _ _ _ (Or.inl rfl) (by decide) st hok]
    exact build_up_1x2

/-- C14: with filter type 4 (Paeth), `filter_byte` returns
`(x - paeth_predictor(a, b, c)) mod 256`, and after the row loop of
`create_image` (valid depth and colour type, buffer size within
`unsigned int`) the filtered byte at every position is that value for `a` the
left neighbour, `b` the upper neighbour and `c` the byte of the previous pixel
in the previous row, `c = 0` when `r = 0` or `c = 0`. -/
theorem filter_paeth (self : LTPNG) (file : List Nat) (w h : Nat)
    (red green blue alpha : List Nat)
    (hd : self.bit_depth = 8 ∨ self.bit_depth = 16)
    (hc : self.colour_type = 2 ∨ self.colour_type = 6) (h4 : self.filter_type = 4)
    (hfit : h * (w * pixel_size_of self + 1) < 4294967296) :
    (∀ row col offset, self.filter_byte row col offset =
      .ok (u8 ((raw_x self row col offset : Int) -
        (LTPNG.paeth_predictor (raw_a self row col offset) (raw_b self row col offset)
          (raw_c self row col offset) : Nat)))) ∧
    (∀ col offset, raw_c self 0 col offset = 0) ∧
    (∀ row offset, raw_c self row 0 offset = 0) ∧
    ∃ st, self.create_image_build file w h red green blue alpha = .ok st ∧
      ∀ r c j, r < h → c < w → j < pixel_size_of self →
        (((st.self.filtered_data.take st.filtered_len).getD
            (byte_pos w (pixel_size_of self) r c j) 0 : Nat) : Int) =
          ((st.self.uncompressed_data.getD (byte_pos w (pixel_size_of self) r c j) 0 : Nat) -
            (LTPNG.paeth_predictor
              (left_of st.self.uncompressed_data w (pixel_size_of self) r c j)
              (up_of st.self.uncompressed_data w (pixel_size_of self) r c j)
              (upleft_of st.self.uncompressed_data w (pixel_size_of self) r c j) : Nat) : Int)
            % 256 ∧
        upleft_of st.self.uncompressed_data w (pixel_size_of self) r c j =
          (if r = 0 ∨ c = 0 then 0 else st.self.uncompressed_data.getD
            (byte_pos w (pixel_size_of self) r c j - (w * pixel_size_of self + 1) -
              pixel_size_of self) 0) := by
  have hf : self.filter_type ≤ 4 := by omega
  obtain ⟨hok, _⟩ := create_image_build_ok self file w h red green blue alpha hd hf
  refine ⟨?_, fun col offset => raw_c_first_row self col offset,
    fun row offset => raw_c_first_col self row offset, _, hok, ?_⟩
  · intro row col offset
    rw [filter_byte_ok self row col offset hf]
    unfold fval
    rw [h4, filter_out_4]
  · intro r c j hr hcw hj
    refine ⟨?_, upleft_of_eq _ _ _ _ _ _⟩
    rw [build_filtered_at self file w h red green blue alpha hd hc hfit r c j hr hcw hj, h4,
      filter_out_4, u8_mod_cast]

set_option maxRecDepth 100000 in
theorem build_paeth_2x2 :
    (build_done (LTPNG.new 8 2 4) [] 2 2 [50, 60, 70, 65] [10, 20, 30, 5] [200, 100, 90, 250]
        []).self.filtered_data.take
      (build_done (LTPNG.new 8 2 4) [] 2 2 [50, 60, 70, 65] [10, 20, 30, 5] [200, 100, 90, 250]
        []).filtered_len =
      [4, 50, 10, 200, 10, 10, 156, 4, 20, 20, 146, 251, 231, 160] := by decide

theorem filter_paeth_witness :
    ∃ st, (LTPNG.new 8 2 4).create_image_build [] 2 2 [50, 60, 70, 65] [10, 20, 30, 5]
        [200, 100, 90, 250] [] = .ok st ∧
      (((st.self.filtered_data.take st.filtered_len).getD 11 0 : Nat) : Int) =
        ((st.self.uncompressed_data.getD 11 0 : Nat) -
          (LTPNG.paeth_predictor (st.self.uncompressed_data.getD 8 0)
            (st.self.uncompressed_data.getD 4 0) (st.self.uncompressed_data.getD 1 0) : Nat)
          : Int) % 256 ∧
      st.self.filtered_data.take st.filtered_len =
        [4, 50, 10, 200, 10, 10, 156, 4, 20, 20, 146, 251, 231, 160] := by
  obtain ⟨_, _, _, st, hok, h⟩ := filter_paeth (LTPNG.new 8 2 4) [] 2 2 [50, 60, 70, 65]
    [10, 20, 30, 5] [200, 100, 90, 250] [] (Or.inl rfl) (Or.inl rfl) rfl (by decide)
  refine ⟨st, hok, ?_, ?_⟩
  · exact (h 1 1 0 (by decide) (by decide) (by decide)).1
  · rw [build_ok_eq _ _ _ _ _ _ _ _ (Or.inl rfl) (by decide) st hok]
    exact build_paeth_2x2

/-! ### The Paeth predictor -/

theorem s16_id (x : Int) (h1 : -32768 ≤ x) (h2 : x ≤ 32767) : s16 x = x := by
  unfold s16; omega

theorem u8_byte (a : Nat) (h : a < 256) : u8 (a : Int) = a := by
  unfold u8; omega

/-- C15: for bytes `a`, `b`, `c` the result of `paeth_predictor` is, with
`p = a + b - c`, `pa = |p - a|`, `pb = |p - b|`, `pc = |p - c|` in unbounded
signed arithmetic: `a` if `pa <= pb` and `pa <= pc`, otherwise `b` if
`pb <= pc`, otherwise `c`; it is one of `a`, `b`, `c`; and `p`, `pa`, `pb`,
`pc` all lie in the range of the 16-bit signed type, so the conversions to
`short` change nothing. -/
theorem paeth_predictor_spec (a b c : Nat) (ha : a < 256) (hb : b < 256) (hc : c < 256) :
    LTPNG.paeth_predictor a b c =
      (if |((a : Int) + b - c) - a| ≤ |((a : Int) + b - c) - b| ∧
          |((a : Int) + b - c) - a| ≤ |((a : Int) + b - c) - c| then a
        else if |((a : Int) + b - c) - b| ≤ |((a : Int) + b - c) - c| then b else c) ∧
    (LTPNG.paeth_predictor a b c = a ∨ LTPNG.paeth_predictor a b c = b ∨
      LTPNG.paeth_predictor a b c = c) ∧
    s16 ((a : Int) + b - c) = (a : Int) + b - c ∧
    s16 (Int.natAbs (((a : Int) + b - c) - a)) = |((a : Int) + b - c) - a| ∧
    s16 (Int.natAbs (((a : Int) + b - c) - b)) = |((a : Int) + b - c) - b| ∧
    s16 (Int.natAbs (((a : Int) + b - c) - c)) = |((a : Int) + b - c) - c| ∧
    (-32768 ≤ (a : Int) + b - c ∧ (a : Int) + b - c ≤ 32767) ∧
    |((a : Int) + b - c) - a| ≤ 32767 ∧ |((a : Int) + b - c) - b| ≤ 32767 ∧
    |((a : Int) + b - c) - c| ≤ 32767 := by
  have hp : s16 ((a : Int) + b - c) = (a : Int) + b - c := s16_id _ (by omega) (by omega)
  have ea : ((Int.natAbs (((a : Int) + b - c) - a) : Nat) : Int) = |((a : Int) + b - c) - a| :=
    Int.natCast_natAbs _
  have eb : ((Int.natAbs (((a : Int) + b - c) - b) : Nat) : Int) = |((a : Int) + b - c) - b| :=
    Int.natCast_natAbs _
  have ec : ((Int.natAbs (((a : Int) + b - c) - c) : Nat) : Int) = |((a : Int) + b - c) - c| :=
    Int.natCast_natAbs _
  have ba : |((a : Int) + b - c) - a| ≤ 255 := by rw [abs_le]; constructor <;> omega
  have bb : |((a : Int) + b - c) - b| ≤ 255 := by rw [abs_le]; constructor <;> omega
  have bc : |((a : Int) + b - c) - c| ≤ 510 := by rw [abs_le]; constructor <;> omega
  have na : (0 : Int) ≤ |((a : Int) + b - c) - a| := abs_nonneg _
  have nb : (0 : Int) ≤ |((a : Int) + b - c) - b| := abs_nonneg _
  have nc : (0 : Int) ≤ |((a : Int) + b - c) - c| := abs_nonneg _
  have sa : s16 (Int.natAbs (((a : Int) + b - c) - a)) = |((a : Int) + b - c) - a| := by
    rw [ea]; exact s16_id _ (by omega) (by omega)
  have sb : s16 (Int.natAbs (((a : Int) + b - c) - b)) = |((a : Int) + b - c) - b| := by
    rw [eb]; exact s16_id _ (by omega) (by omega)
  have sc : s16 (Int.natAbs (((a : Int) + b - c) - c)) = |((a : Int) + b - c) - c| := by
    rw [ec]; exact s16_id _ (by omega) (by omega)
  have hdef : LTPNG.paeth_predictor a b c =
      (if |((a : Int) + b - c) - a| ≤ |((a : Int) + b - c) - b| ∧
          |((a : Int) + b - c) - a| ≤ |((a : Int) + b - c) - c| then a
        else if |((a : Int) + b - c) - b| ≤ |((a : Int) + b - c) - c| then b else c) := by
    unfold LTPNG.paeth_predictor
    simp only [hp, sa, sb, sc, u8_byte a ha, u8_byte b hb, u8_byte c hc]
  refine ⟨hdef, ?_, hp, sa, sb, sc, ⟨by omega, by omega⟩, by omega, by omega, by omega⟩
  rw [hdef]
  split
  · exact Or.inl rfl
  · split
    · exact Or.inr (Or.inl rfl)
    · exact Or.inr (Or.inr rfl)

theorem paeth_predictor_spec_witness :
    LTPNG.paeth_predictor 70 60 50 = 70 ∧ LTPNG.paeth_predictor 0 50 0 = 50 ∧
      LTPNG.paeth_predictor 10 20 200 = 10 ∧ LTPNG.paeth_predictor 255 255 0 = 255 ∧
      LTPNG.paeth_predictor 50 60 55 = 55 := by
  have h1 := (paeth_predictor_spec 70 60 50 (by decide) (by decide) (by decide)).1
  have h2 := (paeth_predictor_spec 0 50 0 (by decide) (by decide) (by decide)).1
  have h3 := (paeth_predictor_spec 10 20 200 (by decide) (by decide) (by decide)).1
  have h4 := (paeth_predictor_spec 255 255 0 (by decide) (by decide) (by decide)).1
  have h5 := (paeth_predictor_spec 50 60 55 (by decide) (by decide) (by decide)).1
  norm_num at h1 h2 h3 h4 h5
  exact ⟨h1, h2, h3, h4, h5⟩

/-! ### Reversibility of the filters -/

theorem filter_out_lt (f x a b c : Nat) (hx : x < 256) : filter_out f x a b c < 256 := by
  unfold filter_out
  split
  · exact hx
  · split
    · unfold u8; omega
    · split
      · unfold u8; omega
      · split
        · unfold u8; omega
        · unfold u8; omega

theorem raw_pixel_getD_lt (s : LTPNG) (red green blue alpha : List Nat) (row col j : Nat) :
    (raw_pixel s red green blue alpha row col).getD j 0 < 256 := by
  unfold raw_pixel
  rcases Nat.lt_or_ge j ((pixel_vals s red green blue alpha row col).map (· % 256)).length
    with hj | hj
  · rw [List.getD_eq_getElem _ _ hj, List.getElem_map]
    exact Nat.mod_lt _ (by decide)
  · rw [List.getD_eq_default _ _ hj]
    decide

theorem flatMap_range_congr (f g : Nat → List Nat) (n : Nat) (h : ∀ i, i < n → f i = g i) :
    (List.range n).flatMap f = (List.range n).flatMap g := by
  induction n with
  | zero => rfl
  | succ n ih =>
    rw [List.range_succ, List.flatMap_append, List.flatMap_append,
      ih (fun i hi => h i (by omega)), List.flatMap_singleton, List.flatMap_singleton,
      h n (by omega)]

theorem except_bind_error_inv {ε α β : Type} (x : Except ε α) (f : α → Except ε β) (e : ε)
    (h : (x >>= f) = .error e) : x = .error e ∨ ∃ a, x = .ok a ∧ f a = .error e := by
  cases x with
  | error e1 =>
    rw [except_error_bind] at h
    exact Or.inl (by rw [Except.error.inj h])
  | ok a => exact Or.inr ⟨a, rfl, h⟩

theorem fwrite_list_error_what (l : List Nat) (s : LTPNG) (t : Thrown)
    (h : fwrite_list s l = .error t) :
    t.what = "LTPNG: CRC buffer out of room, was allocate_crc_size() called?" := by
  induction l generalizing s with
  | nil => rw [fwrite_list_nil] at h; exact Except.noConfusion h
  | cons v l ih =>
    rw [fwrite_list_cons, fwrite_8_eq] at h
    by_cases hi : s.crc_index = s.crc_allocated
    · rw [if_pos hi, except_error_bind] at h
      rw [← Except.error.inj h]
    · rw [if_neg hi, except_ok_bind] at h
      exact ih _ h

theorem chunk_writer_error_what (s : LTPNG) (len : Nat) (g : LTPNG → List Nat) (t : Thrown)
    (h : ((fwrite_list s (be32 len) >>= fun s1 => fwrite_list s1.crc_init (g s1)) >>=
        fun m => m.get_crc.2.fwrite_32 m.get_crc.1) = .error t) :
    t.what = "LTPNG: CRC buffer out of room, was allocate_crc_size() called?" := by
  rcases except_bind_error_inv _ _ _ h with h1 | ⟨m, _, h2⟩
  · rcases except_bind_error_inv _ _ _ h1 with h3 | ⟨s1, _, h4⟩
    · exact fwrite_list_error_what _ _ _ h3
    · exact fwrite_list_error_what _ _ _ h4
  · rw [fwrite_32_eq_list] at h2
    exact fwrite_list_error_what _ _ _ h2

theorem write_header_chunk_error_what (s : LTPNG) (bd ct il : Nat) (t : Thrown)
    (h : s.write_header_chunk bd ct il = .error t) :
    t.what = "LTPNG: CRC buffer out of room, was allocate_crc_size() called?" := by
  unfold write_header_chunk at h
  rw [write_header_chunk_body_eq] at h
  exact chunk_writer_error_what s 13 (fun s1 => [73, 72, 68, 82] ++ be32 s1.width ++
    be32 s1.height ++ [bd, ct, 0, 0, il]) t h

theorem write_data_chunk_error_what (s : LTPNG) (cd : List Nat) (len : Nat) (t : Thrown)
    (h : s.write_data_chunk cd len = .error t) :
    t.what = "LTPNG: CRC buffer out of room, was allocate_crc_size() called?" := by
  unfold write_data_chunk at h
  rw [write_data_chunk_body_eq] at h
  exact chunk_writer_error_what s len (fun _ => [73, 68, 65, 84] ++
    (List.range len).map (fun i => cd.getD i 0)) t h

theorem write_end_chunk_error_what (s : LTPNG) (t : Thrown)
    (h : s.write_end_chunk = .error t) :
    t.what = "LTPNG: CRC buffer out of room, was allocate_crc_size() called?" := by
  unfold write_end_chunk at h
  rw [write_end_chunk_body_eq] at h
  exact chunk_writer_error_what s 0 (fun _ => [73, 69, 78, 68]) t h

/-- Every error of the writing phase is the capacity error of `fwrite_8`. -/
theorem write_file_error_what (s : LTPNG) (n : Nat) (t : Thrown)
    (h : write_file s n = .error t) :
    t.what = "LTPNG: CRC buffer out of room, was allocate_crc_size() called?" := by
  rw [write_file_eq, write_png_signature_eq] at h
  rcases except_bind_error_inv _ _ _ h with h1 | ⟨a, _, h2⟩
  · exact fwrite_list_error_what _ _ _ h1
  · rcases except_bind_error_inv _ _ _ h2 with h3 | ⟨b, _, h4⟩
    · exact write_header_chunk_error_what _ _ _ _ _ h3
    · rcases except_bind_error_inv _ _ _ h4 with h5 | ⟨c, _, h6⟩
      · exact write_data_chunk_error_what _ _ _ _ h5
      · exact write_end_chunk_error_what _ _ h6

/-- With a compressor that succeeds, `create_image_write` throws exactly when
the accumulator is short, and what it throws is the capacity error. -/
theorem create_image_write_capacity (st : Build) (z : ZLib) (h0 : st.self.crc_index = 0)
    (ht : TableOK st.self) (hz : ZSuccess st z) :
    (∃ t, create_image_write st z = .error t ∧
      t.what = "LTPNG: CRC buffer out of room, was allocate_crc_size() called?") ↔
    ((allocated_of st z).crc_allocated < 25 ∨
      (allocated_of st z).crc_allocated < (compressed_of st z).length + 12) := by
  constructor
  · rintro ⟨t, h, _⟩
    by_cases hroom : 25 ≤ (allocated_of st z).crc_allocated ∧
        (compressed_of st z).length + 12 ≤ (allocated_of st z).crc_allocated
    · have hok := (create_image_write_ok_iff st z h0 ht (finished_of st z)).2 ⟨⟨hz, hroom⟩, rfl⟩
      rw [hok] at h
      exact Except.noConfusion h
    · omega
  · intro hroom
    have hnot : ∀ s1, create_image_write st z ≠ .ok s1 := by
      intro s1 hs1
      have := ((create_image_write_ok_iff st z h0 ht s1).1 hs1).1
      omega
    cases hres : create_image_write st z with
    | ok s1 => exact absurd hres (hnot s1)
    | error t =>
      refine ⟨t, rfl, ?_⟩
      rw [create_image_write_eq] at hres
      have hd : st.self.def_ z st.self.filtered_data st.filtered_len st.self.compressed_data
          (data_size_of st.self) Z_DEFAULT_COMPRESSION =
          .ok (compressed_of st z ++ st.self.compressed_data.drop (compressed_of st z).length,
            (compressed_of st z).length) :=
        (def_eq_ok_iff st.self z st.self.filtered_data st.filtered_len
          st.self.compressed_data (data_size_of st.self) Z_DEFAULT_COMPRESSION _).2 ⟨hz, rfl⟩
      rw [hd, except_ok_bind] at hres
      rcases except_bind_error_inv _ _ _ hres with h1 | ⟨a, _, h2⟩
      · exact write_file_error_what _ _ _ h1
      · exact Except.noConfusion h2

theorem crc_len_value (w h d c : Nat) (hd : d = 8 ∨ d = 16) (hc : c = 2 ∨ c = 6)
    (hfit : w * h * ((if c = 2 then 3 else 4) * (d / 8)) + h + 4 + 1 < 4294967296) :
    u32 ((w : Int) * h * ((if c = 2 then 3 else 4 : Nat) : Int) * (3 - 16 / (d : Int))
        + h + 4 + 1) =
      w * h * ((if c = 2 then 3 else 4) * (d / 8)) + h + 4 + 1 := by
  have e : (w : Int) * h * ((if c = 2 then 3 else 4 : Nat) : Int) * (3 - 16 / (d : Int))
      + h + 4 + 1 =
      ((w * h * ((if c = 2 then 3 else 4) * (d / 8)) + h + 4 + 1 : Nat) : Int) := by
    rcases hd with rfl | rfl <;> rcases hc with rfl | rfl <;> norm_num <;> ring
  rw [e, u32_cast _ hfit]

/-- C17: the claim does not hold.  For a valid descriptor and a compressor
that succeeds with `n` bytes, `create_image` raises the capacity error of
`fwrite_8` exactly when the block of `width*height*pixel_stride + height + 5`
bytes obtained by `allocate_crc_size` is shorter than 25 bytes or shorter than
`n + 12` bytes: `fwrite_8` also accumulates the signature, the length fields
and the CRC fields, and `crc_init` is only called after each length field. -/
theorem create_image_capacity_error (d c f w h : Nat) (z : ZLib)
    (file red green blue alpha : List Nat) (hd : d = 8 ∨ d = 16) (hc : c = 2 ∨ c = 6)
    (hf : f ≤ 4)
    (hz : ZSuccess (build_done (LTPNG.new d c f) file w h red green blue alpha) z)
    (hfit : w * h * ((if c = 2 then 3 else 4) * (d / 8)) + h + 4 + 1 < 4294967296) :
    (∃ t, (LTPNG.new d c f).create_image z file w h red green blue alpha = .error t ∧
      t.what = "LTPNG: CRC buffer out of room, was allocate_crc_size() called?") ↔
    (w * h * ((if c = 2 then 3 else 4) * (d / 8)) + h + 4 + 1 < 25 ∨
      w * h * ((if c = 2 then 3 else 4) * (d / 8)) + h + 4 + 1 <
        (compressed_of (build_done (LTPNG.new d c f) file w h red green blue alpha) z).length
          + 12) := by
  obtain ⟨hb, hi, ht, _⟩ := build_done_facts d c f w h file red green blue alpha hd hf
  have hA := allocated_value d c f w h z file red green blue alpha hd hf
  rw [crc_len_value w h d c hd hc hfit] at hA
  rw [create_image_eq, hb, except_ok_bind, create_image_write_capacity _ z hi ht hz, hA]

theorem create_image_capacity_error_witness :
    1 ≤ 1 ∧ (compressed_of (build_done (LTPNG.new 8 2 0) [] 1 1 [1] [2] [3] [])
        zlib_const).length ≤ 1 * (1 * 3 + 1) ∧
      ∃ t, (LTPNG.new 8 2 0).create_image zlib_const [] 1 1 [1] [2] [3] [] = .error t ∧
        t.what = "LTPNG: CRC buffer out of room, was allocate_crc_size() called?" :=
  ⟨Nat.le_refl 1, Nat.le_trans (zlib_const_length _) (by decide),
    (create_image_capacity_error 8 2 0 1 1 zlib_const [] [1] [2] [3] [] (Or.inl rfl) (Or.inl rfl)
      (by decide) (zlib_const_success _) (by decide)).2 (Or.inl (by decide))⟩

theorem allocate_crc_size_crc_allocated (self : LTPNG) (d c : Nat) :
    (self.allocate_crc_size d c).crc_allocated =
      u32 ((self.width : Int) * self.height * ((if c = 2 then 3 else 4 : Nat) : Int) *
        (3 - 16 / (d : Int)) + self.height + 4 + 1) := by
  unfold allocate_crc_size; rfl

theorem allocate_crc_size_crc_buf (self : LTPNG) (d c : Nat) :
    (self.allocate_crc_size d c).crc_buf =
      List.replicate (u32 ((self.width : Int) * self.height *
        ((if c = 2 then 3 else 4 : Nat) : Int) * (3 - 16 / (d : Int)) + self.height + 4 + 1)) 0 := by
  unfold allocate_crc_size; rfl

theorem data_size_of_eq (s : LTPNG) :
    data_size_of s = (s.height * ((s.width * pixel_size_of s + 1) % 4294967296)) % 4294967296 :=
  rfl

/-- C18: for depth 8 or 16, colour type 2 or 6 and dimensions for which
`width*height*pixel_stride + height + 5` fits 32 bits, `allocate_crc_size`
sets `crc_allocated` (and the length of the new block) to exactly
`width*height*pixel_stride + height + 4 + 1`, `pixel_stride = channels *
depth/8`; the factor `3 - 16/bit_depth` is `depth/8`, 1 for depth 8 and 2 for
depth 16; called on the object's own descriptor this is the raw buffer size
`height*(width*pixel_stride + 1)` of `create_image` plus 5. -/
theorem allocate_crc_size_capacity (self : LTPNG) (d c : Nat) (hd : d = 8 ∨ d = 16)
    (hc : c = 2 ∨ c = 6)
    (hfit : self.width * self.height * ((if c = 2 then 3 else 4) * (d / 8)) + self.height + 4 + 1
      < 4294967296) :
    (self.allocate_crc_size d c).crc_allocated =
      self.width * self.height * ((if c = 2 then 3 else 4) * (d / 8)) + self.height + 4 + 1 ∧
    (self.allocate_crc_size d c).crc_buf.length =
      self.width * self.height * ((if c = 2 then 3 else 4) * (d / 8)) + self.height + 4 + 1 ∧
    (3 : Int) - 16 / (d : Int) = ((d / 8 : Nat) : Int) ∧
    (d = 8 → d / 8 = 1) ∧ (d = 16 → d / 8 = 2) ∧
    (self.bit_depth = d → self.colour_type = c →
      data_size_of self =
        self.height * (self.width * ((if c = 2 then 3 else 4) * (d / 8)) + 1) ∧
      (self.allocate_crc_size d c).crc_allocated = data_size_of self + 5) := by
  have hv := crc_len_value self.width self.height d c hd hc hfit
  have hA : (self.allocate_crc_size d c).crc_allocated =
      self.width * self.height * ((if c = 2 then 3 else 4) * (d / 8)) + self.height + 4 + 1 := by
    rw [allocate_crc_size_crc_allocated, hv]
  refine ⟨hA, ?_, ?_, ?_, ?_, ?_⟩
  · rw [allocate_crc_size_crc_buf, List.length_replicate, hv]
  · rcases hd with rfl | rfl <;> norm_num
  · intro h; rw [h]
  · intro h; rw [h]
  · intro hbd hct
    have hps : pixel_size_of self = (if c = 2 then 3 else 4) * (d / 8) := by
      rw [pixel_size_cases self (by rw [hbd]; exact hd) (by rw [hct]; exact hc), hbd, hct]
      rcases hd with rfl | rfl <;> rfl
    have hring : self.height * (self.width * pixel_size_of self + 1) =
        self.width * self.height * pixel_size_of self + self.height := by ring
    have hds : data_size_of self = self.height * (self.width * pixel_size_of self + 1) := by
      rw [data_size_of_eq]
      rcases Nat.eq_zero_or_pos self.height with h0 | hpos
      · rw [h0]; simp
      · have hle : self.width * pixel_size_of self + 1 ≤
            self.height * (self.width * pixel_size_of self + 1) :=
          Nat.le_mul_of_pos_left _ hpos
        rw [← hps] at hfit
        rw [Nat.mod_eq_of_lt (by omega : self.width * pixel_size_of self + 1 < 4294967296),
          Nat.mod_eq_of_lt (by omega)]
    rw [hps] at hds hring
    rw [hA, hds]
    exact ⟨rfl, by omega⟩

theorem allocate_crc_size_capacity_witness :
    ((build_start (LTPNG.new 16 6 0) [] 3 2).self.allocate_crc_size 16 6).crc_allocated =
      3 * 2 * (4 * 2) + 2 + 4 + 1 :=
  (allocate_crc_size_capacity (build_start (LTPNG.new 16 6 0) [] 3 2).self 16 6 (Or.inr rfl)
    (Or.inr rfl) (by decide)).1

/-! ### Unsupported filter types -/

theorem pixel_offsets_cons (s : LTPNG) : ∃ rest, pixel_offsets s = 1 :: rest := by
  unfold pixel_offsets
  split
  · exact ⟨_, rfl⟩
  · exact ⟨_, rfl⟩

theorem create_image_pixel_invalid (st : Build) (red green blue alpha : List Nat) (row col : Nat)
    (hd : st.self.bit_depth = 8 ∨ st.self.bit_depth = 16) (hf : 4 < st.self.filter_type) :
    create_image_pixel st red green blue alpha row col =
      .error ⟨"LTPNG::filter_byte(): Invalid filter type.",
        (put_raw_list st (pixel_vals st.self red green blue alpha row col)).self⟩ := by
  obtain ⟨rest, ho⟩ := pixel_offsets_cons st.self
  rw [create_image_pixel_eq st _ _ _ _ _ _ hd, ho, put_filter_list_cons,
    put_filter_byte_err _ _ _ _ (by rw [frame_filter_type _ _ (put_raw_list_frame st _)]; exact hf),
    except_error_bind]

theorem foldlM_first_error {σ α : Type} (f : σ → α → Except Thrown σ) (l : List α) (x : α)
    (s : σ) (e : Thrown) (h : f s x = .error e) : (x :: l).foldlM f s = .error e := by
  rw [List.foldlM_cons, h, except_error_bind]

theorem range_pos (n : Nat) (h : 1 ≤ n) : ∃ l, List.range n = 0 :: l := by
  obtain ⟨m, rfl⟩ : ∃ m, n = m + 1 := ⟨n - 1, by omega⟩
  exact ⟨_, List.range_succ_eq_map m⟩

/-- C19: for depth 8 or 16, `width >= 1`, `height >= 1` and a filter type
greater than 4, `create_image` throws the invalid-filter-type error of
`filter_byte` during the row loop, at the first pixel: the stream is unchanged
at that point (no byte written), and the result does not depend on the
compressor, which is only called after the row loop. -/
theorem create_image_invalid_filter (self : LTPNG) (file : List Nat) (w h : Nat)
    (red green blue alpha : List Nat)
    (hd : self.bit_depth = 8 ∨ self.bit_depth = 16) (hf : 4 < self.filter_type)
    (hw : 1 ≤ w) (hh : 1 ≤ h) :
    ∃ t, self.create_image_build file w h red green blue alpha = .error t ∧
      (∀ z, self.create_image z file w h red green blue alpha = .error t) ∧
      t.what = "LTPNG::filter_byte(): Invalid filter type." ∧
      t.self.image = file := by
  obtain ⟨lh, hlh⟩ := range_pos h hh
  obtain ⟨lw, hlw⟩ := range_pos w hw
  have hfr0 := row_start_frame (build_start self file w h)
  have hpix := create_image_pixel_invalid (row_start (build_start self file w h)) red green blue
    alpha 0 0 (by rw [frame_bit_depth _ _ hfr0, build_start_bit_depth]; exact hd)
    (by rw [frame_filter_type _ _ hfr0, build_start_filter_type]; exact hf)
  have hrow : create_image_row (build_start self file w h) red green blue alpha 0 =
      .error ⟨"LTPNG::filter_byte(): Invalid filter type.",
        (put_raw_list (row_start (build_start self file w h))
          (pixel_vals (row_start (build_start self file w h)).self red green blue alpha 0
            0)).self⟩ := by
    have e : create_image_row (build_start self file w h) red green blue alpha 0 =
        (List.range (row_start (build_start self file w h)).self.width).foldlM
          (fun (st : Build) col => create_image_pixel st red green blue alpha 0 col)
          (row_start (build_start self file w h)) := rfl
    rw [e, frame_width _ _ hfr0, build_start_width, hlw]
    exact foldlM_first_error _ _ _ _ _ hpix
  have hbuild : self.create_image_build file w h red green blue alpha =
      .error ⟨"LTPNG::filter_byte(): Invalid filter type.",
        (put_raw_list (row_start (build_start self file w h))
          (pixel_vals (row_start (build_start self file w h)).self red green blue alpha 0
            0)).self⟩ := by
    rw [create_image_build_eq, hlh]
    exact foldlM_first_error _ _ _ _ _ hrow
  refine ⟨_, hbuild, ?_, rfl, ?_⟩
  · intro z
    rw [create_image_eq, hbuild, except_error_bind]
  · show (put_raw_list _ _).self.image = file
    rw [frame_image _ _ (put_raw_list_frame _ _), frame_image _ _ hfr0, build_start_image]

theorem create_image_invalid_filter_witness :
    ∃ t, (LTPNG.new 8 2 5).create_image_build [] 2 2 [1, 2, 3, 4] [5, 6, 7, 8] [9, 10, 11, 12] []
        = .error t ∧
      (∀ z, (LTPNG.new 8 2 5).create_image z [] 2 2 [1, 2, 3, 4] [5, 6, 7, 8] [9, 10, 11, 12] []
        = .error t) ∧
      t.what = "LTPNG::filter_byte(): Invalid filter type." ∧ t.self.image = [] :=
  create_image_invalid_filter (LTPNG.new 8 2 5) [] 2 2 [1, 2, 3, 4] [5, 6, 7, 8] [9, 10, 11, 12] []
    (Or.inl rfl) (by decide) (by decide) (by decide)

/-! ### Unsupported bit depths -/

theorem data_size_congr (s t : LTPNG) (h : frame t = frame s) :
    data_size_of t = data_size_of s := by
  rw [data_size_of_eq, data_size_of_eq, frame_height _ _ h, frame_width _ _ h,
    pixel_size_congr _ _ h]

theorem compressed_of_const (st : Build) (h : 3 ≤ data_size_of st.self) :
    compressed_of st zlib_const = [120, 156, 1] := by
  unfold compressed_of
  have e : (zlib_const.deflate (st.self.filtered_data.take st.filtered_len)
      (data_size_of st.self)).2 = [120, 156, 1] := rfl
  rw [e, List.take_of_length_le (by exact h)]
  rfl

theorem def_congr (self : LTPNG) (z z2 : ZLib) (inp : List Nat) (in_len : Nat)
    (out : List Nat) (out_len : Nat) (level : Int)
    (h1 : z2.deflateInit level = z.deflateInit level)
    (h2 : z2.deflate (inp.take in_len) out_len = z.deflate (inp.take in_len) out_len)
    (h3 : z2.deflateEnd = z.deflateEnd) :
    self.def_ z2 inp in_len out out_len level = self.def_ z inp in_len out out_len level := by
  unfold def_
  rw [h1, h2, h3]

theorem build_start_compressed_data (self : LTPNG) (file : List Nat) (w h : Nat) :
    (build_start self file w h).self.compressed_data =
      List.replicate (data_size_of { self with width := w, height := h }) 0 := rfl

theorem data_size_build_start_self (self : LTPNG) (file : List Nat) (w h : Nat) :
    data_size_of (build_start self file w h).self =
      data_size_of { self with width := w, height := h } := rfl

/-- C23: for a valid descriptor whose buffer size fits `unsigned int`,
`create_image` is the row loop followed by one call of `def` and the writers;
`def` receives the filtered block with `filtered_len = height*scanline_stride`,
which is the whole block, and the output block of `data_size =
height*scanline_stride` bytes as capacity, so the capacity is at least the
input length; and the result of `create_image` depends on the compressor only
through its three answers to that one call. -/
theorem create_image_compressor_call (self : LTPNG) (z : ZLib) (file : List Nat) (w h : Nat)
    (red green blue alpha : List Nat)
    (hd : self.bit_depth = 8 ∨ self.bit_depth = 16)
    (hc : self.colour_type = 2 ∨ self.colour_type = 6) (hf : self.filter_type ≤ 4)
    (hfit : h * (w * pixel_size_of self + 1) < 4294967296) :
    ∃ st, self.create_image_build file w h red green blue alpha = .ok st ∧
      self.create_image z file w h red green blue alpha =
        (st.self.def_ z st.self.filtered_data st.filtered_len st.self.compressed_data
            (data_size_of st.self) Z_DEFAULT_COMPRESSION >>= fun r =>
          write_file (allocate_crc_size { st.self with compressed_data := r.1 }
            st.self.bit_depth st.self.colour_type) r.2 >>= fun f => pure (finish f r.2)) ∧
      st.filtered_len = h * (w * pixel_size_of self + 1) ∧
      st.self.filtered_data.length = h * (w * pixel_size_of self + 1) ∧
      st.self.filtered_data.take st.filtered_len = st.self.filtered_data ∧
      data_size_of st.self = h * (w * pixel_size_of self + 1) ∧
      st.self.compressed_data.length = h * (w * pixel_size_of self + 1) ∧
      st.filtered_len ≤ data_size_of st.self ∧
      (∀ z2 : ZLib, z2.deflateInit Z_DEFAULT_COMPRESSION = z.deflateInit Z_DEFAULT_COMPRESSION →
        z2.deflate st.self.filtered_data (h * (w * pixel_size_of self + 1)) =
          z.deflate st.self.filtered_data (h * (w * pixel_size_of self + 1)) →
        z2.deflateEnd = z.deflateEnd →
        self.create_image z2 file w h red green blue alpha =
          self.create_image z file w h red green blue alpha) := by
  obtain ⟨hb, hfr⟩ := create_image_build_ok self file w h red green blue alpha hd hf
  obtain ⟨_, hfl, hlf, _, _, _⟩ := build_done_built self file w h red green blue alpha hd hc hfit
  have hds : data_size_of (build_done self file w h red green blue alpha).self =
      h * (w * pixel_size_of self + 1) := by
    rw [data_size_congr _ _ hfr, data_size_build_start_self, data_size_fit self w h hfit]
  have htake : (build_done self file w h red green blue alpha).self.filtered_data.take
      (build_done self file w h red green blue alpha).filtered_len =
      (build_done self file w h red green blue alpha).self.filtered_data :=
    List.take_of_length_le (by rw [hlf, hfl])
  have hcl : (build_done self file w h red green blue alpha).self.compressed_data.length =
      h * (w * pixel_size_of self + 1) := by
    rw [frame_compressed_data _ _ hfr, build_start_compressed_data, List.length_replicate,
      data_size_fit self w h hfit]
  have hce : ∀ zz : ZLib, self.create_image zz file w h red green blue alpha =
      ((build_done self file w h red green blue alpha).self.def_ zz
          (build_done self file w h red green blue alpha).self.filtered_data
          (build_done self file w h red green blue alpha).filtered_len
          (build_done self file w h red green blue alpha).self.compressed_data
          (data_size_of (build_done self file w h red green blue alpha).self)
          Z_DEFAULT_COMPRESSION >>= fun r =>
        write_file (allocate_crc_size
          { (build_done self file w h red green blue alpha).self with compressed_data := r.1 }
          (build_done self file w h red green blue alpha).self.bit_depth
          (build_done self file w h red green blue alpha).self.colour_type) r.2 >>=
            fun f => pure (finish f r.2)) := by
    intro zz
    rw [create_image_eq, hb, except_ok_bind, create_image_write_eq]
  refine ⟨_, hb, hce z, hfl, hlf, htake, hds, hcl, by rw [hfl, hds], ?_⟩
  intro z2 h1 h2 h3
  rw [hce z2, hce z, def_congr _ z z2 _ _ _ _ _ h1 (by rw [htake, hds]; exact h2) h3]

theorem create_image_compressor_call_witness :
    ∃ st, (LTPNG.new 8 2 0).create_image_build [] 3 2 [1, 2, 3, 4, 5, 6] [1, 2, 3, 4, 5, 6]
        [1, 2, 3, 4, 5, 6] [] = .ok st ∧
      st.filtered_len = 20 ∧ data_size_of st.self = 20 ∧
      st.self.filtered_data.take st.filtered_len = st.self.filtered_data := by
  obtain ⟨st, h1, _, h3, _, h5, h6, _⟩ := create_image_compressor_call (LTPNG.new 8 2 0)
    zlib_const [] 3 2 [1, 2, 3, 4, 5, 6] [1, 2, 3, 4, 5, 6] [1, 2, 3, 4, 5, 6] [] (Or.inl rfl)
    (Or.inl rfl) (by decide) (by decide)
  exact ⟨st, h1, h3, h6, h5⟩

/-! ### The writers do not look at the stream -/

theorem unsink_crc_index (a b : LTPNG) (h : unsink a = unsink b) : a.crc_index = b.crc_index := by
  have e := congrArg LTPNG.crc_index h; exact e
theorem unsink_crc_allocated (a b : LTPNG) (h : unsink a = unsink b) :
    a.crc_allocated = b.crc_allocated := by
  have e := congrArg LTPNG.crc_allocated h; exact e
theorem unsink_width (a b : LTPNG) (h : unsink a = unsink b) : a.width = b.width := by
  have e := congrArg LTPNG.width h; exact e
theorem unsink_height (a b : LTPNG) (h : unsink a = unsink b) : a.height = b.height := by
  have e := congrArg LTPNG.height h; exact e
theorem unsink_bit_depth (a b : LTPNG) (h : unsink a = unsink b) : a.bit_depth = b.bit_depth := by
  have e := congrArg LTPNG.bit_depth h; exact e
theorem unsink_colour_type (a b : LTPNG) (h : unsink a = unsink b) :
    a.colour_type = b.colour_type := by
  have e := congrArg LTPNG.colour_type h; exact e
theorem unsink_compressed_data (a b : LTPNG) (h : unsink a = unsink b) :
    a.compressed_data = b.compressed_data := by
  have e := congrArg LTPNG.compressed_data h; exact e
theorem unsink_file_size (a b : LTPNG) (h : unsink a = unsink b) : a.file_size = b.file_size := by
  have e := congrArg LTPNG.file_size h; exact e

theorem unsink_crc_init (s : LTPNG) : unsink s.crc_init = (unsink s).crc_init := rfl

theorem unsink_get_crc_fst (s : LTPNG) : s.get_crc.1 = (unsink s).get_crc.1 := by
  unfold get_crc update_crc
  by_cases h : s.crc_table_exists = 0
  · have h2 : (unsink s).crc_table_exists = 0 := h
    simp only [if_pos h, if_pos h2]
    rfl
  · have h2 : ¬ (unsink s).crc_table_exists = 0 := h
    simp only [if_neg h, if_neg h2]
    rfl

theorem unsink_get_crc_snd (s : LTPNG) : unsink s.get_crc.2 = (unsink s).get_crc.2 := by
  rw [get_crc_snd, get_crc_snd]
  by_cases h : s.crc_table_exists = 0
  · have h2 : (unsink s).crc_table_exists = 0 := h
    rw [if_pos h, if_pos h2]
    cases s
    unfold make_crc_table unsink
    simp only
  · have h2 : ¬ (unsink s).crc_table_exists = 0 := h
    rw [if_neg h, if_neg h2]

theorem unsink_finish (s : LTPNG) (n : Nat) : unsink (finish s n) = finish (unsink s) n := rfl

theorem lift_thrown_ok {σ α : Type} (s : σ) (a : α) :
    lift_thrown s (Except.ok a : Except Thrown α) = .ok a := rfl

theorem lift_thrown_error {σ α : Type} (s : σ) (t : Thrown) :
    lift_thrown s (Except.error t : Except Thrown α) = .error (.ltpng t.what ⟨t.self, s⟩) := rfl

theorem same_run_ok {σ : Type} (P : List Nat → σ → Prop) (M : Prop) (a : LTPNG)
    (st : OnStream σ) (h1 : unsink a = unsink st.self) (h2 : P a.image st.stream) :
    SameRun P M (.ok a) (.ok st) := ⟨a, rfl, h1, h2⟩

theorem same_run_thrown {σ : Type} (P : List Nat → σ → Prop) (M : Prop) (t : Thrown)
    (st : OnStream σ) : SameRun P M (.error t) (.error (.ltpng t.what st)) := ⟨t, rfl, rfl⟩

theorem same_bind {σ : Type} (P : List Nat → σ → Prop) (M : Prop) (x : Except Thrown LTPNG)
    (y : Except (Raised σ) (OnStream σ)) (f : LTPNG → Except Thrown LTPNG)
    (g : OnStream σ → Except (Raised σ) (OnStream σ)) (h : SameRun P M x y)
    (hf : ∀ a st, unsink a = unsink st.self → P a.image st.stream → SameRun P M (f a) (g st)) :
    SameRun P M (x >>= f) (y >>= g) := by
  cases y with
  | ok st =>
    obtain ⟨a, hx, h1, h2⟩ := h
    rw [hx]
    exact hf a st h1 h2
  | error e =>
    cases e with
    | ltpng w st =>
      obtain ⟨t, hx, ht⟩ := h
      rw [hx]
      exact ⟨t, rfl, ht⟩
    | stream st => exact h

theorem fwrite_8_same {σ : Type} (write : σ → Nat → Except σ σ) (P : List Nat → σ → Prop)
    (M : Prop) (hok : ∀ c s b s1, P c s → write s b = .ok s1 → P (c ++ [b]) s1)
    (herr : ∀ c s b s1, P c s → write s b = .error s1 → M)
    (a : LTPNG) (st : OnStream σ) (v : Nat) (h : unsink a = unsink st.self)
    (hq : P a.image st.stream) : SameRun P M (a.fwrite_8 v) (fwrite_8_on write st v) := by
  have hi := unsink_crc_index a st.self h
  have hA := unsink_crc_allocated a st.self h
  unfold fwrite_8 fwrite_8_on
  by_cases hc : a.crc_index = a.crc_allocated
  · rw [if_pos hc, if_pos (by rw [← hi, ← hA]; exact hc)]
    exact ⟨_, rfl, rfl⟩
  · rw [if_neg hc, if_neg (by rw [← hi, ← hA]; exact hc)]
    cases hw : write st.stream (v % 256) with
    | error s1 => exact herr _ _ _ _ hq hw
    | ok s1 =>
      have e1 : unsink { a with
          image := a.image ++ [v % 256]
          crc_buf := a.crc_buf.set a.crc_index (v % 256)
          crc_index := (a.crc_index + 1) % 4294967296 } =
          (fun s : LTPNG => { s with
            crc_buf := s.crc_buf.set s.crc_index (v % 256)
            crc_index := (s.crc_index + 1) % 4294967296 }) (unsink a) := rfl
      have e2 : unsink { st.self with
          crc_buf := st.self.crc_buf.set st.self.crc_index (v % 256)
          crc_index := (st.self.crc_index + 1) % 4294967296 } =
          (fun s : LTPNG => { s with
            crc_buf := s.crc_buf.set s.crc_index (v % 256)
            crc_index := (s.crc_index + 1) % 4294967296 }) (unsink st.self) := rfl
      exact ⟨_, rfl, by rw [e1, e2, h], hok _ _ _ _ hq hw⟩

theorem fwrite_fold_same {σ α : Type} (write : σ → Nat → Except σ σ)
    (P : List Nat → σ → Prop) (M : Prop)
    (hok : ∀ c s b s1, P c s → write s b = .ok s1 → P (c ++ [b]) s1)
    (herr : ∀ c s b s1, P c s → write s b = .error s1 → M)
    (val : α → Nat) (l : List α) (a : LTPNG) (st : OnStream σ)
    (h : unsink a = unsink st.self) (hq : P a.image st.stream) :
    SameRun P M (l.foldlM (fun (s : LTPNG) i => s.fwrite_8 (val i)) a)
      (l.foldlM (fun (s : OnStream σ) i => fwrite_8_on write s (val i)) st) := by
  induction l generalizing a st with
  | nil => exact ⟨a, rfl, h, hq⟩
  | cons x l ih =>
    rw [List.foldlM_cons, List.foldlM_cons]
    exact same_bind P M _ _ _ _ (fwrite_8_same write P M hok herr a st (val x) h hq)
      (fun a1 st1 h1 q1 => ih a1 st1 h1 q1)

theorem get_byte_four_1 (t : LTPNG) (v : Nat) :
    t.get_byte_from_four_bytes v 1 = .ok ((v >>> 24) &&& 0xFF) := rfl
theorem get_byte_four_2 (t : LTPNG) (v : Nat) :
    t.get_byte_from_four_bytes v 2 = .ok ((v >>> 16) &&& 0xFF) := rfl
theorem get_byte_four_3 (t : LTPNG) (v : Nat) :
    t.get_byte_from_four_bytes v 3 = .ok ((v >>> 8) &&& 0xFF) := rfl
theorem get_byte_four_4 (t : LTPNG) (v : Nat) :
    t.get_byte_from_four_bytes v 4 = .ok ((v >>> 0) &&& 0xFF) := rfl

theorem fwrite_32_same {σ : Type} (write : σ → Nat → Except σ σ) (P : List Nat → σ → Prop)
    (M : Prop) (hok : ∀ c s b s1, P c s → write s b = .ok s1 → P (c ++ [b]) s1)
    (herr : ∀ c s b s1, P c s → write s b = .error s1 → M)
    (a : LTPNG) (st : OnStream σ) (v : Nat) (h : unsink a = unsink st.self)
    (hq : P a.image st.stream) : SameRun P M (a.fwrite_32 v) (fwrite_32_on write st v) := by
  unfold fwrite_32 fwrite_32_on
  simp only [get_byte_four_1, get_byte_four_2, get_byte_four_3, get_byte_four_4, lift_thrown_ok,
    except_ok_bind]
  refine same_bind P M _ _ _ _ (fwrite_8_same write P M hok herr a st _ h hq)
    (fun a st h hq => ?_)
  refine same_bind P M _ _ _ _ (fwrite_8_same write P M hok herr a st _ h hq)
    (fun a st h hq => ?_)
  refine same_bind P M _ _ _ _ (fwrite_8_same write P M hok herr a st _ h hq)
    (fun a st h hq => ?_)
  exact fwrite_8_same write P M hok herr a st _ h hq

theorem write_png_signature_same {σ : Type} (write : σ → Nat → Except σ σ)
    (P : List Nat → σ → Prop) (M : Prop)
    (hok : ∀ c s b s1, P c s → write s b = .ok s1 → P (c ++ [b]) s1)
    (herr : ∀ c s b s1, P c s → write s b = .error s1 → M)
    (a : LTPNG) (st : OnStream σ) (h : unsink a = unsink st.self) (hq : P a.image st.stream) :
    SameRun P M a.write_png_signature (write_png_signature_on write st) := by
  unfold write_png_signature write_png_signature_on
  refine same_bind P M _ _ _ _ (fwrite_8_same write P M hok herr a st _ h hq)
    (fun a st h hq => ?_)
  refine same_bind P M _ _ _ _ (fwrite_8_same write P M hok herr a st _ h hq)
    (fun a st h hq => ?_)
  refine same_bind P M _ _ _ _ (fwrite_8_same write P M hok herr a st _ h hq)
    (fun a st h hq => ?_)
  refine same_bind P M _ _ _ _ (fwrite_8_same write P M hok herr a st _ h hq)
    (fun a st h hq => ?_)
  refine same_bind P M _ _ _ _ (fwrite_8_same write P M hok herr a st _ h hq)
    (fun a st h hq => ?_)
  refine same_bind P M _ _ _ _ (fwrite_8_same write P M hok herr a st _ h hq)
    (fun a st h hq => ?_)
  refine same_bind P M _ _ _ _ (fwrite_8_same write P M hok herr a st _ h hq)
    (fun a st h hq => ?_)
  exact fwrite_8_same write P M hok herr a st _ h hq

theorem crc_init_same (a b : LTPNG) (h : unsink a = unsink b) :
    unsink a.crc_init = unsink b.crc_init := by
  rw [unsink_crc_init, unsink_crc_init, h]

theorem crc_word_same {σ : Type} (write : σ → Nat → Except σ σ) (P : List Nat → σ → Prop)
    (M : Prop) (hok : ∀ c s b s1, P c s → write s b = .ok s1 → P (c ++ [b]) s1)
    (herr : ∀ c s b s1, P c s → write s b = .error s1 → M)
    (a : LTPNG) (st : OnStream σ) (h : unsink a = unsink st.self) (hq : P a.image st.stream) :
    SameRun P M (a.get_crc.2.fwrite_32 a.get_crc.1) (fwrite_crc_on write st) := by
  have h1 : a.get_crc.1 = st.self.get_crc.1 := by
    rw [unsink_get_crc_fst a, unsink_get_crc_fst st.self, h]
  have h2 : unsink a.get_crc.2 = unsink st.self.get_crc.2 := by
    rw [unsink_get_crc_snd a, unsink_get_crc_snd st.self, h]
  unfold fwrite_crc_on
  rw [h1]
  exact fwrite_32_same write P M hok herr _ ⟨st.self.get_crc.2, st.stream⟩ _ h2
    (by rw [get_crc_image]; exact hq)

theorem write_header_chunk_same {σ : Type} (write : σ → Nat → Except σ σ)
    (P : List Nat → σ → Prop) (M : Prop)
    (hok : ∀ c s b s1, P c s → write s b = .ok s1 → P (c ++ [b]) s1)
    (herr : ∀ c s b s1, P c s → write s b = .error s1 → M)
    (a : LTPNG) (st : OnStream σ) (bd ct il : Nat) (h : unsink a = unsink st.self)
    (hq : P a.image st.stream) :
    SameRun P M (a.write_header_chunk bd ct il) (write_header_chunk_on write st bd ct il) := by
  unfold write_header_chunk write_header_chunk_body write_header_chunk_on
  simp only [bind_assoc]
  refine same_bind P M _ _ _ _ (fwrite_32_same write P M hok herr a st _ h hq)
    (fun a st h hq => ?_)
  refine same_bind P M _ _ _ _ (fwrite_8_same write P M hok herr a.crc_init
    ⟨st.self.crc_init, st.stream⟩ _ (crc_init_same a st.self h) hq) (fun a st h hq => ?_)
  refine same_bind P M _ _ _ _ (fwrite_8_same write P M hok herr a st _ h hq)
    (fun a st h hq => ?_)
  refine same_bind P M _ _ _ _ (fwrite_8_same write P M hok herr a st _ h hq)
    (fun a st h hq => ?_)
  refine same_bind P M _ _ _ _ (fwrite_8_same write P M hok herr a st _ h hq)
    (fun a st h hq => ?_)
  rw [unsink_width a st.self h]
  refine same_bind P M _ _ _ _ (fwrite_32_same write P M hok herr a st _ h hq)
    (fun a st h hq => ?_)
  rw [unsink_height a st.self h]
  refine same_bind P M _ _ _ _ (fwrite_32_same write P M hok herr a st _ h hq)
    (fun a st h hq => ?_)
  refine same_bind P M _ _ _ _ (fwrite_8_same write P M hok herr a st _ h hq)
    (fun a st h hq => ?_)
  refine same_bind P M _ _ _ _ (fwrite_8_same write P M hok herr a st _ h hq)
    (fun a st h hq => ?_)
  refine same_bind P M _ _ _ _ (fwrite_8_same write P M hok herr a st _ h hq)
    (fun a st h hq => ?_)
  refine same_bind P M _ _ _ _ (fwrite_8_same write P M hok herr a st _ h hq)
    (fun a st h hq => ?_)
  refine same_bind P M _ _ _ _ (fwrite_8_same write P M hok herr a st _ h hq)
    (fun a st h hq => ?_)
  exact crc_word_same write P M hok herr a st h hq

theorem write_data_chunk_same {σ : Type} (write : σ → Nat → Except σ σ)
    (P : List Nat → σ → Prop) (M : Prop)
    (hok : ∀ c s b s1, P c s → write s b = .ok s1 → P (c ++ [b]) s1)
    (herr : ∀ c s b s1, P c s → write s b = .error s1 → M)
    (a : LTPNG) (st : OnStream σ) (cd : List Nat) (len : Nat) (h : unsink a = unsink st.self)
    (hq : P a.image st.stream) :
    SameRun P M (a.write_data_chunk cd len) (write_data_chunk_on write st cd len) := by
  unfold write_data_chunk write_data_chunk_body write_data_chunk_on
  simp only [bind_assoc]
  refine same_bind P M _ _ _ _ (fwrite_32_same write P M hok herr a st _ h hq)
    (fun a st h hq => ?_)
  refine same_bind P M _ _ _ _ (fwrite_8_same write P M hok herr a.crc_init
    ⟨st.self.crc_init, st.stream⟩ _ (crc_init_same a st.self h) hq) (fun a st h hq => ?_)
  refine same_bind P M _ _ _ _ (fwrite_8_same write P M hok herr a st _ h hq)
    (fun a st h hq => ?_)
  refine same_bind P M _ _ _ _ (fwrite_8_same write P M hok herr a st _ h hq)
    (fun a st h hq => ?_)
  refine same_bind P M _ _ _ _ (fwrite_8_same write P M hok herr a st _ h hq)
    (fun a st h hq => ?_)
  refine same_bind P M _ _ _ _
    (fwrite_fold_same write P M hok herr (fun i => cd.getD i 0) (List.range len) a st h hq)
    (fun a st h hq => ?_)
  exact crc_word_same write P M hok herr a st h hq

theorem write_end_chunk_same {σ : Type} (write : σ → Nat → Except σ σ)
    (P : List Nat → σ → Prop) (M : Prop)
    (hok : ∀ c s b s1, P c s → write s b = .ok s1 → P (c ++ [b]) s1)
    (herr : ∀ c s b s1, P c s → write s b = .error s1 → M)
    (a : LTPNG) (st : OnStream σ) (h : unsink a = unsink st.self) (hq : P a.image st.stream) :
    SameRun P M a.write_end_chunk (write_end_chunk_on write st) := by
  unfold write_end_chunk write_end_chunk_body write_end_chunk_on
  simp only [bind_assoc]
  refine same_bind P M _ _ _ _ (fwrite_32_same write P M hok herr a st _ h hq)
    (fun a st h hq => ?_)
  refine same_bind P M _ _ _ _ (fwrite_8_same write P M hok herr a.crc_init
    ⟨st.self.crc_init, st.stream⟩ _ (crc_init_same a st.self h) hq) (fun a st h hq => ?_)
  refine same_bind P M _ _ _ _ (fwrite_8_same write P M hok herr a st _ h hq)
    (fun a st h hq => ?_)
  refine same_bind P M _ _ _ _ (fwrite_8_same write P M hok herr a st _ h hq)
    (fun a st h hq => ?_)
  refine same_bind P M _ _ _ _ (fwrite_8_same write P M hok herr a st _ h hq)
    (fun a st h hq => ?_)
  exact crc_word_same write P M hok herr a st h hq

theorem create_image_write_on_eq {σ : Type} (write : σ → Nat → Except σ σ) (b : Build)
    (z : ZLib) (s : σ) :
    create_image_write_on write b z s =
      (lift_thrown s (b.self.def_ z b.self.filtered_data b.filtered_len b.self.compressed_data
          (data_size_of b.self) Z_DEFAULT_COMPRESSION) >>= fun r =>
        (write_png_signature_on write ⟨allocate_crc_size { b.self with compressed_data := r.1 }
          b.self.bit_depth b.self.colour_type, s⟩ >>= fun st =>
        write_header_chunk_on write st st.self.bit_depth st.self.colour_type 0 >>= fun st =>
        write_data_chunk_on write st st.self.compressed_data r.2 >>= fun st =>
        write_end_chunk_on write st) >>= fun st => pure ⟨finish st.self r.2, st.stream⟩) := by
  unfold create_image_write_on
  simp only [bind_assoc]
  rfl

theorem create_image_write_same {σ : Type} (write : σ → Nat → Except σ σ)
    (P : List Nat → σ → Prop) (M : Prop)
    (hok : ∀ c s b s1, P c s → write s b = .ok s1 → P (c ++ [b]) s1)
    (herr : ∀ c s b s1, P c s → write s b = .error s1 → M)
    (b : Build) (z : ZLib) (s : σ) (hq : P b.self.image s) :
    SameRun P M (create_image_write b z) (create_image_write_on write b z s) := by
  rw [create_image_write_eq, create_image_write_on_eq]
  cases hdef : b.self.def_ z b.self.filtered_data b.filtered_len b.self.compressed_data
      (data_size_of b.self) Z_DEFAULT_COMPRESSION with
  | error t =>
    rw [except_error_bind, lift_thrown_error, except_error_bind]
    exact ⟨t, rfl, rfl⟩
  | ok r =>
    rw [except_ok_bind, lift_thrown_ok, except_ok_bind]
    unfold write_file
    simp only [bind_assoc]
    refine same_bind P M _ _ _ _ (write_png_signature_same write P M hok herr _ ⟨_, s⟩ rfl hq)
      (fun a st h hq => ?_)
    rw [unsink_bit_depth a st.self h, unsink_colour_type a st.self h]
    refine same_bind P M _ _ _ _ (write_header_chunk_same write P M hok herr a st _ _ _ h hq)
      (fun a st h hq => ?_)
    rw [unsink_compressed_data a st.self h]
    refine same_bind P M _ _ _ _ (write_data_chunk_same write P M hok herr a st _ _ h hq)
      (fun a st h hq => ?_)
    refine same_bind P M _ _ _ _ (write_end_chunk_same write P M hok herr a st h hq)
      (fun a st h hq => ?_)
    exact ⟨_, rfl, by rw [unsink_finish, unsink_finish, h], hq⟩

theorem create_image_on_eq {σ : Type} (write : σ → Nat → Except σ σ) (self : LTPNG) (z : ZLib)
    (s : σ) (w h : Nat) (red green blue alpha : List Nat) :
    create_image_on write self z s w h red green blue alpha =
      (lift_thrown s (self.create_image_build [] w h red green blue alpha) >>= fun b =>
        create_image_write_on write b z s) := rfl

/-- The call on an explicit stream ends like the call of the definitions above
on an empty file, for every behaviour `write` of the stream and every relation
`P` between the bytes handed over and the state of the stream that a returning
`write` keeps. -/
theorem create_image_same {σ : Type} (write : σ → Nat → Except σ σ) (P : List Nat → σ → Prop)
    (M : Prop) (hok : ∀ c s b s1, P c s → write s b = .ok s1 → P (c ++ [b]) s1)
    (herr : ∀ c s b s1, P c s → write s b = .error s1 → M)
    (self : LTPNG) (z : ZLib) (s : σ) (w h : Nat) (red green blue alpha : List Nat)
    (hd : self.bit_depth = 8 ∨ self.bit_depth = 16) (hf : self.filter_type ≤ 4)
    (hq : P [] s) :
    SameRun P M (self.create_image z [] w h red green blue alpha)
      (create_image_on write self z s w h red green blue alpha) := by
  obtain ⟨hb, hfr⟩ := create_image_build_ok self [] w h red green blue alpha hd hf
  rw [create_image_eq, create_image_on_eq, hb, except_ok_bind, lift_thrown_ok, except_ok_bind]
  exact create_image_write_same write P M hok herr _ z s
    (by rw [frame_image _ _ hfr, build_start_image]; exact hq)

/-! ### `std::ostream` and the exception mask -/

theorem ostream_write_good (device : List Nat → Nat → Bool) (o : OStream) (b : Nat)
    (h1 : o.badbit = false) (h2 : o.failbit = false) (hd : device o.content b = true) :
    OStream.write device o b = .ok { o with content := o.content ++ [b] } := by
  unfold OStream.write
  rw [h1, h2, hd]
  rfl

theorem ostream_write_rejected (device : List Nat → Nat → Bool) (o : OStream) (b : Nat)
    (h1 : o.badbit = false) (h2 : o.failbit = false) (hd : device o.content b = false) :
    OStream.write device o b = o.setstate true false := by
  unfold OStream.write
  rw [h1, h2, hd]
  rfl

theorem ostream_write_not_good (device : List Nat → Nat → Bool) (o : OStream) (b : Nat)
    (h : o.badbit = true ∨ o.failbit = true) :
    OStream.write device o b = o.setstate false true := by
  unfold OStream.write
  rcases h with h | h <;> rw [h] <;> simp

theorem ostream_setstate_no_mask (o : OStream) (bad fail : Bool) (h1 : o.mask_bad = false)
    (h2 : o.mask_fail = false) :
    o.setstate bad fail = .ok { o with badbit := o.badbit || bad, failbit := o.failbit || fail } := by
  unfold OStream.setstate
  rw [h1, h2]
  simp

theorem ostream_setstate_bad_masked (o : OStream) (h : o.mask_bad = true) :
    o.setstate true false =
      .error { o with badbit := o.badbit || true, failbit := o.failbit || false } := by
  unfold OStream.setstate
  rw [h]
  simp

theorem accepted_snoc (device : List Nat → Nat → Bool) (c0 c : List Nat) (b : Nat) :
    accepted device c0 (c ++ [b]) = (accepted device c0 c && device (c0 ++ c) b) := by
  induction c generalizing c0 with
  | nil => simp [accepted]
  | cons x c ih =>
    rw [List.cons_append]
    unfold accepted
    rw [ih, List.append_assoc, List.singleton_append, Bool.and_assoc]

theorem sound_stream_ok (device : List Nat → Nat → Bool) (o : OStream)
    (hdev : ∀ c b, device c b = true) (h1 : o.badbit = false) (h2 : o.failbit = false)
    (c : List Nat) (s : OStream) (b : Nat) (s1 : OStream)
    (hs : s = { o with content := o.content ++ c }) (hw : OStream.write device s b = .ok s1) :
    s1 = { o with content := o.content ++ (c ++ [b]) } := by
  subst hs
  have e := ostream_write_good device { o with content := o.content ++ c } b h1 h2 (hdev _ _)
  rw [e] at hw
  rw [← Except.ok.inj hw, ← List.append_assoc]

theorem sound_stream_error (device : List Nat → Nat → Bool) (o : OStream)
    (hdev : ∀ c b, device c b = true) (h1 : o.badbit = false) (h2 : o.failbit = false)
    (c : List Nat) (s : OStream) (b : Nat) (s1 : OStream)
    (hs : s = { o with content := o.content ++ c }) (hw : OStream.write device s b = .error s1) :
    False := by
  subst hs
  have e := ostream_write_good device { o with content := o.content ++ c } b h1 h2 (hdev _ _)
  rw [e] at hw
  exact Except.noConfusion hw

theorem unmasked_stream_ok (device : List Nat → Nat → Bool) (c0 c : List Nat) (s : OStream)
    (b : Nat) (s1 : OStream)
    (hs : s.mask_bad = false ∧ s.mask_fail = false ∧
      (s.badbit = false → s.failbit = false → s.content = c0 ++ c))
    (hw : OStream.write device s b = .ok s1) :
    s1.mask_bad = false ∧ s1.mask_fail = false ∧
      (s1.badbit = false → s1.failbit = false → s1.content = c0 ++ (c ++ [b])) := by
  obtain ⟨m1, m2, hc⟩ := hs
  by_cases hg : s.badbit = true ∨ s.failbit = true
  · rw [ostream_write_not_good device s b hg, ostream_setstate_no_mask s _ _ m1 m2] at hw
    rw [← Except.ok.inj hw]
    refine ⟨m1, m2, fun _ hf => ?_⟩
    simp at hf
  · have g1 : s.badbit = false := by
      cases hb : s.badbit
      · rfl
      · exact absurd (Or.inl hb) hg
    have g2 : s.failbit = false := by
      cases hb : s.failbit
      · rfl
      · exact absurd (Or.inr hb) hg
    cases hdv : device s.content b
    · rw [ostream_write_rejected device s b g1 g2 hdv, ostream_setstate_no_mask s _ _ m1 m2] at hw
      rw [← Except.ok.inj hw]
      refine ⟨m1, m2, fun hb _ => ?_⟩
      simp at hb
    · rw [ostream_write_good device s b g1 g2 hdv] at hw
      rw [← Except.ok.inj hw]
      refine ⟨m1, m2, fun _ _ => ?_⟩
      show s.content ++ [b] = c0 ++ (c ++ [b])
      rw [hc g1 g2, List.append_assoc]

theorem unmasked_stream_error (device : List Nat → Nat → Bool) (s : OStream) (b : Nat)
    (s1 : OStream) (m1 : s.mask_bad = false) (m2 : s.mask_fail = false)
    (hw : OStream.write device s b = .error s1) : False := by
  by_cases hg : s.badbit = true ∨ s.failbit = true
  · rw [ostream_write_not_good device s b hg, ostream_setstate_no_mask s _ _ m1 m2] at hw
    exact Except.noConfusion hw
  · have g1 : s.badbit = false := by
      cases hb : s.badbit
      · rfl
      · exact absurd (Or.inl hb) hg
    have g2 : s.failbit = false := by
      cases hb : s.failbit
      · rfl
      · exact absurd (Or.inr hb) hg
    cases hdv : device s.content b
    · rw [ostream_write_rejected device s b g1 g2 hdv, ostream_setstate_no_mask s _ _ m1 m2] at hw
      exact Except.noConfusion hw
    · rw [ostream_write_good device s b g1 g2 hdv] at hw
      exact Except.noConfusion hw

theorem masked_stream_ok (device : List Nat → Nat → Bool) (c0 c : List Nat) (s : OStream)
    (b : Nat) (s1 : OStream)
    (hs : s.badbit = false ∧ s.failbit = false ∧ s.mask_bad = true ∧ s.content = c0 ++ c ∧
      accepted device c0 c = true)
    (hw : OStream.write device s b = .ok s1) :
    s1.badbit = false ∧ s1.failbit = false ∧ s1.mask_bad = true ∧
      s1.content = c0 ++ (c ++ [b]) ∧ accepted device c0 (c ++ [b]) = true := by
  obtain ⟨g1, g2, m1, hc, ha⟩ := hs
  cases hdv : device s.content b
  · rw [ostream_write_rejected device s b g1 g2 hdv, ostream_setstate_bad_masked s m1] at hw
    exact Except.noConfusion hw
  · rw [ostream_write_good device s b g1 g2 hdv] at hw
    rw [← Except.ok.inj hw]
    refine ⟨g1, g2, m1, ?_, ?_⟩
    · show s.content ++ [b] = c0 ++ (c ++ [b])
      rw [hc, List.append_assoc]
    · rw [accepted_snoc, ha, ← hc, hdv]
      rfl

/-- A run that returns in the definitions above, and whose counterpart on an
explicit stream cannot end with the exception of the stream, returns there
too. -/
theorem same_run_returns {σ : Type} (P : List Nat → σ → Prop) (a : LTPNG)
    (y : Except (Raised σ) (OnStream σ)) (h : SameRun P False (.ok a) y) :
    ∃ st, y = .ok st ∧ unsink st.self = unsink a ∧ P a.image st.stream := by
  cases y with
  | ok st =>
    obtain ⟨a1, ha, h1, h2⟩ := h
    rw [← Except.ok.inj ha] at h1 h2
    exact ⟨st, rfl, h1.symm, h2⟩
  | error e =>
    cases e with
    | ltpng w st =>
      obtain ⟨t, ht, _⟩ := h
      exact Except.noConfusion ht
    | stream st => exact False.elim h

/-- C24 (amended): whether a write the stream rejects ends `create_image`
abnormally is decided by the stream alone, since `fwrite_8` never looks at the
result of `image->write`.  For a supported descriptor, on a `std::ostream`
over any device: (1) on a good stream whose device takes every byte the call
ends as in the definitions above and the stream holds the bytes handed over;
(2) with the default, empty exception mask the call never ends with an
exception of the stream: it returns, or throws the same message, exactly as on
a sound stream, whatever the device rejects, and only a stream that is still
good holds all the bytes; (3) on a good stream whose exception mask holds
`badbit` the call returns only when the device took every byte, so a rejected
write ends it with the exception of the stream (or, earlier, with a `throw` of
the class). -/
theorem create_image_sink_failure (device : List Nat → Nat → Bool) (o : OStream) (self : LTPNG)
    (z : ZLib) (w h : Nat) (red green blue alpha : List Nat)
    (hd : self.bit_depth = 8 ∨ self.bit_depth = 16) (hf : self.filter_type ≤ 4) :
    ((∀ c b, device c b = true) → o.badbit = false → o.failbit = false →
      SameRun (fun c s => s = { o with content := o.content ++ c }) False
        (self.create_image z [] w h red green blue alpha)
        (create_image_on (OStream.write device) self z o w h red green blue alpha)) ∧
    (o.mask_bad = false → o.mask_fail = false →
      SameRun (fun c s => s.mask_bad = false ∧ s.mask_fail = false ∧
          (s.badbit = false → s.failbit = false → s.content = o.content ++ c)) False
        (self.create_image z [] w h red green blue alpha)
        (create_image_on (OStream.write device) self z o w h red green blue alpha)) ∧
    (o.mask_bad = false → o.mask_fail = false →
      ∀ s1, self.create_image z [] w h red green blue alpha = .ok s1 →
        ∃ st, create_image_on (OStream.write device) self z o w h red green blue alpha = .ok st ∧
          unsink st.self = unsink s1) ∧
    (o.mask_bad = true → o.badbit = false → o.failbit = false →
      SameRun (fun c s => s.badbit = false ∧ s.failbit = false ∧ s.mask_bad = true ∧
          s.content = o.content ++ c ∧ accepted device o.content c = true) True
        (self.create_image z [] w h red green blue alpha)
        (create_image_on (OStream.write device) self z o w h red green blue alpha)) ∧
    (o.mask_bad = true → o.badbit = false → o.failbit = false →
      ∀ st, create_image_on (OStream.write device) self z o w h red green blue alpha = .ok st →
        ∃ s1, self.create_image z [] w h red green blue alpha = .ok s1 ∧
          st.stream.content = o.content ++ s1.image ∧
          accepted device o.content s1.image = true) := by
  have hB : o.mask_bad = false → o.mask_fail = false →
      SameRun (fun c s => s.mask_bad = false ∧ s.mask_fail = false ∧
          (s.badbit = false → s.failbit = false → s.content = o.content ++ c)) False
        (self.create_image z [] w h red green blue alpha)
        (create_image_on (OStream.write device) self z o w h red green blue alpha) :=
    fun m1 m2 => create_image_same (OStream.write device) _ False
      (fun c s b s1 hs hw => unmasked_stream_ok device o.content c s b s1 hs hw)
      (fun c s b s1 hs hw => unmasked_stream_error device s b s1 hs.1 hs.2.1 hw)
      self z o w h red green blue alpha hd hf
      ⟨m1, m2, fun _ _ => (List.append_nil _).symm⟩
  have hC : o.mask_bad = true → o.badbit = false → o.failbit = false →
      SameRun (fun c s => s.badbit = false ∧ s.failbit = false ∧ s.mask_bad = true ∧
          s.content = o.content ++ c ∧ accepted device o.content c = true) True
        (self.create_image z [] w h red green blue alpha)
        (create_image_on (OStream.write device) self z o w h red green blue alpha) :=
    fun m1 g1 g2 => create_image_same (OStream.write device) _ True
      (fun c s b s1 hs hw => masked_stream_ok device o.content c s b s1 hs hw)
      (fun _ _ _ _ _ _ => trivial)
      self z o w h red green blue alpha hd hf
      ⟨g1, g2, m1, (List.append_nil _).symm, rfl⟩
  refine ⟨fun hdev g1 g2 => ?_, hB, fun m1 m2 s1 hs1 => ?_, hC, fun m1 g1 g2 st hst => ?_⟩
  · exact create_image_same (OStream.write device) _ False
      (fun c s b s1 hs hw => sound_stream_ok device o hdev g1 g2 c s b s1 hs hw)
      (fun c s b s1 hs hw => sound_stream_error device o hdev g1 g2 c s b s1 hs hw)
      self z o w h red green blue alpha hd hf
      (by rw [List.append_nil])
  · have hs := hB m1 m2
    rw [hs1] at hs
    obtain ⟨st, h1, h2, _⟩ := same_run_returns _ _ _ hs
    exact ⟨st, h1, h2⟩
  · have hs := hC m1 g1 g2
    rw [hst] at hs
    obtain ⟨a, ha, _, _, _, _, h4, h5⟩ := hs
    exact ⟨a, ha, h4, h5⟩

theorem accepted_reject_png (w h d c : Nat) (D : List Nat) :
    accepted (fun _ _ => false) [] ([] ++ png_file w h d c D) = false := by
  unfold png_file png_signature
  rfl

theorem create_image_sink_failure_witness :
    ∃ st, create_image_on (OStream.write (fun _ _ => false)) (LTPNG.new 8 2 0) zlib_const
        ⟨[], false, false, true, true⟩ 3 2 [10, 20, 30, 40, 50, 60] [11, 21, 31, 41, 51, 61]
        [12, 22, 32, 42, 52, 62] [] = .error (.stream st) := by
  obtain ⟨_, _, _, hC, hC2⟩ := create_image_sink_failure (fun _ _ => false)
    ⟨[], false, false, true, true⟩ (LTPNG.new 8 2 0) zlib_const 3 2 [10, 20, 30, 40, 50, 60]
    [11, 21, 31, 41, 51, 61] [12, 22, 32, 42, 52, 62] [] (Or.inl rfl) (by decide)
  have hX := create_image_3x2_completes [] [10, 20, 30, 40, 50, 60] [11, 21, 31, 41, 51, 61]
    [12, 22, 32, 42, 52, 62] [] 0 (by decide)
  have hS := hC rfl rfl rfl
  cases hY : create_image_on (OStream.write (fun _ _ => false)) (LTPNG.new 8 2 0) zlib_const
      ⟨[], false, false, true, true⟩ 3 2 [10, 20, 30, 40, 50, 60] [11, 21, 31, 41, 51, 61]
      [12, 22, 32, 42, 52, 62] [] with
  | ok st =>
    obtain ⟨s1, h1, _, h3⟩ := hC2 rfl rfl rfl st hY
    have himg := create_image_image 8 2 0 3 2 zlib_const [] [10, 20, 30, 40, 50, 60]
      [11, 21, 31, 41, 51, 61] [12, 22, 32, 42, 52, 62] [] (Or.inl rfl) (Or.inl rfl) (by decide)
      s1 h1
    rw [himg, accepted_reject_png] at h3
    exact Bool.noConfusion h3
  | error e =>
    cases e with
    | ltpng what st =>
      rw [hY, hX] at hS
      obtain ⟨t, ht, _⟩ := hS
      exact Except.noConfusion ht
    | stream st => exact ⟨st, rfl⟩

theorem rejecting_stream_ok (c : List Nat) (s : OStream) (b : Nat) (s1 : OStream)
    (hs : s.content = [] ∧ s.mask_bad = false ∧ s.mask_fail = false ∧
      (s.failbit = true → s.badbit = true) ∧ (c ≠ [] → s.badbit = true))
    (hw : OStream.write (fun _ _ => false) s b = .ok s1) :
    s1.content = [] ∧ s1.mask_bad = false ∧ s1.mask_fail = false ∧
      (s1.failbit = true → s1.badbit = true) ∧ (c ++ [b] ≠ [] → s1.badbit = true) := by
  obtain ⟨hc, m1, m2, hfb, _⟩ := hs
  by_cases hg : s.badbit = true ∨ s.failbit = true
  · have hbad : s.badbit = true := by
      rcases hg with hg | hg
      · exact hg
      · exact hfb hg
    rw [ostream_write_not_good _ s b hg, ostream_setstate_no_mask s _ _ m1 m2] at hw
    rw [← Except.ok.inj hw]
    have e : (s.badbit || false) = true := by rw [hbad]; rfl
    exact ⟨hc, m1, m2, fun _ => e, fun _ => e⟩
  · have g1 : s.badbit = false := by
      cases hb : s.badbit
      · rfl
      · exact absurd (Or.inl hb) hg
    have g2 : s.failbit = false := by
      cases hb : s.failbit
      · rfl
      · exact absurd (Or.inr hb) hg
    rw [ostream_write_rejected _ s b g1 g2 rfl, ostream_setstate_no_mask s _ _ m1 m2] at hw
    rw [← Except.ok.inj hw]
    have e : (s.badbit || true) = true := by rw [g1]; rfl
    exact ⟨hc, m1, m2, fun _ => e, fun _ => e⟩

/-- Counterexample to C24 as stated: on a good `std::ostream` with the default
exception mask whose device rejects every byte, `create_image` on the 3x2
8-bit RGB image returns normally; the stream holds no byte and has `badbit`
set. -/
theorem create_image_rejected_write_returns :
    ∃ st, create_image_on (OStream.write (fun _ _ => false)) (LTPNG.new 8 2 0) zlib_const
        ⟨[], false, false, false, false⟩ 3 2 [10, 20, 30, 40, 50, 60] [11, 21, 31, 41, 51, 61]
        [12, 22, 32, 42, 52, 62] [] = .ok st ∧
      st.stream.content = [] ∧ st.stream.badbit = true := by
  have hX := create_image_3x2_completes [] [10, 20, 30, 40, 50, 60] [11, 21, 31, 41, 51, 61]
    [12, 22, 32, 42, 52, 62] [] 0 (by decide)
  have hS := create_image_same (OStream.write (fun _ _ => false))
    (fun c s => s.content = [] ∧ s.mask_bad = false ∧ s.mask_fail = false ∧
      (s.failbit = true → s.badbit = true) ∧ (c ≠ [] → s.badbit = true)) False
    (fun c s b s1 hs hw => rejecting_stream_ok c s b s1 hs hw)
    (fun c s b s1 hs hw => unmasked_stream_error _ s b s1 hs.2.1 hs.2.2.1 hw)
    (LTPNG.new 8 2 0) zlib_const ⟨[], false, false, false, false⟩ 3 2 [10, 20, 30, 40, 50, 60]
    [11, 21, 31, 41, 51, 61] [12, 22, 32, 42, 52, 62] [] (Or.inl rfl) (by decide)
    ⟨rfl, rfl, rfl, fun hfb => Bool.noConfusion hfb, fun hne => absurd rfl hne⟩
  rw [hX] at hS
  obtain ⟨st, h1, _, h3, _, _, _, h7⟩ := same_run_returns _ _ _ hS
  refine ⟨st, h1, h3, h7 ?_⟩
  have himg := create_image_image 8 2 0 3 2 zlib_const [] [10, 20, 30, 40, 50, 60]
    [11, 21, 31, 41, 51, 61] [12, 22, 32, 42, 52, 62] [] (Or.inl rfl) (Or.inl rfl) (by decide)
    _ hX
  intro hnil
  have hlen := congrArg List.length hnil
  rw [himg, List.length_append, png_file_length] at hlen
  simp at hlen

/-! ### `fwrite_8` and `fwrite_32` -/

theorem push_buf_other (s : LTPNG) (v i : Nat) (h : i ≠ s.crc_index) :
    (push s v).crc_buf.getD i 0 = s.crc_buf.getD i 0 := by
  have e : (push s v).crc_buf = s.crc_buf.set s.crc_index (v % 256) := rfl
  rw [e, List.getD_eq_getElem?_getD, List.getD_eq_getElem?_getD,
    List.getElem?_set_ne (Ne.symm h)]

theorem push_buf_here (s : LTPNG) (v : Nat) (h : s.crc_index < s.crc_buf.length) :
    (push s v).crc_buf.getD s.crc_index 0 = v % 256 := by
  have e : (push s v).crc_buf = s.crc_buf.set s.crc_index (v % 256) := rfl
  rw [e, List.getD_eq_getElem?_getD, List.getElem?_set_eq_of_lt _ h]
  rfl

/-- C25: `fwrite_8(v)` throws the accumulator-full error exactly when
`crc_index = crc_allocated` on entry, and the object it throws from is the
object on entry (stream, accumulator and index unchanged).  Otherwise it
returns: the stream has exactly the byte `v` appended, the accumulator is the
old one with `v` stored at position `crc_index` (so slot `crc_index` of the
block holds `v` and every other slot is unchanged), `crc_index` is one more
(the index is a 32-bit counter below the 32-bit `crc_allocated`), and nothing
else in the object changes. -/
theorem fwrite_8_spec (s : LTPNG) (v : Nat) (hv : v < 256) :
    ((∃ t, s.fwrite_8 v = .error t) ↔ s.crc_index = s.crc_allocated) ∧
    (s.crc_index = s.crc_allocated →
      s.fwrite_8 v =
        .error ⟨"LTPNG: CRC buffer out of room, was allocate_crc_size() called?", s⟩) ∧
    (s.crc_index ≠ s.crc_allocated →
      ∃ s1, s.fwrite_8 v = .ok s1 ∧
        s1.image = s.image ++ [v] ∧
        s1.crc_buf = s.crc_buf.set s.crc_index v ∧
        s1.crc_buf.length = s.crc_buf.length ∧
        (s.crc_index < s.crc_buf.length → s1.crc_buf.getD s.crc_index 0 = v) ∧
        (∀ i, i ≠ s.crc_index → s1.crc_buf.getD i 0 = s.crc_buf.getD i 0) ∧
        (s.crc_index < s.crc_allocated → s.crc_allocated < 4294967296 →
          s1.crc_index = s.crc_index + 1) ∧
        { s1 with image := s.image, crc_buf := s.crc_buf, crc_index := s.crc_index } = s) := by
  have hm : v % 256 = v := Nat.mod_eq_of_lt hv
  refine ⟨⟨fun ⟨t, ht⟩ => ?_, fun h => ⟨_, by rw [fwrite_8_eq, if_pos h]⟩⟩,
    fun h => by rw [fwrite_8_eq, if_pos h], fun h => ?_⟩
  · by_contra hne
    rw [fwrite_8_eq, if_neg hne] at ht
    exact Except.noConfusion ht
  · refine ⟨push s v, by rw [fwrite_8_eq, if_neg h], ?_, ?_, ?_, ?_, ?_, ?_, rfl⟩
    · have e : (push s v).image = s.image ++ [v % 256] := rfl
      rw [e, hm]
    · have e : (push s v).crc_buf = s.crc_buf.set s.crc_index (v % 256) := rfl
      rw [e, hm]
    · have e : (push s v).crc_buf = s.crc_buf.set s.crc_index (v % 256) := rfl
      rw [e, List.length_set]
    · intro hlt
      rw [push_buf_here s v hlt, hm]
    · exact fun i hi => push_buf_other s v i hi
    · intro h1 h2
      have e : (push s v).crc_index = (s.crc_index + 1) % 4294967296 := rfl
      rw [e]
      omega

theorem fwrite_8_spec_witness :
    ∃ s1, (allocate_crc_size (LTPNG.new 8 2 0) 8 2).fwrite_8 137 = .ok s1 ∧
      s1.image = [137] ∧ s1.crc_buf = [137, 0, 0, 0, 0] := by
  obtain ⟨s1, h1, h2, h3, _⟩ := (fwrite_8_spec (allocate_crc_size (LTPNG.new 8 2 0) 8 2) 137
    (by decide)).2.2 (by decide)
  exact ⟨s1, h1, h2, by rw [h3]; decide⟩

theorem be32_round_trip (v : Nat) (hv : v < 4294967296) :
    ((v >>> 24) &&& 0xFF) * 2 ^ 24 + ((v >>> 16) &&& 0xFF) * 2 ^ 16 +
      ((v >>> 8) &&& 0xFF) * 2 ^ 8 + (v &&& 0xFF) = v := by
  have e1 : ∀ x : Nat, x &&& 0xFF = x % 256 := fun x => Nat.and_pow_two_sub_one_eq_mod x 8
  rw [e1, e1, e1, e1, Nat.shiftRight_eq_div_pow, Nat.shiftRight_eq_div_pow,
    Nat.shiftRight_eq_div_pow]
  norm_num
  omega

theorem get_byte_four_ok (t : LTPNG) (v k : Nat) (h1 : 1 ≤ k) (h4 : k ≤ 4) :
    t.get_byte_from_four_bytes v k = .ok ((v >>> (32 - 8 * k)) &&& 0xFF) := by
  unfold get_byte_from_four_bytes
  rw [if_neg (by omega)]
  have : u8 (24 - ((k : Int) - 1) * 8) = 32 - 8 * k := by unfold u8; omega
  simp only [this]

/-- C26: for a 32-bit value `v` and an accumulator with room for four more
bytes, `fwrite_32(v)` returns after writing exactly the four bytes
`(v >> 24) & 0xFF`, `(v >> 16) & 0xFF`, `(v >> 8) & 0xFF`, `v & 0xFF`, in this
order, to the stream (and to the accumulator); each is a byte and
`b1*2^24 + b2*2^16 + b3*2^8 + b4 = v`.  `get_byte_from_four_bytes` returns,
without throwing, for every byte number from 1 to 4. -/
theorem fwrite_32_big_endian (s : LTPNG) (v : Nat) (hv : v < 4294967296)
    (hroom : s.crc_index + 4 ≤ s.crc_allocated) (ha : s.crc_allocated < 4294967296)
    (hl : s.crc_buf.length = s.crc_allocated) :
    s.fwrite_32 v = .ok (emit s (be32 v)) ∧
    (emit s (be32 v)).image =
      s.image ++ [(v >>> 24) &&& 0xFF, (v >>> 16) &&& 0xFF, (v >>> 8) &&& 0xFF, v &&& 0xFF] ∧
    acc (emit s (be32 v)) =
      acc s ++ [(v >>> 24) &&& 0xFF, (v >>> 16) &&& 0xFF, (v >>> 8) &&& 0xFF, v &&& 0xFF] ∧
    (∀ b ∈ be32 v, b < 256) ∧
    ((v >>> 24) &&& 0xFF) * 2 ^ 24 + ((v >>> 16) &&& 0xFF) * 2 ^ 16 +
      ((v >>> 8) &&& 0xFF) * 2 ^ 8 + (v &&& 0xFF) = v ∧
    (∀ k, 1 ≤ k → k ≤ 4 →
      s.get_byte_from_four_bytes v k = .ok ((v >>> (32 - 8 * k)) &&& 0xFF)) := by
  refine ⟨?_, ?_, ?_, ?_, be32_round_trip v hv, fun k h1 h4 => get_byte_four_ok s v k h1 h4⟩
  · rw [fwrite_32_eq_list]
    exact fwrite_list_ok s (be32 v) (by rw [be32_length]; exact hroom) ha
  · rw [emit_image, be32_map_mod]
    rfl
  · rw [emit_acc s (be32 v) (by rw [be32_length, hl]; exact hroom)
      (by rw [be32_length]; omega), be32_map_mod]
    rfl
  · intro b hb
    have h : ∀ x : Nat, x &&& 0xFF < 256 := fun x =>
      Nat.and_lt_two_pow _ (by norm_num : (0xFF : Nat) < 2 ^ 8)
    simp only [be32, List.mem_cons, List.mem_singleton, List.not_mem_nil, or_false] at hb
    rcases hb with rfl | rfl | rfl | rfl <;> exact h _

theorem fwrite_32_big_endian_witness :
    (allocate_crc_size (LTPNG.new 8 2 0) 8 2).fwrite_32 13 =
        .ok (emit (allocate_crc_size (LTPNG.new 8 2 0) 8 2) (be32 13)) ∧
      (emit (allocate_crc_size (LTPNG.new 8 2 0) 8 2) (be32 13)).image = [0, 0, 0, 13] := by
  obtain ⟨h1, h2, _⟩ := fwrite_32_big_endian (allocate_crc_size (LTPNG.new 8 2 0) 8 2) 13
    (by decide) (by decide) (by decide) (by decide)
  exact ⟨h1, by rw [h2]; decide⟩

/-! ### Paeth on the first scanline, and the meaning of `file_size` -/

theorem paeth_predictor_left (a : Nat) (h : a < 256) : paeth_predictor a 0 0 = a := by
  unfold paeth_predictor
  simp only [add_zero, sub_zero]
  have hp : s16 (a : Int) = a := s16_id _ (by omega) (by omega)
  rw [hp, sub_self]
  have h0 : s16 ((Int.natAbs (0 : Int) : Nat) : Int) = 0 := by decide
  have h1 : s16 ((Int.natAbs (a : Int) : Nat) : Int) = a := by
    rw [Int.natAbs_ofNat]; exact hp
  rw [h0, h1, if_pos ⟨by omega, by omega⟩]
  exact u8_byte a h

theorem getD_lt_256 (l : List Nat) (i : Nat) (h : ∀ x ∈ l, x < 256) : l.getD i 0 < 256 := by
  rcases Nat.lt_or_ge i l.length with hi | hi
  · rw [List.getD_eq_getElem _ _ hi]
    exact h _ (List.getElem_mem hi)
  · rw [List.getD_eq_default _ _ hi]
    omega

theorem raw_a_lt (s : LTPNG) (row col o : Nat) (h : ∀ x ∈ s.uncompressed_data, x < 256) :
    raw_a s row col o < 256 := by
  unfold raw_a
  split
  · exact getD_lt_256 _ _ h
  · omega

/-- C28: on the first scanline the Paeth filter is the Sub filter.  For every
raw block (of bytes), column `col` and offset `o`, `filter_byte(0, col, o)`
returns with filter type 4 the byte it returns with filter type 1: both
locals `b` and `c` are 0 on row 0, and `paeth_predictor(a, 0, 0) = a` for every
byte `a`. -/
theorem paeth_first_row_is_sub (s : LTPNG) (col o : Nat)
    (hb : ∀ x ∈ s.uncompressed_data, x < 256) :
    filter_byte { s with filter_type := 4 } 0 col o =
      filter_byte { s with filter_type := 1 } 0 col o ∧
    filter_byte { s with filter_type := 4 } 0 col o =
      .ok (u8 ((raw_x s 0 col o : Int) - raw_a s 0 col o)) ∧
    (∀ a : Nat, a < 256 → paeth_predictor a 0 0 = a) := by
  have h4 : filter_byte { s with filter_type := 4 } 0 col o =
      .ok (u8 ((raw_x s 0 col o : Int) - raw_a s 0 col o)) := by
    rw [filter_byte_ok _ _ _ _ (by exact (by decide : (4 : Nat) ≤ 4))]
    have e : fval { s with filter_type := 4 } 0 col o =
        filter_out 4 (raw_x s 0 col o) (raw_a s 0 col o) (raw_b s 0 col o) (raw_c s 0 col o) :=
      rfl
    rw [e, filter_out_4, raw_b_first_row, raw_c_first_row]
    have hp := paeth_predictor_left (raw_a s 0 col o) (raw_a_lt s 0 col o hb)
    simp only [Nat.cast_zero] at hp ⊢
    rw [hp]
  have h1 : filter_byte { s with filter_type := 1 } 0 col o =
      .ok (u8 ((raw_x s 0 col o : Int) - raw_a s 0 col o)) := by
    rw [filter_byte_ok _ _ _ _ (by exact (by decide : (1 : Nat) ≤ 4))]
    have e : fval { s with filter_type := 1 } 0 col o =
        filter_out 1 (raw_x s 0 col o) (raw_a s 0 col o) (raw_b s 0 col o) (raw_c s 0 col o) :=
      rfl
    rw [e, filter_out_1]
  exact ⟨by rw [h4, h1], h4, fun a ha => paeth_predictor_left a ha⟩

set_option maxRecDepth 100000 in
theorem paeth_first_row_is_sub_witness :
    filter_byte { LTPNG.new 8 2 0 with
        width := 2, uncompressed_data := [0, 10, 20, 30, 15, 18, 40], filter_type := 4 } 0 1 2 =
      .ok 254 := by
  have h := (paeth_first_row_is_sub { LTPNG.new 8 2 0 with
    width := 2, uncompressed_data := [0, 10, 20, 30, 15, 18, 40] } 1 2 (by decide)).2.1
  rw [h]
  exact congrArg Except.ok (by decide)

/-- C29: after a `create_image` that completes, `file_size` is the length `n`
of the compressed data, which is the payload of the data chunk of the file
written; the number of bytes written to the stream is `n + 57`, so `file_size`
is not the size of the file; and the example driver prints `file_size` under
the words "Total compressed image data size". -/
theorem create_image_file_size_meaning (d c f w h : Nat) (z : ZLib)
    (file red green blue alpha : List Nat) (hd : d = 8 ∨ d = 16) (hc : c = 2 ∨ c = 6)
    (hf : f ≤ 4) (s1 : LTPNG)
    (hdone : (LTPNG.new d c f).create_image z file w h red green blue alpha = .ok s1) :
    s1.file_size =
      (compressed_of (build_done (LTPNG.new d c f) file w h red green blue alpha) z).length ∧
    s1.image = file ++ (png_signature ++ chunk [73, 72, 68, 82] (ihdr_data w h d c) ++
      chunk [73, 68, 65, 84]
        (compressed_of (build_done (LTPNG.new d c f) file w h red green blue alpha) z) ++
      chunk [73, 69, 78, 68] []) ∧
    s1.image.length - file.length = s1.file_size + 57 ∧
    s1.image.length - file.length ≠ s1.file_size ∧
    driver_report s1 = " Total compressed image data size: " ++
      toString (compressed_of (build_done (LTPNG.new d c f) file w h red green blue alpha)
        z).length := by
  have himg := create_image_image d c f w h z file red green blue alpha hd hc hf s1 hdone
  have hfs := create_image_file_size d c f w h z file red green blue alpha hd hf s1 hdone
  have hlen : s1.image.length = file.length + (57 + s1.file_size) := by
    rw [himg, List.length_append, png_file_length, hfs]
  refine ⟨hfs, himg, by omega, by omega, ?_⟩
  unfold driver_report
  rw [hfs]

theorem create_image_file_size_meaning_witness :
    (finished_of (build_done (LTPNG.new 8 2 0) [] 3 2 [10, 20, 30, 40, 50, 60]
        [11, 21, 31, 41, 51, 61] [12, 22, 32, 42, 52, 62] []) zlib_const).image.length -
        ([] : List Nat).length =
      (finished_of (build_done (LTPNG.new 8 2 0) [] 3 2 [10, 20, 30, 40, 50, 60]
        [11, 21, 31, 41, 51, 61] [12, 22, 32, 42, 52, 62] []) zlib_const).file_size + 57 :=
  (create_image_file_size_meaning 8 2 0 3 2 zlib_const [] [10, 20, 30, 40, 50, 60]
    [11, 21, 31, 41, 51, 61] [12, 22, 32, 42, 52, 62] [] (Or.inl rfl) (Or.inl rfl) (by decide) _
    (create_image_3x2_completes [] _ _ _ [] 0 (by decide))).2.2.1

/-! ### The interleaved loop and the two-stage pipeline -/

theorem mapM_ok {α β : Type} (f : α → Except Thrown β) (g : α → β) (l : List α)
    (h : ∀ x, x ∈ l → f x = .ok (g x)) : l.mapM f = .ok (l.map g) := by
  induction l with
  | nil => rfl
  | cons x l ih =>
    rw [List.mapM_cons, h x (List.mem_cons_self _ _),
      ih (fun y hy => h y (List.mem_cons_of_mem _ hy))]
    rfl

theorem flatMap_id_map {α : Type} (l : List α) (g : α → List Nat) :
    (l.map g).flatMap id = l.flatMap g := by
  induction l with
  | nil => rfl
  | cons x l ih => rw [List.map_cons, List.flatMap_cons, List.flatMap_cons, ih]; rfl

theorem filter_pixel_two_stage_ok (s : LTPNG) (row col : Nat) (hf : s.filter_type ≤ 4) :
    filter_pixel_two_stage s row col = .ok ((pixel_offsets s).map (fval s row col)) := by
  unfold filter_pixel_two_stage
  exact mapM_ok _ _ _ (fun o _ => filter_byte_ok s row col o hf)

theorem filter_row_two_stage_ok (s : LTPNG) (row : Nat) (hf : s.filter_type ≤ 4) :
    filter_row_two_stage s row =
      .ok (s.uncompressed_data.getD (row * (s.width * pixel_size_of s + 1)) 0 ::
        (List.range s.width).flatMap (fun col => (pixel_offsets s).map (fval s row col))) := by
  unfold filter_row_two_stage
  rw [mapM_ok _ (fun col => (pixel_offsets s).map (fval s row col)) _
    (fun col _ => filter_pixel_two_stage_ok s row col hf), except_ok_bind, flatMap_id_map]
  rfl

theorem two_stage_filter_ok (s : LTPNG) (hf : s.filter_type ≤ 4) :
    two_stage_filter s =
      .ok ((List.range s.height).flatMap (fun row =>
        s.uncompressed_data.getD (row * (s.width * pixel_size_of s + 1)) 0 ::
          (List.range s.width).flatMap (fun col => (pixel_offsets s).map (fval s row col)))) := by
  unfold two_stage_filter
  rw [mapM_ok _ (fun row =>
      s.uncompressed_data.getD (row * (s.width * pixel_size_of s + 1)) 0 ::
        (List.range s.width).flatMap (fun col => (pixel_offsets s).map (fval s row col))) _
    (fun row _ => filter_row_two_stage_ok s row hf), except_ok_bind, flatMap_id_map]
  rfl

/-- The four locals of `filter_byte` in an object whose raw block agrees with
the closed form on the rows above and on the current row up to the current
pixel. -/
theorem raw_locals_of_agree (t s0 : LTPNG) (red green blue alpha : List Nat) (row col j : Nat)
    (hfr : frame t = frame s0) (hcol : col < s0.width) (hj : j < pixel_size_of s0)
    (hlt : row * (s0.width * pixel_size_of s0 + 1) + 1 + col * pixel_size_of s0 +
      pixel_size_of s0 < 4294967296)
    (hR : ∀ r c k, (r < row ∧ c < s0.width) ∨ (r = row ∧ c ≤ col) → k < pixel_size_of s0 →
      t.uncompressed_data.getD
        (r * (s0.width * pixel_size_of s0 + 1) + 1 + c * pixel_size_of s0 + k) 0 =
        (raw_pixel s0 red green blue alpha r c).getD k 0) :
    raw_x t row col (j + 1) = nb_x s0 red green blue alpha row col j ∧
    raw_a t row col (j + 1) = nb_a s0 red green blue alpha row col j ∧
    raw_b t row col (j + 1) = nb_b s0 red green blue alpha row col j ∧
    raw_c t row col (j + 1) = nb_c s0 red green blue alpha row col j := by
  have hcp := col_block_le s0.width (pixel_size_of s0) col hcol
  refine ⟨?_, ?_, ?_, ?_⟩
  · unfold raw_x nb_x
    rw [index_base_congr _ _ _ _ hfr, index_here, u32_cast _ (by omega),
      hR row col j (Or.inr ⟨rfl, le_refl _⟩) hj]
  · unfold raw_a nb_a
    rcases Nat.eq_zero_or_pos col with h0 | hpos
    · rw [if_neg (by omega), if_neg (by omega)]
    · obtain ⟨c, hc1⟩ : ∃ c, col = c + 1 := ⟨col - 1, by omega⟩
      have hs : (c + 1) * pixel_size_of s0 = c * pixel_size_of s0 + pixel_size_of s0 :=
        Nat.succ_mul _ _
      rw [if_pos hpos, if_pos hpos, index_base_congr _ _ _ _ hfr, pixel_size_congr _ _ hfr]
      subst hc1
      rw [index_left, u32_cast _ (by omega), Nat.add_sub_cancel,
        hR row c j (Or.inr ⟨rfl, by omega⟩) hj]
  · unfold raw_b nb_b
    rcases Nat.eq_zero_or_pos row with h0 | hpos
    · rw [if_neg (by omega), if_neg (by omega)]
    · obtain ⟨r, hr1⟩ : ∃ r, row = r + 1 := ⟨row - 1, by omega⟩
      have hs : (r + 1) * (s0.width * pixel_size_of s0 + 1) =
          r * (s0.width * pixel_size_of s0 + 1) + (s0.width * pixel_size_of s0 + 1) :=
        Nat.succ_mul _ _
      rw [if_pos hpos, if_pos hpos, index_base_congr _ _ _ _ hfr, pixel_size_congr _ _ hfr,
        frame_width _ _ hfr]
      subst hr1
      rw [index_up, u32_cast _ (by omega), Nat.add_sub_cancel,
        hR r col j (Or.inl ⟨by omega, hcol⟩) hj]
  · unfold raw_c nb_c
    by_cases hpos : col > 0 ∧ row > 0
    · obtain ⟨c, hc1⟩ : ∃ c, col = c + 1 := ⟨col - 1, by omega⟩
      obtain ⟨r, hr1⟩ : ∃ r, row = r + 1 := ⟨row - 1, by omega⟩
      have hs : (r + 1) * (s0.width * pixel_size_of s0 + 1) =
          r * (s0.width * pixel_size_of s0 + 1) + (s0.width * pixel_size_of s0 + 1) :=
        Nat.succ_mul _ _
      have hs2 : (c + 1) * pixel_size_of s0 = c * pixel_size_of s0 + pixel_size_of s0 :=
        Nat.succ_mul _ _
      rw [if_pos hpos, if_pos hpos, index_base_congr _ _ _ _ hfr, pixel_size_congr _ _ hfr,
        frame_width _ _ hfr]
      subst hc1
      subst hr1
      rw [index_upleft, u32_cast _ (by omega), Nat.add_sub_cancel, Nat.add_sub_cancel,
        hR r c j (Or.inl ⟨by omega, by omega⟩) hj]
    · rw [if_neg hpos, if_neg hpos]

theorem fval_of_agree (t s0 : LTPNG) (red green blue alpha : List Nat) (row col j : Nat)
    (hfr : frame t = frame s0) (hcol : col < s0.width) (hj : j < pixel_size_of s0)
    (hlt : row * (s0.width * pixel_size_of s0 + 1) + 1 + col * pixel_size_of s0 +
      pixel_size_of s0 < 4294967296)
    (hR : ∀ r c k, (r < row ∧ c < s0.width) ∨ (r = row ∧ c ≤ col) → k < pixel_size_of s0 →
      t.uncompressed_data.getD
        (r * (s0.width * pixel_size_of s0 + 1) + 1 + c * pixel_size_of s0 + k) 0 =
        (raw_pixel s0 red green blue alpha r c).getD k 0) :
    fval t row col (j + 1) =
      filter_out s0.filter_type (nb_x s0 red green blue alpha row col j)
        (nb_a s0 red green blue alpha row col j) (nb_b s0 red green blue alpha row col j)
        (nb_c s0 red green blue alpha row col j) := by
  obtain ⟨hx, ha, hb, hc⟩ :=
    raw_locals_of_agree t s0 red green blue alpha row col j hfr hcol hj hlt hR
  unfold fval
  rw [frame_filter_type _ _ hfr, hx, ha, hb, hc]

/-- The four index expressions of `filter_byte(row, col, j + 1)` lie below the
position that follows pixel `(row, col)` in the raw block. -/
theorem filter_indices_lt (t : LTPNG) (row col j : Nat) (hcol : col < t.width)
    (hj : j < pixel_size_of t)
    (hlt : row * (t.width * pixel_size_of t + 1) + 1 + col * pixel_size_of t +
      pixel_size_of t < 4294967296) :
    u32 (index_base t row col + ((j + 1 : Nat) : Int)) <
      row * (t.width * pixel_size_of t + 1) + 1 + col * pixel_size_of t + pixel_size_of t ∧
    (col > 0 → u32 (index_base t row col - (pixel_size_of t : Int) + ((j + 1 : Nat) : Int)) <
      row * (t.width * pixel_size_of t + 1) + 1 + col * pixel_size_of t + pixel_size_of t) ∧
    (row > 0 → u32 (index_base t row col - (t.width : Int) * (pixel_size_of t : Int) +
        ((j + 1 : Nat) : Int) - 1) <
      row * (t.width * pixel_size_of t + 1) + 1 + col * pixel_size_of t + pixel_size_of t) ∧
    (col > 0 ∧ row > 0 → u32 (index_base t row col - (pixel_size_of t : Int) -
        (t.width : Int) * (pixel_size_of t : Int) + ((j + 1 : Nat) : Int) - 1) <
      row * (t.width * pixel_size_of t + 1) + 1 + col * pixel_size_of t + pixel_size_of t) := by
  have hcp := col_block_le t.width (pixel_size_of t) col hcol
  refine ⟨?_, fun hpos => ?_, fun hpos => ?_, fun hpos => ?_⟩
  · rw [index_here, u32_cast _ (by omega)]
    omega
  · obtain ⟨c, hc1⟩ : ∃ c, col = c + 1 := ⟨col - 1, by omega⟩
    have hs : (c + 1) * pixel_size_of t = c * pixel_size_of t + pixel_size_of t :=
      Nat.succ_mul _ _
    subst hc1
    rw [index_left, u32_cast _ (by omega)]
    omega
  · obtain ⟨r, hr1⟩ : ∃ r, row = r + 1 := ⟨row - 1, by omega⟩
    have hs : (r + 1) * (t.width * pixel_size_of t + 1) =
        r * (t.width * pixel_size_of t + 1) + (t.width * pixel_size_of t + 1) :=
      Nat.succ_mul _ _
    subst hr1
    rw [index_up, u32_cast _ (by omega)]
    omega
  · obtain ⟨c, hc1⟩ : ∃ c, col = c + 1 := ⟨col - 1, by omega⟩
    obtain ⟨r, hr1⟩ : ∃ r, row = r + 1 := ⟨row - 1, by omega⟩
    have hs : (r + 1) * (t.width * pixel_size_of t + 1) =
        r * (t.width * pixel_size_of t + 1) + (t.width * pixel_size_of t + 1) :=
      Nat.succ_mul _ _
    have hs2 : (c + 1) * pixel_size_of t = c * pixel_size_of t + pixel_size_of t :=
      Nat.succ_mul _ _
    subst hc1
    subst hr1
    rw [index_upleft, u32_cast _ (by omega)]
    omega

theorem state_at_eq (self : LTPNG) (file : List Nat) (w h : Nat)
    (red green blue alpha : List Nat) (row col : Nat) :
    state_at self file w h red green blue alpha row col =
      (List.range col).foldl (fun st c => pixel_done st red green blue alpha row c)
        (row_start ((List.range row).foldl (fun st r => row_done st red green blue alpha r)
          (build_start self file w h))) := rfl

theorem call_state_eq (self : LTPNG) (file : List Nat) (w h : Nat)
    (red green blue alpha : List Nat) (row col : Nat) :
    call_state self file w h red green blue alpha row col =
      put_raw_list (state_at self file w h red green blue alpha row col)
        (pixel_vals (state_at self file w h red green blue alpha row col).self
          red green blue alpha row col) := rfl

/-- The loop state at pixel `(row, col)`: both counters stand at the position
of the pixel and the raw block holds the closed form up to there. -/
theorem state_at_facts (self : LTPNG) (file : List Nat) (w h : Nat)
    (red green blue alpha : List Nat)
    (hd : self.bit_depth = 8 ∨ self.bit_depth = 16)
    (hc : self.colour_type = 2 ∨ self.colour_type = 6)
    (hfit : h * (w * pixel_size_of self + 1) < 4294967296)
    (row col : Nat) (hrow : row < h) (hcol : col ≤ w) :
    Built (build_start self file w h).self (h * (w * pixel_size_of self + 1))
      (state_at self file w h red green blue alpha row col)
      (row * (w * pixel_size_of self + 1) + 1 + col * pixel_size_of self) ∧
    rawp (state_at self file w h red green blue alpha row col) =
      raw_rows (build_start self file w h).self red green blue alpha row ++
        ((build_start self file w h).self.filter_type % 256) ::
        (List.range col).flatMap
          (fun c => raw_pixel (build_start self file w h).self red green blue alpha row c) := by
  have hB0 := build_start_built self file w h hfit
  have h1 : (row + 1) * (w * pixel_size_of self + 1) ≤ h * (w * pixel_size_of self + 1) :=
    Nat.mul_le_mul_right _ hrow
  have h2 : (row + 1) * (w * pixel_size_of self + 1) =
      row * (w * pixel_size_of self + 1) + (w * pixel_size_of self + 1) := Nat.succ_mul _ _
  have h3 : col * pixel_size_of self ≤ w * pixel_size_of self := Nat.mul_le_mul_right _ hcol
  obtain ⟨hB, hr, _, _⟩ := rows_built (build_start self file w h).self
    (h * (w * pixel_size_of self + 1)) red green blue alpha hd hc hfit _ hB0 row
    (by rw [build_start_width, pixel_size_build_start]; omega)
  rw [build_start_width, pixel_size_build_start] at hB
  obtain ⟨hB1, hr1, _⟩ := row_start_built (build_start self file w h).self
    (h * (w * pixel_size_of self + 1)) _ _ hB (by omega) hfit
  obtain ⟨hB2, hr2, _⟩ := cols_built (build_start self file w h).self
    (h * (w * pixel_size_of self + 1)) red green blue alpha row hd hc hfit _ _ hB1 col
    (by rw [pixel_size_build_start]; omega)
  rw [pixel_size_build_start] at hB2
  rw [state_at_eq]
  refine ⟨hB2, ?_⟩
  rw [hr2, hr1, hr, List.append_assoc, List.singleton_append]

/-- The state in which `filter_byte(row, col, ..)` is called: the counter of
the raw block stands behind pixel `(row, col)`, within the block, and the
block holds the closed form up to there. -/
theorem call_state_facts (self : LTPNG) (file : List Nat) (w h : Nat)
    (red green blue alpha : List Nat)
    (hd : self.bit_depth = 8 ∨ self.bit_depth = 16)
    (hc : self.colour_type = 2 ∨ self.colour_type = 6)
    (hfit : h * (w * pixel_size_of self + 1) < 4294967296)
    (row col : Nat) (hrow : row < h) (hcol : col < w) :
    frame (call_state self file w h red green blue alpha row col).self =
      frame (build_start self file w h).self ∧
    (call_state self file w h red green blue alpha row col).uncompressed_len =
      row * (w * pixel_size_of self + 1) + 1 + col * pixel_size_of self + pixel_size_of self ∧
    (call_state self file w h red green blue alpha row col).self.uncompressed_data.length =
      h * (w * pixel_size_of self + 1) ∧
    row * (w * pixel_size_of self + 1) + 1 + col * pixel_size_of self + pixel_size_of self ≤
      h * (w * pixel_size_of self + 1) ∧
    (∀ r c k, (r < row ∧ c < w) ∨ (r = row ∧ c ≤ col) → k < pixel_size_of self →
      (call_state self file w h red green blue alpha row col).self.uncompressed_data.getD
        (r * (w * pixel_size_of self + 1) + 1 + c * pixel_size_of self + k) 0 =
        (raw_pixel (build_start self file w h).self red green blue alpha r c).getD k 0) := by
  obtain ⟨hB, hraw⟩ := state_at_facts self file w h red green blue alpha hd hc hfit row col hrow
    (by omega)
  obtain ⟨hf, hu, hfl, hlu, hlf⟩ := hB
  have h1 : (row + 1) * (w * pixel_size_of self + 1) ≤ h * (w * pixel_size_of self + 1) :=
    Nat.mul_le_mul_right _ hrow
  have h2 : (row + 1) * (w * pixel_size_of self + 1) =
      row * (w * pixel_size_of self + 1) + (w * pixel_size_of self + 1) := Nat.succ_mul _ _
  have hcp := col_block_le w (pixel_size_of self) col hcol
  have hlen := pixel_vals_length (build_start self file w h).self red green blue alpha row col
    hd hc
  rw [pixel_size_build_start] at hlen
  rw [call_state_eq, pixel_vals_congr _ _ _ _ _ _ _ _ hf]
  have hrawR := put_raw_list_rawp (state_at self file w h red green blue alpha row col)
    (pixel_vals (build_start self file w h).self red green blue alpha row col)
    (by rw [hu, hlen, hlu]; omega) (by rw [hu, hlen]; omega)
  have hul := put_raw_list_len (state_at self file w h red green blue alpha row col)
    (pixel_vals (build_start self file w h).self red green blue alpha row col)
    (by rw [hu, hlen]; omega)
  rw [hu, hlen] at hul
  have hP : rawp (put_raw_list (state_at self file w h red green blue alpha row col)
      (pixel_vals (build_start self file w h).self red green blue alpha row col)) =
      raw_rows (build_start self file w h).self red green blue alpha row ++
        ((build_start self file w h).self.filter_type % 256) ::
        (List.range (col + 1)).flatMap
          (fun c => raw_pixel (build_start self file w h).self red green blue alpha row c) := by
    rw [hrawR, hraw, List.range_succ, List.flatMap_append, List.flatMap_singleton,
      List.append_assoc, List.cons_append]
    rfl
  refine ⟨by rw [put_raw_list_frame]; exact hf, hul, by rw [put_raw_list_length]; exact hlu,
    by omega, ?_⟩
  intro r c k hrc hk
  have hpos : r * (w * pixel_size_of self + 1) + 1 + c * pixel_size_of self + k <
      row * (w * pixel_size_of self + 1) + 1 + col * pixel_size_of self +
        pixel_size_of self := by
    rcases hrc with ⟨hr, hcw⟩ | ⟨hr, hcc⟩
    · have e1 : (r + 1) * (w * pixel_size_of self + 1) ≤ row * (w * pixel_size_of self + 1) :=
        Nat.mul_le_mul_right _ hr
      have e2 : (r + 1) * (w * pixel_size_of self + 1) =
          r * (w * pixel_size_of self + 1) + (w * pixel_size_of self + 1) := Nat.succ_mul _ _
      have e3 := col_block_le w (pixel_size_of self) c hcw
      omega
    · subst hr
      have e3 : c * pixel_size_of self ≤ col * pixel_size_of self := Nat.mul_le_mul_right _ hcc
      omega
  have hD : (put_raw_list (state_at self file w h red green blue alpha row col)
      (pixel_vals (build_start self file w h).self red green blue alpha row
        col)).self.uncompressed_data.getD
        (r * (w * pixel_size_of self + 1) + 1 + c * pixel_size_of self + k) 0 =
      (rawp (put_raw_list (state_at self file w h red green blue alpha row col)
        (pixel_vals (build_start self file w h).self red green blue alpha row col))).getD
        (r * (w * pixel_size_of self + 1) + 1 + c * pixel_size_of self + k) 0 := by
    unfold rawp
    rw [hul, getD_take_of_lt _ _ _ hpos]
  rw [hD, hP]
  rcases hrc with ⟨hr, hcw⟩ | ⟨hr, hcc⟩
  · have e := raw_prefix_prev (build_start self file w h).self red green blue alpha row r c k
      (((build_start self file w h).self.filter_type % 256) ::
        (List.range (col + 1)).flatMap
          (fun c => raw_pixel (build_start self file w h).self red green blue alpha row c))
      hd hc hr hcw hk
    rw [build_start_width, pixel_size_build_start] at e
    exact e
  · subst hr
    have e := raw_prefix_cur (build_start self file w h).self red green blue alpha r (col + 1) c k
      hd hc (by omega) hk
    rw [build_start_width, pixel_size_build_start] at e
    exact e

theorem state_at_succ (self : LTPNG) (file : List Nat) (w h : Nat)
    (red green blue alpha : List Nat) (row col : Nat) :
    state_at self file w h red green blue alpha row (col + 1) =
      put_filt_list (call_state self file w h red green blue alpha row col)
        ((pixel_offsets (state_at self file w h red green blue alpha row col).self).map
          (fval (call_state self file w h red green blue alpha row col).self row col)) := by
  rw [state_at_eq, List.range_succ, List.foldl_append]
  rfl

theorem state_at_pixel_done (self : LTPNG) (file : List Nat) (w h : Nat)
    (red green blue alpha : List Nat) (row col : Nat) :
    state_at self file w h red green blue alpha row (col + 1) =
      pixel_done (state_at self file w h red green blue alpha row col) red green blue alpha
        row col := by
  rw [state_at_eq, List.range_succ, List.foldl_append]
  rfl

/-- The two-stage pipeline on the finished raw block gives the filtered block
of the interleaved loop. -/
theorem two_stage_build_done (self : LTPNG) (file : List Nat) (w h : Nat)
    (red green blue alpha : List Nat)
    (hd : self.bit_depth = 8 ∨ self.bit_depth = 16)
    (hc : self.colour_type = 2 ∨ self.colour_type = 6) (hf : self.filter_type ≤ 4)
    (hfit : h * (w * pixel_size_of self + 1) < 4294967296) :
    two_stage_filter (build_done self file w h red green blue alpha).self =
      .ok (filp (build_done self file w h red green blue alpha)) ∧
    ∀ row col j, row < h → col < w → j < pixel_size_of self →
      fval (build_done self file w h red green blue alpha).self row col (j + 1) =
        filter_out self.filter_type
          (nb_x (build_start self file w h).self red green blue alpha row col j)
          (nb_a (build_start self file w h).self red green blue alpha row col j)
          (nb_b (build_start self file w h).self red green blue alpha row col j)
          (nb_c (build_start self file w h).self red green blue alpha row col j) := by
  obtain ⟨_, hfr⟩ := create_image_build_ok self file w h red green blue alpha hd hf
  obtain ⟨_, _, _, hraw, _, _⟩ := build_done_built self file w h red green blue alpha hd hc hfit
  have hfil := build_done_fil self file w h red green blue alpha hd hc hfit
  have hft : (build_done self file w h red green blue alpha).self.filter_type =
      self.filter_type := by
    rw [frame_filter_type _ _ hfr, build_start_filter_type]
  have hw : (build_done self file w h red green blue alpha).self.width = w := by
    rw [frame_width _ _ hfr, build_start_width]
  have hh : (build_done self file w h red green blue alpha).self.height = h := by
    rw [frame_height _ _ hfr, build_start_height]
  have hps : pixel_size_of (build_done self file w h red green blue alpha).self =
      pixel_size_of self := by
    rw [pixel_size_congr _ _ hfr, pixel_size_build_start]
  have hval : ∀ row col j, row < h → col < w → j < pixel_size_of self →
      fval (build_done self file w h red green blue alpha).self row col (j + 1) =
        filter_out self.filter_type
          (nb_x (build_start self file w h).self red green blue alpha row col j)
          (nb_a (build_start self file w h).self red green blue alpha row col j)
          (nb_b (build_start self file w h).self red green blue alpha row col j)
          (nb_c (build_start self file w h).self red green blue alpha row col j) := by
    intro row col j hrow hcol hj
    have h1 : (row + 1) * (w * pixel_size_of self + 1) ≤ h * (w * pixel_size_of self + 1) :=
      Nat.mul_le_mul_right _ hrow
    have h2 : (row + 1) * (w * pixel_size_of self + 1) =
        row * (w * pixel_size_of self + 1) + (w * pixel_size_of self + 1) := Nat.succ_mul _ _
    have hcp := col_block_le w (pixel_size_of self) col hcol
    have e := fval_of_agree (build_done self file w h red green blue alpha).self
      (build_start self file w h).self red green blue alpha row col j hfr hcol hj
      (by rw [build_start_width, pixel_size_build_start]; omega)
      (fun r c k hrc hk => by
        rw [hraw]
        exact raw_rows_at (build_start self file w h).self red green blue alpha h r c k hd hc
          (by rcases hrc with ⟨hr, _⟩ | ⟨hr, _⟩ <;> omega)
          (by
            rw [build_start_width]
            rcases hrc with ⟨_, hcw⟩ | ⟨_, hcc⟩
            · exact hcw
            · omega) hk)
    rw [build_start_filter_type] at e
    exact e
  refine ⟨?_, hval⟩
  rw [two_stage_filter_ok _ (by rw [hft]; exact hf), hfil, hh, hw, hps]
  unfold fil_rows fil_row
  rw [build_start_width, build_start_filter_type]
  refine congrArg Except.ok (flatMap_range_congr _ _ h (fun row hrow => ?_))
  have htag := raw_rows_tag (build_start self file w h).self red green blue alpha h row hd hc
    hrow
  rw [build_start_width, pixel_size_build_start, build_start_filter_type] at htag
  rw [hraw, htag]
  refine congrArg (List.cons _) (flatMap_range_congr _ _ w (fun col hcol => ?_))
  rw [pixel_offsets_congr _ _ hfr, pixel_offsets_range (build_start self file w h).self hd hc,
    pixel_size_build_start,
    List.map_map]
  unfold fil_pixel
  rw [pixel_size_build_start, build_start_filter_type]
  apply List.map_congr_left
  intro j hj
  have hj2 := List.mem_range.mp hj
  have hlt : filter_out self.filter_type
      (nb_x (build_start self file w h).self red green blue alpha row col j)
      (nb_a (build_start self file w h).self red green blue alpha row col j)
      (nb_b (build_start self file w h).self red green blue alpha row col j)
      (nb_c (build_start self file w h).self red green blue alpha row col j) < 256 :=
    filter_out_lt _ _ _ _ _ (raw_pixel_getD_lt _ _ _ _ _ _ _ _)
  rw [Nat.mod_eq_of_lt hlt]
  exact hval row col j hrow hcol hj2

/-- C27: the interleaved build-and-filter loop of `create_image` is the
two-stage pipeline.  For a supported descriptor whose scanline data fits the
32-bit counters, the loop completes; the filter applied afterwards to every
non-tag byte of the finished raw block (tag bytes copied) returns exactly the
filtered stream the loop produced; and at every pixel `(row, col)` the loop
body runs from `state_at` to the next one by storing the raw bytes of the
pixel (`call_state`) and then the values `filter_byte` returns there, where
the raw counter is within the block, each of the index expressions `filter_byte`
evaluates for a byte of the pixel (that of `x`, of `a` when `col > 0`, of `b`
when `row > 0`, of `c` when both) is below the raw counter, and the call
returns what it returns on the finished raw block. -/
theorem interleaved_is_two_stage (self : LTPNG) (file : List Nat) (w h : Nat)
    (red green blue alpha : List Nat)
    (hd : self.bit_depth = 8 ∨ self.bit_depth = 16)
    (hc : self.colour_type = 2 ∨ self.colour_type = 6) (hf : self.filter_type ≤ 4)
    (hfit : h * (w * pixel_size_of self + 1) < 4294967296) :
    self.create_image_build file w h red green blue alpha =
      .ok (build_done self file w h red green blue alpha) ∧
    two_stage_filter (build_done self file w h red green blue alpha).self =
      .ok ((build_done self file w h red green blue alpha).self.filtered_data.take
        (build_done self file w h red green blue alpha).filtered_len) ∧
    (build_done self file w h red green blue alpha).uncompressed_len =
      (build_done self file w h red green blue alpha).self.uncompressed_data.length ∧
    ∀ row col j, row < h → col < w → j < pixel_size_of self →
      create_image_pixel (state_at self file w h red green blue alpha row col)
          red green blue alpha row col =
        .ok (state_at self file w h red green blue alpha row (col + 1)) ∧
      state_at self file w h red green blue alpha row (col + 1) =
        put_filt_list (call_state self file w h red green blue alpha row col)
          ((pixel_offsets (state_at self file w h red green blue alpha row col).self).map
            (fval (call_state self file w h red green blue alpha row col).self row col)) ∧
      (call_state self file w h red green blue alpha row col).uncompressed_len ≤
        (call_state self file w h red green blue alpha row col).self.uncompressed_data.length ∧
      u32 (index_base (call_state self file w h red green blue alpha row col).self row col +
          ((j + 1 : Nat) : Int)) <
        (call_state self file w h red green blue alpha row col).uncompressed_len ∧
      (col > 0 →
        u32 (index_base (call_state self file w h red green blue alpha row col).self row col -
          (pixel_size_of (call_state self file w h red green blue alpha row col).self : Int) +
          ((j + 1 : Nat) : Int)) <
        (call_state self file w h red green blue alpha row col).uncompressed_len) ∧
      (row > 0 →
        u32 (index_base (call_state self file w h red green blue alpha row col).self row col -
          ((call_state self file w h red green blue alpha row col).self.width : Int) *
            (pixel_size_of (call_state self file w h red green blue alpha row col).self : Int) +
          ((j + 1 : Nat) : Int) - 1) <
        (call_state self file w h red green blue alpha row col).uncompressed_len) ∧
      (col > 0 ∧ row > 0 →
        u32 (index_base (call_state self file w h red green blue alpha row col).self row col -
          (pixel_size_of (call_state self file w h red green blue alpha row col).self : Int) -
          ((call_state self file w h red green blue alpha row col).self.width : Int) *
            (pixel_size_of (call_state self file w h red green blue alpha row col).self : Int) +
          ((j + 1 : Nat) : Int) - 1) <
        (call_state self file w h red green blue alpha row col).uncompressed_len) ∧
      (call_state self file w h red green blue alpha row col).self.filter_byte row col (j + 1) =
        (build_done self file w h red green blue alpha).self.filter_byte row col (j + 1) := by
  obtain ⟨hb, hfr⟩ := create_image_build_ok self file w h red green blue alpha hd hf
  obtain ⟨hu, _, _, hraw, _, _⟩ := build_done_built self file w h red green blue alpha hd hc hfit
  obtain ⟨htwo, hval⟩ := two_stage_build_done self file w h red green blue alpha hd hc hf hfit
  refine ⟨hb, htwo, ?_, ?_⟩
  · rw [hu, hraw, raw_rows_length (build_start self file w h).self _ _ _ _ _ hd hc,
      build_start_width, pixel_size_build_start]
  intro row col j hrow hcol hj
  obtain ⟨hB, _⟩ := state_at_facts self file w h red green blue alpha hd hc hfit row col hrow
    (by omega)
  obtain ⟨cfr, cul, clen, cle, cR⟩ :=
    call_state_facts self file w h red green blue alpha hd hc hfit row col hrow hcol
  have hw : (call_state self file w h red green blue alpha row col).self.width = w := by
    rw [frame_width _ _ cfr, build_start_width]
  have hps : pixel_size_of (call_state self file w h red green blue alpha row col).self =
      pixel_size_of self := by
    rw [pixel_size_congr _ _ cfr, pixel_size_build_start]
  have hft : (call_state self file w h red green blue alpha row col).self.filter_type ≤ 4 := by
    rw [frame_filter_type _ _ cfr, build_start_filter_type]; exact hf
  have hft2 : (build_done self file w h red green blue alpha).self.filter_type ≤ 4 := by
    rw [frame_filter_type _ _ hfr, build_start_filter_type]; exact hf
  have hbound : row * ((call_state self file w h red green blue alpha row col).self.width *
      pixel_size_of (call_state self file w h red green blue alpha row col).self + 1) + 1 +
      col * pixel_size_of (call_state self file w h red green blue alpha row col).self +
      pixel_size_of (call_state self file w h red green blue alpha row col).self =
      (call_state self file w h red green blue alpha row col).uncompressed_len := by
    rw [hw, hps, cul]
  have key := filter_indices_lt (call_state self file w h red green blue alpha row col).self
    row col j (by rw [hw]; exact hcol) (by rw [hps]; exact hj)
    (by rw [hbound, cul]; omega)
  rw [hbound] at key
  obtain ⟨k1, k2, k3, k4⟩ := key
  refine ⟨?_, state_at_succ self file w h red green blue alpha row col, ?_, k1, k2, k3, k4, ?_⟩
  · rw [state_at_pixel_done]
    exact create_image_pixel_ok _ red green blue alpha row col
      (by rw [frame_bit_depth _ _ hB.1, build_start_bit_depth]; exact hd)
      (by rw [frame_filter_type _ _ hB.1, build_start_filter_type]; exact hf)
  · rw [cul, clen]; exact cle
  · rw [filter_byte_ok _ _ _ _ hft, filter_byte_ok _ _ _ _ hft2, hval row col j hrow hcol hj]
    have e := fval_of_agree (call_state self file w h red green blue alpha row col).self
      (build_start self file w h).self red green blue alpha row col j cfr hcol hj
      (by rw [build_start_width, pixel_size_build_start]; omega)
      (fun r c k hrc hk => cR r c k hrc hk)
    rw [build_start_filter_type] at e
    rw [e]

set_option maxRecDepth 100000 in
theorem interleaved_is_two_stage_witness :
    two_stage_filter (build_done (LTPNG.new 8 2 4) [] 2 2 [10, 20, 30, 40] [11, 21, 31, 41]
        [12, 22, 32, 42] []).self =
      .ok ((build_done (LTPNG.new 8 2 4) [] 2 2 [10, 20, 30, 40] [11, 21, 31, 41]
        [12, 22, 32, 42] []).self.filtered_data.take
        (build_done (LTPNG.new 8 2 4) [] 2 2 [10, 20, 30, 40] [11, 21, 31, 41]
          [12, 22, 32, 42] []).filtered_len) :=
  (interleaved_is_two_stage (LTPNG.new 8 2 4) [] 2 2 [10, 20, 30, 40] [11, 21, 31, 41]
    [12, 22, 32, 42] [] (Or.inl rfl) (Or.inl rfl) (by decide) (by decide)).2.1
